import Mathlib

/-!
# collectd `utils_db_query.c`: query-to-metric mapping engine

A shallow embedding of `src/src/utils_db_query.c`, and of the function
`ctail_config_add_match_dstype` of `src/src/tail.c`, and theorems about them.

Conventions of the embedding.

* A C string (`char *` to a NUL-terminated buffer) is the list of its characters before
  the terminating NUL (`CStr`); a `char *` that may be `NULL` is an `Option CStr`.
* An array given as a pointer and a length (`udb_query_t **list, size_t list_len`) is an
  `Option (List _)`: `none` is the `NULL` pointer (length 0), `some l` a non-`NULL` pointer
  to the elements `l`.  The arrays inside `udb_result_t` are plain lists: they only grow
  through `realloc` with a positive size, so their pointer is `NULL` exactly when the list
  is empty.
* A pointer that designates one object (`q`, `prep_area`, `r`, `ci`) is modelled by the
  object itself; the list `next` pointers of results and result preparation areas are
  modelled by `List`.
* Allocation (`calloc`, `realloc`, `strdup`) is modelled as succeeding.
* A finite C `double` is the rational number it stands for; the one arithmetic operation on
  doubles, the sum `tmp + .5` of `udb_config_set_uint`, is the exact sum rounded to the
  nearest `double` (`double_round`: IEEE 754 binary64, evaluated in double precision).
* Functions that update memory in place return the new contents next to the status.
-/

namespace Collectd

/-! ## C library and platform constants -/

/-- A C string: its characters before the terminating NUL. -/
abbrev CStr := List Char

/-- The C library `tolower` in the "C" locale: `A`..`Z` go to `a`..`z`. -/
def tolower (c : Char) : Char := c.toLower

/-- The C library `strcasecmp` (POSIX): negative, zero or positive as the first string,
with every character passed through `tolower`, is less than, equal to or greater than the
second; POSIX fixes the sign of the result only. -/
def strcasecmp : CStr → CStr → Int
  | [], [] => 0
  | [], _ :: _ => -1
  | _ :: _, [] => 1
  | a :: as, b :: bs =>
    if tolower a = tolower b then strcasecmp as bs
    else if (tolower a).toNat < (tolower b).toNat then -1 else 1

/-- The value of `EINVAL` in `errno.h` (Linux). -/
def EINVAL : Int := 22

/-- The value of `ENOENT` in `errno.h` (Linux). -/
def ENOENT : Int := 2

/-- The value of `ERANGE` in `errno.h` (Linux). -/
def ERANGE : Int := 34

/-- The value of `UINT_MAX` in `limits.h` for a 32 bit `unsigned int`. -/
def UINT_MAX : Nat := 4294967295

/-! ## Data types (`utils_db_query.c` lines 36-90) -/

/-- The C `struct udb_result_s`; the `next` pointer is the tail of the list that holds it. -/
structure udb_result_t where
  type : Option CStr
  instance_prefix : Option CStr
  instances : List CStr
  values : List CStr
  metadata : List CStr
  deriving DecidableEq

/-- The C `struct udb_query_s`; `user_data` is the address held by the `void *`. -/
structure udb_query_t where
  name : CStr
  statement : Option CStr
  user_data : Nat
  plugin_instance_from : Option CStr
  min_version : Nat
  max_version : Nat
  results : List udb_result_t
  deriving DecidableEq

/-! ## Version check and selection by name -/

/-- The C function `udb_query_check_version` (lines 837-846) for a non-`NULL` query. -/
def udb_query_check_version (q : udb_query_t) (version : Nat) : Int :=
  if version < q.min_version ∨ version > q.max_version then 0 else 1

/-- The `for` loop of `udb_query_pick_from_list_by_name` (lines 746-767) over the rest of
`src_list`: the destination list and `num_added` after it. -/
def pick_loop (name : CStr) :
    List udb_query_t → Option (List udb_query_t) → Nat → Option (List udb_query_t) × Nat
  | [], dst_list, num_added => (dst_list, num_added)
  | q :: rest, dst_list, num_added =>
    if strcasecmp name q.name ≠ 0 then pick_loop name rest dst_list num_added
    else pick_loop name rest (some (dst_list.getD [] ++ [q])) (num_added + 1)

/-- The C function `udb_query_pick_from_list_by_name` (lines 731-779): the status and the
destination list after the call.  `name` is a non-`NULL` string, `dst_list` the list the
caller's `*dst_list` and `*dst_list_len` hold. -/
def udb_query_pick_from_list_by_name (name : CStr) (src_list : Option (List udb_query_t))
    (dst_list : Option (List udb_query_t)) : Int × Option (List udb_query_t) :=
  match src_list with
  | none => (-EINVAL, dst_list)
  | some src =>
    let (dst, num_added) := pick_loop name src dst_list 0
    if num_added ≤ 0 then (-ENOENT, dst) else (0, dst)

/-! ## Configuration items -/

/-- Modelled from the spec: one argument of a configuration item (`oconfig_value_t` of
`oconfig.h`, which is not in src): a string, a number (a C `double`, modelled by a
rational) or a boolean. -/
inductive oconfig_value_t where
  | string (s : CStr)
  | number (x : ℚ)
  | boolean (b : Bool)
  deriving DecidableEq

/-- Modelled from the spec: a node of the generic configuration tree (`oconfig_item_t` of
`oconfig.h`, which is not in src): a key, its arguments and its child items. -/
inductive oconfig_item_t where
  | mk (key : CStr) (values : List oconfig_value_t) (children : List oconfig_item_t)

/-- The field `key` of a configuration item. -/
def oconfig_item_t.key : oconfig_item_t → CStr
  | .mk k _ _ => k

/-- The fields `values` and `values_num` of a configuration item. -/
def oconfig_item_t.values : oconfig_item_t → List oconfig_value_t
  | .mk _ v _ => v

/-- The fields `children` and `children_num` of a configuration item. -/
def oconfig_item_t.children : oconfig_item_t → List oconfig_item_t
  | .mk _ _ c => c

/-- The string held by an argument of type `OCONFIG_TYPE_STRING`. -/
def oconfig_value_t.string? : oconfig_value_t → Option CStr
  | .string s => some s
  | _ => none

/-- The C function `udb_config_set_string` (lines 95-117): the status and the new `*ret_string`. -/
def udb_config_set_string (ret_string : Option CStr) (ci : oconfig_item_t) : Int × Option CStr :=
  match ci.values with
  | [oconfig_value_t.string s] => (0, some s)
  | _ => (-1, ret_string)

/-- The C function `udb_config_add_string` (lines 119-160): the status and the new array. -/
def udb_config_add_string (ret_array : List CStr) (ci : oconfig_item_t) : Int × List CStr :=
  if ci.values.length < 1 then (-1, ret_array)
  else if ci.values.any (fun v => v.string?.isNone) then (-1, ret_array)
  else (0, ret_array ++ ci.values.filterMap oconfig_value_t.string?)

/-- The least `l` from `l` on, within `fuel` steps, with `x < 2 ^ l`: for `1/2 ≤ x` the
binary exponent of `x` plus one, `2 ^ (l - 1) ≤ x < 2 ^ l`. -/
def binade_above (x : ℚ) : Nat → Nat → Nat
  | 0, l => l
  | fuel + 1, l => if x < 2 ^ l then l else binade_above x fuel (l + 1)

/-- The C `double` that an arithmetic operation with the exact result `x` yields, for
`1/2 ≤ x < 2 ^ 53` (IEEE 754 binary64, round to nearest, ties to even): `x` lies in
`[2 ^ (l - 1), 2 ^ l)`, where the doubles are the multiples of `2 ^ (l - 53)`, and the
result is the nearest of them, the one with the even significand when `x` is half way
between two. -/
def double_round (x : ℚ) : ℚ :=
  let scale : ℚ := 2 ^ (53 - binade_above x 53 0)
  let significand := x * scale
  let below := Rat.floor significand
  let rounded :=
    if significand - below < 1 / 2 then below
    else if significand - below > 1 / 2 then below + 1
    else if below % 2 = 0 then below else below + 1
  rounded / scale

/-- The C function `udb_config_set_uint` (lines 162-179): the status and the new `*ret_value`.
The sum `tmp + .5` of line 177 is a `double` addition, so its value is the exact sum
(between 1/2 and `UINT_MAX + 1/2`) rounded to the nearest `double`; the conversion to
`unsigned int` keeps the integer part. -/
def udb_config_set_uint (ret_value : Nat) (ci : oconfig_item_t) : Int × Nat :=
  match ci.values with
  | [oconfig_value_t.number tmp] =>
    if tmp < 0 ∨ tmp > (UINT_MAX : ℚ) then (-ERANGE, ret_value)
    else (0, (Rat.floor (double_round (tmp + 1 / 2))).toNat)
  | _ => (-1, ret_value)

/-! ## Creation of results and queries -/

/-- The body of the `for` loop of `udb_result_create` (lines 529-545) for one child: the
status and the result under construction. -/
def udb_result_create_child (r : udb_result_t) (child : oconfig_item_t) : Int × udb_result_t :=
  if strcasecmp "Type".toList child.key = 0 then
    let (status, v) := udb_config_set_string r.type child
    (status, { r with type := v })
  else if strcasecmp "InstancePrefix".toList child.key = 0 then
    let (status, v) := udb_config_set_string r.instance_prefix child
    (status, { r with instance_prefix := v })
  else if strcasecmp "InstancesFrom".toList child.key = 0 then
    let (status, v) := udb_config_add_string r.instances child
    (status, { r with instances := v })
  else if strcasecmp "ValuesFrom".toList child.key = 0 then
    let (status, v) := udb_config_add_string r.values child
    (status, { r with values := v })
  else if strcasecmp "MetadataFrom".toList child.key = 0 then
    let (status, v) := udb_config_add_string r.metadata child
    (status, { r with metadata := v })
  else (-1, r)

/-- The `for` loop of `udb_result_create` (lines 528-549): it stops at the first child
whose status is not zero. -/
def udb_result_create_loop : List oconfig_item_t → udb_result_t → Int × udb_result_t
  | [], r => (0, r)
  | child :: rest, r =>
    let (status, r1) := udb_result_create_child r child
    if status ≠ 0 then (status, r1) else udb_result_create_loop rest r1

/-- The C function `udb_result_create` (lines 503-588): the status and the new list of
results `*r_head`. -/
def udb_result_create (_query_name : CStr) (r_head : List udb_result_t) (ci : oconfig_item_t) :
    Int × List udb_result_t :=
  let r0 : udb_result_t :=
    { type := none, instance_prefix := none, instances := [], values := [], metadata := [] }
  let (status, r) := udb_result_create_loop ci.children r0
  let status :=
    if status = 0 then
      let status := if r.type = none then -1 else status
      if r.values = [] then -1 else status
    else status
  if status ≠ 0 then (-1, r_head) else (0, r_head ++ [r])

/-- The C type `udb_query_create_callback_t`.  `udb_query_t` is opaque outside
`utils_db_query.c`, so a callback changes the query through `udb_query_set_user_data`
only: it returns its status and the new `user_data`. -/
abbrev udb_query_create_callback_t := udb_query_t → oconfig_item_t → Int × Nat

/-- The body of the `for` loop of `udb_query_create` (lines 649-674) for one child. -/
def udb_query_create_child (cb : Option udb_query_create_callback_t) (q : udb_query_t)
    (child : oconfig_item_t) : Int × udb_query_t :=
  if strcasecmp "Statement".toList child.key = 0 then
    let (status, v) := udb_config_set_string q.statement child
    (status, { q with statement := v })
  else if strcasecmp "Result".toList child.key = 0 then
    let (status, v) := udb_result_create q.name q.results child
    (status, { q with results := v })
  else if strcasecmp "MinVersion".toList child.key = 0 then
    let (status, v) := udb_config_set_uint q.min_version child
    (status, { q with min_version := v })
  else if strcasecmp "MaxVersion".toList child.key = 0 then
    let (status, v) := udb_config_set_uint q.max_version child
    (status, { q with max_version := v })
  else if strcasecmp "PluginInstanceFrom".toList child.key = 0 then
    let (status, v) := udb_config_set_string q.plugin_instance_from child
    (status, { q with plugin_instance_from := v })
  else
    match cb with
    | some f =>
      let (status, user_data) := f q child
      (status, { q with user_data := user_data })
    | none => (-1, q)

/-- The `for` loop of `udb_query_create` (lines 648-678). -/
def udb_query_create_loop (cb : Option udb_query_create_callback_t) :
    List oconfig_item_t → udb_query_t → Int × udb_query_t
  | [], q => (0, q)
  | child :: rest, q =>
    let (status, q1) := udb_query_create_child cb q child
    if status ≠ 0 then (status, q1) else udb_query_create_loop cb rest q1

/-- The C function `udb_query_create` (lines 610-718): the status and the query list the
caller's `*ret_query_list` and `*ret_query_list_len` hold after the call. -/
def udb_query_create (ret_query_list : Option (List udb_query_t)) (ci : oconfig_item_t)
    (cb : Option udb_query_create_callback_t) : Int × Option (List udb_query_t) :=
  match ci.values with
  | [oconfig_value_t.string name] =>
    let q0 : udb_query_t :=
      { name := name, statement := none, user_data := 0, plugin_instance_from := none,
        min_version := 0, max_version := UINT_MAX, results := [] }
    let (status, q) := udb_query_create_loop cb ci.children q0
    let status :=
      if status = 0 then
        let status := if q.statement = none then -1 else status
        if q.results = [] then -1 else status
      else status
    if status ≠ 0 then (-1, ret_query_list)
    else (0, some (ret_query_list.getD [] ++ [q]))
  | _ => (-1, ret_query_list)

/-! ## Preparation areas -/

/-- Modelled from the spec: the schema of a metric type (`data_set_t` of `plugin.h`, which
is not in src): its type name and the ordered list of its field kinds (`ds[i].type`);
`ds_num` is the length of that list. -/
structure data_set_t where
  type : CStr
  ds : List Nat
  deriving DecidableEq

/-- The C `struct udb_result_preparation_area_s`; the `next` pointer is the tail of the
list that holds it.  An array that is `NULL` is `none`, a buffer slot that is `NULL` is
`none`. -/
structure udb_result_preparation_area_t where
  ds : Option data_set_t
  instances_pos : Option (List Nat)
  values_pos : Option (List Nat)
  metadata_pos : Option (List Nat)
  instances_buffer : Option (List (Option CStr))
  values_buffer : Option (List (Option CStr))
  metadata_buffer : Option (List (Option CStr))
  plugin_instance : Option CStr
  deriving DecidableEq

/-- The C `struct udb_query_preparation_area_s`. -/
structure udb_query_preparation_area_t where
  column_num : Nat
  plugin_instance_pos : Nat
  host : Option CStr
  plugin : Option CStr
  db_name : Option CStr
  interval : Nat
  result_prep_areas : List udb_result_preparation_area_t
  deriving DecidableEq

/-- The C function `udb_query_allocate_preparation_area` (lines 999-1033): `calloc` zeroes
the area and one result preparation area for each result of the query. -/
def udb_query_allocate_preparation_area (q : udb_query_t) : udb_query_preparation_area_t :=
  { column_num := 0, plugin_instance_pos := 0, host := none, plugin := none, db_name := none,
    interval := 0,
    result_prep_areas := q.results.map (fun _ =>
      { ds := none, instances_pos := none, values_pos := none, metadata_pos := none,
        instances_buffer := none, values_buffer := none, metadata_buffer := none,
        plugin_instance := none }) }

/-- The C function `udb_result_finish_result` (lines 297-309). -/
def udb_result_finish_result (_r : udb_result_t) (prep_area : udb_result_preparation_area_t) :
    udb_result_preparation_area_t :=
  { prep_area with
    ds := none, instances_pos := none, values_pos := none, metadata_pos := none,
    instances_buffer := none, values_buffer := none, metadata_buffer := none }

/-- The `for` loop of `udb_query_finish_result` (lines 863-869): it walks the results and
the result preparation areas together and stops when either chain ends. -/
def udb_query_finish_result_loop :
    List udb_result_t → List udb_result_preparation_area_t → List udb_result_preparation_area_t
  | [], areas => areas
  | _ :: _, [] => []
  | r :: rs, r_area :: areas =>
    udb_result_finish_result r r_area :: udb_query_finish_result_loop rs areas

/-- The C function `udb_query_finish_result` (lines 848-870). -/
def udb_query_finish_result (q : udb_query_t) (prep_area : udb_query_preparation_area_t) :
    udb_query_preparation_area_t :=
  { prep_area with
    column_num := 0, host := none, plugin := none, db_name := none, interval := 0,
    result_prep_areas := udb_query_finish_result_loop q.results prep_area.result_prep_areas }

/-- The column search `for (j = 0; j < column_num; j++)` of `udb_result_prepare_result` and
`udb_query_prepare_result`: the value of `j` after the loop, the first index whose column
name compares equal with `strcasecmp`, or `column_num` when there is none. -/
def find_column (name : CStr) : List CStr → Nat
  | [] => 0
  | c :: cs => if strcasecmp name c = 0 then 0 else find_column name cs + 1

/-- One of the three position loops of `udb_result_prepare_result` (lines 417-472), from
index `i` on: the position array after the loop, or `none` where the loop bails out
because a column could not be found. -/
def resolve_loop (column_names : List CStr) :
    List CStr → Nat → Option (List Nat) → Option (Option (List Nat))
  | [], _, pos => some pos
  | name :: rest, i, pos =>
    let j := find_column name column_names
    if j ≥ column_names.length then none
    else resolve_loop column_names rest (i + 1) (pos.map (fun p => p.set i j))

/-- The macro `BAIL_OUT` of `udb_result_prepare_result` (lines 339-347). -/
def BAIL_OUT (prep_area : udb_result_preparation_area_t) (status : Int) :
    Int × udb_result_preparation_area_t :=
  (status, { prep_area with
    ds := none, instances_pos := none, values_pos := none, metadata_pos := none,
    instances_buffer := none, values_buffer := none, metadata_buffer := none })

/-- The C function `udb_result_prepare_result` (lines 333-476): the status and the result
preparation area after the call.  `plugin_get_ds` is the schema lookup of the daemon
(`plugin.c`, not in src); `column_num` is the length of `column_names`.  The arguments of
`ERROR` do not change the status or the area; the one that can be read outside an array,
`r->values[i]` at line 469, is modelled by `udb_result_prepare_result_fault`, and the
status and the area are those of the calls without such a read. -/
def udb_result_prepare_result (plugin_get_ds : Option CStr → Option data_set_t)
    (r : udb_result_t) (prep_area : udb_result_preparation_area_t) (column_names : List CStr) :
    Int × udb_result_preparation_area_t :=
  let prep_area := udb_result_finish_result r prep_area
  let prep_area :=
    { prep_area with instances_pos := none, values_pos := none, metadata_pos := none }
  let prep_area := { prep_area with ds := plugin_get_ds r.type }
  match prep_area.ds with
  | none => BAIL_OUT prep_area (-1)
  | some ds =>
    if ds.ds.length ≠ r.values.length then BAIL_OUT prep_area (-1)
    else
      let prep_area :=
        if r.instances.length > 0 then
          { prep_area with
            instances_pos := some (List.replicate r.instances.length 0),
            instances_buffer := some (List.replicate r.instances.length none) }
        else prep_area
      let prep_area :=
        { prep_area with
          values_pos := some (List.replicate r.values.length 0),
          values_buffer := some (List.replicate r.values.length none),
          metadata_pos := some (List.replicate r.metadata.length 0),
          metadata_buffer := some (List.replicate r.metadata.length none) }
      match resolve_loop column_names r.instances 0 prep_area.instances_pos with
      | none => BAIL_OUT prep_area (-ENOENT)
      | some instances_pos =>
        let prep_area := { prep_area with instances_pos := instances_pos }
        match resolve_loop column_names r.values 0 prep_area.values_pos with
        | none => BAIL_OUT prep_area (-ENOENT)
        | some values_pos =>
          let prep_area := { prep_area with values_pos := values_pos }
          match resolve_loop column_names r.metadata 0 prep_area.metadata_pos with
          | none => BAIL_OUT prep_area (-ENOENT)
          | some metadata_pos => (0, { prep_area with metadata_pos := metadata_pos })

/-- The `for` loop of `udb_query_prepare_result` (lines 979-994) up to its first error:
the status (`-EINVAL` when the chain of result preparation areas ends early, else the
status of the first result that fails, else 0) and the result preparation areas. -/
def udb_query_prepare_result_loop (plugin_get_ds : Option CStr → Option data_set_t)
    (column_names : List CStr) :
    List udb_result_t → List udb_result_preparation_area_t →
      Int × List udb_result_preparation_area_t
  | [], areas => (0, areas)
  | _ :: _, [] => (-EINVAL, [])
  | r :: rs, r_area :: areas =>
    let (status, r_area1) := udb_result_prepare_result plugin_get_ds r r_area column_names
    if status ≠ 0 then (status, r_area1 :: areas)
    else
      let (status1, areas1) := udb_query_prepare_result_loop plugin_get_ds column_names rs areas
      (status1, r_area1 :: areas1)

/-- Lines 979-996 of `udb_query_prepare_result`: the loop over the results; on an error
`udb_query_finish_result` is called before the status is returned. -/
def udb_query_prepare_results (plugin_get_ds : Option CStr → Option data_set_t)
    (q : udb_query_t) (prep_area : udb_query_preparation_area_t) (column_names : List CStr) :
    Int × udb_query_preparation_area_t :=
  let (status, areas) :=
    udb_query_prepare_result_loop plugin_get_ds column_names q.results
      prep_area.result_prep_areas
  let prep_area := { prep_area with result_prep_areas := areas }
  if status ≠ 0 then (status, udb_query_finish_result q prep_area) else (0, prep_area)

/-- The C function `udb_query_prepare_result` (lines 919-997): the status and the
preparation area after the call.  `host`, `plugin` and `db_name` are non-`NULL` strings,
`column_num` is the length of `column_names`.  The status and the area are those of the
calls that do not read outside an array: see `udb_query_prepare_result_fault`. -/
def udb_query_prepare_result (plugin_get_ds : Option CStr → Option data_set_t)
    (q : udb_query_t) (prep_area : udb_query_preparation_area_t) (host plugin db_name : CStr)
    (column_names : List CStr) (interval : Nat) : Int × udb_query_preparation_area_t :=
  let prep_area := udb_query_finish_result q prep_area
  let prep_area :=
    { prep_area with
      column_num := column_names.length, host := some host, plugin := some plugin,
      db_name := some db_name, interval := interval }
  match q.plugin_instance_from with
  | some plugin_instance_from =>
    let i := find_column plugin_instance_from column_names
    if i ≥ column_names.length then (-ENOENT, udb_query_finish_result q prep_area)
    else
      udb_query_prepare_results plugin_get_ds q { prep_area with plugin_instance_pos := i }
        column_names
  | none => udb_query_prepare_results plugin_get_ds q prep_area column_names

/-- The metadata loop of `udb_result_prepare_result` (lines 456-472), from the index `i`
on: the index at which it bails out, that of the first name that is not among the column
names, or `none` when every name is found. -/
def metadata_bail_index (column_names : List CStr) : List CStr → Nat → Option Nat
  | [], _ => none
  | name :: rest, i =>
    if find_column name column_names ≥ column_names.length then some i
    else metadata_bail_index column_names rest (i + 1)

/-- The read of `r->values[i]` in the argument of `ERROR` at line 469 of
`udb_result_prepare_result`, where `i` is the index of the metadata name that was not
found: `true` when the call reaches that line with `i >= r->values_num`, so that the read
is outside the array `r->values`.  The behaviour of such a call is undefined;
`udb_result_prepare_result` gives the status and the area of the calls for which this is
`false`. -/
def udb_result_prepare_result_fault (plugin_get_ds : Option CStr → Option data_set_t)
    (r : udb_result_t) (column_names : List CStr) : Bool :=
  match plugin_get_ds r.type with
  | none => false
  | some ds =>
    if ds.ds.length ≠ r.values.length then false
    else
      match resolve_loop column_names r.instances 0 none with
      | none => false
      | some _ =>
        match resolve_loop column_names r.values 0 none with
        | none => false
        | some _ =>
          match metadata_bail_index column_names r.metadata 0 with
          | none => false
          | some i => decide (i ≥ r.values.length)

/-- The calls of `udb_result_prepare_result` in the `for` loop of
`udb_query_prepare_result` (lines 979-994): `true` when one of them, reached after the
calls before it returned 0, reads outside the array `r->values`. -/
def udb_query_prepare_result_loop_fault (plugin_get_ds : Option CStr → Option data_set_t)
    (column_names : List CStr) :
    List udb_result_t → List udb_result_preparation_area_t → Bool
  | [], _ => false
  | _ :: _, [] => false
  | r :: rs, r_area :: areas =>
    if udb_result_prepare_result_fault plugin_get_ds r column_names then true
    else if (udb_result_prepare_result plugin_get_ds r r_area column_names).1 ≠ 0 then false
    else udb_query_prepare_result_loop_fault plugin_get_ds column_names rs areas

/-- The reads outside the array `r->values` in a call of `udb_query_prepare_result` (lines
919-997): `true` when the call gets to a `udb_result_prepare_result` that makes such a
read.  The behaviour of such a call is undefined; `udb_query_prepare_result` gives the
status and the area of the calls for which this is `false`. -/
def udb_query_prepare_result_fault (plugin_get_ds : Option CStr → Option data_set_t)
    (q : udb_query_t) (prep_area : udb_query_preparation_area_t) (column_names : List CStr) :
    Bool :=
  match q.plugin_instance_from with
  | some plugin_instance_from =>
    if find_column plugin_instance_from column_names ≥ column_names.length then false
    else
      udb_query_prepare_result_loop_fault plugin_get_ds column_names q.results
        (udb_query_finish_result q prep_area).result_prep_areas
  | none =>
    udb_query_prepare_result_loop_fault plugin_get_ds column_names q.results
      (udb_query_finish_result q prep_area).result_prep_areas

/-! ## Row handling and submission -/

/-- Modelled from the spec: a typed numeric sample (`value_t` of `plugin.h`, which is not
in src), one constructor for each field kind. -/
inductive value_t where
  | counter (n : Nat)
  | gauge (x : ℚ)
  | derive (n : Int)
  | absolute (n : Nat)
  deriving DecidableEq

/-- Modelled from the spec: what the metric submission sink receives (`value_list_t` of
`plugin.h`, which is not in src): the values, the interval, the identity of the metric and
the metadata, a list of string key and value pairs (`none`: no `meta_data_t` attached). -/
structure value_list_t where
  values : List value_t
  interval : Nat
  host : CStr
  plugin : CStr
  plugin_instance : CStr
  type : CStr
  type_instance : CStr
  meta : Option (List (CStr × CStr))
  deriving DecidableEq

/-- Modelled from the spec: the parts of the daemon that `udb_result_submit` calls and that
are not in src (`plugin.h`, `common.c`, `meta_data.c`).
`DATA_MAX_NAME_LEN` is the size of the identifier buffers, `VALUE_LIST_INIT` the initial
value list, `parse_value value_str ds_type` the parsed sample (`none`: a non-zero status),
`strjoin buffer_size fields sep` the status of `strjoin` and the string it leaves in the
buffer, `meta_data_add_string md key value` its status and the metadata after it. -/
structure plugin_api where
  DATA_MAX_NAME_LEN : Nat
  VALUE_LIST_INIT : value_list_t
  parse_value : Option CStr → Nat → Option value_t
  strjoin : Nat → List CStr → CStr → Int × CStr
  meta_data_add_string : List (CStr × CStr) → CStr → Option CStr → Int × List (CStr × CStr)

/-- Modelled from the spec: `sstrncpy` (`common.c`, which is not in src), `strncpy` followed
by `dest[n - 1] = 0`: the string left in a buffer of `n` bytes. -/
def sstrncpy (src : CStr) (n : Nat) : CStr := src.take (n - 1)

/-- Modelled from the spec: `ssnprintf` (`common.c`, which is not in src) with the format
`"%s-%s"`: the string left in a buffer of `n` bytes. -/
def ssnprintf_dash (n : Nat) (a b : CStr) : CStr := (a ++ '-' :: b).take (n - 1)

/-- A loop `for (i = 0; i < num; i++) buffer[i] = column_values[pos[i]];` of
`udb_result_handle_result` (lines 318-325) with `num` iterations left at index `i`: the
buffer after the loop; `none` is a read or write outside an array or through `NULL`. -/
def copy_columns (column_values : List CStr) (pos : Option (List Nat)) :
    Nat → Nat → Option (List (Option CStr)) → Option (Option (List (Option CStr)))
  | 0, _, buffer => some buffer
  | num + 1, i, buffer =>
    match pos, buffer with
    | some ps, some buf =>
      match ps[i]? with
      | some p =>
        match column_values[p]? with
        | some v =>
          if i < buf.length then
            copy_columns column_values pos num (i + 1) (some (buf.set i (some v)))
          else none
        | none => none
      | none => none
    | _, _ => none

/-- The parsing loop of `udb_result_submit` (lines 202-212) with `num` iterations left at
index `i`: `some (some values)` when every value parsed, `some none` when `parse_value`
failed (the function returns -1), `none` for a read outside an array or through `NULL`. -/
def parse_values (api : plugin_api) (ds : data_set_t)
    (values_buffer : Option (List (Option CStr))) :
    Nat → Nat → List value_t → Option (Option (List value_t))
  | 0, _, values => some (some values)
  | num + 1, i, values =>
    match values_buffer with
    | none => none
    | some buf =>
      match buf[i]?, ds.ds[i]? with
      | some value_str, some ds_type =>
        match api.parse_value value_str ds_type with
        | none => some none
        | some v => parse_values api ds values_buffer num (i + 1) (values ++ [v])
      | _, _ => none

/-- The metadata loop of `udb_result_submit` (lines 274-283) over the remaining keys, at
index `i`: the status (that of the first `meta_data_add_string` that fails, else 0) and
the metadata; `none` is a read outside an array or through `NULL`. -/
def add_metadata (api : plugin_api) (metadata_buffer : Option (List (Option CStr))) :
    List CStr → Nat → List (CStr × CStr) → Option (Int × List (CStr × CStr))
  | [], _, md => some (0, md)
  | key :: rest, i, md =>
    match metadata_buffer with
    | none => none
    | some buf =>
      match buf[i]? with
      | none => none
      | some value =>
        let (status, md1) := api.meta_data_add_string md key value
        if status ≠ 0 then some (status, md1)
        else add_metadata api metadata_buffer rest (i + 1) md1

/-- The first `fields_num` slots of a buffer as the strings `strjoin` reads; `none` when
the buffer is `NULL`, too short, or holds a `NULL` slot. -/
def buffer_fields (buffer : Option (List (Option CStr))) (fields_num : Nat) :
    Option (List CStr) :=
  match buffer with
  | none => none
  | some buf => if buf.length < fields_num then none else (buf.take fields_num).mapM id

/-- Lines 229-264 of `udb_result_submit`: the status and `vl.type_instance`; `none` is a
read outside an array or through `NULL`. -/
def compose_type_instance (api : plugin_api) (r : udb_result_t)
    (r_area : udb_result_preparation_area_t) (type_instance : CStr) : Option (Int × CStr) :=
  if r.instances.length = 0 then
    match r.instance_prefix with
    | none => some (0, ([] : CStr).take (api.DATA_MAX_NAME_LEN - 1))
    | some p => some (0, (sstrncpy p api.DATA_MAX_NAME_LEN).take (api.DATA_MAX_NAME_LEN - 1))
  else
    match buffer_fields r_area.instances_buffer r.instances.length with
    | none => none
    | some fields =>
      let (status, joined) := api.strjoin api.DATA_MAX_NAME_LEN fields ['-']
      if status < 0 then some (status, type_instance)
      else
        match r.instance_prefix with
        | none => some (0, joined.take (api.DATA_MAX_NAME_LEN - 1))
        | some p =>
          let tmp := joined.take (api.DATA_MAX_NAME_LEN - 1)
          some (0, (ssnprintf_dash api.DATA_MAX_NAME_LEN p tmp).take (api.DATA_MAX_NAME_LEN - 1))

/-- The C function `udb_result_submit` (lines 184-295): the status and the value list
handed to `plugin_dispatch_values`, if any; `none` is a failed `assert`, or a read outside
an array or through `NULL`. -/
def udb_result_submit (api : plugin_api) (r : udb_result_t)
    (r_area : udb_result_preparation_area_t) (q : udb_query_t)
    (q_area : udb_query_preparation_area_t) : Option (Int × Option value_list_t) :=
  let vl := api.VALUE_LIST_INIT
  match r_area.ds with
  | none => none
  | some ds =>
    if ds.ds.length ≠ r.values.length then none
    else if ¬ r.values.length > 0 then none
    else
      match parse_values api ds r_area.values_buffer r.values.length 0 [] with
      | none => none
      | some none => some (-1, none)
      | some (some values) =>
        let vl := { vl with values := values }
        let vl := if q_area.interval > 0 then { vl with interval := q_area.interval } else vl
        match q_area.host, q_area.plugin, r.type,
          (if q.plugin_instance_from ≠ none then r_area.plugin_instance else q_area.db_name) with
        | some host, some plugin, some type, some plugin_instance =>
          let vl :=
            { vl with
              host := sstrncpy host api.DATA_MAX_NAME_LEN,
              plugin := sstrncpy plugin api.DATA_MAX_NAME_LEN,
              type := sstrncpy type api.DATA_MAX_NAME_LEN,
              plugin_instance := sstrncpy plugin_instance api.DATA_MAX_NAME_LEN }
          match compose_type_instance api r r_area vl.type_instance with
          | none => none
          | some (status, type_instance) =>
            if status < 0 then some (status, none)
            else
              let vl := { vl with type_instance := type_instance }
              if r.metadata.length > 0 then
                match add_metadata api r_area.metadata_buffer r.metadata 0 [] with
                | none => none
                | some (status, md) =>
                  if status ≠ 0 then some (status, none)
                  else some (0, some { vl with meta := some md })
              else some (0, some vl)
        | _, _, _, _ => none

/-- The C function `udb_result_handle_result` (lines 311-331): the status, the result
preparation area after the call and the value list dispatched, if any; `none` is a failed
`assert`, or a read or write outside an array or through `NULL`. -/
def udb_result_handle_result (api : plugin_api) (r : udb_result_t)
    (q_area : udb_query_preparation_area_t) (r_area : udb_result_preparation_area_t)
    (q : udb_query_t) (column_values : List CStr) :
    Option (Int × udb_result_preparation_area_t × Option value_list_t) :=
  match copy_columns column_values r_area.instances_pos r.instances.length 0
      r_area.instances_buffer with
  | none => none
  | some instances_buffer =>
    match copy_columns column_values r_area.values_pos r.values.length 0
        r_area.values_buffer with
    | none => none
    | some values_buffer =>
      match copy_columns column_values r_area.metadata_pos r.metadata.length 0
          r_area.metadata_buffer with
      | none => none
      | some metadata_buffer =>
        let r_area :=
          { r_area with
            instances_buffer := instances_buffer, values_buffer := values_buffer,
            metadata_buffer := metadata_buffer }
        let plugin_instance :=
          if q.plugin_instance_from ≠ none then
            (column_values[q_area.plugin_instance_pos]?).map some
          else some r_area.plugin_instance
        match plugin_instance with
        | none => none
        | some plugin_instance =>
          let r_area := { r_area with plugin_instance := plugin_instance }
          match udb_result_submit api r r_area q q_area with
          | none => none
          | some (status, vl) => some (status, r_area, vl)

/-- The `for` loop of `udb_query_handle_result` (lines 902-907): the result preparation
areas, the value of `success` and the value lists dispatched, in order; `none` when a
result has no result preparation area or a result fails with `none`. -/
def udb_query_handle_result_loop (api : plugin_api) (q : udb_query_t)
    (q_area : udb_query_preparation_area_t) (column_values : List CStr) :
    List udb_result_t → List udb_result_preparation_area_t → Nat →
      Option (List udb_result_preparation_area_t × Nat × List value_list_t)
  | [], areas, success => some (areas, success, [])
  | _ :: _, [], _ => none
  | r :: rs, r_area :: areas, success =>
    match udb_result_handle_result api r q_area r_area q column_values with
    | none => none
    | some (status, r_area1, vl) =>
      match udb_query_handle_result_loop api q q_area column_values rs areas
          (if status = 0 then success + 1 else success) with
      | none => none
      | some (areas1, success1, vls) => some (r_area1 :: areas1, success1, vl.toList ++ vls)

/-- The C function `udb_query_handle_result` (lines 872-917): the status, the preparation
area after the call and the value lists handed to `plugin_dispatch_values`, in order;
`none` is a failed `assert`, or a read or write outside an array or through `NULL`. -/
def udb_query_handle_result (api : plugin_api) (q : udb_query_t)
    (prep_area : udb_query_preparation_area_t) (column_values : List CStr) :
    Option (Int × udb_query_preparation_area_t × List value_list_t) :=
  if prep_area.column_num < 1 ∨ prep_area.host = none ∨ prep_area.plugin = none ∨
      prep_area.db_name = none then
    some (-EINVAL, prep_area, [])
  else
    match udb_query_handle_result_loop api q prep_area column_values q.results
        prep_area.result_prep_areas 0 with
    | none => none
    | some (areas, success, vls) =>
      some (if success = 0 then -1 else 0, { prep_area with result_prep_areas := areas }, vls)

/-! ## The `DSType` option of the tail plugin (`tail.c` lines 50-134) -/

/-- The C library `strlen`. -/
def strlen (s : CStr) : Nat := s.length

/-- The C library `strncasecmp` (POSIX): `strcasecmp` on at most the first `n` characters
of each string. -/
def strncasecmp (s1 s2 : CStr) (n : Nat) : Int := strcasecmp (s1.take n) (s2.take n)

/-- Modelled from the spec: the flag constants of `utils_match.h`, which is not in src;
they are non-negative `int` values, taken as parameters. -/
structure utils_match_flags where
  UTILS_MATCH_DS_TYPE_GAUGE : Nat
  UTILS_MATCH_DS_TYPE_COUNTER : Nat
  UTILS_MATCH_DS_TYPE_DERIVE : Nat
  UTILS_MATCH_DS_TYPE_ABSOLUTE : Nat
  UTILS_MATCH_CF_GAUGE_AVERAGE : Nat
  UTILS_MATCH_CF_GAUGE_MIN : Nat
  UTILS_MATCH_CF_GAUGE_MAX : Nat
  UTILS_MATCH_CF_GAUGE_LAST : Nat
  UTILS_MATCH_CF_GAUGE_INC : Nat
  UTILS_MATCH_CF_GAUGE_ADD : Nat
  UTILS_MATCH_CF_GAUGE_PERSIST : Nat
  UTILS_MATCH_CF_GAUGE_DIST : Nat
  UTILS_MATCH_CF_COUNTER_SET : Nat
  UTILS_MATCH_CF_COUNTER_ADD : Nat
  UTILS_MATCH_CF_COUNTER_INC : Nat
  UTILS_MATCH_CF_DERIVE_SET : Nat
  UTILS_MATCH_CF_DERIVE_ADD : Nat
  UTILS_MATCH_CF_DERIVE_INC : Nat
  UTILS_MATCH_CF_ABSOLUTE_SET : Nat

/-- The C `struct ctail_config_match_s` (lines 50-58).  The type `latency_config_t` of
`utils_latency_config.h` is not in src and is a parameter. -/
structure ctail_config_match_t (latency_config_t : Type) where
  regex : Option CStr
  excluderegex : Option CStr
  flags : Nat
  type : Option CStr
  type_instance : Option CStr
  interval : Nat
  latency : latency_config_t
  deriving DecidableEq

/-- Lines 127-133 of `ctail_config_add_match_dstype`: -1 when no flag is set, else 0. -/
def ctail_config_add_match_dstype_check {latency_config_t : Type}
    (cm : ctail_config_match_t latency_config_t) :
    Int × ctail_config_match_t latency_config_t :=
  if cm.flags = 0 then (-1, cm) else (0, cm)

/-- The C function `ctail_config_add_match_dstype` (lines 65-134): the status and the match
configuration after the call.  `latency_config` (`utils_latency_config.c`, not in src) is
an argument: it returns its status and the new `cm->latency`. -/
def ctail_config_add_match_dstype {latency_config_t : Type} (k : utils_match_flags)
    (latency_config : latency_config_t → oconfig_item_t → CStr → Int × latency_config_t)
    (cm : ctail_config_match_t latency_config_t) (ci : oconfig_item_t) :
    Int × ctail_config_match_t latency_config_t :=
  match ci.values with
  | [oconfig_value_t.string ds_type] =>
    if strncasecmp "Gauge".toList ds_type (strlen "Gauge".toList) = 0 then
      let cm := { cm with flags := k.UTILS_MATCH_DS_TYPE_GAUGE }
      let cm :=
        if strcasecmp "GaugeAverage".toList ds_type = 0 then
          { cm with flags := cm.flags ||| k.UTILS_MATCH_CF_GAUGE_AVERAGE }
        else if strcasecmp "GaugeMin".toList ds_type = 0 then
          { cm with flags := cm.flags ||| k.UTILS_MATCH_CF_GAUGE_MIN }
        else if strcasecmp "GaugeMax".toList ds_type = 0 then
          { cm with flags := cm.flags ||| k.UTILS_MATCH_CF_GAUGE_MAX }
        else if strcasecmp "GaugeLast".toList ds_type = 0 then
          { cm with flags := cm.flags ||| k.UTILS_MATCH_CF_GAUGE_LAST }
        else if strcasecmp "GaugeInc".toList ds_type = 0 then
          { cm with flags := cm.flags ||| k.UTILS_MATCH_CF_GAUGE_INC }
        else if strcasecmp "GaugeAdd".toList ds_type = 0 then
          { cm with flags := cm.flags ||| k.UTILS_MATCH_CF_GAUGE_ADD }
        else if strcasecmp "GaugePersist".toList ds_type = 0 then
          { cm with flags := cm.flags ||| k.UTILS_MATCH_CF_GAUGE_PERSIST }
        else { cm with flags := 0 }
      ctail_config_add_match_dstype_check cm
    else if strcasecmp "Distribution".toList ds_type = 0 then
      let cm :=
        { cm with flags := k.UTILS_MATCH_DS_TYPE_GAUGE ||| k.UTILS_MATCH_CF_GAUGE_DIST }
      let (status, latency) := latency_config cm.latency ci "tail".toList
      let cm := { cm with latency := latency }
      if status ≠ 0 then (status, cm) else ctail_config_add_match_dstype_check cm
    else if strncasecmp "Counter".toList ds_type (strlen "Counter".toList) = 0 then
      let cm := { cm with flags := k.UTILS_MATCH_DS_TYPE_COUNTER }
      let cm :=
        if strcasecmp "CounterSet".toList ds_type = 0 then
          { cm with flags := cm.flags ||| k.UTILS_MATCH_CF_COUNTER_SET }
        else if strcasecmp "CounterAdd".toList ds_type = 0 then
          { cm with flags := cm.flags ||| k.UTILS_MATCH_CF_COUNTER_ADD }
        else if strcasecmp "CounterInc".toList ds_type = 0 then
          { cm with flags := cm.flags ||| k.UTILS_MATCH_CF_COUNTER_INC }
        else { cm with flags := 0 }
      ctail_config_add_match_dstype_check cm
    else if strncasecmp "Derive".toList ds_type (strlen "Derive".toList) = 0 then
      let cm := { cm with flags := k.UTILS_MATCH_DS_TYPE_DERIVE }
      let cm :=
        if strcasecmp "DeriveSet".toList ds_type = 0 then
          { cm with flags := cm.flags ||| k.UTILS_MATCH_CF_DERIVE_SET }
        else if strcasecmp "DeriveAdd".toList ds_type = 0 then
          { cm with flags := cm.flags ||| k.UTILS_MATCH_CF_DERIVE_ADD }
        else if strcasecmp "DeriveInc".toList ds_type = 0 then
          { cm with flags := cm.flags ||| k.UTILS_MATCH_CF_DERIVE_INC }
        else { cm with flags := 0 }
      ctail_config_add_match_dstype_check cm
    else if strncasecmp "Absolute".toList ds_type (strlen "Absolute".toList) = 0 then
      let cm := { cm with flags := k.UTILS_MATCH_DS_TYPE_ABSOLUTE }
      let cm :=
        if strcasecmp "AbsoluteSet".toList ds_type = 0 then
          { cm with flags := cm.flags ||| k.UTILS_MATCH_CF_ABSOLUTE_SET }
        else { cm with flags := 0 }
      ctail_config_add_match_dstype_check cm
    else ctail_config_add_match_dstype_check { cm with flags := 0 }
  | _ => (-1, cm)

/-! ## Specification vocabulary -/

/-- Two strings are equal ignoring ASCII case. -/
def eq_ignoring_case (a b : CStr) : Prop := a.map tolower = b.map tolower

instance (a b : CStr) : Decidable (eq_ignoring_case a b) := by
  unfold eq_ignoring_case; infer_instance

/-- The key of a configuration item is the given option name, ignoring ASCII case. -/
def key_is (k : String) (c : oconfig_item_t) : Bool := decide (eq_ignoring_case k.toList c.key)

/-- The item has exactly one argument, a string. -/
def one_string_argument (c : oconfig_item_t) : Bool :=
  decide (c.values.length = 1) && c.values.all (fun v => v.string?.isSome)

/-- The item has at least one argument, and all its arguments are strings. -/
def string_arguments (c : oconfig_item_t) : Bool :=
  decide (1 ≤ c.values.length) && c.values.all (fun v => v.string?.isSome)

/-- The item has exactly one argument, a number between 0 and `UINT_MAX`. -/
def version_argument (c : oconfig_item_t) : Bool :=
  match c.values with
  | [oconfig_value_t.number x] => decide (0 ≤ x ∧ x ≤ (UINT_MAX : ℚ))
  | _ => false

/-- A recognized child of a `Result` block with well-typed arguments: `Type` or
`InstancePrefix` with one string, or `InstancesFrom`, `ValuesFrom` or `MetadataFrom` with
one or more strings. -/
def valid_result_option (c : oconfig_item_t) : Bool :=
  ((key_is "Type" c || key_is "InstancePrefix" c) && one_string_argument c) ||
  ((key_is "InstancesFrom" c || key_is "ValuesFrom" c || key_is "MetadataFrom" c) &&
    string_arguments c)

/-- A valid `Result` block: only recognized children with well-typed arguments, among them
a `Type` and a `ValuesFrom`. -/
def valid_result_block (b : oconfig_item_t) : Bool :=
  b.children.all valid_result_option && b.children.any (key_is "Type") &&
    b.children.any (key_is "ValuesFrom")

/-- A recognized child of a `Query` block with well-typed arguments: `Statement` or
`PluginInstanceFrom` with one string, a valid `Result` block, or `MinVersion` or
`MaxVersion` with one number in the range of `unsigned int`. -/
def valid_query_option (c : oconfig_item_t) : Bool :=
  ((key_is "Statement" c || key_is "PluginInstanceFrom" c) && one_string_argument c) ||
  (key_is "Result" c && valid_result_block c) ||
  ((key_is "MinVersion" c || key_is "MaxVersion" c) && version_argument c)

/-- A valid `Query` block: one string argument, only recognized children with well-typed
arguments, among them a `Statement` and a `Result` block. -/
def valid_query_block (ci : oconfig_item_t) : Bool :=
  one_string_argument ci && ci.children.all valid_query_option &&
    ci.children.any (key_is "Statement") && ci.children.any (key_is "Result")

/-- Some column name of the result set equals the given name ignoring ASCII case. -/
def column_exists (column_names : List CStr) (name : CStr) : Prop :=
  ∃ c ∈ column_names, eq_ignoring_case name c

instance (column_names : List CStr) (name : CStr) : Decidable (column_exists column_names name) := by
  unfold column_exists; infer_instance

/-- What a successful preparation of one result needs: the schema lookup knows the type of
the result and reports as many fields as the result has `ValuesFrom` names, and every
`InstancesFrom`, `ValuesFrom` and `MetadataFrom` name equals some column name ignoring
ASCII case. -/
def result_resolves (plugin_get_ds : Option CStr → Option data_set_t)
    (column_names : List CStr) (r : udb_result_t) : Prop :=
  (plugin_get_ds r.type).map (fun ds => ds.ds.length) = some r.values.length ∧
  (∀ name ∈ r.instances, column_exists column_names name) ∧
  (∀ name ∈ r.values, column_exists column_names name) ∧
  (∀ name ∈ r.metadata, column_exists column_names name)

instance (plugin_get_ds : Option CStr → Option data_set_t) (column_names : List CStr)
    (r : udb_result_t) : Decidable (result_resolves plugin_get_ds column_names r) := by
  unfold result_resolves; infer_instance

/-- The position `p` stored for the configured name `name` is the index of a column whose
name equals `name` ignoring ASCII case. -/
def position_resolves (column_names : List CStr) (name : CStr) (p : Nat) : Prop :=
  p < column_names.length ∧ ∃ c, column_names[p]? = some c ∧ eq_ignoring_case name c

/-- The result preparation area after a successful `udb_result_prepare_result`: the schema,
the first matching column index for every configured name, and buffers of the same lengths
with empty slots; the instance arrays stay `NULL` when there is no `InstancesFrom` name. -/
def prepared_result_area (plugin_get_ds : Option CStr → Option data_set_t)
    (column_names : List CStr) (r : udb_result_t) (plugin_instance : Option CStr) :
    udb_result_preparation_area_t :=
  { ds := plugin_get_ds r.type,
    instances_pos :=
      if r.instances.length > 0 then
        some (r.instances.map (fun name => find_column name column_names))
      else none,
    values_pos := some (r.values.map (fun name => find_column name column_names)),
    metadata_pos := some (r.metadata.map (fun name => find_column name column_names)),
    instances_buffer :=
      if r.instances.length > 0 then some (List.replicate r.instances.length none) else none,
    values_buffer := some (List.replicate r.values.length none),
    metadata_buffer := some (List.replicate r.metadata.length none),
    plugin_instance := plugin_instance }

/-! ### Prepared areas and the samples of a row -/

/-- The query has at least one result, and every result has a type and at least one
`ValuesFrom` name, as `udb_query_create` and `udb_result_create` require. -/
def results_well_formed (q : udb_query_t) : Prop :=
  q.results ≠ [] ∧ ∀ r ∈ q.results, r.type ≠ none ∧ r.values ≠ []

instance (q : udb_query_t) : Decidable (results_well_formed q) := by
  unfold results_well_formed; infer_instance

/-- The position array and the buffer of `num` configured names are usable for rows of
`column_num` values: with `num > 0` both arrays have `num` slots and every position is
below `column_num`. -/
def positions_prepared (num : Nat) (pos : Option (List Nat))
    (buffer : Option (List (Option CStr))) (column_num : Nat) : Prop :=
  num = 0 ∨
    (pos.map List.length = some num ∧ buffer.map List.length = some num ∧
      ∀ p ∈ pos.getD [], p < column_num)

instance (num : Nat) (pos : Option (List Nat)) (buffer : Option (List (Option CStr)))
    (column_num : Nat) : Decidable (positions_prepared num pos buffer column_num) := by
  unfold positions_prepared; infer_instance

/-- The result preparation area `s` is prepared for the result `r` and rows of `column_num`
values: it has a schema with as many fields as `r` has `ValuesFrom` names, and positions
and buffers for the `InstancesFrom`, `ValuesFrom` and `MetadataFrom` names of `r`. -/
def result_area_prepared (r : udb_result_t) (s : udb_result_preparation_area_t)
    (column_num : Nat) : Prop :=
  s.ds.map (fun ds => ds.ds.length) = some r.values.length ∧
  positions_prepared r.instances.length s.instances_pos s.instances_buffer column_num ∧
  positions_prepared r.values.length s.values_pos s.values_buffer column_num ∧
  positions_prepared r.metadata.length s.metadata_pos s.metadata_buffer column_num

instance (r : udb_result_t) (s : udb_result_preparation_area_t) (column_num : Nat) :
    Decidable (result_area_prepared r s column_num) := by
  unfold result_area_prepared; infer_instance

/-- The area `a` is prepared for the query `q`: the state a successful
`udb_query_prepare_result` leaves and `udb_query_handle_result` keeps.  The column count is
at least 1, host, plugin name and database name are set, the position of the
`PluginInstanceFrom` column, if configured, is below the column count, and the area has one
prepared result preparation area for each result of `q`. -/
def area_prepared (q : udb_query_t) (a : udb_query_preparation_area_t) : Prop :=
  1 ≤ a.column_num ∧ a.host ≠ none ∧ a.plugin ≠ none ∧ a.db_name ≠ none ∧
  (q.plugin_instance_from ≠ none → a.plugin_instance_pos < a.column_num) ∧
  a.result_prep_areas.length = q.results.length ∧
  ∀ x ∈ List.zip q.results a.result_prep_areas, result_area_prepared x.1 x.2 a.column_num

instance (q : udb_query_t) (a : udb_query_preparation_area_t) :
    Decidable (area_prepared q a) := by
  unfold area_prepared; infer_instance

/-- The slots of a row at the stored positions, in the order of the positions. -/
def columns_at (row : List CStr) (pos : Option (List Nat)) : List (Option CStr) :=
  (pos.getD []).map (fun p => row[p]?)

/-- The values of a row at the stored positions, in the order of the positions. -/
def row_strings (row : List CStr) (pos : Option (List Nat)) : List CStr :=
  (pos.getD []).filterMap (fun p => row[p]?)

/-- The result preparation area after the row has been copied into its buffers: every
buffer with configured names holds the row values at the stored positions, and the plugin
instance is the row value at the `PluginInstanceFrom` position when that option is set. -/
def filled_result_area (q : udb_query_t) (a : udb_query_preparation_area_t)
    (r : udb_result_t) (s : udb_result_preparation_area_t) (row : List CStr) :
    udb_result_preparation_area_t :=
  { s with
    instances_buffer :=
      if r.instances.length = 0 then s.instances_buffer
      else some (columns_at row s.instances_pos),
    values_buffer :=
      if r.values.length = 0 then s.values_buffer else some (columns_at row s.values_pos),
    metadata_buffer :=
      if r.metadata.length = 0 then s.metadata_buffer
      else some (columns_at row s.metadata_pos),
    plugin_instance :=
      if q.plugin_instance_from ≠ none then row[a.plugin_instance_pos]?
      else s.plugin_instance }

/-- The strings parsed under the field kinds at the same index: all values when every one
parses, `none` when one does not. -/
def parse_all (api : plugin_api) : List (Option CStr) → List Nat → Option (List value_t)
  | v :: vs, k :: ks =>
    match api.parse_value v k with
    | none => none
    | some x => (parse_all api vs ks).map (fun xs => x :: xs)
  | _, _ => some []

/-- The key and value pairs added with `meta_data_add_string` one after the other, up to
the first that fails: the last status and the metadata. -/
def attach_all (api : plugin_api) :
    List (CStr × Option CStr) → List (CStr × CStr) → Int × List (CStr × CStr)
  | [], md => (0, md)
  | (key, value) :: rest, md =>
    if (api.meta_data_add_string md key value).1 ≠ 0 then api.meta_data_add_string md key value
    else attach_all api rest (api.meta_data_add_string md key value).2

/-- The instance string before the cut to the identifier length: the instance prefix (or
the empty string) when there is no instance column, else the joined instance values,
after the prefix and a `-` when a prefix is set. -/
def composed_instance (r : udb_result_t) (joined : CStr) : CStr :=
  if r.instances.length = 0 then r.instance_prefix.getD []
  else
    match r.instance_prefix with
    | none => joined
    | some p => p ++ '-' :: joined

/-- The type instance of the sample for the instance values `fields`: `none` when
`strjoin` fails, else the composed string cut to the identifier length, the joined values
being cut first. -/
def sample_type_instance (api : plugin_api) (r : udb_result_t) (fields : List CStr) :
    Option CStr :=
  if r.instances.length = 0 then
    some ((composed_instance r []).take (api.DATA_MAX_NAME_LEN - 1))
  else if (api.strjoin api.DATA_MAX_NAME_LEN fields ['-']).1 < 0 then none
  else
    some ((composed_instance r
      ((api.strjoin api.DATA_MAX_NAME_LEN fields ['-']).2.take
        (api.DATA_MAX_NAME_LEN - 1))).take (api.DATA_MAX_NAME_LEN - 1))

/-- The sample that the result `r` with the result preparation area `s` contributes for a
row, read off the row through the stored positions: `none` when a value does not parse,
when `strjoin` fails or when `meta_data_add_string` fails. -/
def result_sample (api : plugin_api) (q : udb_query_t) (a : udb_query_preparation_area_t)
    (r : udb_result_t) (s : udb_result_preparation_area_t) (row : List CStr) :
    Option value_list_t :=
  match parse_all api (columns_at row s.values_pos) ((s.ds.map (fun ds => ds.ds)).getD []),
    sample_type_instance api r (row_strings row s.instances_pos) with
  | some values, some type_instance =>
    if (attach_all api (List.zip r.metadata (columns_at row s.metadata_pos)) []).1 ≠ 0 then none
    else
      some
        { values := values,
          interval := if a.interval > 0 then a.interval else api.VALUE_LIST_INIT.interval,
          host := (a.host.getD []).take (api.DATA_MAX_NAME_LEN - 1),
          plugin := (a.plugin.getD []).take (api.DATA_MAX_NAME_LEN - 1),
          plugin_instance :=
            ((if q.plugin_instance_from ≠ none then row[a.plugin_instance_pos]?
              else a.db_name).getD []).take (api.DATA_MAX_NAME_LEN - 1),
          type := (r.type.getD []).take (api.DATA_MAX_NAME_LEN - 1),
          type_instance := type_instance,
          meta :=
            if r.metadata.length > 0 then
              some (attach_all api (List.zip r.metadata (columns_at row s.metadata_pos)) []).2
            else api.VALUE_LIST_INIT.meta }
  | _, _ => none

/-- The samples a row contributes, result by result in the order of the results. -/
def row_samples (api : plugin_api) (q : udb_query_t) (a : udb_query_preparation_area_t)
    (row : List CStr) : List value_list_t :=
  (List.zip q.results a.result_prep_areas).filterMap
    (fun x => result_sample api q a x.1 x.2 row)

/-- The rows of a result set handled one after the other with `udb_query_handle_result`, as
a database plugin does between `udb_query_prepare_result` and `udb_query_finish_result`:
the area after the last row and the samples dispatched, in order; `none` when a call
faults. -/
def handle_rows (api : plugin_api) (q : udb_query_t) :
    udb_query_preparation_area_t → List (List CStr) →
      Option (udb_query_preparation_area_t × List value_list_t)
  | a, [] => some (a, [])
  | a, row :: rows =>
    match udb_query_handle_result api q a row with
    | none => none
    | some (_, a, vls) =>
      match handle_rows api q a rows with
      | none => none
      | some (a, more) => some (a, vls ++ more)

/-- The string `dst` is the copy of `src` into a field of `n` bytes: its first `n - 1`
characters, which is all of `src` when `src` is shorter than `n`. -/
def copied_identifier (n : Nat) (src dst : CStr) : Prop :=
  dst = src.take (n - 1) ∧ (src.length < n → dst = src)

instance (n : Nat) (src dst : CStr) : Decidable (copied_identifier n src dst) := by
  unfold copied_identifier; infer_instance

/-- The query that `udb_query_create` starts to fill (lines 630-641): the name of the
block, no statement, no result, the version range from 0 to `UINT_MAX`. -/
def new_query (name : CStr) : udb_query_t :=
  { name := name, statement := none, user_data := 0, plugin_instance_from := none,
    min_version := 0, max_version := UINT_MAX, results := [] }

/-- The key of the item is none of the options `udb_query_create` knows, ignoring ASCII
case. -/
def unknown_query_option (c : oconfig_item_t) : Bool :=
  !(key_is "Statement" c || key_is "Result" c || key_is "MinVersion" c ||
    key_is "MaxVersion" c || key_is "PluginInstanceFrom" c)

/-- The query list built from the empty list by a sequence of `udb_query_create` calls,
each with its block and its callback, whether they succeed or fail. -/
def registry (calls : List (oconfig_item_t × Option udb_query_create_callback_t)) :
    Option (List udb_query_t) :=
  calls.foldl (fun list call => (udb_query_create list call.1 call.2).2) none

/-- A query as the registry holds it: a statement and well-formed results. -/
def query_well_formed (q : udb_query_t) : Prop :=
  q.statement ≠ none ∧ results_well_formed q

instance (q : udb_query_t) : Decidable (query_well_formed q) := by
  unfold query_well_formed; infer_instance

/-- What `udb_query_prepare_result` resolves in an area: the column count, the position of
the `PluginInstanceFrom` column, host, plugin and database name, the interval and, for
every result preparation area, the schema reference and the three position arrays. -/
def resolved_state (a : udb_query_preparation_area_t) :
    Nat × Nat × Option CStr × Option CStr × Option CStr × Nat ×
      List (Option data_set_t × Option (List Nat) × Option (List Nat) × Option (List Nat)) :=
  (a.column_num, a.plugin_instance_pos, a.host, a.plugin, a.db_name, a.interval,
    a.result_prep_areas.map (fun s => (s.ds, s.instances_pos, s.values_pos, s.metadata_pos)))

/-- The area with `plugin_instance_pos` set to 0 and the row pointer `plugin_instance` of
every result preparation area set to `NULL`. -/
def without_plugin_instance (a : udb_query_preparation_area_t) :
    udb_query_preparation_area_t :=
  { a with
    plugin_instance_pos := 0,
    result_prep_areas := a.result_prep_areas.map (fun s => { s with plugin_instance := none }) }

/-- The string arguments of a configuration item, in order. -/
def string_values (c : oconfig_item_t) : List CStr :=
  c.values.filterMap oconfig_value_t.string?

/-- The key of the item is none of the options `udb_result_create` knows, ignoring ASCII
case. -/
def unknown_result_option (c : oconfig_item_t) : Bool :=
  !(key_is "Type" c || key_is "InstancePrefix" c || key_is "InstancesFrom" c ||
    key_is "ValuesFrom" c || key_is "MetadataFrom" c)

/-- No column name before position `p` equals the name ignoring ASCII case, and the column
at `p` does: `p` is the first matching column. -/
def first_position (column_names : List CStr) (name : CStr) (p : Nat) : Prop :=
  position_resolves column_names name p ∧
  ∀ c ∈ column_names.take p, ¬ eq_ignoring_case name c

/-- The `DSType` names that `ctail_config_add_match_dstype` knows besides `Distribution`,
each with the flags it stands for. -/
def dstype_table (k : utils_match_flags) : List (String × Nat) :=
  [("GaugeAverage", k.UTILS_MATCH_DS_TYPE_GAUGE ||| k.UTILS_MATCH_CF_GAUGE_AVERAGE),
   ("GaugeMin", k.UTILS_MATCH_DS_TYPE_GAUGE ||| k.UTILS_MATCH_CF_GAUGE_MIN),
   ("GaugeMax", k.UTILS_MATCH_DS_TYPE_GAUGE ||| k.UTILS_MATCH_CF_GAUGE_MAX),
   ("GaugeLast", k.UTILS_MATCH_DS_TYPE_GAUGE ||| k.UTILS_MATCH_CF_GAUGE_LAST),
   ("GaugeInc", k.UTILS_MATCH_DS_TYPE_GAUGE ||| k.UTILS_MATCH_CF_GAUGE_INC),
   ("GaugeAdd", k.UTILS_MATCH_DS_TYPE_GAUGE ||| k.UTILS_MATCH_CF_GAUGE_ADD),
   ("GaugePersist", k.UTILS_MATCH_DS_TYPE_GAUGE ||| k.UTILS_MATCH_CF_GAUGE_PERSIST),
   ("CounterSet", k.UTILS_MATCH_DS_TYPE_COUNTER ||| k.UTILS_MATCH_CF_COUNTER_SET),
   ("CounterAdd", k.UTILS_MATCH_DS_TYPE_COUNTER ||| k.UTILS_MATCH_CF_COUNTER_ADD),
   ("CounterInc", k.UTILS_MATCH_DS_TYPE_COUNTER ||| k.UTILS_MATCH_CF_COUNTER_INC),
   ("DeriveSet", k.UTILS_MATCH_DS_TYPE_DERIVE ||| k.UTILS_MATCH_CF_DERIVE_SET),
   ("DeriveAdd", k.UTILS_MATCH_DS_TYPE_DERIVE ||| k.UTILS_MATCH_CF_DERIVE_ADD),
   ("DeriveInc", k.UTILS_MATCH_DS_TYPE_DERIVE ||| k.UTILS_MATCH_CF_DERIVE_INC),
   ("AbsoluteSet", k.UTILS_MATCH_DS_TYPE_ABSOLUTE ||| k.UTILS_MATCH_CF_ABSOLUTE_SET)]

/-- The fourteen `DSType` names other than `Distribution`. -/
def dstype_names : List String :=
  ["GaugeAverage", "GaugeMin", "GaugeMax", "GaugeLast", "GaugeInc", "GaugeAdd",
   "GaugePersist", "CounterSet", "CounterAdd", "CounterInc", "DeriveSet", "DeriveAdd",
   "DeriveInc", "AbsoluteSet"]

/-- The `Type` of a `Result` block: the string argument of its last `Type` child. -/
def result_block_type (b : oconfig_item_t) : Option CStr :=
  (b.children.filter (key_is "Type")).getLast?.bind (fun c => (string_values c).head?)

/-- The `ValuesFrom` names of a `Result` block: the string arguments of its `ValuesFrom`
children, in the order of the configuration. -/
def result_block_values (b : oconfig_item_t) : List CStr :=
  ((b.children.filter (key_is "ValuesFrom")).map string_values).flatten

/-! ## Example inputs -/

/-- A result that maps the column `bytes` to the one value of the type `gauge`. -/
def example_result : udb_result_t :=
  { type := some "gauge".toList, instance_prefix := none, instances := [],
    values := ["Bytes".toList], metadata := [] }

/-- A query with the given name and version range and the one result `example_result`. -/
def example_query (name : String) (min_version max_version : Nat) : udb_query_t :=
  { name := name.toList, statement := some "SELECT 1".toList, user_data := 0,
    plugin_instance_from := none, min_version := min_version, max_version := max_version,
    results := [example_result] }

/-- A list of three queries; the first and the third share their name up to case. -/
def example_query_list : List udb_query_t :=
  [example_query "disk_io" 0 80399, example_query "backends" 0 UINT_MAX,
   example_query "Disk_IO" 80400 UINT_MAX]

/-- The block `<Result>` with `Type "gauge"` and `ValuesFrom "Bytes"`. -/
def example_result_block : oconfig_item_t :=
  .mk "Result".toList []
    [.mk "Type".toList [.string "gauge".toList] [],
     .mk "ValuesFrom".toList [.string "Bytes".toList] []]

/-- The block `<Query "disk_io">` with a `Statement` and the block `example_result_block`. -/
def example_query_block : oconfig_item_t :=
  .mk "Query".toList [.string "disk_io".toList]
    [.mk "statement".toList [.string "SELECT 1".toList] [], example_result_block]

/-- The block `<Query "disk_io">` with a `Result` block and no `Statement`. -/
def example_query_block_without_statement : oconfig_item_t :=
  .mk "Query".toList [.string "disk_io".toList] [example_result_block]

/-- A schema lookup that knows the type `gauge`, with one field of kind gauge (1), and the
type `if_octets`, with two fields of kind derive (2). -/
def example_plugin_get_ds : Option CStr → Option data_set_t
  | some t =>
    if t = "gauge".toList then some { type := "gauge".toList, ds := [1] }
    else if t = "if_octets".toList then some { type := "if_octets".toList, ds := [2, 2] }
    else none
  | none => none

/-- The column names `host`, `bytes` of a result set. -/
def example_column_names : List CStr := ["host".toList, "bytes".toList]

/-- A query whose `PluginInstanceFrom` names the missing column `db` and whose one result
gives two `ValuesFrom` names for the type `gauge`, which has one field. -/
def example_query_mismatch_no_column : udb_query_t :=
  { name := "q".toList, statement := some "SELECT 1".toList, user_data := 0,
    plugin_instance_from := some "db".toList, min_version := 0, max_version := UINT_MAX,
    results :=
      [{ type := some "gauge".toList, instance_prefix := none, instances := [],
         values := ["host".toList, "bytes".toList], metadata := [] }] }

/-- A query whose one result gives two `ValuesFrom` names for the type `gauge`, which has
one field. -/
def example_query_mismatch : udb_query_t :=
  { example_query_mismatch_no_column with plugin_instance_from := none }

/-- A query whose `PluginInstanceFrom` names the column `bytes` and whose one result has a
type that the schema lookup does not know. -/
def example_query_unknown_type : udb_query_t :=
  { name := "q".toList, statement := some "SELECT 1".toList, user_data := 0,
    plugin_instance_from := some "bytes".toList, min_version := 0, max_version := UINT_MAX,
    results :=
      [{ type := some "no_such_type".toList, instance_prefix := none, instances := [],
         values := ["bytes".toList], metadata := [] }] }

/-- A query whose one result names the column `rows`, which the result set does not have. -/
def example_query_no_column : udb_query_t :=
  { name := "q".toList, statement := some "SELECT 1".toList, user_data := 0,
    plugin_instance_from := none, min_version := 0, max_version := UINT_MAX,
    results :=
      [{ type := some "gauge".toList, instance_prefix := none, instances := [],
         values := ["rows".toList], metadata := [] }] }

/-- A daemon interface for the examples: identifiers of 128 bytes, an empty initial value
list, every value parsed as the gauge 0, fields joined without a size check, metadata
appended. -/
def example_plugin_api : plugin_api :=
  { DATA_MAX_NAME_LEN := 128,
    VALUE_LIST_INIT :=
      { values := [], interval := 0, host := [], plugin := [], plugin_instance := [],
        type := [], type_instance := [], meta := none },
    parse_value := fun _ _ => some (value_t.gauge 0),
    strjoin := fun _ fields sep => (0, sep.intercalate fields),
    meta_data_add_string := fun md key value => (0, md ++ [(key, value.getD [])]) }

/-- A parser for the examples: a non-empty string of decimal digits is the counter with
that value, every other string does not parse. -/
def example_parse_value : Option CStr → Nat → Option value_t
  | some s, _ =>
    if s ≠ [] ∧ s.all Char.isDigit = true then
      some (value_t.counter (s.foldl (fun n c => 10 * n + (c.toNat - 48)) 0))
    else none
  | none, _ => none

/-- The daemon interface `example_plugin_api` with the parser `example_parse_value`. -/
def example_plugin_api_digits : plugin_api :=
  { example_plugin_api with parse_value := example_parse_value }

/-- The daemon interface `example_plugin_api_digits` with a `strjoin` that cuts the joined
string to the buffer size and returns its full length. -/
def example_plugin_api_cutting : plugin_api :=
  { example_plugin_api_digits with
    strjoin := fun n fields sep =>
      (((sep.intercalate fields).length : Int), (sep.intercalate fields).take (n - 1)) }

/-- A query with `PluginInstanceFrom "db"` and two results: the first with the instance
prefix `pre`, the instance columns `a`, `b`, the value column `Bytes` and the metadata
column `Host`, the second with the value column `rows` only. -/
def example_query_traffic : udb_query_t :=
  { name := "traffic".toList, statement := some "SELECT 1".toList, user_data := 0,
    plugin_instance_from := some "db".toList, min_version := 0, max_version := UINT_MAX,
    results :=
      [{ type := some "gauge".toList, instance_prefix := some "pre".toList,
         instances := ["a".toList, "b".toList], values := ["Bytes".toList],
         metadata := ["Host".toList] },
       { type := some "gauge".toList, instance_prefix := none, instances := [],
         values := ["rows".toList], metadata := [] }] }

/-- The column names `db`, `a`, `b`, `bytes`, `rows`, `host` of a result set. -/
def example_columns_traffic : List CStr :=
  ["db".toList, "a".toList, "b".toList, "bytes".toList, "rows".toList, "host".toList]

/-- The area of `example_query_traffic` after `udb_query_prepare_result` with the columns
`example_columns_traffic` and the interval 10. -/
def example_area_traffic : udb_query_preparation_area_t :=
  (udb_query_prepare_result example_plugin_get_ds example_query_traffic
    (udb_query_allocate_preparation_area example_query_traffic)
    "localhost".toList "postgresql".toList "shop".toList example_columns_traffic 10).2

/-- A row of `example_columns_traffic` in which every value column parses. -/
def example_row_traffic : List CStr :=
  ["orders".toList, "x".toList, "y".toList, "42".toList, "7".toList, "web1".toList]

/-- A row of `example_columns_traffic` in which the column `bytes` does not parse. -/
def example_row_bad_bytes : List CStr :=
  ["orders".toList, "x".toList, "y".toList, "n/a".toList, "7".toList, "web1".toList]

/-- A row of `example_columns_traffic` in which no value column parses. -/
def example_row_bad : List CStr :=
  ["orders".toList, "x".toList, "y".toList, "n/a".toList, "-".toList, "web1".toList]

/-- A row of `example_columns_traffic` whose columns `db` and `a` hold 130 characters. -/
def example_row_long : List CStr :=
  [List.replicate 130 'o', List.replicate 130 'x', "y".toList, "42".toList, "7".toList,
   "web1".toList]

/-- The first result of `example_query_traffic`. -/
def example_result_instances : udb_result_t :=
  { type := some "gauge".toList, instance_prefix := some "pre".toList,
    instances := ["a".toList, "b".toList], values := ["Bytes".toList],
    metadata := ["Host".toList] }

/-- The result preparation area of `example_result_instances` in `example_area_traffic`. -/
def example_result_area_instances : udb_result_preparation_area_t :=
  prepared_result_area example_plugin_get_ds example_columns_traffic
    example_result_instances none

/-- The block `<Query "disk_io">` with a `Statement`, an option `Param "x"` that
`udb_query_create` does not know, and the block `example_result_block`. -/
def example_query_block_param : oconfig_item_t :=
  .mk "Query".toList [.string "disk_io".toList]
    [.mk "Statement".toList [.string "SELECT 1".toList] [],
     .mk "Param".toList [.string "x".toList] [], example_result_block]

/-- A callback that accepts the option `Param` and counts its calls in `user_data`. -/
def example_callback : udb_query_create_callback_t :=
  fun q child =>
    (if strcasecmp "Param".toList child.key = 0 then 0 else -1, q.user_data + 1)

/-- A callback that accepts nothing. -/
def example_callback_refusing : udb_query_create_callback_t :=
  fun q _ => (-1, q.user_data)

/-- The block `<Query "disk_io">` with a `Statement`, `MinVersion 80400` and the block
`example_result_block`. -/
def example_query_block_min_version : oconfig_item_t :=
  .mk "Query".toList [.string "disk_io".toList]
    [.mk "Statement".toList [.string "SELECT 1".toList] [],
     .mk "MinVersion".toList [.number 80400] [], example_result_block]

/-- The largest `double` below 1/2: `(2 ^ 53 - 1) / 2 ^ 54`, 0.49999999999999994. -/
def example_below_half : ℚ := 1 / 2 - 1 / 2 ^ 54

/-- The block `<Query "disk_io">` with a `Statement`, `MinVersion 0.49999999999999994` and
the block `example_result_block`. -/
def example_query_block_below_half : oconfig_item_t :=
  .mk "Query".toList [.string "disk_io".toList]
    [.mk "Statement".toList [.string "SELECT 1".toList] [],
     .mk "MinVersion".toList [.number example_below_half] [], example_result_block]

/-- The block `<Query "disk_io">` with a `Statement`, `MaxVersion -1` and the block
`example_result_block`. -/
def example_query_block_negative : oconfig_item_t :=
  .mk "Query".toList [.string "disk_io".toList]
    [.mk "Statement".toList [.string "SELECT 1".toList] [],
     .mk "MaxVersion".toList [.number (-1)] [], example_result_block]

/-- A `Result` block with `Type "gauge"`, `InstancesFrom` without an argument and
`ValuesFrom "Bytes"`. -/
def example_result_block_no_instances : oconfig_item_t :=
  .mk "Result".toList []
    [.mk "Type".toList [.string "gauge".toList] [],
     .mk "InstancesFrom".toList [] [],
     .mk "ValuesFrom".toList [.string "Bytes".toList] []]

/-- The block `<Query "disk_io">` with a `Statement` and the block
`example_result_block_no_instances`. -/
def example_query_block_no_instances : oconfig_item_t :=
  .mk "Query".toList [.string "disk_io".toList]
    [.mk "Statement".toList [.string "SELECT 1".toList] [],
     example_result_block_no_instances]

/-- A `Result` block with `Type "gauge"`, `InstancesFrom "a" "b"` and `ValuesFrom "Bytes"`. -/
def example_result_block_instances : oconfig_item_t :=
  .mk "Result".toList []
    [.mk "Type".toList [.string "gauge".toList] [],
     .mk "InstancesFrom".toList [.string "a".toList, .string "b".toList] [],
     .mk "ValuesFrom".toList [.string "Bytes".toList] []]

/-- The block `<Query "traffic">` of the query `example_query_traffic`. -/
def example_query_block_traffic : oconfig_item_t :=
  .mk "Query".toList [.string "traffic".toList]
    [.mk "Statement".toList [.string "SELECT 1".toList] [],
     .mk "PluginInstanceFrom".toList [.string "db".toList] [],
     .mk "Result".toList []
       [.mk "Type".toList [.string "gauge".toList] [],
        .mk "InstancePrefix".toList [.string "pre".toList] [],
        .mk "InstancesFrom".toList [.string "a".toList, .string "b".toList] [],
        .mk "ValuesFrom".toList [.string "Bytes".toList] [],
        .mk "MetadataFrom".toList [.string "Host".toList] []],
     .mk "Result".toList []
       [.mk "Type".toList [.string "gauge".toList] [],
        .mk "ValuesFrom".toList [.string "rows".toList] []]]

/-- The column names `a`, `db`, `b`, `bytes`, `rows`, `host` of a result set. -/
def example_columns_shifted : List CStr :=
  ["a".toList, "db".toList, "b".toList, "bytes".toList, "rows".toList, "host".toList]

/-- The area `example_area_traffic` after the row `example_row_traffic` has been handled. -/
def example_area_traffic_used : udb_query_preparation_area_t :=
  ((udb_query_handle_result example_plugin_api_digits example_query_traffic
    example_area_traffic example_row_traffic).map (fun x => x.2.1)).getD example_area_traffic

/-- The area of `example_query_traffic` after `udb_query_prepare_result` with the columns
`example_columns_shifted`, in which the column `db` is at position 1. -/
def example_area_shifted : udb_query_preparation_area_t :=
  (udb_query_prepare_result example_plugin_get_ds example_query_traffic
    (udb_query_allocate_preparation_area example_query_traffic)
    "localhost".toList "postgresql".toList "shop".toList example_columns_shifted 10).2

/-- A `Result` block with `Type "if_octets"`, `ValuesFrom "rx"`, `InstancesFrom "a"`,
`ValuesFrom "tx"` and `InstancesFrom "b" "c"`. -/
def example_result_block_repeated : oconfig_item_t :=
  .mk "Result".toList []
    [.mk "Type".toList [.string "if_octets".toList] [],
     .mk "ValuesFrom".toList [.string "rx".toList] [],
     .mk "InstancesFrom".toList [.string "a".toList] [],
     .mk "valuesfrom".toList [.string "tx".toList] [],
     .mk "InstancesFrom".toList [.string "b".toList, .string "c".toList] []]

/-- The result that `example_result_block_repeated` describes. -/
def example_result_repeated : udb_result_t :=
  { type := some "if_octets".toList, instance_prefix := none,
    instances := ["a".toList, "b".toList, "c".toList],
    values := ["rx".toList, "tx".toList], metadata := [] }

/-- A `Result` block with a `Type` and no `ValuesFrom`. -/
def example_result_block_no_values : oconfig_item_t :=
  .mk "Result".toList [] [.mk "Type".toList [.string "gauge".toList] []]

/-- The block `<Query "disk_io">` with a `Statement`, a valid `Result` block, the block
`example_result_block_no_values` and another valid `Result` block. -/
def example_query_block_bad_result : oconfig_item_t :=
  .mk "Query".toList [.string "disk_io".toList]
    [.mk "Statement".toList [.string "SELECT 1".toList] [], example_result_block,
     example_result_block_no_values, example_result_block]

/-- The column names `host`, `bytes`, `BYTES`, `Bytes` of a result set. -/
def example_columns_repeated : List CStr :=
  ["host".toList, "bytes".toList, "BYTES".toList, "Bytes".toList]

/-- Flag constants for the examples: the data source types in the bits 12 to 15, the
consolidation functions in the low bits. -/
def example_utils_match_flags : utils_match_flags :=
  { UTILS_MATCH_DS_TYPE_GAUGE := 0x1000, UTILS_MATCH_DS_TYPE_COUNTER := 0x2000,
    UTILS_MATCH_DS_TYPE_DERIVE := 0x4000, UTILS_MATCH_DS_TYPE_ABSOLUTE := 0x8000,
    UTILS_MATCH_CF_GAUGE_AVERAGE := 0x01, UTILS_MATCH_CF_GAUGE_MIN := 0x02,
    UTILS_MATCH_CF_GAUGE_MAX := 0x04, UTILS_MATCH_CF_GAUGE_LAST := 0x08,
    UTILS_MATCH_CF_GAUGE_INC := 0x10, UTILS_MATCH_CF_GAUGE_ADD := 0x20,
    UTILS_MATCH_CF_GAUGE_PERSIST := 0x40, UTILS_MATCH_CF_GAUGE_DIST := 0x80,
    UTILS_MATCH_CF_COUNTER_SET := 0x01, UTILS_MATCH_CF_COUNTER_ADD := 0x02,
    UTILS_MATCH_CF_COUNTER_INC := 0x04, UTILS_MATCH_CF_DERIVE_SET := 0x01,
    UTILS_MATCH_CF_DERIVE_ADD := 0x02, UTILS_MATCH_CF_DERIVE_INC := 0x04,
    UTILS_MATCH_CF_ABSOLUTE_SET := 0x01 }

/-- A latency configuration for the examples: it counts its calls and succeeds. -/
def example_latency_config : Nat → oconfig_item_t → CStr → Int × Nat :=
  fun latency _ _ => (0, latency + 1)

/-- A latency configuration for the examples that fails with -1. -/
def example_latency_config_failing : Nat → oconfig_item_t → CStr → Int × Nat :=
  fun latency _ _ => (-1, latency)

/-- The match configuration `ctail_config_add_match` starts from: all fields zero. -/
def example_match : ctail_config_match_t Nat :=
  { regex := none, excluderegex := none, flags := 0, type := none, type_instance := none,
    interval := 0, latency := 0 }

/-- The option `DSType` with the given string argument. -/
def example_dstype (s : String) : oconfig_item_t :=
  .mk "DSType".toList [.string s.toList] []

/-- A query whose one result has the value column `bytes` and the metadata columns `host`
and `rack`; the result set `host`, `bytes` has no column `rack`. -/
def example_query_no_metadata_column : udb_query_t :=
  { name := "q".toList, statement := some "SELECT 1".toList, user_data := 0,
    plugin_instance_from := none, min_version := 0, max_version := UINT_MAX,
    results :=
      [{ type := some "gauge".toList, instance_prefix := none, instances := [],
         values := ["bytes".toList], metadata := ["host".toList, "rack".toList] }] }

/-- A query whose one result has the value column `bytes` and the metadata columns `rack`
and `host`; the result set `host`, `bytes` has no column `rack`. -/
def example_query_no_first_metadata_column : udb_query_t :=
  { name := "q".toList, statement := some "SELECT 1".toList, user_data := 0,
    plugin_instance_from := none, min_version := 0, max_version := UINT_MAX,
    results :=
      [{ type := some "gauge".toList, instance_prefix := none, instances := [],
         values := ["bytes".toList], metadata := ["rack".toList, "host".toList] }] }

/-- The block `<Query "disk_io">` with a `Statement` and two `Result` blocks: the first with
`Type "gauge"` and `ValuesFrom "Bytes"`, the second with `Type "no_such_type"`, which the
schema lookup `example_plugin_get_ds` does not know, and `ValuesFrom "Bytes"`. -/
def example_query_block_unknown_type : oconfig_item_t :=
  .mk "Query".toList [.string "disk_io".toList]
    [.mk "Statement".toList [.string "SELECT 1".toList] [], example_result_block,
     .mk "Result".toList []
       [.mk "Type".toList [.string "no_such_type".toList] [],
        .mk "ValuesFrom".toList [.string "Bytes".toList] []]]

/-- The block `<Query "disk_io">` with a `Statement` and a `Result` block with
`Type "gauge"`, a type of one field, and `ValuesFrom "Bytes" "Rows"`. -/
def example_query_block_two_values : oconfig_item_t :=
  .mk "Query".toList [.string "disk_io".toList]
    [.mk "Statement".toList [.string "SELECT 1".toList] [],
     .mk "Result".toList []
       [.mk "Type".toList [.string "gauge".toList] [],
        .mk "ValuesFrom".toList [.string "Bytes".toList, .string "Rows".toList] []]]

/-! ## Lemmas -/

theorem strcasecmp_eq_zero_iff (a b : CStr) : strcasecmp a b = 0 ↔ eq_ignoring_case a b := by
  unfold eq_ignoring_case
  induction a generalizing b with
  | nil => cases b <;> simp [strcasecmp]
  | cons a as ih =>
    cases b with
    | nil => simp [strcasecmp]
    | cons b bs =>
      simp only [strcasecmp, List.map_cons, List.cons.injEq]
      by_cases h : tolower a = tolower b
      · simp [h, ih]
      · simp only [h, if_false, false_and, iff_false]
        split <;> decide

theorem strcasecmp_self (a : CStr) : strcasecmp a a = 0 :=
  (strcasecmp_eq_zero_iff a a).2 rfl

/-- The result of the selection loop: the matching queries are appended in order, and
`num_added` grows by their number. -/
theorem pick_loop_eq (name : CStr) (src : List udb_query_t) (dst : Option (List udb_query_t))
    (n : Nat) :
    pick_loop name src dst n =
      (if src.filter (fun q => decide (strcasecmp name q.name = 0)) = [] then dst
        else some (dst.getD [] ++ src.filter (fun q => decide (strcasecmp name q.name = 0))),
       n + (src.filter (fun q => decide (strcasecmp name q.name = 0))).length) := by
  induction src generalizing dst n with
  | nil => simp [pick_loop]
  | cons q rest ih =>
    by_cases h : strcasecmp name q.name = 0
    · simp only [pick_loop, h, ne_eq, not_true_eq_false, if_false, ih, decide_True,
        List.filter_cons_of_pos, List.length_cons, Option.getD_some, List.append_assoc,
        List.singleton_append, reduceCtorEq, if_false]
      refine Prod.ext ?_ ?_
      · split <;> simp_all
      · simp; omega
    · simp [pick_loop, h, ih]

theorem filter_strcasecmp_eq (name : CStr) (src : List udb_query_t) :
    src.filter (fun q => decide (strcasecmp name q.name = 0)) =
      src.filter (fun q => decide (eq_ignoring_case name q.name)) := by
  congr 1
  funext q
  simp only [strcasecmp_eq_zero_iff]

/-- With a match in the source list, the selection returns 0 and appends the matching
queries in source order. -/
theorem pick_appends (name : CStr) (src : List udb_query_t)
    (dst : Option (List udb_query_t)) (h : ∃ q ∈ src, eq_ignoring_case name q.name) :
    udb_query_pick_from_list_by_name name (some src) dst =
      (0, some (dst.getD [] ++ src.filter (fun q => decide (eq_ignoring_case name q.name)))) := by
  obtain ⟨q, hq, hname⟩ := h
  have hne : src.filter (fun q => decide (eq_ignoring_case name q.name)) ≠ [] := by
    intro hnil
    have : q ∈ src.filter (fun q => decide (eq_ignoring_case name q.name)) :=
      List.mem_filter.2 ⟨hq, by simpa using hname⟩
    rw [hnil] at this
    cases this
  have hpos : 0 < (src.filter (fun q => decide (eq_ignoring_case name q.name))).length :=
    List.length_pos.2 hne
  simp only [udb_query_pick_from_list_by_name, pick_loop_eq, filter_strcasecmp_eq, hne,
    if_false, Nat.zero_add]
  rw [if_neg (by omega)]


/-! ### Creation -/

theorem udb_query_create_child_statement (cb : Option udb_query_create_callback_t)
    (q : udb_query_t) (child : oconfig_item_t)
    (h : ¬ eq_ignoring_case "Statement".toList child.key) :
    (udb_query_create_child cb q child).2.statement = q.statement := by
  rw [← strcasecmp_eq_zero_iff] at h
  unfold udb_query_create_child
  rw [if_neg h]
  repeat' split
  all_goals rfl

theorem udb_query_create_child_results (cb : Option udb_query_create_callback_t)
    (q : udb_query_t) (child : oconfig_item_t)
    (h : ¬ eq_ignoring_case "Result".toList child.key) :
    (udb_query_create_child cb q child).2.results = q.results := by
  rw [← strcasecmp_eq_zero_iff] at h
  unfold udb_query_create_child
  rw [if_neg h]
  repeat' split
  all_goals rfl

theorem udb_query_create_loop_statement (cb : Option udb_query_create_callback_t)
    (children : List oconfig_item_t) (q : udb_query_t)
    (h : ∀ c ∈ children, ¬ eq_ignoring_case "Statement".toList c.key) :
    (udb_query_create_loop cb children q).2.statement = q.statement := by
  induction children generalizing q with
  | nil => rfl
  | cons c rest ih =>
    have hc := udb_query_create_child_statement cb q c (h c (List.mem_cons_self _ _))
    simp only [udb_query_create_loop]
    split
    · exact hc
    · rw [ih _ (fun c hc => h c (List.mem_cons_of_mem _ hc)), hc]

theorem udb_query_create_loop_results (cb : Option udb_query_create_callback_t)
    (children : List oconfig_item_t) (q : udb_query_t)
    (h : ∀ c ∈ children, ¬ eq_ignoring_case "Result".toList c.key) :
    (udb_query_create_loop cb children q).2.results = q.results := by
  induction children generalizing q with
  | nil => rfl
  | cons c rest ih =>
    have hc := udb_query_create_child_results cb q c (h c (List.mem_cons_self _ _))
    simp only [udb_query_create_loop]
    split
    · exact hc
    · rw [ih _ (fun c hc => h c (List.mem_cons_of_mem _ hc)), hc]

theorem strcasecmp_key (k : String) (c : oconfig_item_t) :
    strcasecmp k.toList c.key = 0 ↔ key_is k c = true := by
  simp [key_is, strcasecmp_eq_zero_iff]

theorem key_is_excl (a b : String) (c : oconfig_item_t)
    (hne : a.toList.map tolower ≠ b.toList.map tolower) (ha : key_is a c = true) :
    key_is b c = false := by
  simp only [key_is, decide_eq_true_eq, decide_eq_false_iff_not, eq_ignoring_case] at *
  intro hb
  exact hne (ha.trans hb.symm)

theorem one_string_argument_values (c : oconfig_item_t) (h : one_string_argument c = true) :
    ∃ s, c.values = [oconfig_value_t.string s] := by
  simp only [one_string_argument, Bool.and_eq_true, decide_eq_true_eq, List.all_eq_true] at h
  obtain ⟨hlen, hall⟩ := h
  match hv : c.values, hlen, hall with
  | [oconfig_value_t.string s], _, _ => exact ⟨s, rfl⟩
  | [oconfig_value_t.number _], _, hall => simp [oconfig_value_t.string?] at hall
  | [oconfig_value_t.boolean _], _, hall => simp [oconfig_value_t.string?] at hall
  | [], hlen, _ => simp at hlen
  | _ :: _ :: _, hlen, _ => simp at hlen

theorem udb_config_set_string_valid (x : Option CStr) (c : oconfig_item_t)
    (h : one_string_argument c = true) :
    (udb_config_set_string x c).1 = 0 ∧ (udb_config_set_string x c).2 ≠ none := by
  obtain ⟨s, hs⟩ := one_string_argument_values c h
  simp [udb_config_set_string, hs]

theorem udb_config_add_string_valid (arr : List CStr) (c : oconfig_item_t)
    (h : string_arguments c = true) :
    (udb_config_add_string arr c).1 = 0 ∧ (udb_config_add_string arr c).2 ≠ [] := by
  simp only [string_arguments, Bool.and_eq_true, decide_eq_true_eq, List.all_eq_true] at h
  obtain ⟨hlen, hall⟩ := h
  have hany : c.values.any (fun v => v.string?.isNone) = false := by
    rw [List.any_eq_false]
    intro v hv
    have := hall v hv
    cases hx : v.string? <;> simp_all
  have hne : c.values.filterMap oconfig_value_t.string? ≠ [] := by
    match hv : c.values, hlen, hall with
    | [], hlen, _ => simp at hlen
    | v :: vs, _, hall =>
      have := hall v (List.mem_cons_self _ _)
      cases hx : v.string? with
      | none => simp [hx] at this
      | some x => simp [List.filterMap_cons, hx]
  unfold udb_config_add_string
  rw [if_neg (by omega)]
  simp [hany, hne]

theorem version_argument_valid (x : Nat) (c : oconfig_item_t) (h : version_argument c = true) :
    (udb_config_set_uint x c).1 = 0 := by
  unfold version_argument at h
  unfold udb_config_set_uint
  split at h
  · rename_i y hy
    simp only [decide_eq_true_eq] at h
    rw [if_neg (by
      intro hcon
      rcases hcon with hcon | hcon
      · exact absurd h.1 (not_le.2 hcon)
      · exact absurd h.2 (not_le.2 hcon))]
  · cases h

theorem udb_result_create_child_valid (r : udb_result_t) (c : oconfig_item_t)
    (h : valid_result_option c = true) :
    (udb_result_create_child r c).1 = 0 ∧
    (r.type ≠ none ∨ key_is "Type" c = true → (udb_result_create_child r c).2.type ≠ none) ∧
    (r.values ≠ [] ∨ key_is "ValuesFrom" c = true →
      (udb_result_create_child r c).2.values ≠ []) := by
  simp only [valid_result_option, Bool.or_eq_true, Bool.and_eq_true] at h
  rcases h with ⟨hk | hk, hv⟩ | ⟨(hk | hk) | hk, hv⟩
  · have h1 := key_is_excl "Type" "ValuesFrom" c (by decide) hk
    have hs := udb_config_set_string_valid r.type c hv
    simp only [udb_result_create_child, strcasecmp_key, hk, if_true]
    refine ⟨hs.1, fun _ => hs.2, ?_⟩
    simp [h1]
  · have h1 := key_is_excl "InstancePrefix" "Type" c (by decide) hk
    have h2 := key_is_excl "InstancePrefix" "ValuesFrom" c (by decide) hk
    have hs := udb_config_set_string_valid r.instance_prefix c hv
    simp only [udb_result_create_child, strcasecmp_key, hk, h1, if_true]
    refine ⟨hs.1, ?_, ?_⟩ <;> simp [h1, h2]
  · have h1 := key_is_excl "InstancesFrom" "Type" c (by decide) hk
    have h2 := key_is_excl "InstancesFrom" "ValuesFrom" c (by decide) hk
    have h3 := key_is_excl "InstancesFrom" "InstancePrefix" c (by decide) hk
    have hs := udb_config_add_string_valid r.instances c hv
    simp only [udb_result_create_child, strcasecmp_key, hk, h1, h3, if_true]
    refine ⟨hs.1, ?_, ?_⟩ <;> simp [h1, h2]
  · have h1 := key_is_excl "ValuesFrom" "Type" c (by decide) hk
    have h3 := key_is_excl "ValuesFrom" "InstancePrefix" c (by decide) hk
    have h4 := key_is_excl "ValuesFrom" "InstancesFrom" c (by decide) hk
    have hs := udb_config_add_string_valid r.values c hv
    simp only [udb_result_create_child, strcasecmp_key, hk, h1, h3, h4, if_true]
    refine ⟨hs.1, ?_, fun _ => hs.2⟩
    simp [h1]
  · have h1 := key_is_excl "MetadataFrom" "Type" c (by decide) hk
    have h2 := key_is_excl "MetadataFrom" "ValuesFrom" c (by decide) hk
    have h3 := key_is_excl "MetadataFrom" "InstancePrefix" c (by decide) hk
    have h4 := key_is_excl "MetadataFrom" "InstancesFrom" c (by decide) hk
    have hs := udb_config_add_string_valid r.metadata c hv
    simp only [udb_result_create_child, strcasecmp_key, hk, h1, h2, h3, h4, if_true]
    refine ⟨hs.1, ?_, ?_⟩ <;> simp [h1, h2]

theorem udb_result_create_loop_valid (children : List oconfig_item_t) (r : udb_result_t)
    (h : ∀ c ∈ children, valid_result_option c = true) :
    (udb_result_create_loop children r).1 = 0 ∧
    (r.type ≠ none ∨ children.any (key_is "Type") = true →
      (udb_result_create_loop children r).2.type ≠ none) ∧
    (r.values ≠ [] ∨ children.any (key_is "ValuesFrom") = true →
      (udb_result_create_loop children r).2.values ≠ []) := by
  induction children generalizing r with
  | nil => simp [udb_result_create_loop]
  | cons c rest ih =>
    obtain ⟨h0, ht, hv⟩ := udb_result_create_child_valid r c (h c (List.mem_cons_self _ _))
    obtain ⟨i0, it, iv⟩ := ih (udb_result_create_child r c).2
      (fun c hc => h c (List.mem_cons_of_mem _ hc))
    simp only [udb_result_create_loop, h0, ne_eq, not_true_eq_false, if_false, List.any_cons,
      Bool.or_eq_true]
    refine ⟨i0, fun hh => it ?_, fun hh => iv ?_⟩
    · rcases hh with hh | hh | hh
      · exact Or.inl (ht (Or.inl hh))
      · exact Or.inl (ht (Or.inr hh))
      · exact Or.inr hh
    · rcases hh with hh | hh | hh
      · exact Or.inl (hv (Or.inl hh))
      · exact Or.inl (hv (Or.inr hh))
      · exact Or.inr hh

theorem udb_result_create_valid (query_name : CStr) (r_head : List udb_result_t)
    (b : oconfig_item_t) (h : valid_result_block b = true) :
    (udb_result_create query_name r_head b).1 = 0 ∧
    (udb_result_create query_name r_head b).2 ≠ [] := by
  simp only [valid_result_block, Bool.and_eq_true, List.all_eq_true] at h
  obtain ⟨⟨hall, htype⟩, hvalues⟩ := h
  obtain ⟨h0, ht, hv⟩ := udb_result_create_loop_valid b.children
    { type := none, instance_prefix := none, instances := [], values := [], metadata := [] } hall
  have ht1 := ht (Or.inr htype)
  have hv1 := hv (Or.inr hvalues)
  simp [udb_result_create, h0, ht1, hv1]

theorem udb_query_create_child_name (cb : Option udb_query_create_callback_t)
    (q : udb_query_t) (child : oconfig_item_t) :
    (udb_query_create_child cb q child).2.name = q.name := by
  unfold udb_query_create_child
  repeat' split
  all_goals rfl

theorem udb_query_create_loop_name (cb : Option udb_query_create_callback_t)
    (children : List oconfig_item_t) (q : udb_query_t) :
    (udb_query_create_loop cb children q).2.name = q.name := by
  induction children generalizing q with
  | nil => rfl
  | cons c rest ih =>
    have hc := udb_query_create_child_name cb q c
    simp only [udb_query_create_loop]
    split
    · exact hc
    · rw [ih, hc]

theorem udb_query_create_child_valid (cb : Option udb_query_create_callback_t)
    (q : udb_query_t) (c : oconfig_item_t) (h : valid_query_option c = true) :
    (udb_query_create_child cb q c).1 = 0 ∧
    (q.statement ≠ none ∨ key_is "Statement" c = true →
      (udb_query_create_child cb q c).2.statement ≠ none) ∧
    (q.results ≠ [] ∨ key_is "Result" c = true →
      (udb_query_create_child cb q c).2.results ≠ []) := by
  simp only [valid_query_option, Bool.or_eq_true, Bool.and_eq_true] at h
  rcases h with (⟨hk | hk, hv⟩ | ⟨hk, hv⟩) | ⟨hk | hk, hv⟩
  · have h1 := key_is_excl "Statement" "Result" c (by decide) hk
    have hs := udb_config_set_string_valid q.statement c hv
    simp only [udb_query_create_child, strcasecmp_key, hk, if_true]
    refine ⟨hs.1, fun _ => hs.2, ?_⟩
    simp [h1]
  · have h1 := key_is_excl "PluginInstanceFrom" "Statement" c (by decide) hk
    have h2 := key_is_excl "PluginInstanceFrom" "Result" c (by decide) hk
    have h3 := key_is_excl "PluginInstanceFrom" "MinVersion" c (by decide) hk
    have h4 := key_is_excl "PluginInstanceFrom" "MaxVersion" c (by decide) hk
    have hs := udb_config_set_string_valid q.plugin_instance_from c hv
    simp only [udb_query_create_child, strcasecmp_key, hk, h1, h2, h3, h4, if_true]
    refine ⟨hs.1, ?_, ?_⟩ <;> simp [h1, h2]
  · have h1 := key_is_excl "Result" "Statement" c (by decide) hk
    have hs := udb_result_create_valid q.name q.results c hv
    simp only [udb_query_create_child, strcasecmp_key, hk, h1, if_true]
    refine ⟨hs.1, ?_, fun _ => hs.2⟩
    simp [h1]
  · have h1 := key_is_excl "MinVersion" "Statement" c (by decide) hk
    have h2 := key_is_excl "MinVersion" "Result" c (by decide) hk
    have hs := version_argument_valid q.min_version c hv
    simp only [udb_query_create_child, strcasecmp_key, hk, h1, h2, if_true]
    refine ⟨hs, ?_, ?_⟩ <;> simp [h1, h2]
  · have h1 := key_is_excl "MaxVersion" "Statement" c (by decide) hk
    have h2 := key_is_excl "MaxVersion" "Result" c (by decide) hk
    have h3 := key_is_excl "MaxVersion" "MinVersion" c (by decide) hk
    have hs := version_argument_valid q.max_version c hv
    simp only [udb_query_create_child, strcasecmp_key, hk, h1, h2, h3, if_true]
    refine ⟨hs, ?_, ?_⟩ <;> simp [h1, h2]

theorem udb_query_create_loop_valid (cb : Option udb_query_create_callback_t)
    (children : List oconfig_item_t) (q : udb_query_t)
    (h : ∀ c ∈ children, valid_query_option c = true) :
    (udb_query_create_loop cb children q).1 = 0 ∧
    (q.statement ≠ none ∨ children.any (key_is "Statement") = true →
      (udb_query_create_loop cb children q).2.statement ≠ none) ∧
    (q.results ≠ [] ∨ children.any (key_is "Result") = true →
      (udb_query_create_loop cb children q).2.results ≠ []) := by
  induction children generalizing q with
  | nil => simp [udb_query_create_loop]
  | cons c rest ih =>
    obtain ⟨h0, ht, hv⟩ := udb_query_create_child_valid cb q c (h c (List.mem_cons_self _ _))
    obtain ⟨i0, it, iv⟩ := ih (udb_query_create_child cb q c).2
      (fun c hc => h c (List.mem_cons_of_mem _ hc))
    simp only [udb_query_create_loop, h0, ne_eq, not_true_eq_false, if_false, List.any_cons,
      Bool.or_eq_true]
    refine ⟨i0, fun hh => it ?_, fun hh => iv ?_⟩
    · rcases hh with hh | hh | hh
      · exact Or.inl (ht (Or.inl hh))
      · exact Or.inl (ht (Or.inr hh))
      · exact Or.inr hh
    · rcases hh with hh | hh | hh
      · exact Or.inl (hv (Or.inl hh))
      · exact Or.inl (hv (Or.inr hh))
      · exact Or.inr hh

/-! ### Column resolution -/

theorem find_column_le (name : CStr) (cols : List CStr) : find_column name cols ≤ cols.length := by
  induction cols with
  | nil => simp [find_column]
  | cons c cs ih =>
    simp only [find_column, List.length_cons]
    split <;> omega

theorem find_column_lt_iff (name : CStr) (cols : List CStr) :
    find_column name cols < cols.length ↔ column_exists cols name := by
  unfold column_exists
  induction cols with
  | nil => simp [find_column]
  | cons c cs ih =>
    simp only [find_column, List.length_cons, List.mem_cons, exists_eq_or_imp]
    by_cases h : strcasecmp name c = 0
    · simp [h, (strcasecmp_eq_zero_iff name c).1 h]
    · have h2 : ¬ eq_ignoring_case name c := fun h3 => h ((strcasecmp_eq_zero_iff name c).2 h3)
      simp only [h, if_false, h2, false_or, ← ih]
      omega

theorem find_column_get (name : CStr) (cols : List CStr)
    (h : find_column name cols < cols.length) :
    ∃ c, cols[find_column name cols]? = some c ∧ eq_ignoring_case name c := by
  induction cols with
  | nil => simp [find_column] at h
  | cons c cs ih =>
    simp only [find_column, List.length_cons] at h ⊢
    by_cases hc : strcasecmp name c = 0
    · simp [hc, (strcasecmp_eq_zero_iff name c).1 hc]
    · simp only [hc, if_false] at h ⊢
      simpa using ih (by omega)

theorem find_column_position (name : CStr) (cols : List CStr) (h : column_exists cols name) :
    position_resolves cols name (find_column name cols) :=
  ⟨(find_column_lt_iff name cols).2 h,
   find_column_get name cols ((find_column_lt_iff name cols).2 h)⟩

theorem resolve_loop_eq_none_iff (cols : List CStr) (names : List CStr) (i : Nat)
    (pos : Option (List Nat)) :
    resolve_loop cols names i pos = none ↔ ¬ ∀ name ∈ names, column_exists cols name := by
  induction names generalizing i pos with
  | nil => simp [resolve_loop]
  | cons n rest ih =>
    simp only [resolve_loop, List.mem_cons, forall_eq_or_imp, ← find_column_lt_iff]
    by_cases h : find_column n cols < cols.length
    · rw [if_neg (by omega), ih]
      simp [h, find_column_lt_iff]
    · rw [if_pos (by omega)]
      simp [h]

theorem resolve_loop_some (cols : List CStr) (names : List CStr) (pre : List Nat)
    (h : ∀ name ∈ names, column_exists cols name) :
    resolve_loop cols names pre.length (some (pre ++ List.replicate names.length 0)) =
      some (some (pre ++ names.map (fun name => find_column name cols))) := by
  induction names generalizing pre with
  | nil => simp [resolve_loop]
  | cons n rest ih =>
    have hn := (find_column_lt_iff n cols).2 (h n (List.mem_cons_self _ _))
    simp only [resolve_loop, List.length_cons, List.replicate_succ, Option.map_some']
    rw [if_neg (by omega)]
    have hset : (pre ++ 0 :: List.replicate rest.length 0).set pre.length (find_column n cols) =
        (pre ++ [find_column n cols]) ++ List.replicate rest.length 0 := by
      simp [List.set_append]
    rw [hset]
    have := ih (pre ++ [find_column n cols]) (fun name hname => h name (List.mem_cons_of_mem _ hname))
    simp only [List.length_append, List.length_singleton] at this
    rw [this]
    simp

theorem resolve_loop_null (cols : List CStr) (names : List CStr) (i : Nat)
    (h : ∀ name ∈ names, column_exists cols name) :
    resolve_loop cols names i none = some none := by
  induction names generalizing i with
  | nil => simp [resolve_loop]
  | cons n rest ih =>
    have hn := (find_column_lt_iff n cols).2 (h n (List.mem_cons_self _ _))
    simp only [resolve_loop, Option.map_none']
    rw [if_neg (by omega)]
    exact ih _ (fun name hname => h name (List.mem_cons_of_mem _ hname))

/-! ### Preparation of one result -/

theorem udb_result_prepare_result_unknown (pgd : Option CStr → Option data_set_t)
    (r : udb_result_t) (a : udb_result_preparation_area_t) (cols : List CStr)
    (h : pgd r.type = none) :
    udb_result_prepare_result pgd r a cols = (-1, udb_result_finish_result r a) := by
  simp [udb_result_prepare_result, h, BAIL_OUT, udb_result_finish_result]

theorem udb_result_prepare_result_mismatch (pgd : Option CStr → Option data_set_t)
    (r : udb_result_t) (a : udb_result_preparation_area_t) (cols : List CStr)
    (ds : data_set_t) (h : pgd r.type = some ds) (hlen : ds.ds.length ≠ r.values.length) :
    udb_result_prepare_result pgd r a cols = (-1, udb_result_finish_result r a) := by
  simp [udb_result_prepare_result, h, hlen, BAIL_OUT, udb_result_finish_result]

theorem udb_result_prepare_result_not_found (pgd : Option CStr → Option data_set_t)
    (r : udb_result_t) (a : udb_result_preparation_area_t) (cols : List CStr)
    (ds : data_set_t) (h : pgd r.type = some ds) (hlen : ds.ds.length = r.values.length)
    (hnames : ¬ ((∀ name ∈ r.instances, column_exists cols name) ∧
      (∀ name ∈ r.values, column_exists cols name) ∧
      (∀ name ∈ r.metadata, column_exists cols name))) :
    udb_result_prepare_result pgd r a cols = (-ENOENT, udb_result_finish_result r a) := by
  simp only [udb_result_prepare_result, h, hlen, ne_eq, not_true_eq_false, if_false]
  by_cases hi : ∀ name ∈ r.instances, column_exists cols name
  · have hi1 : ∀ p, resolve_loop cols r.instances 0 p ≠ none := fun p hp =>
      (resolve_loop_eq_none_iff cols r.instances 0 p).1 hp hi
    by_cases hv : ∀ name ∈ r.values, column_exists cols name
    · have hv1 : ∀ p, resolve_loop cols r.values 0 p ≠ none := fun p hp =>
        (resolve_loop_eq_none_iff cols r.values 0 p).1 hp hv
      have hm : ¬ ∀ name ∈ r.metadata, column_exists cols name := fun hm => hnames ⟨hi, hv, hm⟩
      have hm1 : ∀ p, resolve_loop cols r.metadata 0 p = none := fun p =>
        (resolve_loop_eq_none_iff cols r.metadata 0 p).2 hm
      split
      · rename_i heq; exact absurd heq (hi1 _)
      · split
        · rename_i heq; exact absurd heq (hv1 _)
        · split
          · split <;> simp [BAIL_OUT, udb_result_finish_result]
          · rename_i heq; rw [hm1] at heq; cases heq
    · have hv1 : ∀ p, resolve_loop cols r.values 0 p = none := fun p =>
        (resolve_loop_eq_none_iff cols r.values 0 p).2 hv
      split
      · rename_i heq; exact absurd heq (hi1 _)
      · split
        · split <;> simp [BAIL_OUT, udb_result_finish_result]
        · rename_i heq; rw [hv1] at heq; cases heq
  · have hi1 : ∀ p, resolve_loop cols r.instances 0 p = none := fun p =>
      (resolve_loop_eq_none_iff cols r.instances 0 p).2 hi
    split
    · split <;> simp [BAIL_OUT, udb_result_finish_result]
    · rename_i heq; rw [hi1] at heq; cases heq

theorem udb_result_prepare_result_ok (pgd : Option CStr → Option data_set_t)
    (r : udb_result_t) (a : udb_result_preparation_area_t) (cols : List CStr)
    (h : result_resolves pgd cols r) :
    udb_result_prepare_result pgd r a cols =
      (0, prepared_result_area pgd cols r a.plugin_instance) := by
  obtain ⟨hds, hi, hv, hm⟩ := h
  cases hpgd : pgd r.type with
  | none => simp [hpgd] at hds
  | some ds =>
    simp only [hpgd, Option.map_some', Option.some.injEq] at hds
    have hv1 := resolve_loop_some cols r.values [] hv
    have hm1 := resolve_loop_some cols r.metadata [] hm
    simp only [List.length_nil, List.nil_append] at hv1 hm1
    simp only [udb_result_prepare_result, hpgd, hds, ne_eq, not_true_eq_false, if_false,
      prepared_result_area]
    by_cases hlen : r.instances.length > 0
    · have hi1 := resolve_loop_some cols r.instances [] hi
      simp only [List.length_nil, List.nil_append] at hi1
      simp [hlen, hi1, hv1, hm1, udb_result_finish_result]
    · have hi1 := resolve_loop_null cols r.instances 0 hi
      simp [hlen, hi1, hv1, hm1, udb_result_finish_result]

theorem udb_result_prepare_result_fail (pgd : Option CStr → Option data_set_t)
    (r : udb_result_t) (a : udb_result_preparation_area_t) (cols : List CStr)
    (h : ¬ result_resolves pgd cols r) :
    (udb_result_prepare_result pgd r a cols).1 ≠ 0 ∧
    (udb_result_prepare_result pgd r a cols).2 = udb_result_finish_result r a := by
  cases hpgd : pgd r.type with
  | none => rw [udb_result_prepare_result_unknown pgd r a cols hpgd]; simp
  | some ds =>
    by_cases hlen : ds.ds.length = r.values.length
    · rw [udb_result_prepare_result_not_found pgd r a cols ds hpgd hlen
        (fun hn => h ⟨by simp [hpgd, hlen], hn⟩)]
      simp [ENOENT]
    · rw [udb_result_prepare_result_mismatch pgd r a cols ds hpgd hlen]; simp

theorem udb_result_prepare_result_status_indep (pgd : Option CStr → Option data_set_t)
    (r : udb_result_t) (a b : udb_result_preparation_area_t) (cols : List CStr) :
    (udb_result_prepare_result pgd r a cols).1 = (udb_result_prepare_result pgd r b cols).1 := by
  by_cases h : result_resolves pgd cols r
  · rw [udb_result_prepare_result_ok pgd r a cols h, udb_result_prepare_result_ok pgd r b cols h]
  · cases hpgd : pgd r.type with
    | none =>
      rw [udb_result_prepare_result_unknown pgd r a cols hpgd,
        udb_result_prepare_result_unknown pgd r b cols hpgd]
    | some ds =>
      by_cases hlen : ds.ds.length = r.values.length
      · have hn : ¬ ((∀ name ∈ r.instances, column_exists cols name) ∧
            (∀ name ∈ r.values, column_exists cols name) ∧
            (∀ name ∈ r.metadata, column_exists cols name)) :=
          fun hn => h ⟨by simp [hpgd, hlen], hn⟩
        rw [udb_result_prepare_result_not_found pgd r a cols ds hpgd hlen hn,
          udb_result_prepare_result_not_found pgd r b cols ds hpgd hlen hn]
      · rw [udb_result_prepare_result_mismatch pgd r a cols ds hpgd hlen,
          udb_result_prepare_result_mismatch pgd r b cols ds hpgd hlen]

/-! ### The loops over the results -/

theorem udb_query_finish_result_loop_length (rs : List udb_result_t)
    (areas : List udb_result_preparation_area_t) :
    (udb_query_finish_result_loop rs areas).length = areas.length := by
  induction rs generalizing areas with
  | nil => rfl
  | cons r rs ih =>
    cases areas with
    | nil => rfl
    | cons a areas => simp [udb_query_finish_result_loop, ih]

theorem udb_query_finish_result_loop_fresh (rs : List udb_result_t)
    (areas : List udb_result_preparation_area_t) (h : areas.length = rs.length) :
    (udb_query_finish_result_loop rs areas).map (fun s => { s with plugin_instance := none }) =
      (udb_query_allocate_preparation_area
        { name := [], statement := none, user_data := 0, plugin_instance_from := none,
          min_version := 0, max_version := 0, results := rs }).result_prep_areas := by
  induction rs generalizing areas with
  | nil =>
    cases areas with
    | nil => rfl
    | cons a areas => simp at h
  | cons r rs ih =>
    cases areas with
    | nil => simp at h
    | cons a areas =>
      have := ih areas (by simpa using h)
      simp only [udb_query_allocate_preparation_area, List.map_cons] at this ⊢
      simp [udb_query_finish_result_loop, udb_result_finish_result, this]

theorem udb_query_prepare_result_loop_length (pgd : Option CStr → Option data_set_t)
    (cols : List CStr) (rs : List udb_result_t) (areas : List udb_result_preparation_area_t) :
    (udb_query_prepare_result_loop pgd cols rs areas).2.length = areas.length := by
  induction rs generalizing areas with
  | nil => rfl
  | cons r rs ih =>
    cases areas with
    | nil => rfl
    | cons a areas =>
      simp only [udb_query_prepare_result_loop]
      split
      · rfl
      · simp [ih]

theorem udb_query_prepare_result_loop_ok (pgd : Option CStr → Option data_set_t)
    (cols : List CStr) (rs : List udb_result_t) (areas : List udb_result_preparation_area_t)
    (hlen : rs.length ≤ areas.length) (h : ∀ r ∈ rs, result_resolves pgd cols r) :
    udb_query_prepare_result_loop pgd cols rs areas =
      (0, List.zipWith (fun r a => prepared_result_area pgd cols r
        (udb_result_preparation_area_t.plugin_instance a)) rs areas ++ areas.drop rs.length) := by
  induction rs generalizing areas with
  | nil => simp [udb_query_prepare_result_loop]
  | cons r rs ih =>
    cases areas with
    | nil => simp at hlen
    | cons a areas =>
      have hr := udb_result_prepare_result_ok pgd r a cols (h r (List.mem_cons_self _ _))
      have := ih areas (by simpa using hlen) (fun r hr => h r (List.mem_cons_of_mem _ hr))
      simp [udb_query_prepare_result_loop, hr, this]

theorem udb_query_prepare_result_loop_first_failure (pgd : Option CStr → Option data_set_t)
    (cols : List CStr) (pre : List udb_result_t) (r : udb_result_t) (post : List udb_result_t)
    (areas : List udb_result_preparation_area_t) (s : udb_result_preparation_area_t)
    (hlen : pre.length < areas.length) (hpre : ∀ r1 ∈ pre, result_resolves pgd cols r1)
    (hr : ¬ result_resolves pgd cols r) :
    (udb_query_prepare_result_loop pgd cols (pre ++ r :: post) areas).1 =
      (udb_result_prepare_result pgd r s cols).1 := by
  induction pre generalizing areas with
  | nil =>
    cases areas with
    | nil => simp at hlen
    | cons a areas =>
      have hf := (udb_result_prepare_result_fail pgd r a cols hr).1
      simp only [List.nil_append, udb_query_prepare_result_loop, ne_eq, hf, not_false_eq_true,
        if_true]
      exact udb_result_prepare_result_status_indep pgd r a s cols
  | cons r1 pre ih =>
    cases areas with
    | nil => simp at hlen
    | cons a areas =>
      have h1 := udb_result_prepare_result_ok pgd r1 a cols (hpre r1 (List.mem_cons_self _ _))
      have := ih areas (by simpa using hlen) (fun r hr => hpre r (List.mem_cons_of_mem _ hr))
      simp [udb_query_prepare_result_loop, h1, this]

theorem udb_query_prepare_result_loop_status (pgd : Option CStr → Option data_set_t)
    (cols : List CStr) (rs : List udb_result_t) (areas : List udb_result_preparation_area_t) :
    (udb_query_prepare_result_loop pgd cols rs areas).1 = 0 ↔
      rs.length ≤ areas.length ∧ ∀ r ∈ rs, result_resolves pgd cols r := by
  induction rs generalizing areas with
  | nil => simp [udb_query_prepare_result_loop]
  | cons r rs ih =>
    cases areas with
    | nil => simp [udb_query_prepare_result_loop, EINVAL]
    | cons a areas =>
      by_cases hr : result_resolves pgd cols r
      · have h1 := udb_result_prepare_result_ok pgd r a cols hr
        simp [udb_query_prepare_result_loop, h1, ih, hr]
      · have hf := (udb_result_prepare_result_fail pgd r a cols hr).1
        simp [udb_query_prepare_result_loop, hf, hr]

/-! ### Preparation of a query -/

theorem result_resolves_iff (pgd : Option CStr → Option data_set_t) (cols : List CStr)
    (r : udb_result_t) :
    result_resolves pgd cols r ↔
      (pgd r.type ≠ none ∧
       (∀ ds, pgd r.type = some ds → r.values.length = ds.ds.length) ∧
       (∀ name ∈ r.instances, column_exists cols name) ∧
       (∀ name ∈ r.values, column_exists cols name) ∧
       (∀ name ∈ r.metadata, column_exists cols name)) := by
  unfold result_resolves
  cases hpgd : pgd r.type with
  | none => simp
  | some ds =>
    simp only [Option.map_some', Option.some.injEq, ne_eq, reduceCtorEq, not_false_eq_true,
      true_and, forall_eq']
    constructor
    · rintro ⟨h1, h2⟩; exact ⟨h1.symm, h2⟩
    · rintro ⟨h1, h2⟩; exact ⟨h1.symm, h2⟩

theorem udb_query_prepare_results_status (pgd : Option CStr → Option data_set_t)
    (q : udb_query_t) (x : udb_query_preparation_area_t) (cols : List CStr) :
    (udb_query_prepare_results pgd q x cols).1 =
      (udb_query_prepare_result_loop pgd cols q.results x.result_prep_areas).1 := by
  unfold udb_query_prepare_results
  by_cases h : (udb_query_prepare_result_loop pgd cols q.results x.result_prep_areas).1 = 0
  · simp [h]
  · simp [h]

theorem udb_query_prepare_results_ok (pgd : Option CStr → Option data_set_t)
    (q : udb_query_t) (x : udb_query_preparation_area_t) (cols : List CStr)
    (h : (udb_query_prepare_result_loop pgd cols q.results x.result_prep_areas).1 = 0) :
    udb_query_prepare_results pgd q x cols =
      (0, { x with result_prep_areas :=
        (udb_query_prepare_result_loop pgd cols q.results x.result_prep_areas).2 }) := by
  unfold udb_query_prepare_results
  simp [h]

theorem udb_query_prepare_results_fail (pgd : Option CStr → Option data_set_t)
    (q : udb_query_t) (x : udb_query_preparation_area_t) (cols : List CStr)
    (h : (udb_query_prepare_result_loop pgd cols q.results x.result_prep_areas).1 ≠ 0) :
    (udb_query_prepare_results pgd q x cols).2 =
      udb_query_finish_result q { x with result_prep_areas :=
        (udb_query_prepare_result_loop pgd cols q.results x.result_prep_areas).2 } := by
  unfold udb_query_prepare_results
  simp [h]

/-- The status of `udb_query_prepare_result` is zero exactly when the `PluginInstanceFrom`
column exists, the chain of result preparation areas is long enough and every result
resolves. -/
theorem udb_query_prepare_result_status (pgd : Option CStr → Option data_set_t)
    (q : udb_query_t) (a : udb_query_preparation_area_t) (host plugin db_name : CStr)
    (cols : List CStr) (interval : Nat) :
    (udb_query_prepare_result pgd q a host plugin db_name cols interval).1 = 0 ↔
      (∀ pif, q.plugin_instance_from = some pif → column_exists cols pif) ∧
      q.results.length ≤ a.result_prep_areas.length ∧
      ∀ r ∈ q.results, result_resolves pgd cols r := by
  unfold udb_query_prepare_result
  cases hpif : q.plugin_instance_from with
  | none =>
    simp only [udb_query_prepare_results_status, udb_query_prepare_result_loop_status,
      udb_query_finish_result, udb_query_finish_result_loop_length]
    simp
  | some pif =>
    simp only [Option.some.injEq, forall_eq']
    by_cases hfound : find_column pif cols < cols.length
    · rw [if_neg (by omega)]
      simp only [udb_query_prepare_results_status, udb_query_prepare_result_loop_status,
        udb_query_finish_result, udb_query_finish_result_loop_length]
      simp [(find_column_lt_iff pif cols).1 hfound]
    · rw [if_pos (by omega)]
      have : ¬ column_exists cols pif := fun h => hfound ((find_column_lt_iff pif cols).2 h)
      simp [this, ENOENT]

/-- After a failed `udb_query_prepare_result` the area is the result of
`udb_query_finish_result` on an area with the same number of result preparation areas. -/
theorem udb_query_prepare_result_fail (pgd : Option CStr → Option data_set_t)
    (q : udb_query_t) (a : udb_query_preparation_area_t) (host plugin db_name : CStr)
    (cols : List CStr) (interval : Nat)
    (h : (udb_query_prepare_result pgd q a host plugin db_name cols interval).1 ≠ 0) :
    ∃ x : udb_query_preparation_area_t,
      (udb_query_prepare_result pgd q a host plugin db_name cols interval).2 =
        udb_query_finish_result q x ∧
      x.result_prep_areas.length = a.result_prep_areas.length := by
  unfold udb_query_prepare_result at h ⊢
  cases hpif : q.plugin_instance_from with
  | none =>
    simp only [hpif] at h
    rw [udb_query_prepare_results_status] at h
    simp only
    rw [udb_query_prepare_results_fail _ _ _ _ h]
    exact ⟨_, rfl, by
      simp [udb_query_prepare_result_loop_length, udb_query_finish_result,
        udb_query_finish_result_loop_length]⟩
  | some pif =>
    simp only [hpif] at h
    simp only
    by_cases hfound : find_column pif cols < cols.length
    · rw [if_neg (by omega)] at h ⊢
      rw [udb_query_prepare_results_status] at h
      rw [udb_query_prepare_results_fail _ _ _ _ h]
      exact ⟨_, rfl, by
        simp [udb_query_prepare_result_loop_length, udb_query_finish_result,
          udb_query_finish_result_loop_length]⟩
    · rw [if_pos (by omega)]
      exact ⟨_, rfl, by simp [udb_query_finish_result, udb_query_finish_result_loop_length]⟩

theorem udb_query_prepare_result_first_failure (pgd : Option CStr → Option data_set_t)
    (q : udb_query_t) (a : udb_query_preparation_area_t) (host plugin db_name : CStr)
    (cols : List CStr) (interval : Nat) (pre : List udb_result_t) (r : udb_result_t)
    (post : List udb_result_t) (s : udb_result_preparation_area_t)
    (hq : q.results = pre ++ r :: post)
    (hpif : ∀ pif, q.plugin_instance_from = some pif → column_exists cols pif)
    (hpre : ∀ r1 ∈ pre, result_resolves pgd cols r1)
    (hlen : pre.length < a.result_prep_areas.length)
    (hr : ¬ result_resolves pgd cols r) :
    (udb_query_prepare_result pgd q a host plugin db_name cols interval).1 =
      (udb_result_prepare_result pgd r s cols).1 := by
  unfold udb_query_prepare_result
  cases hp : q.plugin_instance_from with
  | none =>
    simp only [udb_query_prepare_results_status, hq]
    exact udb_query_prepare_result_loop_first_failure pgd cols pre r post _ s
      (by simpa [udb_query_finish_result, udb_query_finish_result_loop_length] using hlen)
      hpre hr
  | some pif =>
    have hfound := (find_column_lt_iff pif cols).2 (hpif pif hp)
    simp only
    rw [if_neg (by omega)]
    simp only [udb_query_prepare_results_status, hq]
    exact udb_query_prepare_result_loop_first_failure pgd cols pre r post _ s
      (by simpa [udb_query_finish_result, udb_query_finish_result_loop_length] using hlen)
      hpre hr

theorem udb_query_handle_result_finished (api : plugin_api) (q : udb_query_t)
    (x : udb_query_preparation_area_t) (row : List CStr) :
    udb_query_handle_result api q (udb_query_finish_result q x) row =
      some (-EINVAL, udb_query_finish_result q x, []) := by
  simp [udb_query_handle_result, udb_query_finish_result]

theorem udb_query_allocate_preparation_area_length (q : udb_query_t) :
    (udb_query_allocate_preparation_area q).result_prep_areas.length = q.results.length := by
  simp [udb_query_allocate_preparation_area]

/-- The area after a successful `udb_query_prepare_result`. -/
theorem udb_query_prepare_result_ok (pgd : Option CStr → Option data_set_t)
    (q : udb_query_t) (a : udb_query_preparation_area_t) (host plugin db_name : CStr)
    (cols : List CStr) (interval : Nat)
    (h : (udb_query_prepare_result pgd q a host plugin db_name cols interval).1 = 0) :
    udb_query_prepare_result pgd q a host plugin db_name cols interval =
      (0, { column_num := cols.length,
            plugin_instance_pos :=
              match q.plugin_instance_from with
              | some pif => find_column pif cols
              | none => a.plugin_instance_pos,
            host := some host, plugin := some plugin, db_name := some db_name,
            interval := interval,
            result_prep_areas :=
              List.zipWith (fun r s => prepared_result_area pgd cols r
                (udb_result_preparation_area_t.plugin_instance s)) q.results
                (udb_query_finish_result_loop q.results a.result_prep_areas) ++
              (udb_query_finish_result_loop q.results a.result_prep_areas).drop
                q.results.length }) := by
  obtain ⟨hpif, hlen, hall⟩ := (udb_query_prepare_result_status _ _ _ _ _ _ _ _).1 h
  have hloop := udb_query_prepare_result_loop_ok pgd cols q.results
    (udb_query_finish_result_loop q.results a.result_prep_areas)
    (by rw [udb_query_finish_result_loop_length]; exact hlen) hall
  unfold udb_query_prepare_result
  cases hp : q.plugin_instance_from with
  | none =>
    simp only
    rw [udb_query_prepare_results_ok]
    · simp [udb_query_finish_result, hloop]
    · simp [udb_query_finish_result, hloop]
  | some pif =>
    have hfound := (find_column_lt_iff pif cols).2 (hpif pif hp)
    simp only
    rw [if_neg (by omega), udb_query_prepare_results_ok]
    · simp [udb_query_finish_result, hloop]
    · simp [udb_query_finish_result, hloop]

theorem forall₂_find_column (cols : List CStr) (names : List CStr)
    (h : ∀ name ∈ names, column_exists cols name) :
    List.Forall₂ (position_resolves cols) names
      (names.map (fun name => find_column name cols)) := by
  induction names with
  | nil => exact List.Forall₂.nil
  | cons n rest ih =>
    exact List.Forall₂.cons (find_column_position n cols (h n (List.mem_cons_self _ _)))
      (ih (fun name hname => h name (List.mem_cons_of_mem _ hname)))

theorem zipWith_prepared_get (pgd : Option CStr → Option data_set_t) (cols : List CStr)
    (rs : List udb_result_t) (areas rest : List udb_result_preparation_area_t) (i : Nat)
    (r : udb_result_t) (hlen : rs.length ≤ areas.length) (hr : rs[i]? = some r) :
    ∃ pi, (List.zipWith (fun r s => prepared_result_area pgd cols r
        (udb_result_preparation_area_t.plugin_instance s)) rs areas ++ rest)[i]? =
      some (prepared_result_area pgd cols r pi) := by
  induction rs generalizing areas i with
  | nil => simp at hr
  | cons r1 rs ih =>
    cases areas with
    | nil => simp at hlen
    | cons a areas =>
      cases i with
      | zero =>
        simp only [List.getElem?_cons_zero, Option.some.injEq] at hr
        exact ⟨a.plugin_instance, by simp [hr]⟩
      | succ i =>
        simp only [List.getElem?_cons_succ] at hr
        obtain ⟨pi, hpi⟩ := ih areas i (by simpa using hlen) hr
        exact ⟨pi, by simpa using hpi⟩

/-! ### Finishing -/

theorem udb_query_finish_result_loop_idem (rs : List udb_result_t)
    (areas : List udb_result_preparation_area_t) :
    udb_query_finish_result_loop rs (udb_query_finish_result_loop rs areas) =
      udb_query_finish_result_loop rs areas := by
  induction rs generalizing areas with
  | nil => rfl
  | cons r rs ih =>
    cases areas with
    | nil => rfl
    | cons a areas => simp [udb_query_finish_result_loop, udb_result_finish_result, ih]

theorem udb_query_finish_result_loop_cleared (rs : List udb_result_t)
    (areas : List udb_result_preparation_area_t) (h : areas.length ≤ rs.length) :
    ∀ s ∈ udb_query_finish_result_loop rs areas,
      s.ds = none ∧ s.instances_pos = none ∧ s.values_pos = none ∧ s.metadata_pos = none ∧
      s.instances_buffer = none ∧ s.values_buffer = none ∧ s.metadata_buffer = none := by
  induction rs generalizing areas with
  | nil =>
    cases areas with
    | nil => simp [udb_query_finish_result_loop]
    | cons a areas => simp at h
  | cons r rs ih =>
    cases areas with
    | nil => simp [udb_query_finish_result_loop]
    | cons a areas =>
      intro s hs
      simp only [udb_query_finish_result_loop, List.mem_cons] at hs
      rcases hs with hs | hs
      · subst hs
        simp [udb_result_finish_result]
      · exact ih areas (by simpa using h) s hs

theorem udb_query_finish_result_loop_const (rs : List udb_result_t)
    (z : udb_result_preparation_area_t) (hz : ∀ r, udb_result_finish_result r z = z) :
    udb_query_finish_result_loop rs (rs.map (fun _ => z)) = rs.map (fun _ => z) := by
  induction rs with
  | nil => rfl
  | cons r rs ih => simp only [List.map_cons, udb_query_finish_result_loop, hz, ih]

/-! ### Row handling -/

theorem mapM_id_some {α : Type} (vs : List α) : (vs.map some).mapM id = some vs := by
  induction vs with
  | nil => rfl
  | cons v vs ih =>
    rw [List.map_cons, List.mapM_cons, ih]
    rfl

theorem columns_at_eq_map_some (row : List CStr) (ps : List Nat)
    (h : ∀ p ∈ ps, p < row.length) :
    columns_at row (some ps) = (row_strings row (some ps)).map some := by
  simp only [columns_at, row_strings, Option.getD_some]
  induction ps with
  | nil => simp
  | cons p ps ih =>
    have hp := h p (List.mem_cons_self _ _)
    have := ih (fun p hp => h p (List.mem_cons_of_mem _ hp))
    simp [this, List.getElem?_eq_getElem hp]

theorem copy_columns_append (row : List CStr) (pd pt : List Nat)
    (done todo : List (Option CStr)) (hd : done.length = pd.length)
    (ht : todo.length = pt.length) (h : ∀ p ∈ pt, p < row.length) :
    copy_columns row (some (pd ++ pt)) pt.length pd.length (some (done ++ todo)) =
      some (some (done ++ pt.map (fun p => row[p]?))) := by
  induction pt generalizing pd done todo with
  | nil =>
    have : todo = [] := List.eq_nil_of_length_eq_zero (by simpa using ht)
    simp [copy_columns, this]
  | cons p pt ih =>
    cases todo with
    | nil => simp at ht
    | cons t todo =>
      have hp := h p (List.mem_cons_self _ _)
      have hget : (pd ++ p :: pt)[pd.length]? = some p := by
        rw [List.getElem?_append_right (le_refl _)]; simp
      have hrow : row[p]? = some row[p] := List.getElem?_eq_getElem hp
      simp only [List.length_cons, copy_columns, hget, hrow]
      rw [if_pos (by simp [hd])]
      have hset : (done ++ t :: todo).set pd.length (some row[p]) =
          (done ++ [some row[p]]) ++ todo := by
        rw [← hd]; simp [List.set_append]
      rw [hset, List.append_assoc, List.singleton_append]
      have := ih (pd ++ [p]) (done ++ [some row[p]]) todo (by simp [hd])
        (by simpa using ht) (fun p hp => h p (List.mem_cons_of_mem _ hp))
      simp only [List.length_append, List.length_singleton, List.append_assoc,
        List.singleton_append] at this
      rw [this]
      simp [hrow]

theorem copy_columns_prepared (row : List CStr) (num : Nat) (pos : Option (List Nat))
    (buffer : Option (List (Option CStr))) (n : Nat)
    (h : positions_prepared num pos buffer n) (hrow : n ≤ row.length) :
    copy_columns row pos num 0 buffer =
      some (if num = 0 then buffer else some (columns_at row pos)) := by
  rcases h with h | ⟨hp, hb, hlt⟩
  · subst h; simp [copy_columns]
  · cases pos with
    | none => simp at hp
    | some ps =>
      cases buffer with
      | none => simp at hb
      | some buf =>
        simp only [Option.map_some', Option.some.injEq, Option.getD_some] at hp hb hlt
        by_cases h0 : num = 0
        · subst h0; simp [copy_columns]
        · have := copy_columns_append row [] ps [] buf rfl (by omega)
            (fun p hp => lt_of_lt_of_le (hlt p hp) hrow)
          simp only [List.nil_append, List.length_nil, hp] at this
          simp [this, h0, columns_at]

theorem parse_values_append (api : plugin_api) (ds : data_set_t)
    (bd bt : List (Option CStr)) (kd kt : List Nat) (acc : List value_t)
    (hds : ds.ds = kd ++ kt) (hd : bd.length = kd.length) (ht : bt.length = kt.length) :
    parse_values api ds (some (bd ++ bt)) bt.length bd.length acc =
      some ((parse_all api bt kt).map (fun xs => acc ++ xs)) := by
  induction bt generalizing bd kd kt acc with
  | nil => simp [parse_values, parse_all]
  | cons b bt ih =>
    cases kt with
    | nil => simp at ht
    | cons k kt =>
      have hb : (bd ++ b :: bt)[bd.length]? = some b := by
        rw [List.getElem?_append_right (le_refl _)]; simp
      have hk : ds.ds[bd.length]? = some k := by
        rw [hds, hd, List.getElem?_append_right (le_refl _)]; simp
      simp only [List.length_cons, parse_values, hb, hk, parse_all]
      cases hp : api.parse_value b k with
      | none => simp
      | some x =>
        have := ih (bd ++ [b]) (kd ++ [k]) kt (acc ++ [x]) (by simp [hds]) (by simp [hd])
          (by simpa using ht)
        simp only [List.length_append, List.length_singleton, List.append_assoc,
          List.singleton_append] at this
        simp only [this]
        cases parse_all api bt kt <;> simp

theorem parse_values_eq (api : plugin_api) (ds : data_set_t) (buf : List (Option CStr))
    (h : buf.length = ds.ds.length) :
    parse_values api ds (some buf) buf.length 0 [] = some (parse_all api buf ds.ds) := by
  have := parse_values_append api ds [] buf [] ds.ds [] rfl rfl h
  simp only [List.nil_append, List.length_nil] at this
  rw [this]
  cases parse_all api buf ds.ds <;> simp

theorem add_metadata_append (api : plugin_api) (bd bt : List (Option CStr))
    (keys : List CStr) (md : List (CStr × CStr)) (ht : bt.length = keys.length) :
    add_metadata api (some (bd ++ bt)) keys bd.length md =
      some (attach_all api (List.zip keys bt) md) := by
  induction keys generalizing bd bt md with
  | nil => simp [add_metadata, attach_all]
  | cons key keys ih =>
    cases bt with
    | nil => simp at ht
    | cons b bt =>
      have hb : (bd ++ b :: bt)[bd.length]? = some b := by
        rw [List.getElem?_append_right (le_refl _)]; simp
      simp only [add_metadata, hb, List.zip_cons_cons, attach_all]
      by_cases hst : (api.meta_data_add_string md key b).1 = 0
      · have := ih (bd ++ [b]) bt (api.meta_data_add_string md key b).2 (by simpa using ht)
        simp only [List.length_append, List.length_singleton, List.append_assoc,
          List.singleton_append] at this
        simp [hst, this]
        rfl
      · simp [hst]

theorem add_metadata_eq (api : plugin_api) (buf : List (Option CStr)) (keys : List CStr)
    (h : buf.length = keys.length) :
    add_metadata api (some buf) keys 0 [] = some (attach_all api (List.zip keys buf) []) := by
  have := add_metadata_append api [] buf keys [] h
  simpa using this

theorem buffer_fields_columns_at (row : List CStr) (ps : List Nat)
    (h : ∀ p ∈ ps, p < row.length) :
    buffer_fields (some (columns_at row (some ps))) ps.length =
      some (row_strings row (some ps)) := by
  have hlen : (columns_at row (some ps)).length = ps.length := by simp [columns_at]
  unfold buffer_fields
  simp only
  rw [if_neg (by omega), ← hlen, List.take_length, columns_at_eq_map_some row ps h]
  exact mapM_id_some _

theorem positions_prepared_pos {num : Nat} {pos : Option (List Nat)}
    {buffer : Option (List (Option CStr))} {n : Nat} (h : positions_prepared num pos buffer n)
    (h0 : num ≠ 0) : ∃ ps, pos = some ps ∧ ps.length = num ∧ ∀ p ∈ ps, p < n := by
  rcases h with h | ⟨hp, _, hlt⟩
  · exact absurd h h0
  · cases pos with
    | none => simp at hp
    | some ps => exact ⟨ps, rfl, by simpa using hp, by simpa using hlt⟩

theorem sample_type_instance_eq_none (api : plugin_api) (r : udb_result_t)
    (fields : List CStr) (h : sample_type_instance api r fields = none) :
    (api.strjoin api.DATA_MAX_NAME_LEN fields ['-']).1 < 0 := by
  unfold sample_type_instance at h
  by_cases h0 : r.instances.length = 0
  · simp [h0] at h
  · by_cases hst : (api.strjoin api.DATA_MAX_NAME_LEN fields ['-']).1 < 0
    · exact hst
    · simp [h0, hst] at h

theorem compose_type_instance_filled (api : plugin_api) (q : udb_query_t)
    (a : udb_query_preparation_area_t) (r : udb_result_t)
    (s : udb_result_preparation_area_t) (row : List CStr) (ti : CStr)
    (hs : positions_prepared r.instances.length s.instances_pos s.instances_buffer
      a.column_num)
    (hrow : a.column_num ≤ row.length) :
    compose_type_instance api r (filled_result_area q a r s row) ti =
      match sample_type_instance api r (row_strings row s.instances_pos) with
      | some str => some (0, str)
      | none =>
        some ((api.strjoin api.DATA_MAX_NAME_LEN (row_strings row s.instances_pos) ['-']).1,
          ti) := by
  unfold compose_type_instance sample_type_instance
  by_cases h0 : r.instances.length = 0
  · simp only [h0, if_true, composed_instance]
    cases r.instance_prefix with
    | none => simp
    | some p => simp [sstrncpy, List.take_take]
  · obtain ⟨ps, hps, hlen, hlt⟩ := positions_prepared_pos hs h0
    have hfields : buffer_fields (filled_result_area q a r s row).instances_buffer
        r.instances.length = some (row_strings row s.instances_pos) := by
      simp only [filled_result_area, h0, if_false, hps]
      rw [← hlen]
      exact buffer_fields_columns_at row ps (fun p hp => lt_of_lt_of_le (hlt p hp) hrow)
    simp only [h0, if_false, hfields, composed_instance]
    by_cases hst : (api.strjoin api.DATA_MAX_NAME_LEN (row_strings row s.instances_pos)
        ['-']).1 < 0
    · simp only [hst, if_true]
    · simp only [hst, if_false]
      cases r.instance_prefix with
      | none => simp [List.take_take]
      | some p => simp [ssnprintf_dash, List.take_take]

theorem udb_result_submit_filled (api : plugin_api) (q : udb_query_t)
    (a : udb_query_preparation_area_t) (r : udb_result_t)
    (s : udb_result_preparation_area_t) (row : List CStr)
    (htype : r.type ≠ none) (hvalues : r.values ≠ [])
    (hs : result_area_prepared r s a.column_num)
    (hhost : a.host ≠ none) (hplugin : a.plugin ≠ none) (hdb : a.db_name ≠ none)
    (hpif : q.plugin_instance_from ≠ none → a.plugin_instance_pos < a.column_num)
    (hrow : a.column_num ≤ row.length) :
    ∃ status,
      udb_result_submit api r (filled_result_area q a r s row) q a =
        some (status, result_sample api q a r s row) ∧
      (status = 0 ↔ result_sample api q a r s row ≠ none) := by
  obtain ⟨hds, hi, hv, hm⟩ := hs
  have hvlen : r.values.length ≠ 0 := fun h => hvalues (List.eq_nil_of_length_eq_zero h)
  obtain ⟨vps, hvps, hvl, hvlt⟩ := positions_prepared_pos hv hvlen
  cases hsds : s.ds with
  | none => simp [hsds] at hds
  | some ds =>
    simp only [hsds, Option.map_some', Option.some.injEq] at hds
    obtain ⟨host, hhost'⟩ := Option.ne_none_iff_exists'.1 hhost
    obtain ⟨plugin, hplugin'⟩ := Option.ne_none_iff_exists'.1 hplugin
    obtain ⟨db, hdb'⟩ := Option.ne_none_iff_exists'.1 hdb
    obtain ⟨type, htype'⟩ := Option.ne_none_iff_exists'.1 htype
    have hfds : (filled_result_area q a r s row).ds = some ds := by
      simp [filled_result_area, hsds]
    have hparse : parse_values api ds (filled_result_area q a r s row).values_buffer
        r.values.length 0 [] = some (parse_all api (columns_at row s.values_pos) ds.ds) := by
      have hl : (columns_at row s.values_pos).length = r.values.length := by
        simp [columns_at, hvps, hvl]
      simp only [filled_result_area, hvlen, if_false]
      rw [← hl]
      exact parse_values_eq api ds _ (by rw [hl, hds])
    have hpi : ∃ pi, (if q.plugin_instance_from ≠ none then
        (filled_result_area q a r s row).plugin_instance else a.db_name) = some pi ∧
        (if q.plugin_instance_from ≠ none then row[a.plugin_instance_pos]?
          else a.db_name) = some pi := by
      by_cases hq : q.plugin_instance_from ≠ none
      · have hlt := lt_of_lt_of_le (hpif hq) hrow
        exact ⟨row[a.plugin_instance_pos], by
          simp [filled_result_area, hq, List.getElem?_eq_getElem hlt], by
          simp [hq, List.getElem?_eq_getElem hlt]⟩
      · exact ⟨db, by simp [hq, hdb'], by simp [hq, hdb']⟩
    obtain ⟨pi, hpi1, hpi2⟩ := hpi
    have hmeta : r.metadata.length > 0 →
        add_metadata api (filled_result_area q a r s row).metadata_buffer r.metadata 0 [] =
          some (attach_all api (List.zip r.metadata (columns_at row s.metadata_pos)) []) := by
      intro hlen
      obtain ⟨mps, hmps, hml, _⟩ := positions_prepared_pos hm (by omega)
      have h0 : r.metadata.length ≠ 0 := by omega
      simp only [filled_result_area, h0, if_false]
      exact add_metadata_eq api _ _ (by simp [columns_at, hmps, hml])
    have hmeta0 : ¬ r.metadata.length > 0 →
        (attach_all api (List.zip r.metadata (columns_at row s.metadata_pos)) []).1 = 0 := by
      intro hlen
      have : r.metadata = [] := List.eq_nil_of_length_eq_zero (by omega)
      simp [this, attach_all]
    have hcomp := fun ti => compose_type_instance_filled api q a r s row ti hi hrow
    generalize filled_result_area q a r s row = f at hfds hparse hpi1 hmeta hcomp ⊢
    unfold udb_result_submit result_sample
    simp only [hfds, hsds, hds, ne_eq, not_true_eq_false, if_false, Option.map_some',
      Option.getD_some, hparse, hhost', hplugin', htype', hpi1, hpi2, hcomp]
    rw [if_neg (by omega)]
    cases hpa : parse_all api (columns_at row s.values_pos) ds.ds with
    | none => exact ⟨-1, rfl, by simp⟩
    | some values =>
      cases hti : sample_type_instance api r (row_strings row s.instances_pos) with
      | none =>
        have hneg := sample_type_instance_eq_none api r _ hti
        exact ⟨(api.strjoin api.DATA_MAX_NAME_LEN (row_strings row s.instances_pos) ['-']).1,
          by simp only [hneg, if_true], by
          simp only [ne_eq, not_true_eq_false, iff_false]; omega⟩
      | some str =>
        simp only [lt_self_iff_false, if_false]
        by_cases hlen : r.metadata.length > 0
        · simp only [hlen, if_true, hmeta hlen]
          by_cases hst : (attach_all api (List.zip r.metadata
              (columns_at row s.metadata_pos)) []).1 = 0
          · refine ⟨0, ?_, by simp [hst]⟩
            simp only [hst, not_true_eq_false, if_false, sstrncpy]
            split <;> rfl
          · exact ⟨(attach_all api (List.zip r.metadata (columns_at row s.metadata_pos)) []).1,
              by simp only [hst, not_false_eq_true, if_true], by simp [hst]⟩
        · have h0 := hmeta0 hlen
          refine ⟨0, ?_, by simp [h0]⟩
          simp only [hlen, if_false, h0, not_true_eq_false, sstrncpy]
          split <;> rfl

theorem udb_result_handle_result_prepared (api : plugin_api) (q : udb_query_t)
    (a : udb_query_preparation_area_t) (r : udb_result_t)
    (s : udb_result_preparation_area_t) (row : List CStr)
    (htype : r.type ≠ none) (hvalues : r.values ≠ [])
    (hs : result_area_prepared r s a.column_num)
    (hhost : a.host ≠ none) (hplugin : a.plugin ≠ none) (hdb : a.db_name ≠ none)
    (hpif : q.plugin_instance_from ≠ none → a.plugin_instance_pos < a.column_num)
    (hrow : a.column_num ≤ row.length) :
    ∃ status,
      udb_result_handle_result api r a s q row =
        some (status, filled_result_area q a r s row, result_sample api q a r s row) ∧
      (status = 0 ↔ result_sample api q a r s row ≠ none) := by
  obtain ⟨status, hsub, hst⟩ := udb_result_submit_filled api q a r s row htype hvalues hs
    hhost hplugin hdb hpif hrow
  refine ⟨status, ?_, hst⟩
  obtain ⟨_, hi, hv, hm⟩ := hs
  have hpi : (if q.plugin_instance_from ≠ none then
      (row[a.plugin_instance_pos]?).map some else some s.plugin_instance) =
      some (if q.plugin_instance_from ≠ none then row[a.plugin_instance_pos]?
        else s.plugin_instance) := by
    by_cases hq : q.plugin_instance_from ≠ none
    · have hlt := lt_of_lt_of_le (hpif hq) hrow
      simp [hq, List.getElem?_eq_getElem hlt]
    · simp [hq]
  have hfill : filled_result_area q a r s row =
      { s with
        instances_buffer :=
          if r.instances.length = 0 then s.instances_buffer
          else some (columns_at row s.instances_pos),
        values_buffer :=
          if r.values.length = 0 then s.values_buffer else some (columns_at row s.values_pos),
        metadata_buffer :=
          if r.metadata.length = 0 then s.metadata_buffer
          else some (columns_at row s.metadata_pos),
        plugin_instance :=
          if q.plugin_instance_from ≠ none then row[a.plugin_instance_pos]?
          else s.plugin_instance } := rfl
  unfold udb_result_handle_result
  simp only [copy_columns_prepared row _ _ _ _ hi hrow, copy_columns_prepared row _ _ _ _ hv hrow,
    copy_columns_prepared row _ _ _ _ hm hrow, hpi]
  rw [← hfill, hsub]

theorem udb_query_handle_result_loop_prepared (api : plugin_api) (q : udb_query_t)
    (a : udb_query_preparation_area_t) (row : List CStr) (rs : List udb_result_t)
    (areas : List udb_result_preparation_area_t) (success : Nat)
    (hlen : areas.length = rs.length)
    (hrs : ∀ r ∈ rs, r.type ≠ none ∧ r.values ≠ [])
    (hareas : ∀ x ∈ List.zip rs areas, result_area_prepared x.1 x.2 a.column_num)
    (hhost : a.host ≠ none) (hplugin : a.plugin ≠ none) (hdb : a.db_name ≠ none)
    (hpif : q.plugin_instance_from ≠ none → a.plugin_instance_pos < a.column_num)
    (hrow : a.column_num ≤ row.length) :
    udb_query_handle_result_loop api q a row rs areas success =
      some (List.zipWith (fun r s => filled_result_area q a r s row) rs areas,
        success + ((List.zip rs areas).filterMap
          (fun x => result_sample api q a x.1 x.2 row)).length,
        (List.zip rs areas).filterMap (fun x => result_sample api q a x.1 x.2 row)) := by
  induction rs generalizing areas success with
  | nil =>
    cases areas with
    | nil => simp [udb_query_handle_result_loop]
    | cons s areas => simp at hlen
  | cons r rs ih =>
    cases areas with
    | nil => simp at hlen
    | cons s areas =>
      obtain ⟨status, hres, hst⟩ := udb_result_handle_result_prepared api q a r s row
        (hrs r (List.mem_cons_self _ _)).1 (hrs r (List.mem_cons_self _ _)).2
        (hareas (r, s) (by simp)) hhost hplugin hdb hpif hrow
      have := ih areas (if status = 0 then success + 1 else success) (by simpa using hlen)
        (fun r hr => hrs r (List.mem_cons_of_mem _ hr))
        (fun x hx => hareas x (by
          simp only [List.zip_cons_cons, List.mem_cons]
          exact Or.inr hx))
      simp only [udb_query_handle_result_loop, hres, this, List.zipWith_cons_cons,
        List.zip_cons_cons, List.filterMap_cons]
      cases hsample : result_sample api q a r s row with
      | none =>
        have h0 : ¬ status = 0 := fun h => (hst.1 h) hsample
        simp [h0]
      | some vl =>
        have h0 : status = 0 := hst.2 (by simp [hsample])
        simp [h0]
        omega

theorem udb_query_handle_result_prepared (api : plugin_api) (q : udb_query_t)
    (a : udb_query_preparation_area_t) (row : List CStr)
    (hq : results_well_formed q) (ha : area_prepared q a) (hrow : a.column_num ≤ row.length) :
    udb_query_handle_result api q a row =
      some (if row_samples api q a row = [] then -1 else 0,
        { a with
          result_prep_areas :=
            List.zipWith (fun r s => filled_result_area q a r s row) q.results
              a.result_prep_areas },
        row_samples api q a row) := by
  obtain ⟨hcol, hhost, hplugin, hdb, hpif, hlen, hareas⟩ := ha
  have hloop := udb_query_handle_result_loop_prepared api q a row q.results a.result_prep_areas
    0 hlen hq.2 hareas hhost hplugin hdb hpif hrow
  unfold udb_query_handle_result
  rw [if_neg (by
    intro h
    rcases h with h | h | h | h
    · omega
    · exact hhost h
    · exact hplugin h
    · exact hdb h)]
  simp only [hloop, row_samples, Nat.zero_add, List.length_eq_zero]

theorem prepared_result_area_prepared (pgd : Option CStr → Option data_set_t)
    (cols : List CStr) (r : udb_result_t) (pi : Option CStr)
    (h : result_resolves pgd cols r) :
    result_area_prepared r (prepared_result_area pgd cols r pi) cols.length := by
  obtain ⟨hds, hi, hv, hm⟩ := h
  have key : ∀ names : List CStr, (∀ name ∈ names, column_exists cols name) →
      ∀ p ∈ names.map (fun name => find_column name cols), p < cols.length := by
    intro names hnames p hp
    obtain ⟨name, hname, rfl⟩ := List.mem_map.1 hp
    exact (find_column_lt_iff name cols).2 (hnames name hname)
  refine ⟨?_, ?_, ?_, ?_⟩
  · simpa [prepared_result_area, Option.map_map] using hds
  · by_cases h0 : r.instances.length = 0
    · exact Or.inl h0
    · refine Or.inr ?_
      have hpos : r.instances.length > 0 := by omega
      simp only [prepared_result_area, hpos, if_true, Option.map_some', List.length_map,
        List.length_replicate, Option.getD_some, true_and]
      exact key r.instances hi
  · refine Or.inr ?_
    simp only [prepared_result_area, Option.map_some', List.length_map,
      List.length_replicate, Option.getD_some, true_and]
    exact key r.values hv
  · refine Or.inr ?_
    simp only [prepared_result_area, Option.map_some', List.length_map,
      List.length_replicate, Option.getD_some, true_and]
    exact key r.metadata hm

theorem zip_zipWith_mem {α β γ : Type} (f : α → β → γ) (P : α → γ → Prop) (xs : List α)
    (ys : List β) (h : ∀ x ∈ xs, ∀ y, P x (f x y)) :
    ∀ p ∈ List.zip xs (List.zipWith f xs ys), P p.1 p.2 := by
  induction xs generalizing ys with
  | nil => simp
  | cons x xs ih =>
    cases ys with
    | nil => simp
    | cons y ys =>
      intro p hp
      simp only [List.zipWith_cons_cons, List.zip_cons_cons, List.mem_cons] at hp
      rcases hp with hp | hp
      · subst hp
        exact h x (List.mem_cons_self _ _) y
      · exact ih ys (fun x hx => h x (List.mem_cons_of_mem _ hx)) p hp

theorem udb_query_prepare_result_prepared (pgd : Option CStr → Option data_set_t)
    (q : udb_query_t) (a : udb_query_preparation_area_t) (host plugin db_name : CStr)
    (cols : List CStr) (interval : Nat) (hq : results_well_formed q)
    (hlen : a.result_prep_areas.length = q.results.length)
    (h : (udb_query_prepare_result pgd q a host plugin db_name cols interval).1 = 0) :
    area_prepared q (udb_query_prepare_result pgd q a host plugin db_name cols interval).2 ∧
    (udb_query_prepare_result pgd q a host plugin db_name cols interval).2.column_num =
      cols.length ∧
    (udb_query_prepare_result pgd q a host plugin db_name cols interval).2.interval =
      interval := by
  obtain ⟨hpif, _, hall⟩ := (udb_query_prepare_result_status _ _ _ _ _ _ _ _).1 h
  rw [udb_query_prepare_result_ok _ _ _ _ _ _ _ _ h]
  have hfl : (udb_query_finish_result_loop q.results a.result_prep_areas).length =
      q.results.length := by rw [udb_query_finish_result_loop_length, hlen]
  have hcols : 1 ≤ cols.length := by
    obtain ⟨hne, hr⟩ := hq
    cases hres : q.results with
    | nil => exact absurd hres hne
    | cons r rs =>
      have hrmem : r ∈ q.results := by rw [hres]; exact List.mem_cons_self _ _
      have hv := (hr r hrmem).2
      cases hvals : r.values with
      | nil => exact absurd hvals hv
      | cons name names =>
        obtain ⟨c, hc, _⟩ := (hall r hrmem).2.2.1 name (by rw [hvals]; exact List.mem_cons_self _ _)
        exact List.length_pos_of_mem hc
  refine ⟨⟨hcols, by simp, by simp, by simp, ?_, ?_, ?_⟩, rfl, rfl⟩
  · intro hne
    obtain ⟨pif, hp⟩ := Option.ne_none_iff_exists'.1 hne
    simp only [hp]
    exact (find_column_lt_iff pif cols).2 (hpif pif hp)
  · simp [hfl]
  · have hdrop : (udb_query_finish_result_loop q.results a.result_prep_areas).drop
        q.results.length = [] := by
      rw [← hfl]; exact List.drop_length _
    simp only [hdrop, List.append_nil]
    exact zip_zipWith_mem _ (fun r s => result_area_prepared r s cols.length) q.results _
      (fun r hr s => prepared_result_area_prepared pgd cols r _ (hall r hr))

theorem filled_result_area_prepared (q : udb_query_t) (a : udb_query_preparation_area_t)
    (r : udb_result_t) (s : udb_result_preparation_area_t) (row : List CStr)
    (h : result_area_prepared r s a.column_num) :
    result_area_prepared r (filled_result_area q a r s row) a.column_num := by
  have key : ∀ (num : Nat) (pos : Option (List Nat)) (buffer : Option (List (Option CStr))),
      positions_prepared num pos buffer a.column_num →
      positions_prepared num pos
        (if num = 0 then buffer else some (columns_at row pos)) a.column_num := by
    intro num pos buffer hp
    rcases hp with hp | ⟨h1, h2, h3⟩
    · exact Or.inl hp
    · by_cases h0 : num = 0
      · exact Or.inl h0
      · refine Or.inr ⟨h1, ?_, h3⟩
        cases pos with
        | none => simp at h1
        | some ps => simpa [h0, columns_at] using h1
  obtain ⟨hds, hi, hv, hm⟩ := h
  exact ⟨hds, key _ _ _ hi, key _ _ _ hv, key _ _ _ hm⟩

theorem udb_query_handle_result_keeps_prepared (q : udb_query_t)
    (a : udb_query_preparation_area_t) (row : List CStr) (ha : area_prepared q a) :
    area_prepared q
      { a with
        result_prep_areas :=
          List.zipWith (fun r s => filled_result_area q a r s row) q.results
            a.result_prep_areas } := by
  obtain ⟨hcol, hhost, hplugin, hdb, hpif, hlen, hareas⟩ := ha
  refine ⟨hcol, hhost, hplugin, hdb, hpif, by simp [hlen], ?_⟩
  simp only
  have : ∀ (rs : List udb_result_t) (areas : List udb_result_preparation_area_t),
      (∀ x ∈ List.zip rs areas, result_area_prepared x.1 x.2 a.column_num) →
      ∀ x ∈ List.zip rs (List.zipWith (fun r s => filled_result_area q a r s row) rs areas),
        result_area_prepared x.1 x.2 a.column_num := by
    intro rs
    induction rs with
    | nil => simp
    | cons r rs ih =>
      intro areas hall x hx
      cases areas with
      | nil => simp at hx
      | cons s areas =>
        simp only [List.zipWith_cons_cons, List.zip_cons_cons, List.mem_cons] at hx
        rcases hx with hx | hx
        · subst hx
          exact filled_result_area_prepared q a r s row (hall (r, s) (by simp))
        · exact ih areas (fun y hy => hall y (by
            simp only [List.zip_cons_cons, List.mem_cons]
            exact Or.inr hy)) x hx
  exact this q.results a.result_prep_areas hareas

theorem result_sample_fields (api : plugin_api) (q : udb_query_t)
    (a : udb_query_preparation_area_t) (r : udb_result_t)
    (s : udb_result_preparation_area_t) (row : List CStr) (vl : value_list_t)
    (h : result_sample api q a r s row = some vl) :
    parse_all api (columns_at row s.values_pos) ((s.ds.map (fun ds => ds.ds)).getD []) =
      some vl.values ∧
    sample_type_instance api r (row_strings row s.instances_pos) = some vl.type_instance ∧
    (attach_all api (List.zip r.metadata (columns_at row s.metadata_pos)) []).1 = 0 ∧
    vl.interval = (if a.interval > 0 then a.interval else api.VALUE_LIST_INIT.interval) ∧
    vl.host = (a.host.getD []).take (api.DATA_MAX_NAME_LEN - 1) ∧
    vl.plugin = (a.plugin.getD []).take (api.DATA_MAX_NAME_LEN - 1) ∧
    vl.plugin_instance =
      ((if q.plugin_instance_from ≠ none then row[a.plugin_instance_pos]?
        else a.db_name).getD []).take (api.DATA_MAX_NAME_LEN - 1) ∧
    vl.type = (r.type.getD []).take (api.DATA_MAX_NAME_LEN - 1) ∧
    vl.meta =
      (if r.metadata.length > 0 then
        some (attach_all api (List.zip r.metadata (columns_at row s.metadata_pos)) []).2
      else api.VALUE_LIST_INIT.meta) := by
  unfold result_sample at h
  split at h
  · rename_i values type_instance hp ht
    by_cases hst : (attach_all api (List.zip r.metadata (columns_at row s.metadata_pos))
        []).1 = 0
    · simp only [hst, ne_eq, not_true_eq_false, if_false, Option.some.injEq] at h
      subst h
      exact ⟨hp, ht, hst, rfl, rfl, rfl, rfl, rfl, rfl⟩
    · simp [hst] at h
  · cases h

theorem attach_all_append (api : plugin_api)
    (hmeta : ∀ md key value,
      api.meta_data_add_string md key (some value) = (0, md ++ [(key, value)]))
    (keys : List CStr) (strs : List CStr) (md : List (CStr × CStr)) :
    attach_all api (List.zip keys (strs.map some)) md = (0, md ++ List.zip keys strs) := by
  induction keys generalizing strs md with
  | nil => simp [attach_all]
  | cons key keys ih =>
    cases strs with
    | nil => simp [attach_all]
    | cons v strs =>
      simp only [List.map_cons, List.zip_cons_cons, attach_all, hmeta, ne_eq,
        not_true_eq_false, if_false]
      exact (ih strs _).trans (by simp)

/-- Under `area_prepared`, the facts about one result and its result preparation area. -/
theorem area_prepared_mem (q : udb_query_t) (a : udb_query_preparation_area_t)
    (hq : results_well_formed q) (ha : area_prepared q a) (r : udb_result_t)
    (s : udb_result_preparation_area_t) (hx : (r, s) ∈ List.zip q.results a.result_prep_areas) :
    r ∈ q.results ∧ r.type ≠ none ∧ r.values ≠ [] ∧ result_area_prepared r s a.column_num :=
  ⟨(List.of_mem_zip hx).1, (hq.2 r (List.of_mem_zip hx).1).1, (hq.2 r (List.of_mem_zip hx).1).2,
    ha.2.2.2.2.2.2 (r, s) hx⟩

theorem row_samples_mem (api : plugin_api) (q : udb_query_t)
    (a : udb_query_preparation_area_t) (row : List CStr) (vl : value_list_t)
    (h : vl ∈ row_samples api q a row) :
    ∃ r s, (r, s) ∈ List.zip q.results a.result_prep_areas ∧
      result_sample api q a r s row = some vl := by
  simp only [row_samples, List.mem_filterMap] at h
  obtain ⟨x, hx, hs⟩ := h
  exact ⟨x.1, x.2, hx, hs⟩

theorem row_samples_ne_nil_iff (api : plugin_api) (q : udb_query_t)
    (a : udb_query_preparation_area_t) (row : List CStr) :
    row_samples api q a row ≠ [] ↔
      ∃ x ∈ List.zip q.results a.result_prep_areas,
        result_sample api q a x.1 x.2 row ≠ none := by
  unfold row_samples
  constructor
  · intro h
    obtain ⟨vl, hvl⟩ := List.exists_mem_of_ne_nil _ h
    obtain ⟨x, hx, hs⟩ := List.mem_filterMap.1 hvl
    exact ⟨x, hx, by simp [hs]⟩
  · rintro ⟨x, hx, hs⟩ hnil
    obtain ⟨vl, hvl⟩ := Option.ne_none_iff_exists'.1 hs
    have : vl ∈ (List.zip q.results a.result_prep_areas).filterMap
        (fun x => result_sample api q a x.1 x.2 row) :=
      List.mem_filterMap.2 ⟨x, hx, hvl⟩
    rw [hnil] at this
    cases this

theorem copied_identifier_take (n : Nat) (src : CStr) :
    copied_identifier n src (src.take (n - 1)) :=
  ⟨rfl, fun h => List.take_of_length_le (by omega)⟩

theorem handle_rows_interval (api : plugin_api) (q : udb_query_t)
    (hq : results_well_formed q) (rows : List (List CStr))
    (a : udb_query_preparation_area_t) (ha : area_prepared q a)
    (hrows : ∀ row ∈ rows, a.column_num ≤ row.length) :
    ∃ area vls, handle_rows api q a rows = some (area, vls) ∧
      area.interval = a.interval ∧
      ∀ vl ∈ vls, vl.interval =
        if a.interval > 0 then a.interval else api.VALUE_LIST_INIT.interval := by
  induction rows generalizing a with
  | nil => exact ⟨a, [], rfl, rfl, by simp⟩
  | cons row rows ih =>
    have hrow := hrows row (List.mem_cons_self _ _)
    have h1 := udb_query_handle_result_prepared api q a row hq ha hrow
    obtain ⟨area, more, hmore, hint, hall⟩ := ih _
      (udb_query_handle_result_keeps_prepared q a row ha)
      (fun r hr => hrows r (List.mem_cons_of_mem _ hr))
    refine ⟨area, row_samples api q a row ++ more, ?_, hint, ?_⟩
    · simp only [handle_rows, h1, hmore]
    · intro vl hvl
      rcases List.mem_append.1 hvl with hvl | hvl
      · obtain ⟨r, s, _, hs⟩ := row_samples_mem api q a row vl hvl
        exact (result_sample_fields api q a r s row vl hs).2.2.2.1
      · exact hall vl hvl

theorem result_sample_meta (api : plugin_api) (q : udb_query_t)
    (a : udb_query_preparation_area_t) (r : udb_result_t)
    (s : udb_result_preparation_area_t) (row : List CStr) (vl : value_list_t)
    (hs : result_area_prepared r s a.column_num) (hrow : a.column_num ≤ row.length)
    (hmeta : ∀ md key value,
      api.meta_data_add_string md key (some value) = (0, md ++ [(key, value)]))
    (h : result_sample api q a r s row = some vl) :
    (r.metadata ≠ [] →
      (row_strings row s.metadata_pos).length = r.metadata.length ∧
      vl.meta = some (List.zip r.metadata (row_strings row s.metadata_pos))) ∧
    (r.metadata = [] → vl.meta = api.VALUE_LIST_INIT.meta) := by
  have hm := (result_sample_fields api q a r s row vl h).2.2.2.2.2.2.2.2
  refine ⟨fun hne => ?_, fun hnil => by simpa [hnil] using hm⟩
  have h0 : r.metadata.length ≠ 0 := fun h0 => hne (List.eq_nil_of_length_eq_zero h0)
  obtain ⟨ps, hps, hlen, hlt⟩ := positions_prepared_pos hs.2.2.2 h0
  have hall : ∀ p ∈ ps, p < row.length := fun p hp => lt_of_lt_of_le (hlt p hp) hrow
  refine ⟨?_, ?_⟩
  · rw [hps]
    have := congrArg List.length (columns_at_eq_map_some row ps hall)
    simp only [List.length_map] at this
    rw [← this]; simp [columns_at, hlen]
  · rw [hm, if_pos (Nat.pos_of_ne_zero h0), hps, columns_at_eq_map_some row ps hall,
      attach_all_append api hmeta]
    simp

theorem take_append_take {α : Type} (n : Nat) (l m : List α) :
    (l ++ m.take n).take n = (l ++ m).take n := by
  rw [List.take_append_eq_append_take, List.take_append_eq_append_take, List.take_take]
  congr 2
  omega

theorem composed_instance_length_le (r : udb_result_t) (joined : CStr)
    (h0 : r.instances.length ≠ 0) : joined.length ≤ (composed_instance r joined).length := by
  unfold composed_instance
  rw [if_neg h0]
  cases r.instance_prefix with
  | none => exact le_refl _
  | some p => simp only [List.length_append, List.length_cons]; omega

/-- When `strjoin` cuts the joined string to the buffer and does not fail, the type
instance is the composed string cut to the identifier length. -/
theorem sample_type_instance_cut (api : plugin_api) (r : udb_result_t) (fields : List CStr)
    (hcut : ∀ fields : List CStr,
      ¬ (api.strjoin api.DATA_MAX_NAME_LEN fields ['-']).1 < 0 ∧
      (api.strjoin api.DATA_MAX_NAME_LEN fields ['-']).2 =
        (['-'].intercalate fields).take (api.DATA_MAX_NAME_LEN - 1)) :
    sample_type_instance api r fields =
      some ((composed_instance r (['-'].intercalate fields)).take
        (api.DATA_MAX_NAME_LEN - 1)) := by
  unfold sample_type_instance
  by_cases h0 : r.instances.length = 0
  · rw [if_pos h0]
    simp [composed_instance, h0]
  · obtain ⟨hst, heq⟩ := hcut fields
    rw [if_neg h0, if_neg hst, heq, List.take_take, Nat.min_self]
    unfold composed_instance
    rw [if_neg h0, if_neg h0]
    cases r.instance_prefix with
    | none => simp [List.take_take]
    | some p =>
      simp only
      have := take_append_take (api.DATA_MAX_NAME_LEN - 1) (p ++ ['-'])
        (['-'].intercalate fields)
      simpa using this

theorem sample_type_instance_length (api : plugin_api) (r : udb_result_t)
    (fields : List CStr) (ti : CStr) (hN : 0 < api.DATA_MAX_NAME_LEN)
    (h : sample_type_instance api r fields = some ti) :
    ti.length < api.DATA_MAX_NAME_LEN := by
  unfold sample_type_instance at h
  have key : ∀ l : CStr, (l.take (api.DATA_MAX_NAME_LEN - 1)).length <
      api.DATA_MAX_NAME_LEN := by
    intro l
    have := List.length_take_le (api.DATA_MAX_NAME_LEN - 1) l
    omega
  by_cases h0 : r.instances.length = 0
  · rw [if_pos h0] at h
    cases h
    exact key _
  · rw [if_neg h0] at h
    by_cases hst : (api.strjoin api.DATA_MAX_NAME_LEN fields ['-']).1 < 0
    · rw [if_pos hst] at h; cases h
    · rw [if_neg hst] at h
      cases h
      exact key _

theorem result_sample_ne_none_of_join (api : plugin_api) (q : udb_query_t)
    (a : udb_query_preparation_area_t) (r : udb_result_t)
    (s : udb_result_preparation_area_t) (row : List CStr)
    (hjoin : ¬ (api.strjoin api.DATA_MAX_NAME_LEN (row_strings row s.instances_pos)
      ['-']).1 < 0) :
    result_sample api q a r s row ≠ none ↔
      parse_all api (columns_at row s.values_pos) ((s.ds.map (fun ds => ds.ds)).getD []) ≠
        none ∧
      (attach_all api (List.zip r.metadata (columns_at row s.metadata_pos)) []).1 = 0 := by
  have hti : sample_type_instance api r (row_strings row s.instances_pos) ≠ none :=
    fun h => hjoin (sample_type_instance_eq_none api r _ h)
  obtain ⟨ti, hti⟩ := Option.ne_none_iff_exists'.1 hti
  unfold result_sample
  cases hp : parse_all api (columns_at row s.values_pos) ((s.ds.map (fun ds => ds.ds)).getD []) with
  | none => simp
  | some values => simp [hti]

/-! ### Creation, step by step -/

theorem udb_query_create_eq (list : Option (List udb_query_t)) (ci : oconfig_item_t)
    (cb : Option udb_query_create_callback_t) (name : CStr)
    (h : ci.values = [oconfig_value_t.string name]) :
    udb_query_create list ci cb =
      if (udb_query_create_loop cb ci.children (new_query name)).1 = 0 ∧
          (udb_query_create_loop cb ci.children (new_query name)).2.statement ≠ none ∧
          (udb_query_create_loop cb ci.children (new_query name)).2.results ≠ [] then
        (0, some (list.getD [] ++ [(udb_query_create_loop cb ci.children (new_query name)).2]))
      else (-1, list) := by
  unfold udb_query_create
  simp only [h, new_query]
  by_cases h0 : (udb_query_create_loop cb ci.children
      { name := name, statement := none, user_data := 0, plugin_instance_from := none,
        min_version := 0, max_version := UINT_MAX, results := [] }).1 = 0
  · by_cases hs : (udb_query_create_loop cb ci.children
        { name := name, statement := none, user_data := 0, plugin_instance_from := none,
          min_version := 0, max_version := UINT_MAX, results := [] }).2.statement = none
    · by_cases hr : (udb_query_create_loop cb ci.children
          { name := name, statement := none, user_data := 0, plugin_instance_from := none,
            min_version := 0, max_version := UINT_MAX, results := [] }).2.results = []
      · simp [h0, hs, hr]
      · simp [h0, hs, hr]
    · by_cases hr : (udb_query_create_loop cb ci.children
          { name := name, statement := none, user_data := 0, plugin_instance_from := none,
            min_version := 0, max_version := UINT_MAX, results := [] }).2.results = []
      · simp [h0, hs, hr]
      · simp [h0, hs, hr]
  · simp [h0]

theorem udb_query_create_status (list : Option (List udb_query_t)) (ci : oconfig_item_t)
    (cb : Option udb_query_create_callback_t) :
    udb_query_create list ci cb = (-1, list) ∨
    ∃ name, ci.values = [oconfig_value_t.string name] ∧
      (udb_query_create_loop cb ci.children (new_query name)).1 = 0 ∧
      (udb_query_create_loop cb ci.children (new_query name)).2.statement ≠ none ∧
      (udb_query_create_loop cb ci.children (new_query name)).2.results ≠ [] ∧
      udb_query_create list ci cb =
        (0, some (list.getD [] ++ [(udb_query_create_loop cb ci.children (new_query name)).2])) := by
  by_cases hv : ∃ name, ci.values = [oconfig_value_t.string name]
  · obtain ⟨name, hname⟩ := hv
    rw [udb_query_create_eq list ci cb name hname]
    by_cases hc : (udb_query_create_loop cb ci.children (new_query name)).1 = 0 ∧
          (udb_query_create_loop cb ci.children (new_query name)).2.statement ≠ none ∧
          (udb_query_create_loop cb ci.children (new_query name)).2.results ≠ []
    · rw [if_pos hc]
      exact Or.inr ⟨name, hname, hc.1, hc.2.1, hc.2.2, rfl⟩
    · rw [if_neg hc]
      exact Or.inl rfl
  · left
    unfold udb_query_create
    split
    · rename_i name hname
      exact absurd ⟨name, hname⟩ hv
    · rfl

theorem udb_query_create_loop_append (cb : Option udb_query_create_callback_t)
    (pre post : List oconfig_item_t) (q : udb_query_t) :
    udb_query_create_loop cb (pre ++ post) q =
      if (udb_query_create_loop cb pre q).1 ≠ 0 then udb_query_create_loop cb pre q
      else udb_query_create_loop cb post (udb_query_create_loop cb pre q).2 := by
  induction pre generalizing q with
  | nil => simp [udb_query_create_loop]
  | cons c pre ih =>
    simp only [List.cons_append, udb_query_create_loop]
    by_cases h : (udb_query_create_child cb q c).1 ≠ 0
    · simp [h]
    · simp only [h, if_false]
      exact ih _

theorem udb_query_create_loop_fails (cb : Option udb_query_create_callback_t)
    (children : List oconfig_item_t) (c : oconfig_item_t) (hc : c ∈ children)
    (hfail : ∀ q, (udb_query_create_child cb q c).1 ≠ 0) (q : udb_query_t) :
    (udb_query_create_loop cb children q).1 ≠ 0 := by
  induction children generalizing q with
  | nil => cases hc
  | cons d rest ih =>
    simp only [udb_query_create_loop]
    by_cases h : (udb_query_create_child cb q d).1 ≠ 0
    · simp [h]
    · simp only [h, if_false]
      rcases List.mem_cons.1 hc with hcd | hcd
      · subst hcd
        exact absurd (hfail q) h
      · exact ih hcd _

theorem udb_query_create_of_child_fails (list : Option (List udb_query_t))
    (ci : oconfig_item_t) (cb : Option udb_query_create_callback_t) (c : oconfig_item_t)
    (hc : c ∈ ci.children) (hfail : ∀ q, (udb_query_create_child cb q c).1 ≠ 0) :
    udb_query_create list ci cb = (-1, list) := by
  rcases udb_query_create_status list ci cb with h | ⟨name, _, h0, _⟩
  · exact h
  · exact absurd h0 (udb_query_create_loop_fails cb ci.children c hc hfail _)

theorem udb_query_create_child_unknown (cb : Option udb_query_create_callback_t)
    (q : udb_query_t) (c : oconfig_item_t) (h : unknown_query_option c = true) :
    udb_query_create_child cb q c =
      match cb with
      | some f => ((f q c).1, { q with user_data := (f q c).2 })
      | none => (-1, q) := by
  simp only [unknown_query_option, Bool.not_eq_true', Bool.or_eq_false_iff] at h
  obtain ⟨⟨⟨⟨h1, h2⟩, h3⟩, h4⟩, h5⟩ := h
  have e1 : ¬ strcasecmp "Statement".toList c.key = 0 := by rw [strcasecmp_key, h1]; simp
  have e2 : ¬ strcasecmp "Result".toList c.key = 0 := by rw [strcasecmp_key, h2]; simp
  have e3 : ¬ strcasecmp "MinVersion".toList c.key = 0 := by rw [strcasecmp_key, h3]; simp
  have e4 : ¬ strcasecmp "MaxVersion".toList c.key = 0 := by rw [strcasecmp_key, h4]; simp
  have e5 : ¬ strcasecmp "PluginInstanceFrom".toList c.key = 0 := by
    rw [strcasecmp_key, h5]; simp
  unfold udb_query_create_child
  rw [if_neg e1, if_neg e2, if_neg e3, if_neg e4, if_neg e5]

theorem udb_query_create_added (list : Option (List udb_query_t)) (ci : oconfig_item_t)
    (cb : Option udb_query_create_callback_t) (q : udb_query_t)
    (h : udb_query_create list ci cb = (0, some (list.getD [] ++ [q]))) :
    ∃ name, ci.values = [oconfig_value_t.string name] ∧
      (udb_query_create_loop cb ci.children (new_query name)).1 = 0 ∧
      (udb_query_create_loop cb ci.children (new_query name)).2 = q ∧
      q.statement ≠ none ∧ q.results ≠ [] := by
  rcases udb_query_create_status list ci cb with h1 | ⟨name, hname, h0, hs, hr, h1⟩
  · rw [h1] at h
    cases h
  · rw [h1] at h
    simp only [Prod.mk.injEq, Option.some.injEq, true_and] at h
    have hq := List.append_cancel_left h
    simp only [List.cons.injEq, and_true] at hq
    exact ⟨name, hname, h0, hq, hq ▸ hs, hq ▸ hr⟩

theorem udb_query_create_child_min_version (cb : Option udb_query_create_callback_t)
    (q : udb_query_t) (c : oconfig_item_t) (h : key_is "MinVersion" c = false) :
    (udb_query_create_child cb q c).2.min_version = q.min_version := by
  have h1 : ¬ strcasecmp "MinVersion".toList c.key = 0 := by rw [strcasecmp_key, h]; simp
  unfold udb_query_create_child
  repeat' split
  all_goals rfl

theorem udb_query_create_child_max_version (cb : Option udb_query_create_callback_t)
    (q : udb_query_t) (c : oconfig_item_t) (h : key_is "MaxVersion" c = false) :
    (udb_query_create_child cb q c).2.max_version = q.max_version := by
  have h1 : ¬ strcasecmp "MaxVersion".toList c.key = 0 := by rw [strcasecmp_key, h]; simp
  unfold udb_query_create_child
  repeat' split
  all_goals rfl

theorem udb_query_create_loop_min_version (cb : Option udb_query_create_callback_t)
    (children : List oconfig_item_t) (q : udb_query_t)
    (h : ∀ c ∈ children, key_is "MinVersion" c = false) :
    (udb_query_create_loop cb children q).2.min_version = q.min_version := by
  induction children generalizing q with
  | nil => rfl
  | cons c rest ih =>
    have hc := udb_query_create_child_min_version cb q c (h c (List.mem_cons_self _ _))
    simp only [udb_query_create_loop]
    split
    · exact hc
    · rw [ih _ (fun c hc => h c (List.mem_cons_of_mem _ hc)), hc]

theorem udb_query_create_loop_max_version (cb : Option udb_query_create_callback_t)
    (children : List oconfig_item_t) (q : udb_query_t)
    (h : ∀ c ∈ children, key_is "MaxVersion" c = false) :
    (udb_query_create_loop cb children q).2.max_version = q.max_version := by
  induction children generalizing q with
  | nil => rfl
  | cons c rest ih =>
    have hc := udb_query_create_child_max_version cb q c (h c (List.mem_cons_self _ _))
    simp only [udb_query_create_loop]
    split
    · exact hc
    · rw [ih _ (fun c hc => h c (List.mem_cons_of_mem _ hc)), hc]

theorem udb_query_create_child_min_set (cb : Option udb_query_create_callback_t)
    (q : udb_query_t) (c : oconfig_item_t) (h : key_is "MinVersion" c = true) :
    udb_query_create_child cb q c =
      ((udb_config_set_uint q.min_version c).1,
        { q with min_version := (udb_config_set_uint q.min_version c).2 }) := by
  have h1 := key_is_excl "MinVersion" "Statement" c (by decide) h
  have h2 := key_is_excl "MinVersion" "Result" c (by decide) h
  simp only [udb_query_create_child, strcasecmp_key, h, h1, h2, if_true]
  simp

theorem udb_query_create_child_max_set (cb : Option udb_query_create_callback_t)
    (q : udb_query_t) (c : oconfig_item_t) (h : key_is "MaxVersion" c = true) :
    udb_query_create_child cb q c =
      ((udb_config_set_uint q.max_version c).1,
        { q with max_version := (udb_config_set_uint q.max_version c).2 }) := by
  have h1 := key_is_excl "MaxVersion" "Statement" c (by decide) h
  have h2 := key_is_excl "MaxVersion" "Result" c (by decide) h
  have h3 := key_is_excl "MaxVersion" "MinVersion" c (by decide) h
  simp only [udb_query_create_child, strcasecmp_key, h, h1, h2, h3, if_true]
  simp

theorem udb_config_set_uint_eq (ret_value : Nat) (c : oconfig_item_t) (x : ℚ)
    (h : c.values = [oconfig_value_t.number x]) :
    udb_config_set_uint ret_value c =
      if x < 0 ∨ x > (UINT_MAX : ℚ) then (-ERANGE, ret_value)
      else (0, (Rat.floor (double_round (x + 1 / 2))).toNat) := by
  unfold udb_config_set_uint
  rw [h]

theorem udb_config_set_uint_fails (ret_value : Nat) (c : oconfig_item_t)
    (h : version_argument c = false) :
    (udb_config_set_uint ret_value c).1 ≠ 0 ∧ (udb_config_set_uint ret_value c).2 = ret_value := by
  unfold version_argument at h
  unfold udb_config_set_uint
  split at h
  · rename_i x hx
    simp only [decide_eq_false_iff_not, not_and_or, not_le] at h
    rw [if_pos h]
    simp [ERANGE]
  · simp

theorem binade_above_le (x : ℚ) (k : Nat) (hx : x < 2 ^ k) :
    ∀ fuel l, l ≤ k → k ≤ l + fuel → binade_above x fuel l ≤ k := by
  intro fuel
  induction fuel with
  | zero => intro l h1 h2; simp only [binade_above]; omega
  | succ f ih =>
    intro l h1 h2
    simp only [binade_above]
    split_ifs with h
    · exact h1
    · have hlk : l ≠ k := fun e => h (e ▸ hx)
      exact ih (l + 1) (by omega) (by omega)

theorem double_round_bounds (x : ℚ) (k : ℤ) (h0 : (k : ℚ) ≤ x) (h1 : x < k + 1) :
    (k : ℚ) ≤ double_round x ∧ double_round x ≤ k + 1 := by
  unfold double_round
  set n := 53 - binade_above x 53 0 with hn
  have hs : (0 : ℚ) < 2 ^ n := by positivity
  have hfl : ∀ y : ℚ, Rat.floor y = ⌊y⌋ := fun _ => rfl
  simp only [hfl]
  have hk0 : ((k * 2 ^ n : ℤ) : ℚ) ≤ x * 2 ^ n := by
    push_cast
    exact mul_le_mul_of_nonneg_right h0 hs.le
  have hk1 : x * 2 ^ n < ((k + 1) * 2 ^ n : ℤ) := by
    push_cast
    exact mul_lt_mul_of_pos_right h1 hs
  have hb0 : k * 2 ^ n ≤ ⌊x * 2 ^ n⌋ := Int.le_floor.2 hk0
  have hb1 : ⌊x * 2 ^ n⌋ < (k + 1) * 2 ^ n := Int.floor_lt.2 hk1
  have hlow : (k : ℚ) ≤ (⌊x * 2 ^ n⌋ : ℚ) / 2 ^ n := by
    rw [le_div_iff₀ hs]
    exact_mod_cast hb0
  have hup : ((⌊x * 2 ^ n⌋ : ℚ) + 1) / 2 ^ n ≤ k + 1 := by
    rw [div_le_iff₀ hs]
    have : ⌊x * 2 ^ n⌋ + 1 ≤ (k + 1) * 2 ^ n := hb1
    exact_mod_cast this
  have hmid : (⌊x * 2 ^ n⌋ : ℚ) / 2 ^ n ≤ ((⌊x * 2 ^ n⌋ : ℚ) + 1) / 2 ^ n := by
    apply div_le_div_of_nonneg_right _ hs.le
    linarith
  split_ifs
  · exact ⟨hlow, by linarith⟩
  · exact ⟨by push_cast; linarith, by push_cast; linarith⟩
  · exact ⟨hlow, by linarith⟩
  · exact ⟨by push_cast; linarith, by push_cast; linarith⟩

theorem double_round_exact (x : ℚ) (m : ℤ)
    (h : x * 2 ^ (53 - binade_above x 53 0) = m) : double_round x = x := by
  unfold double_round
  have hfl : ∀ y : ℚ, Rat.floor y = ⌊y⌋ := fun _ => rfl
  simp only [hfl] at h ⊢
  set n := 53 - binade_above x 53 0 with hn
  have hs : (0 : ℚ) < 2 ^ n := by positivity
  rw [h]
  simp only [Int.floor_intCast, sub_self]
  rw [if_pos (by norm_num), ← h]
  field_simp

theorem double_round_nat_add_half (n : Nat) (hn : n < 2 ^ 52) :
    double_round ((n : ℚ) + 1 / 2) = (n : ℚ) + 1 / 2 := by
  have hl : binade_above ((n : ℚ) + 1 / 2) 53 0 ≤ 52 := by
    apply binade_above_le _ 52 _ 53 0 (by omega) (by omega)
    have : ((n : ℚ) + 1) ≤ 2 ^ 52 := by exact_mod_cast hn
    linarith
  apply double_round_exact _
    (((2 * n + 1) * 2 ^ (52 - binade_above ((n : ℚ) + 1 / 2) 53 0) : ℕ) : ℤ)
  have : 53 - binade_above ((n : ℚ) + 1 / 2) 53 0 =
      (52 - binade_above ((n : ℚ) + 1 / 2) 53 0) + 1 := by omega
  rw [this, pow_succ]
  push_cast
  ring

theorem floor_nat_add_half (n : Nat) (hn : n ≤ UINT_MAX) :
    (Rat.floor (double_round ((n : ℚ) + 1 / 2))).toNat = n := by
  rw [double_round_nat_add_half n (by unfold UINT_MAX at hn; omega)]
  have h : Rat.floor ((n : ℚ) + 1 / 2) = ⌊(n : ℚ) + 1 / 2⌋ := rfl
  have : ⌊(n : ℚ) + 1 / 2⌋ = (n : Int) := by
    rw [Int.floor_eq_iff]
    constructor <;> push_cast <;> linarith
  rw [h, this]
  simp

theorem floor_double_round (x : ℚ) (hx : 0 ≤ x) :
    (Rat.floor (double_round x)).toNat = (Rat.floor x).toNat ∨
    ((Rat.floor (double_round x)).toNat = (Rat.floor x).toNat + 1 ∧
      double_round x = ((Rat.floor x).toNat + 1 : ℕ)) := by
  have hfl : ∀ y : ℚ, Rat.floor y = ⌊y⌋ := fun _ => rfl
  simp only [hfl]
  have hk : (0 : ℤ) ≤ ⌊x⌋ := Int.floor_nonneg.2 hx
  obtain ⟨h0, h1⟩ := double_round_bounds x ⌊x⌋ (Int.floor_le x) (Int.lt_floor_add_one x)
  rcases h1.lt_or_eq with hlt | heq
  · left
    have : ⌊double_round x⌋ = ⌊x⌋ := Int.floor_eq_iff.2 ⟨h0, hlt⟩
    rw [this]
  · right
    have : ⌊double_round x⌋ = ⌊x⌋ + 1 := by
      rw [heq]
      exact_mod_cast Int.floor_intCast (⌊x⌋ + 1)
    refine ⟨by rw [this]; omega, ?_⟩
    rw [heq]
    have hc : ((⌊x⌋.toNat : ℤ) : ℚ) = (⌊x⌋ : ℚ) := by rw [Int.toNat_of_nonneg hk]
    push_cast
    rw [← hc]
    push_cast
    rfl

theorem udb_query_create_loop_min_last (cb : Option udb_query_create_callback_t)
    (pre post : List oconfig_item_t) (c : oconfig_item_t) (q : udb_query_t)
    (hkey : key_is "MinVersion" c = true)
    (hpost : ∀ d ∈ post, key_is "MinVersion" d = false)
    (h0 : (udb_query_create_loop cb (pre ++ c :: post) q).1 = 0) :
    (udb_query_create_loop cb (pre ++ c :: post) q).2.min_version =
      (udb_config_set_uint (udb_query_create_loop cb pre q).2.min_version c).2 ∧
    (udb_config_set_uint (udb_query_create_loop cb pre q).2.min_version c).1 = 0 := by
  rw [udb_query_create_loop_append] at h0 ⊢
  by_cases hpre : (udb_query_create_loop cb pre q).1 ≠ 0
  · rw [if_pos hpre] at h0
    exact absurd h0 hpre
  · rw [if_neg hpre] at h0 ⊢
    simp only [udb_query_create_loop, udb_query_create_child_min_set cb _ c hkey] at h0 ⊢
    by_cases hc : (udb_config_set_uint (udb_query_create_loop cb pre q).2.min_version c).1 ≠ 0
    · rw [if_pos hc] at h0
      exact absurd h0 hc
    · rw [if_neg hc] at h0 ⊢
      rw [udb_query_create_loop_min_version cb post _ hpost]
      exact ⟨rfl, not_not.1 hc⟩

theorem udb_query_create_loop_max_last (cb : Option udb_query_create_callback_t)
    (pre post : List oconfig_item_t) (c : oconfig_item_t) (q : udb_query_t)
    (hkey : key_is "MaxVersion" c = true)
    (hpost : ∀ d ∈ post, key_is "MaxVersion" d = false)
    (h0 : (udb_query_create_loop cb (pre ++ c :: post) q).1 = 0) :
    (udb_query_create_loop cb (pre ++ c :: post) q).2.max_version =
      (udb_config_set_uint (udb_query_create_loop cb pre q).2.max_version c).2 ∧
    (udb_config_set_uint (udb_query_create_loop cb pre q).2.max_version c).1 = 0 := by
  rw [udb_query_create_loop_append] at h0 ⊢
  by_cases hpre : (udb_query_create_loop cb pre q).1 ≠ 0
  · rw [if_pos hpre] at h0
    exact absurd h0 hpre
  · rw [if_neg hpre] at h0 ⊢
    simp only [udb_query_create_loop, udb_query_create_child_max_set cb _ c hkey] at h0 ⊢
    by_cases hc : (udb_config_set_uint (udb_query_create_loop cb pre q).2.max_version c).1 ≠ 0
    · rw [if_pos hc] at h0
      exact absurd h0 hc
    · rw [if_neg hc] at h0 ⊢
      rw [udb_query_create_loop_max_version cb post _ hpost]
      exact ⟨rfl, not_not.1 hc⟩

theorem udb_config_set_uint_bad (ret_value : Nat) (c : oconfig_item_t)
    (hbad : ∀ x, c.values = [oconfig_value_t.number x] → x < 0 ∨ (UINT_MAX : ℚ) < x) :
    (udb_config_set_uint ret_value c).1 ≠ 0 := by
  unfold udb_config_set_uint
  split
  · rename_i x hx
    rw [if_pos (hbad x hx)]
    simp [ERANGE]
  · simp

theorem udb_config_set_uint_ok (ret_value : Nat) (c : oconfig_item_t) (x : ℚ)
    (h : c.values = [oconfig_value_t.number x])
    (h0 : (udb_config_set_uint ret_value c).1 = 0) :
    (0 ≤ x ∧ x ≤ (UINT_MAX : ℚ)) ∧
    (udb_config_set_uint ret_value c).2 = (Rat.floor (double_round (x + 1 / 2))).toNat := by
  rw [udb_config_set_uint_eq ret_value c x h] at h0 ⊢
  by_cases hx : x < 0 ∨ x > (UINT_MAX : ℚ)
  · rw [if_pos hx] at h0
    simp [ERANGE] at h0
  · rw [if_neg hx]
    simp only [not_or, not_lt] at hx
    exact ⟨⟨hx.1, hx.2⟩, rfl⟩

/-! ### Results of created queries -/

theorem udb_result_create_status (n : CStr) (r_head : List udb_result_t)
    (b : oconfig_item_t) :
    udb_result_create n r_head b = (-1, r_head) ∨
    ((udb_result_create_loop b.children
        { type := none, instance_prefix := none, instances := [], values := [],
          metadata := [] }).1 = 0 ∧
      (udb_result_create_loop b.children
        { type := none, instance_prefix := none, instances := [], values := [],
          metadata := [] }).2.type ≠ none ∧
      (udb_result_create_loop b.children
        { type := none, instance_prefix := none, instances := [], values := [],
          metadata := [] }).2.values ≠ [] ∧
      udb_result_create n r_head b =
        (0, r_head ++ [(udb_result_create_loop b.children
          { type := none, instance_prefix := none, instances := [], values := [],
            metadata := [] }).2])) := by
  unfold udb_result_create
  by_cases h0 : (udb_result_create_loop b.children
      { type := none, instance_prefix := none, instances := [], values := [],
        metadata := [] }).1 = 0
  · by_cases ht : (udb_result_create_loop b.children
        { type := none, instance_prefix := none, instances := [], values := [],
          metadata := [] }).2.type = none
    · by_cases hv : (udb_result_create_loop b.children
          { type := none, instance_prefix := none, instances := [], values := [],
            metadata := [] }).2.values = []
      · simp [h0, ht, hv]
      · simp [h0, ht, hv]
    · by_cases hv : (udb_result_create_loop b.children
          { type := none, instance_prefix := none, instances := [], values := [],
            metadata := [] }).2.values = []
      · simp [h0, ht, hv]
      · simp [h0, ht, hv]
  · simp [h0]

theorem udb_result_create_well_formed (n : CStr) (r_head : List udb_result_t)
    (b : oconfig_item_t) (h : ∀ r ∈ r_head, r.type ≠ none ∧ r.values ≠ []) :
    ∀ r ∈ (udb_result_create n r_head b).2, r.type ≠ none ∧ r.values ≠ [] := by
  rcases udb_result_create_status n r_head b with h1 | ⟨_, ht, hv, h1⟩
  · rw [h1]; exact h
  · rw [h1]
    intro r hr
    rcases List.mem_append.1 hr with hr | hr
    · exact h r hr
    · rw [List.mem_singleton.1 hr]
      exact ⟨ht, hv⟩

theorem udb_query_create_child_well_formed (cb : Option udb_query_create_callback_t)
    (q : udb_query_t) (c : oconfig_item_t)
    (h : ∀ r ∈ q.results, r.type ≠ none ∧ r.values ≠ []) :
    ∀ r ∈ (udb_query_create_child cb q c).2.results, r.type ≠ none ∧ r.values ≠ [] := by
  by_cases hk : key_is "Result" c = true
  · have h1 := key_is_excl "Result" "Statement" c (by decide) hk
    simp only [udb_query_create_child, strcasecmp_key, hk, h1, if_true]
    exact udb_result_create_well_formed q.name q.results c h
  · rw [udb_query_create_child_results cb q c (by
      intro hcon
      exact hk (by unfold key_is; exact decide_eq_true hcon))]
    exact h

theorem udb_query_create_loop_well_formed (cb : Option udb_query_create_callback_t)
    (children : List oconfig_item_t) (q : udb_query_t)
    (h : ∀ r ∈ q.results, r.type ≠ none ∧ r.values ≠ []) :
    ∀ r ∈ (udb_query_create_loop cb children q).2.results,
      r.type ≠ none ∧ r.values ≠ [] := by
  induction children generalizing q with
  | nil => exact h
  | cons c rest ih =>
    have hc := udb_query_create_child_well_formed cb q c h
    simp only [udb_query_create_loop]
    split
    · exact hc
    · exact ih _ hc

theorem udb_query_create_added_well_formed (list : Option (List udb_query_t))
    (ci : oconfig_item_t) (cb : Option udb_query_create_callback_t) (q : udb_query_t)
    (h : udb_query_create list ci cb = (0, some (list.getD [] ++ [q]))) :
    query_well_formed q := by
  obtain ⟨name, _, _, hq, hs, hr⟩ := udb_query_create_added list ci cb q h
  refine ⟨hs, hr, ?_⟩
  rw [← hq]
  exact udb_query_create_loop_well_formed cb ci.children (new_query name) (by
    intro r hr; cases hr)

theorem udb_query_create_keeps_well_formed (list : Option (List udb_query_t))
    (ci : oconfig_item_t) (cb : Option udb_query_create_callback_t)
    (h : ∀ q ∈ list.getD [], query_well_formed q) :
    ∀ q ∈ (udb_query_create list ci cb).2.getD [], query_well_formed q := by
  rcases udb_query_create_status list ci cb with h1 | ⟨name, _, _, _, _, h1⟩
  · rw [h1]; exact h
  · intro q hq
    have h2 := h1
    rw [h1] at hq
    simp only [Option.getD_some] at hq
    rcases List.mem_append.1 hq with hq | hq
    · exact h q hq
    · rw [List.mem_singleton.1 hq]
      exact udb_query_create_added_well_formed list ci cb _ h2

theorem registry_well_formed
    (calls : List (oconfig_item_t × Option udb_query_create_callback_t)) :
    ∀ q ∈ (registry calls).getD [], query_well_formed q := by
  have key : ∀ (calls : List (oconfig_item_t × Option udb_query_create_callback_t))
      (list : Option (List udb_query_t)), (∀ q ∈ list.getD [], query_well_formed q) →
      ∀ q ∈ (calls.foldl (fun list call => (udb_query_create list call.1 call.2).2)
        list).getD [], query_well_formed q := by
    intro calls
    induction calls with
    | nil => intro list h; exact h
    | cons call calls ih =>
      intro list h
      simp only [List.foldl_cons]
      exact ih _ (udb_query_create_keeps_well_formed list call.1 call.2 h)
  exact key calls none (by intro q hq; cases hq)

theorem udb_result_create_loop_fails (children : List oconfig_item_t) (c : oconfig_item_t)
    (hc : c ∈ children) (hfail : ∀ r, (udb_result_create_child r c).1 ≠ 0)
    (r : udb_result_t) : (udb_result_create_loop children r).1 ≠ 0 := by
  induction children generalizing r with
  | nil => cases hc
  | cons d rest ih =>
    simp only [udb_result_create_loop]
    by_cases h : (udb_result_create_child r d).1 ≠ 0
    · simp [h]
    · simp only [h, if_false]
      rcases List.mem_cons.1 hc with hcd | hcd
      · subst hcd
        exact absurd (hfail r) h
      · exact ih hcd _

theorem udb_result_create_of_child_fails (n : CStr) (r_head : List udb_result_t)
    (b : oconfig_item_t) (c : oconfig_item_t) (hc : c ∈ b.children)
    (hfail : ∀ r, (udb_result_create_child r c).1 ≠ 0) :
    udb_result_create n r_head b = (-1, r_head) := by
  rcases udb_result_create_status n r_head b with h | ⟨h0, _⟩
  · exact h
  · exact absurd h0 (udb_result_create_loop_fails b.children c hc hfail _)

theorem udb_config_add_string_no_argument (arr : List CStr) (c : oconfig_item_t)
    (h : c.values = []) : udb_config_add_string arr c = (-1, arr) := by
  simp [udb_config_add_string, h]

theorem udb_config_add_string_grows (arr : List CStr) (c : oconfig_item_t) :
    (arr ≠ [] → (udb_config_add_string arr c).2 ≠ []) ∧
    ((udb_config_add_string arr c).1 = 0 → (udb_config_add_string arr c).2 ≠ []) := by
  unfold udb_config_add_string
  by_cases h1 : c.values.length < 1
  · simp [h1]
  · by_cases h2 : c.values.any (fun v => v.string?.isNone) = true
    · simp [h1, h2]
    · rw [if_neg h1, if_neg h2]
      have hne : c.values.filterMap oconfig_value_t.string? ≠ [] := by
        match hv : c.values with
        | [] => simp [hv] at h1
        | v :: vs =>
          rw [hv] at h2
          simp only [List.any_cons, Bool.or_eq_true, not_or] at h2
          cases hx : v.string? with
          | none => simp [hx] at h2
          | some x => simp [List.filterMap_cons, hx]
      simp [hne]

theorem udb_result_create_child_instances (r : udb_result_t) (c : oconfig_item_t) :
    (key_is "InstancesFrom" c = false → (udb_result_create_child r c).2.instances =
      r.instances) ∧
    (r.instances ≠ [] → (udb_result_create_child r c).2.instances ≠ []) ∧
    (key_is "InstancesFrom" c = true → (udb_result_create_child r c).1 = 0 →
      (udb_result_create_child r c).2.instances ≠ []) ∧
    (key_is "InstancesFrom" c = true → c.values = [] →
      (udb_result_create_child r c).1 ≠ 0) := by
  by_cases hk : key_is "InstancesFrom" c = true
  · have h1 := key_is_excl "InstancesFrom" "Type" c (by decide) hk
    have h3 := key_is_excl "InstancesFrom" "InstancePrefix" c (by decide) hk
    have hg := udb_config_add_string_grows r.instances c
    simp only [udb_result_create_child, strcasecmp_key, hk, h1, h3, if_true]
    refine ⟨by simp, hg.1, fun _ => hg.2, fun _ hv => ?_⟩
    rw [udb_config_add_string_no_argument r.instances c hv]
    simp
  · have hk0 : ¬ strcasecmp "InstancesFrom".toList c.key = 0 := by
      rw [strcasecmp_key]; exact hk
    have key : (udb_result_create_child r c).2.instances = r.instances := by
      unfold udb_result_create_child
      repeat' split
      all_goals rfl
    refine ⟨fun _ => key, fun h => by rw [key]; exact h, fun h => absurd h hk,
      fun h => absurd h hk⟩

theorem udb_result_create_child_metadata (r : udb_result_t) (c : oconfig_item_t) :
    (key_is "MetadataFrom" c = false → (udb_result_create_child r c).2.metadata =
      r.metadata) ∧
    (r.metadata ≠ [] → (udb_result_create_child r c).2.metadata ≠ []) ∧
    (key_is "MetadataFrom" c = true → (udb_result_create_child r c).1 = 0 →
      (udb_result_create_child r c).2.metadata ≠ []) ∧
    (key_is "MetadataFrom" c = true → c.values = [] →
      (udb_result_create_child r c).1 ≠ 0) := by
  by_cases hk : key_is "MetadataFrom" c = true
  · have h1 := key_is_excl "MetadataFrom" "Type" c (by decide) hk
    have h2 := key_is_excl "MetadataFrom" "InstancePrefix" c (by decide) hk
    have h3 := key_is_excl "MetadataFrom" "InstancesFrom" c (by decide) hk
    have h4 := key_is_excl "MetadataFrom" "ValuesFrom" c (by decide) hk
    have hg := udb_config_add_string_grows r.metadata c
    simp only [udb_result_create_child, strcasecmp_key, hk, h1, h2, h3, h4, if_true]
    refine ⟨by simp, hg.1, fun _ => hg.2, fun _ hv => ?_⟩
    rw [udb_config_add_string_no_argument r.metadata c hv]
    simp
  · have hk0 : ¬ strcasecmp "MetadataFrom".toList c.key = 0 := by
      rw [strcasecmp_key]; exact hk
    have key : (udb_result_create_child r c).2.metadata = r.metadata := by
      unfold udb_result_create_child
      repeat' split
      all_goals rfl
    refine ⟨fun _ => key, fun h => by rw [key]; exact h, fun h => absurd h hk,
      fun h => absurd h hk⟩

theorem udb_result_create_loop_instances (children : List oconfig_item_t)
    (r : udb_result_t) (h0 : (udb_result_create_loop children r).1 = 0) :
    (udb_result_create_loop children r).2.instances = [] ↔
      r.instances = [] ∧ ∀ c ∈ children, key_is "InstancesFrom" c = false := by
  induction children generalizing r with
  | nil => simp [udb_result_create_loop]
  | cons c rest ih =>
    obtain ⟨hkeep, hmono, hadd, _⟩ := udb_result_create_child_instances r c
    simp only [udb_result_create_loop] at h0 ⊢
    by_cases hc : (udb_result_create_child r c).1 ≠ 0
    · rw [if_pos hc] at h0
      exact absurd h0 hc
    · rw [if_neg hc] at h0 ⊢
      rw [ih _ h0]
      simp only [List.mem_cons, forall_eq_or_imp]
      by_cases hk : key_is "InstancesFrom" c = true
      · have := hadd hk (not_not.1 hc)
        simp [this, hk]
      · have hk : _ = false := Bool.eq_false_iff.2 hk
        rw [hkeep hk]
        simp [hk]

theorem udb_result_create_loop_metadata (children : List oconfig_item_t)
    (r : udb_result_t) (h0 : (udb_result_create_loop children r).1 = 0) :
    (udb_result_create_loop children r).2.metadata = [] ↔
      r.metadata = [] ∧ ∀ c ∈ children, key_is "MetadataFrom" c = false := by
  induction children generalizing r with
  | nil => simp [udb_result_create_loop]
  | cons c rest ih =>
    obtain ⟨hkeep, hmono, hadd, _⟩ := udb_result_create_child_metadata r c
    simp only [udb_result_create_loop] at h0 ⊢
    by_cases hc : (udb_result_create_child r c).1 ≠ 0
    · rw [if_pos hc] at h0
      exact absurd h0 hc
    · rw [if_neg hc] at h0 ⊢
      rw [ih _ h0]
      simp only [List.mem_cons, forall_eq_or_imp]
      by_cases hk : key_is "MetadataFrom" c = true
      · have := hadd hk (not_not.1 hc)
        simp [this, hk]
      · have hk : _ = false := Bool.eq_false_iff.2 hk
        rw [hkeep hk]
        simp [hk]

theorem udb_query_prepare_result_unresolved (pgd : Option CStr → Option data_set_t)
    (q : udb_query_t) (a : udb_query_preparation_area_t) (host plugin db_name : CStr)
    (cols : List CStr) (interval : Nat) (r : udb_result_t) (hr : r ∈ q.results)
    (h : (pgd r.type).map (fun ds => ds.ds.length) ≠ some r.values.length) :
    (udb_query_prepare_result pgd q a host plugin db_name cols interval).1 ≠ 0 := by
  intro h0
  exact h (((udb_query_prepare_result_status pgd q a host plugin db_name cols interval).1
    h0).2.2 r hr).1

theorem udb_query_create_child_result (cb : Option udb_query_create_callback_t)
    (q : udb_query_t) (c : oconfig_item_t) (h : key_is "Result" c = true) :
    udb_query_create_child cb q c =
      ((udb_result_create q.name q.results c).1,
        { q with results := (udb_result_create q.name q.results c).2 }) := by
  have h1 := key_is_excl "Result" "Statement" c (by decide) h
  simp only [udb_query_create_child, strcasecmp_key, h, h1, if_true]
  simp

theorem udb_query_create_of_valid (list : Option (List udb_query_t)) (ci : oconfig_item_t)
    (cb : Option udb_query_create_callback_t) (h : valid_query_block ci = true) :
    ∃ q, udb_query_create list ci cb = (0, some (list.getD [] ++ [q])) := by
  simp only [valid_query_block, Bool.and_eq_true, List.all_eq_true] at h
  obtain ⟨⟨⟨hone, hall⟩, hstatement⟩, hresult⟩ := h
  obtain ⟨name, hname⟩ := one_string_argument_values ci hone
  obtain ⟨h0, hs, hr⟩ := udb_query_create_loop_valid cb ci.children (new_query name) hall
  refine ⟨(udb_query_create_loop cb ci.children (new_query name)).2, ?_⟩
  rw [udb_query_create_eq list ci cb name hname,
    if_pos ⟨h0, hs (Or.inr hstatement), hr (Or.inr hresult)⟩]

/-! ### Rows handled one after the other -/

theorem result_sample_congr (api : plugin_api) (q : udb_query_t)
    (a b : udb_query_preparation_area_t) (r : udb_result_t)
    (s t : udb_result_preparation_area_t) (row : List CStr)
    (h1 : a.plugin_instance_pos = b.plugin_instance_pos) (h2 : a.host = b.host)
    (h3 : a.plugin = b.plugin) (h4 : a.db_name = b.db_name) (h5 : a.interval = b.interval)
    (h6 : s.ds = t.ds) (h7 : s.instances_pos = t.instances_pos)
    (h8 : s.values_pos = t.values_pos) (h9 : s.metadata_pos = t.metadata_pos) :
    result_sample api q a r s row = result_sample api q b r t row := by
  unfold result_sample
  rw [h1, h2, h3, h4, h5, h6, h7, h8, h9]

theorem row_samples_congr (api : plugin_api) (q : udb_query_t)
    (a b : udb_query_preparation_area_t) (row : List CStr)
    (h : resolved_state a = resolved_state b) :
    row_samples api q a row = row_samples api q b row := by
  simp only [resolved_state, Prod.mk.injEq] at h
  obtain ⟨_, h1, h2, h3, h4, h5, hareas⟩ := h
  unfold row_samples
  have key : ∀ (rs : List udb_result_t) (ss ts : List udb_result_preparation_area_t),
      ss.map (fun s => (s.ds, s.instances_pos, s.values_pos, s.metadata_pos)) =
        ts.map (fun s => (s.ds, s.instances_pos, s.values_pos, s.metadata_pos)) →
      (List.zip rs ss).filterMap (fun x => result_sample api q a x.1 x.2 row) =
        (List.zip rs ts).filterMap (fun x => result_sample api q b x.1 x.2 row) := by
    intro rs
    induction rs with
    | nil => intro ss ts _; simp
    | cons r rs ih =>
      intro ss ts hmap
      cases ss with
      | nil =>
        cases ts with
        | nil => simp
        | cons t ts => simp at hmap
      | cons s ss =>
        cases ts with
        | nil => simp at hmap
        | cons t ts =>
          simp only [List.map_cons, List.cons.injEq, Prod.mk.injEq] at hmap
          obtain ⟨⟨h6, h7, h8, h9⟩, hrest⟩ := hmap
          simp only [List.zip_cons_cons, List.filterMap_cons]
          rw [result_sample_congr api q a b r s t row h1 h2 h3 h4 h5 h6 h7 h8 h9,
            ih ss ts hrest]
  exact key q.results _ _ hareas

theorem resolved_state_filled (q : udb_query_t) (a : udb_query_preparation_area_t)
    (row : List CStr) (hlen : a.result_prep_areas.length = q.results.length) :
    resolved_state
      { a with
        result_prep_areas :=
          List.zipWith (fun r s => filled_result_area q a r s row) q.results
            a.result_prep_areas } = resolved_state a := by
  simp only [resolved_state, Prod.mk.injEq, true_and]
  have key : ∀ (rs : List udb_result_t) (ss : List udb_result_preparation_area_t),
      ss.length = rs.length →
      (List.zipWith (fun r s => filled_result_area q a r s row) rs ss).map
        (fun s => (s.ds, s.instances_pos, s.values_pos, s.metadata_pos)) =
      ss.map (fun s => (s.ds, s.instances_pos, s.values_pos, s.metadata_pos)) := by
    intro rs
    induction rs with
    | nil =>
      intro ss h
      have : ss = [] := List.eq_nil_of_length_eq_zero (by simpa using h)
      simp [this]
    | cons r rs ih =>
      intro ss h
      cases ss with
      | nil => simp at h
      | cons s ss =>
        simp only [List.zipWith_cons_cons, List.map_cons, List.cons.injEq]
        exact ⟨rfl, ih ss (by simpa using h)⟩
  exact key q.results a.result_prep_areas hlen

theorem handle_rows_prepared (api : plugin_api) (q : udb_query_t)
    (hq : results_well_formed q) (rows : List (List CStr))
    (a : udb_query_preparation_area_t) (ha : area_prepared q a)
    (hrows : ∀ row ∈ rows, a.column_num ≤ row.length) :
    ∃ area, handle_rows api q a rows =
        some (area, (rows.map (fun row => row_samples api q a row)).flatten) ∧
      area_prepared q area ∧ resolved_state area = resolved_state a := by
  induction rows generalizing a with
  | nil => exact ⟨a, rfl, ha, rfl⟩
  | cons row rows ih =>
    have hrow := hrows row (List.mem_cons_self _ _)
    have h1 := udb_query_handle_result_prepared api q a row hq ha hrow
    have hres := resolved_state_filled q a row ha.2.2.2.2.2.1
    obtain ⟨area, hmore, hprep, hstate⟩ := ih _
      (udb_query_handle_result_keeps_prepared q a row ha)
      (fun r hr => hrows r (List.mem_cons_of_mem _ hr))
    have hfun := fun r => row_samples_congr api q _ a r hres
    simp only [hfun] at hmore
    refine ⟨area, ?_, hprep, hstate.trans hres⟩
    simp only [handle_rows, h1, hmore, List.map_cons, List.flatten_cons]

theorem udb_query_prepare_result_columns (pgd : Option CStr → Option data_set_t)
    (q : udb_query_t) (a : udb_query_preparation_area_t) (host plugin db_name : CStr)
    (cols : List CStr) (interval : Nat) (hq : results_well_formed q)
    (h : (udb_query_prepare_result pgd q a host plugin db_name cols interval).1 = 0) :
    1 ≤ cols.length := by
  obtain ⟨_, _, hall⟩ := (udb_query_prepare_result_status _ _ _ _ _ _ _ _).1 h
  obtain ⟨hne, hwf⟩ := hq
  obtain ⟨r, hr⟩ := List.exists_mem_of_ne_nil _ hne
  obtain ⟨name, hname⟩ := List.exists_mem_of_ne_nil _ (hwf r hr).2
  obtain ⟨c, hc, _⟩ := (hall r hr).2.2.1 name hname
  exact List.length_pos_of_mem hc

theorem udb_query_handle_result_after_guard (api : plugin_api) (q : udb_query_t)
    (a : udb_query_preparation_area_t) (row : List CStr)
    (hcol : 1 ≤ a.column_num) (hhost : a.host ≠ none) (hplugin : a.plugin ≠ none)
    (hdb : a.db_name ≠ none)
    (out : Int × udb_query_preparation_area_t × List value_list_t)
    (h : udb_query_handle_result api q a row = some out) : out.1 = 0 ∨ out.1 = -1 := by
  unfold udb_query_handle_result at h
  rw [if_neg (by
    intro hg
    rcases hg with hg | hg | hg | hg
    · omega
    · exact hhost hg
    · exact hplugin hg
    · exact hdb hg)] at h
  split at h
  · cases h
  · rename_i areas success vls _
    simp only [Option.some.injEq] at h
    rw [← h]
    by_cases hs : success = 0
    · simp [hs]
    · simp [hs]

/-! ### Preparation of an area used before -/

theorem udb_result_prepare_result_indep (pgd : Option CStr → Option data_set_t)
    (r : udb_result_t) (a b : udb_result_preparation_area_t) (cols : List CStr) :
    { (udb_result_prepare_result pgd r a cols).2 with plugin_instance := none } =
      { (udb_result_prepare_result pgd r b cols).2 with plugin_instance := none } := by
  by_cases h : result_resolves pgd cols r
  · rw [udb_result_prepare_result_ok pgd r a cols h, udb_result_prepare_result_ok pgd r b cols h]
    rfl
  · rw [(udb_result_prepare_result_fail pgd r a cols h).2,
      (udb_result_prepare_result_fail pgd r b cols h).2]
    rfl

theorem udb_query_prepare_result_loop_indep (pgd : Option CStr → Option data_set_t)
    (cols : List CStr) (rs : List udb_result_t)
    (ss ts : List udb_result_preparation_area_t)
    (h : ss.map (fun s => { s with plugin_instance := none }) =
      ts.map (fun s => { s with plugin_instance := none })) :
    (udb_query_prepare_result_loop pgd cols rs ss).1 =
      (udb_query_prepare_result_loop pgd cols rs ts).1 ∧
    (udb_query_prepare_result_loop pgd cols rs ss).2.map
        (fun s => { s with plugin_instance := none }) =
      (udb_query_prepare_result_loop pgd cols rs ts).2.map
        (fun s => { s with plugin_instance := none }) := by
  induction rs generalizing ss ts with
  | nil => exact ⟨rfl, h⟩
  | cons r rs ih =>
    cases ss with
    | nil =>
      cases ts with
      | nil => exact ⟨rfl, rfl⟩
      | cons t ts => simp at h
    | cons s ss =>
      cases ts with
      | nil => simp at h
      | cons t ts =>
        simp only [List.map_cons, List.cons.injEq] at h
        obtain ⟨_, hrest⟩ := h
        have hst := udb_result_prepare_result_status_indep pgd r s t cols
        have har := udb_result_prepare_result_indep pgd r s t cols
        obtain ⟨i1, i2⟩ := ih ss ts hrest
        simp only [udb_query_prepare_result_loop]
        by_cases hf : (udb_result_prepare_result pgd r s cols).1 ≠ 0
        · rw [if_pos hf, if_pos (hst ▸ hf)]
          exact ⟨hst, by simp only [List.map_cons, har, hrest]⟩
        · rw [if_neg hf, if_neg (hst ▸ hf)]
          exact ⟨i1, by simp only [List.map_cons, har, i2]⟩

theorem udb_query_finish_result_loop_indep (rs : List udb_result_t)
    (ss ts : List udb_result_preparation_area_t) (hs : ss.length = rs.length)
    (ht : ts.length = rs.length) :
    (udb_query_finish_result_loop rs ss).map (fun s => { s with plugin_instance := none }) =
      (udb_query_finish_result_loop rs ts).map
        (fun s => { s with plugin_instance := none }) := by
  rw [udb_query_finish_result_loop_fresh rs ss hs, udb_query_finish_result_loop_fresh rs ts ht]

theorem udb_query_prepare_results_indep (pgd : Option CStr → Option data_set_t)
    (q : udb_query_t) (x y : udb_query_preparation_area_t) (cols : List CStr)
    (hx : x.result_prep_areas.length = q.results.length)
    (h : without_plugin_instance x = without_plugin_instance y) :
    (udb_query_prepare_results pgd q x cols).1 = (udb_query_prepare_results pgd q y cols).1 ∧
    without_plugin_instance (udb_query_prepare_results pgd q x cols).2 =
      without_plugin_instance (udb_query_prepare_results pgd q y cols).2 := by
  simp only [without_plugin_instance, udb_query_preparation_area_t.mk.injEq, true_and] at h
  obtain ⟨h1, h2, h3, h4, h5, hareas⟩ := h
  have hy : y.result_prep_areas.length = q.results.length := by
    have := congrArg List.length hareas
    simp only [List.length_map] at this
    omega
  obtain ⟨i1, i2⟩ := udb_query_prepare_result_loop_indep pgd cols q.results _ _ hareas
  refine ⟨by rw [udb_query_prepare_results_status, udb_query_prepare_results_status, i1], ?_⟩
  by_cases hst : (udb_query_prepare_result_loop pgd cols q.results x.result_prep_areas).1 = 0
  · rw [udb_query_prepare_results_ok pgd q x cols hst,
      udb_query_prepare_results_ok pgd q y cols (i1 ▸ hst)]
    simp only [without_plugin_instance, udb_query_preparation_area_t.mk.injEq, true_and]
    exact ⟨h1, h2, h3, h4, h5, i2⟩
  · rw [udb_query_prepare_results_fail pgd q x cols hst,
      udb_query_prepare_results_fail pgd q y cols (i1 ▸ hst)]
    simp only [without_plugin_instance, udb_query_finish_result,
      udb_query_preparation_area_t.mk.injEq, true_and]
    exact udb_query_finish_result_loop_indep q.results _ _
      (by rw [udb_query_prepare_result_loop_length]; exact hx)
      (by rw [udb_query_prepare_result_loop_length]; exact hy)

theorem udb_query_prepare_result_indep (pgd : Option CStr → Option data_set_t)
    (q : udb_query_t) (a b : udb_query_preparation_area_t) (host plugin db_name : CStr)
    (cols : List CStr) (interval : Nat)
    (ha : a.result_prep_areas.length = q.results.length)
    (hb : b.result_prep_areas.length = q.results.length) :
    (udb_query_prepare_result pgd q a host plugin db_name cols interval).1 =
      (udb_query_prepare_result pgd q b host plugin db_name cols interval).1 ∧
    without_plugin_instance
        (udb_query_prepare_result pgd q a host plugin db_name cols interval).2 =
      without_plugin_instance
        (udb_query_prepare_result pgd q b host plugin db_name cols interval).2 := by
  have hfin := udb_query_finish_result_loop_indep q.results _ _ ha hb
  have hfl := udb_query_finish_result_loop_length q.results a.result_prep_areas
  unfold udb_query_prepare_result
  cases hpif : q.plugin_instance_from with
  | none =>
    simp only
    exact udb_query_prepare_results_indep pgd q _ _ cols
      (by simp only [udb_query_finish_result]; rw [hfl]; exact ha)
      (by simp only [without_plugin_instance, udb_query_finish_result]; rw [hfin])
  | some pif =>
    simp only
    by_cases hfound : find_column pif cols ≥ cols.length
    · rw [if_pos hfound, if_pos hfound]
      refine ⟨rfl, ?_⟩
      simp only [without_plugin_instance, udb_query_finish_result,
        udb_query_preparation_area_t.mk.injEq, true_and]
      refine udb_query_finish_result_loop_indep q.results _ _ ?_ ?_
      · rw [udb_query_finish_result_loop_length]; exact ha
      · rw [udb_query_finish_result_loop_length]; exact hb
    · rw [if_neg hfound, if_neg hfound]
      exact udb_query_prepare_results_indep pgd q _ _ cols
        (by simp only [udb_query_finish_result]; rw [hfl]; exact ha)
        (by simp only [without_plugin_instance, udb_query_finish_result]; rw [hfin])

theorem udb_query_prepare_results_pos (pgd : Option CStr → Option data_set_t)
    (q : udb_query_t) (x : udb_query_preparation_area_t) (cols : List CStr) :
    (udb_query_prepare_results pgd q x cols).2.plugin_instance_pos = x.plugin_instance_pos := by
  unfold udb_query_prepare_results
  by_cases h : (udb_query_prepare_result_loop pgd cols q.results x.result_prep_areas).1 = 0
  · simp [h]
  · simp [h, udb_query_finish_result]

theorem udb_query_prepare_result_pos (pgd : Option CStr → Option data_set_t)
    (q : udb_query_t) (a : udb_query_preparation_area_t) (host plugin db_name : CStr)
    (cols : List CStr) (interval : Nat) :
    (udb_query_prepare_result pgd q a host plugin db_name cols interval).2.plugin_instance_pos =
      match q.plugin_instance_from with
      | some pif =>
        if find_column pif cols < cols.length then find_column pif cols
        else a.plugin_instance_pos
      | none => a.plugin_instance_pos := by
  unfold udb_query_prepare_result
  cases hpif : q.plugin_instance_from with
  | none =>
    simp only
    rw [udb_query_prepare_results_pos]
    rfl
  | some pif =>
    simp only
    by_cases hfound : find_column pif cols ≥ cols.length
    · rw [if_pos hfound, if_neg (by omega)]
      rfl
    · rw [if_neg hfound, if_pos (by omega), udb_query_prepare_results_pos]

theorem resolved_state_of_without (x y : udb_query_preparation_area_t)
    (h : without_plugin_instance x = without_plugin_instance y)
    (hpos : x.plugin_instance_pos = y.plugin_instance_pos) :
    resolved_state x = resolved_state y := by
  simp only [without_plugin_instance, udb_query_preparation_area_t.mk.injEq, true_and] at h
  obtain ⟨h1, h2, h3, h4, h5, hareas⟩ := h
  have hmap := congrArg
    (List.map (fun s : udb_result_preparation_area_t =>
      (s.ds, s.instances_pos, s.values_pos, s.metadata_pos))) hareas
  simp only [List.map_map] at hmap
  simp only [resolved_state, h1, hpos, h2, h3, h4, h5]
  exact congrArg _ (congrArg _ (congrArg _ (congrArg _ (congrArg _ (congrArg _ hmap)))))

/-! ### The options of a result, one by one -/

theorem udb_config_add_string_ok (arr : List CStr) (c : oconfig_item_t)
    (h : (udb_config_add_string arr c).1 = 0) :
    (udb_config_add_string arr c).2 = arr ++ string_values c ∧
    (string_values c).length = c.values.length := by
  unfold udb_config_add_string at h ⊢
  by_cases h1 : c.values.length < 1
  · rw [if_pos h1] at h; simp at h
  · by_cases h2 : c.values.any (fun v => v.string?.isNone) = true
    · rw [if_neg h1, if_pos h2] at h; simp at h
    · rw [if_neg h1, if_neg h2]
      refine ⟨rfl, ?_⟩
      unfold string_values
      have hall : ∀ v ∈ c.values, v.string?.isSome = true := by
        intro v hv
        cases hx : v.string? with
        | some x => rfl
        | none =>
          exfalso
          apply h2
          rw [List.any_eq_true]
          exact ⟨v, hv, by simp [hx]⟩
      generalize c.values = vs at hall
      induction vs with
      | nil => rfl
      | cons v vs ih =>
        have hv := hall v (List.mem_cons_self _ _)
        cases hx : v.string? with
        | none => simp [hx] at hv
        | some x =>
          simp only [List.filterMap_cons, hx, List.length_cons]
          rw [ih (fun w hw => hall w (List.mem_cons_of_mem _ hw))]

theorem udb_result_create_child_values_from (r : udb_result_t) (c : oconfig_item_t) :
    (key_is "ValuesFrom" c = true →
      udb_result_create_child r c =
        ((udb_config_add_string r.values c).1,
          { r with values := (udb_config_add_string r.values c).2 })) ∧
    (key_is "ValuesFrom" c = false → (udb_result_create_child r c).2.values = r.values) := by
  constructor
  · intro hk
    have h1 := key_is_excl "ValuesFrom" "Type" c (by decide) hk
    have h2 := key_is_excl "ValuesFrom" "InstancePrefix" c (by decide) hk
    have h3 := key_is_excl "ValuesFrom" "InstancesFrom" c (by decide) hk
    simp only [udb_result_create_child, strcasecmp_key, hk, h1, h2, h3, if_true]
    simp
  · intro hk
    have hk0 : ¬ strcasecmp "ValuesFrom".toList c.key = 0 := by
      rw [strcasecmp_key, hk]; simp
    unfold udb_result_create_child
    repeat' split
    all_goals rfl

theorem udb_result_create_child_instances_from (r : udb_result_t) (c : oconfig_item_t) :
    (key_is "InstancesFrom" c = true →
      udb_result_create_child r c =
        ((udb_config_add_string r.instances c).1,
          { r with instances := (udb_config_add_string r.instances c).2 })) ∧
    (key_is "InstancesFrom" c = false →
      (udb_result_create_child r c).2.instances = r.instances) := by
  constructor
  · intro hk
    have h1 := key_is_excl "InstancesFrom" "Type" c (by decide) hk
    have h2 := key_is_excl "InstancesFrom" "InstancePrefix" c (by decide) hk
    simp only [udb_result_create_child, strcasecmp_key, hk, h1, h2, if_true]
    simp
  · exact (udb_result_create_child_instances r c).1

theorem udb_result_create_child_metadata_from (r : udb_result_t) (c : oconfig_item_t) :
    (key_is "MetadataFrom" c = true →
      udb_result_create_child r c =
        ((udb_config_add_string r.metadata c).1,
          { r with metadata := (udb_config_add_string r.metadata c).2 })) ∧
    (key_is "MetadataFrom" c = false →
      (udb_result_create_child r c).2.metadata = r.metadata) := by
  constructor
  · intro hk
    have h1 := key_is_excl "MetadataFrom" "Type" c (by decide) hk
    have h2 := key_is_excl "MetadataFrom" "InstancePrefix" c (by decide) hk
    have h3 := key_is_excl "MetadataFrom" "InstancesFrom" c (by decide) hk
    have h4 := key_is_excl "MetadataFrom" "ValuesFrom" c (by decide) hk
    simp only [udb_result_create_child, strcasecmp_key, hk, h1, h2, h3, h4, if_true]
    simp
  · exact (udb_result_create_child_metadata r c).1

/-- A field of the result that each child of a key either extends with `udb_config_add_string`
or leaves alone is, after a loop without error, the old field followed by the string
arguments of the children of that key, each of which has only string arguments. -/
theorem udb_result_create_loop_field (key : String) (field : udb_result_t → List CStr)
    (hstep : ∀ (r : udb_result_t) (c : oconfig_item_t),
      (key_is key c = true →
        (udb_result_create_child r c).1 = (udb_config_add_string (field r) c).1 ∧
        field (udb_result_create_child r c).2 = (udb_config_add_string (field r) c).2) ∧
      (key_is key c = false → field (udb_result_create_child r c).2 = field r))
    (children : List oconfig_item_t) (r : udb_result_t)
    (h0 : (udb_result_create_loop children r).1 = 0) :
    field (udb_result_create_loop children r).2 =
      field r ++ ((children.filter (key_is key)).map string_values).flatten ∧
    ∀ c ∈ children.filter (key_is key), (string_values c).length = c.values.length := by
  induction children generalizing r with
  | nil => simp [udb_result_create_loop]
  | cons c rest ih =>
    simp only [udb_result_create_loop] at h0 ⊢
    by_cases hc : (udb_result_create_child r c).1 ≠ 0
    · rw [if_pos hc] at h0
      exact absurd h0 hc
    · rw [if_neg hc] at h0 ⊢
      obtain ⟨i1, i2⟩ := ih _ h0
      by_cases hk : key_is key c = true
      · obtain ⟨hs, hf⟩ := (hstep r c).1 hk
        obtain ⟨a1, a2⟩ := udb_config_add_string_ok (field r) c (hs ▸ not_not.1 hc)
        rw [i1, hf, a1]
        simp only [List.filter_cons, hk, if_true, List.map_cons, List.flatten_cons,
          List.append_assoc, List.mem_cons, forall_eq_or_imp, true_and]
        exact ⟨a2, i2⟩
      · have hk : key_is key c = false := Bool.eq_false_iff.2 hk
        rw [i1, (hstep r c).2 hk]
        simp only [List.filter_cons, hk, Bool.false_eq_true, if_false, true_and]
        exact i2

theorem udb_result_create_added (n : CStr) (r_head : List udb_result_t) (b : oconfig_item_t)
    (r : udb_result_t) (h : udb_result_create n r_head b = (0, r_head ++ [r])) :
    (udb_result_create_loop b.children
      { type := none, instance_prefix := none, instances := [], values := [],
        metadata := [] }).1 = 0 ∧
    (udb_result_create_loop b.children
      { type := none, instance_prefix := none, instances := [], values := [],
        metadata := [] }).2 = r := by
  rcases udb_result_create_status n r_head b with h1 | ⟨h0, _, _, h1⟩
  · rw [h1] at h
    cases h
  · rw [h1] at h
    simp only [Prod.mk.injEq, true_and] at h
    have hq := List.append_cancel_left h
    simp only [List.cons.injEq, and_true] at hq
    exact ⟨h0, hq⟩

theorem udb_result_create_child_type (r : udb_result_t) (c : oconfig_item_t)
    (h : key_is "Type" c = false) : (udb_result_create_child r c).2.type = r.type := by
  have h1 : ¬ strcasecmp "Type".toList c.key = 0 := by rw [strcasecmp_key, h]; simp
  unfold udb_result_create_child
  rw [if_neg h1]
  repeat' split
  all_goals rfl

theorem udb_result_create_loop_type (children : List oconfig_item_t) (r : udb_result_t)
    (h : ∀ c ∈ children, key_is "Type" c = false) :
    (udb_result_create_loop children r).2.type = r.type := by
  induction children generalizing r with
  | nil => rfl
  | cons c rest ih =>
    have hc := udb_result_create_child_type r c (h c (List.mem_cons_self _ _))
    simp only [udb_result_create_loop]
    split
    · exact hc
    · rw [ih _ (fun c hc => h c (List.mem_cons_of_mem _ hc)), hc]

theorem udb_result_create_child_unknown (r : udb_result_t) (c : oconfig_item_t)
    (h : unknown_result_option c = true) : udb_result_create_child r c = (-1, r) := by
  simp only [unknown_result_option, Bool.not_eq_true', Bool.or_eq_false_iff] at h
  obtain ⟨⟨⟨⟨h1, h2⟩, h3⟩, h4⟩, h5⟩ := h
  simp only [udb_result_create_child, strcasecmp_key, h1, h2, h3, h4, h5]
  simp

theorem udb_config_set_string_not_string (x : Option CStr) (c : oconfig_item_t)
    (v : oconfig_value_t) (hv : v ∈ c.values) (hs : v.string? = none) :
    udb_config_set_string x c = (-1, x) := by
  unfold udb_config_set_string
  split
  · rename_i s hval
    rw [hval, List.mem_singleton] at hv
    rw [hv] at hs
    simp [oconfig_value_t.string?] at hs
  · rfl

theorem udb_config_add_string_not_string (arr : List CStr) (c : oconfig_item_t)
    (v : oconfig_value_t) (hv : v ∈ c.values) (hs : v.string? = none) :
    udb_config_add_string arr c = (-1, arr) := by
  unfold udb_config_add_string
  by_cases h1 : c.values.length < 1
  · rw [if_pos h1]
  · have h2 : c.values.any (fun v => v.string?.isNone) = true := by
      rw [List.any_eq_true]
      exact ⟨v, hv, by simp [hs]⟩
    rw [if_neg h1, if_pos h2]

theorem udb_result_create_child_not_string (r : udb_result_t) (c : oconfig_item_t)
    (v : oconfig_value_t) (hv : v ∈ c.values) (hs : v.string? = none) :
    (udb_result_create_child r c).1 ≠ 0 := by
  unfold udb_result_create_child
  simp only [udb_config_set_string_not_string _ c v hv hs,
    udb_config_add_string_not_string _ c v hv hs]
  repeat' split
  all_goals simp

/-- Each of the four defects of a `Result` block makes `udb_result_create` return -1 and
leave the list of results as it is. -/
theorem udb_result_create_invalid (n : CStr) (r_head : List udb_result_t)
    (b : oconfig_item_t)
    (h : (∀ c ∈ b.children, key_is "Type" c = false) ∨
      (∀ c ∈ b.children, key_is "ValuesFrom" c = false) ∨
      (∃ c ∈ b.children, unknown_result_option c = true) ∨
      (∃ c ∈ b.children, ∃ v ∈ c.values, oconfig_value_t.string? v = none)) :
    udb_result_create n r_head b = (-1, r_head) := by
  rcases h with h | h | ⟨c, hc, h⟩ | ⟨c, hc, v, hv, hs⟩
  · rcases udb_result_create_status n r_head b with h1 | ⟨_, ht, _, _⟩
    · exact h1
    · exact absurd (udb_result_create_loop_type b.children _ h) ht
  · rcases udb_result_create_status n r_head b with h1 | ⟨h0, _, hvals, _⟩
    · exact h1
    · have hv := (udb_result_create_loop_field "ValuesFrom" (fun r => r.values)
        (fun r c => ⟨fun hk => by
            rw [(udb_result_create_child_values_from r c).1 hk]; exact ⟨rfl, rfl⟩,
          (udb_result_create_child_values_from r c).2⟩) b.children _ h0).1
      have hnil : b.children.filter (key_is "ValuesFrom") = [] := by
        rw [List.filter_eq_nil_iff]
        intro c hc
        rw [h c hc]
        simp
      rw [hnil] at hv
      exact absurd hv hvals
  · exact udb_result_create_of_child_fails n r_head b c hc (fun r => by
      rw [udb_result_create_child_unknown r c h]; simp)
  · exact udb_result_create_of_child_fails n r_head b c hc
      (fun r => udb_result_create_child_not_string r c v hv hs)

theorem find_column_first (name : CStr) (cols : List CStr) :
    ∀ c ∈ cols.take (find_column name cols), ¬ eq_ignoring_case name c := by
  induction cols with
  | nil => simp [find_column]
  | cons d cs ih =>
    simp only [find_column]
    by_cases hd : strcasecmp name d = 0
    · simp [hd]
    · simp only [hd, if_false, List.take_succ_cons, List.mem_cons, forall_eq_or_imp]
      exact ⟨fun h => hd ((strcasecmp_eq_zero_iff name d).2 h), ih⟩

theorem find_column_first_position (name : CStr) (cols : List CStr)
    (h : column_exists cols name) : first_position cols name (find_column name cols) :=
  ⟨find_column_position name cols h, find_column_first name cols⟩

theorem forall₂_find_column_first (cols : List CStr) (names : List CStr)
    (h : ∀ name ∈ names, column_exists cols name) :
    List.Forall₂ (first_position cols) names
      (names.map (fun name => find_column name cols)) := by
  induction names with
  | nil => exact List.Forall₂.nil
  | cons n rest ih =>
    exact List.Forall₂.cons (find_column_first_position n cols (h n (List.mem_cons_self _ _)))
      (ih (fun name hname => h name (List.mem_cons_of_mem _ hname)))

/-! ### The `DSType` option -/

theorem lor_ne_zero (a b : Nat) (h : a ≠ 0) : a ||| b ≠ 0 := by
  intro h0
  apply h
  apply Nat.eq_of_testBit_eq
  intro i
  have := congrArg (fun n => Nat.testBit n i) h0
  simp only [Nat.testBit_or, Nat.zero_testBit, Bool.or_eq_false_iff] at this
  simp [this.1]

theorem strcasecmp_lower (a s : CStr) :
    strcasecmp a s = 0 ↔ a.map tolower = s.map tolower :=
  strcasecmp_eq_zero_iff a s

theorem strncasecmp_lower (a s : CStr) (n : Nat) :
    strncasecmp a s n = 0 ↔ (a.map tolower).take n = (s.map tolower).take n := by
  unfold strncasecmp
  rw [strcasecmp_eq_zero_iff]
  unfold eq_ignoring_case
  rw [List.map_take, List.map_take]

theorem ctail_config_add_match_dstype_known {latency_config_t : Type}
    (k : utils_match_flags)
    (latency_config : latency_config_t → oconfig_item_t → CStr → Int × latency_config_t)
    (cm : ctail_config_match_t latency_config_t) (ci : oconfig_item_t) (ds_type : CStr)
    (hval : ci.values = [oconfig_value_t.string ds_type]) (e : String × Nat)
    (he : e ∈ dstype_table k) (hname : eq_ignoring_case e.1.toList ds_type) :
    ctail_config_add_match_dstype k latency_config cm ci =
      ctail_config_add_match_dstype_check { cm with flags := e.2 } := by
  unfold eq_ignoring_case at hname
  simp only [dstype_table, List.mem_cons, List.mem_singleton, List.not_mem_nil, or_false] at he
  unfold ctail_config_add_match_dstype
  simp only [hval, strcasecmp_lower, strncasecmp_lower, strlen]
  rcases he with rfl | rfl | rfl | rfl | rfl | rfl | rfl | rfl | rfl | rfl | rfl | rfl | rfl | rfl
  all_goals
    simp only [← hname]
    simp +decide

theorem ctail_config_add_match_dstype_distribution {latency_config_t : Type}
    (k : utils_match_flags)
    (latency_config : latency_config_t → oconfig_item_t → CStr → Int × latency_config_t)
    (cm : ctail_config_match_t latency_config_t) (ci : oconfig_item_t) (ds_type : CStr)
    (hval : ci.values = [oconfig_value_t.string ds_type])
    (hname : eq_ignoring_case "Distribution".toList ds_type) :
    ctail_config_add_match_dstype k latency_config cm ci =
      if (latency_config cm.latency ci "tail".toList).1 ≠ 0 then
        ((latency_config cm.latency ci "tail".toList).1,
          { cm with
            flags := k.UTILS_MATCH_DS_TYPE_GAUGE ||| k.UTILS_MATCH_CF_GAUGE_DIST,
            latency := (latency_config cm.latency ci "tail".toList).2 })
      else
        ctail_config_add_match_dstype_check
          { cm with
            flags := k.UTILS_MATCH_DS_TYPE_GAUGE ||| k.UTILS_MATCH_CF_GAUGE_DIST,
            latency := (latency_config cm.latency ci "tail".toList).2 } := by
  unfold eq_ignoring_case at hname
  unfold ctail_config_add_match_dstype
  simp only [hval, strcasecmp_lower, strncasecmp_lower, strlen]
  simp only [← hname]
  simp +decide

theorem ctail_config_add_match_dstype_unknown {latency_config_t : Type}
    (k : utils_match_flags)
    (latency_config : latency_config_t → oconfig_item_t → CStr → Int × latency_config_t)
    (cm : ctail_config_match_t latency_config_t) (ci : oconfig_item_t) (ds_type : CStr)
    (hval : ci.values = [oconfig_value_t.string ds_type])
    (hnames : ∀ n ∈ dstype_names, ¬ eq_ignoring_case n.toList ds_type)
    (hdist : ¬ eq_ignoring_case "Distribution".toList ds_type) :
    ctail_config_add_match_dstype k latency_config cm ci = (-1, { cm with flags := 0 }) := by
  unfold eq_ignoring_case at hdist
  have h1 := hnames "GaugeAverage" (by decide)
  have h2 := hnames "GaugeMin" (by decide)
  have h3 := hnames "GaugeMax" (by decide)
  have h4 := hnames "GaugeLast" (by decide)
  have h5 := hnames "GaugeInc" (by decide)
  have h6 := hnames "GaugeAdd" (by decide)
  have h7 := hnames "GaugePersist" (by decide)
  have h8 := hnames "CounterSet" (by decide)
  have h9 := hnames "CounterAdd" (by decide)
  have h10 := hnames "CounterInc" (by decide)
  have h11 := hnames "DeriveSet" (by decide)
  have h12 := hnames "DeriveAdd" (by decide)
  have h13 := hnames "DeriveInc" (by decide)
  have h14 := hnames "AbsoluteSet" (by decide)
  unfold eq_ignoring_case at h1 h2 h3 h4 h5 h6 h7 h8 h9 h10 h11 h12 h13 h14
  unfold ctail_config_add_match_dstype
  simp only [hval, strcasecmp_lower, strncasecmp_lower, strlen, h1, h2, h3, h4, h5, h6, h7,
    h8, h9, h10, h11, h12, h13, h14, hdist, if_false]
  split_ifs <;> simp [ctail_config_add_match_dstype_check]

theorem dstype_table_names (k : utils_match_flags) :
    (dstype_table k).map (fun e => e.1) = dstype_names := rfl

theorem dstype_table_ne_zero (k : utils_match_flags)
    (hk : k.UTILS_MATCH_DS_TYPE_GAUGE ≠ 0 ∧ k.UTILS_MATCH_DS_TYPE_COUNTER ≠ 0 ∧
      k.UTILS_MATCH_DS_TYPE_DERIVE ≠ 0 ∧ k.UTILS_MATCH_DS_TYPE_ABSOLUTE ≠ 0) :
    ∀ e ∈ dstype_table k, e.2 ≠ 0 := by
  obtain ⟨hg, hc, hd, ha⟩ := hk
  intro e he
  simp only [dstype_table, List.mem_cons, List.mem_singleton, List.not_mem_nil, or_false] at he
  rcases he with rfl | rfl | rfl | rfl | rfl | rfl | rfl | rfl | rfl | rfl | rfl | rfl | rfl | rfl
  all_goals first
    | exact lor_ne_zero _ _ hg
    | exact lor_ne_zero _ _ hc
    | exact lor_ne_zero _ _ hd
    | exact lor_ne_zero _ _ ha

/-! ### The row pointer across preparations -/

theorem udb_result_prepare_result_plugin_instance (pgd : Option CStr → Option data_set_t)
    (r : udb_result_t) (a : udb_result_preparation_area_t) (cols : List CStr) :
    (udb_result_prepare_result pgd r a cols).2.plugin_instance = a.plugin_instance := by
  by_cases h : result_resolves pgd cols r
  · rw [udb_result_prepare_result_ok pgd r a cols h]
    rfl
  · rw [(udb_result_prepare_result_fail pgd r a cols h).2]
    rfl

theorem udb_query_finish_result_loop_plugin_instance (rs : List udb_result_t)
    (areas : List udb_result_preparation_area_t) (hlen : rs.length ≤ areas.length) :
    (udb_query_finish_result_loop rs areas).map (fun s => s.plugin_instance) =
      areas.map (fun s => s.plugin_instance) := by
  induction rs generalizing areas with
  | nil => rfl
  | cons r rs ih =>
    cases areas with
    | nil => simp at hlen
    | cons a areas =>
      simp only [udb_query_finish_result_loop, List.map_cons, ih areas (by simpa using hlen)]
      rfl

theorem udb_query_prepare_result_loop_plugin_instance (pgd : Option CStr → Option data_set_t)
    (cols : List CStr) (rs : List udb_result_t) (areas : List udb_result_preparation_area_t)
    (hlen : rs.length ≤ areas.length) :
    (udb_query_prepare_result_loop pgd cols rs areas).2.map (fun s => s.plugin_instance) =
      areas.map (fun s => s.plugin_instance) := by
  induction rs generalizing areas with
  | nil => rfl
  | cons r rs ih =>
    cases areas with
    | nil => simp at hlen
    | cons a areas =>
      simp only [udb_query_prepare_result_loop]
      split
      · simp only [List.map_cons, udb_result_prepare_result_plugin_instance]
      · simp only [List.map_cons, udb_result_prepare_result_plugin_instance,
          ih areas (by simpa using hlen)]

theorem udb_query_prepare_results_plugin_instance (pgd : Option CStr → Option data_set_t)
    (q : udb_query_t) (x : udb_query_preparation_area_t) (cols : List CStr)
    (hlen : q.results.length ≤ x.result_prep_areas.length) :
    (udb_query_prepare_results pgd q x cols).2.result_prep_areas.map
        (fun s => s.plugin_instance) =
      x.result_prep_areas.map (fun s => s.plugin_instance) := by
  have hl := udb_query_prepare_result_loop_plugin_instance pgd cols q.results
    x.result_prep_areas hlen
  unfold udb_query_prepare_results
  by_cases h : (udb_query_prepare_result_loop pgd cols q.results x.result_prep_areas).1 = 0
  · simp [h, hl]
  · simp only [ne_eq, h, not_false_eq_true, if_true, udb_query_finish_result]
    rw [udb_query_finish_result_loop_plugin_instance _ _
      (by rw [udb_query_prepare_result_loop_length]; exact hlen), hl]

/-- The row pointers `plugin_instance` of the result preparation areas are the same before
and after `udb_query_prepare_result`, whether it succeeds or fails. -/
theorem udb_query_prepare_result_plugin_instance (pgd : Option CStr → Option data_set_t)
    (q : udb_query_t) (a : udb_query_preparation_area_t) (host plugin db_name : CStr)
    (cols : List CStr) (interval : Nat)
    (hlen : q.results.length ≤ a.result_prep_areas.length) :
    (udb_query_prepare_result pgd q a host plugin db_name cols
        interval).2.result_prep_areas.map (fun s => s.plugin_instance) =
      a.result_prep_areas.map (fun s => s.plugin_instance) := by
  have hfin := udb_query_finish_result_loop_plugin_instance q.results a.result_prep_areas hlen
  have hfl := udb_query_finish_result_loop_length q.results a.result_prep_areas
  unfold udb_query_prepare_result
  cases hpif : q.plugin_instance_from with
  | none =>
    simp only
    rw [udb_query_prepare_results_plugin_instance pgd q _ cols
      (by simp only [udb_query_finish_result]; rw [hfl]; exact hlen)]
    exact hfin
  | some pif =>
    simp only
    by_cases hfound : find_column pif cols ≥ cols.length
    · rw [if_pos hfound]
      simp only [udb_query_finish_result]
      rw [udb_query_finish_result_loop_plugin_instance _ _ (by rw [hfl]; exact hlen)]
      exact hfin
    · rw [if_neg hfound]
      rw [udb_query_prepare_results_plugin_instance pgd q _ cols
        (by simp only [udb_query_finish_result]; rw [hfl]; exact hlen)]
      exact hfin

/-! ### The read outside `r->values` -/

theorem metadata_bail_index_eq_some_iff (cols : List CStr) (names : List CStr) (k i : Nat) :
    metadata_bail_index cols names k = some i ↔
      ∃ j, i = k + j ∧ j < names.length ∧ ¬ column_exists cols (names.getD j []) ∧
        ∀ n ∈ names.take j, column_exists cols n := by
  induction names generalizing k with
  | nil => simp [metadata_bail_index]
  | cons n rest ih =>
    simp only [metadata_bail_index]
    by_cases h : find_column n cols < cols.length
    · have hex := (find_column_lt_iff n cols).1 h
      rw [if_neg (by omega), ih]
      constructor
      · rintro ⟨j, hi, hj, hne, hall⟩
        refine ⟨j + 1, by omega, by simp; omega, by simpa using hne, ?_⟩
        intro m hm
        simp only [List.take_succ_cons, List.mem_cons] at hm
        rcases hm with rfl | hm
        · exact hex
        · exact hall m hm
      · rintro ⟨j, hi, hj, hne, hall⟩
        cases j with
        | zero => exact absurd hex (by simpa using hne)
        | succ j =>
          refine ⟨j, by omega, by simpa using hj, by simpa using hne, ?_⟩
          intro m hm
          exact hall m (by simp only [List.take_succ_cons, List.mem_cons]; exact Or.inr hm)
    · have hex : ¬ column_exists cols n := fun hex => h ((find_column_lt_iff n cols).2 hex)
      rw [if_pos (by omega)]
      constructor
      · intro hi
        simp only [Option.some.injEq] at hi
        exact ⟨0, by omega, by simp, by simpa using hex, by simp⟩
      · rintro ⟨j, hi, hj, hne, hall⟩
        cases j with
        | zero => simp [hi]
        | succ j =>
          exact absurd (hall n (by simp)) hex

theorem resolve_loop_ne_none_iff (cols : List CStr) (names : List CStr) (i : Nat)
    (pos : Option (List Nat)) :
    resolve_loop cols names i pos ≠ none ↔ ∀ name ∈ names, column_exists cols name := by
  rw [ne_eq, resolve_loop_eq_none_iff, not_not]

theorem udb_result_prepare_result_fault_iff (pgd : Option CStr → Option data_set_t)
    (r : udb_result_t) (cols : List CStr) :
    udb_result_prepare_result_fault pgd r cols = true ↔
      (pgd r.type).map (fun ds => ds.ds.length) = some r.values.length ∧
      (∀ name ∈ r.instances, column_exists cols name) ∧
      (∀ name ∈ r.values, column_exists cols name) ∧
      ∃ i, r.values.length ≤ i ∧ i < r.metadata.length ∧
        ¬ column_exists cols (r.metadata.getD i []) ∧
        ∀ n ∈ r.metadata.take i, column_exists cols n := by
  unfold udb_result_prepare_result_fault
  cases hpgd : pgd r.type with
  | none => simp
  | some ds =>
    simp only [Option.map_some', Option.some.injEq]
    by_cases hlen : ds.ds.length = r.values.length
    · simp only [hlen, ne_eq, not_true_eq_false, if_false, true_and]
      cases hi : resolve_loop cols r.instances 0 none with
      | none =>
        have := (resolve_loop_eq_none_iff cols r.instances 0 none).1 hi
        simp [this]
      | some p1 =>
        have h1 := (resolve_loop_ne_none_iff cols r.instances 0 none).1 (by simp [hi])
        cases hv : resolve_loop cols r.values 0 none with
        | none =>
          have := (resolve_loop_eq_none_iff cols r.values 0 none).1 hv
          simp [this]
        | some p2 =>
          have h2 := (resolve_loop_ne_none_iff cols r.values 0 none).1 (by simp [hv])
          cases hm : metadata_bail_index cols r.metadata 0 with
          | none =>
            simp only [Bool.false_eq_true, false_iff, not_and, not_exists]
            intro _ _ i hle hlt hne hall
            have : metadata_bail_index cols r.metadata 0 = some i :=
              (metadata_bail_index_eq_some_iff cols r.metadata 0 i).2
                ⟨i, by omega, hlt, hne, hall⟩
            rw [hm] at this
            cases this
          | some i =>
            obtain ⟨j, hj, hlt, hne, hall⟩ :=
              (metadata_bail_index_eq_some_iff cols r.metadata 0 i).1 hm
            have hij : i = j := by omega
            subst hij
            simp only [ge_iff_le, decide_eq_true_eq]
            constructor
            · intro hle
              exact ⟨h1, h2, i, hle, hlt, hne, hall⟩
            · rintro ⟨_, _, i2, hle, hlt2, hne2, hall2⟩
              have : metadata_bail_index cols r.metadata 0 = some i2 :=
                (metadata_bail_index_eq_some_iff cols r.metadata 0 i2).2
                  ⟨i2, by omega, hlt2, hne2, hall2⟩
              rw [hm] at this
              simp only [Option.some.injEq] at this
              omega
    · simp only [ne_eq, hlen, not_false_eq_true, if_true, Bool.false_eq_true, false_and]

theorem udb_result_prepare_result_fault_of_resolves (pgd : Option CStr → Option data_set_t)
    (r : udb_result_t) (cols : List CStr) (h : result_resolves pgd cols r) :
    udb_result_prepare_result_fault pgd r cols = false := by
  rw [← Bool.not_eq_true, udb_result_prepare_result_fault_iff]
  rintro ⟨_, _, _, i, _, hlt, hne, _⟩
  refine hne (h.2.2.2 _ ?_)
  rw [List.getD_eq_getElem _ _ hlt]
  exact List.getElem_mem _

theorem udb_result_prepare_result_fault_of_type (pgd : Option CStr → Option data_set_t)
    (r : udb_result_t) (cols : List CStr)
    (h : (pgd r.type).map (fun ds => ds.ds.length) ≠ some r.values.length) :
    udb_result_prepare_result_fault pgd r cols = false := by
  rw [← Bool.not_eq_true, udb_result_prepare_result_fault_iff]
  rintro ⟨h1, _⟩
  exact h h1

theorem udb_query_prepare_result_loop_fault_first (pgd : Option CStr → Option data_set_t)
    (cols : List CStr) (pre : List udb_result_t) (r : udb_result_t) (post : List udb_result_t)
    (areas : List udb_result_preparation_area_t)
    (hlen : pre.length < areas.length) (hpre : ∀ r1 ∈ pre, result_resolves pgd cols r1)
    (hr : ¬ result_resolves pgd cols r) :
    udb_query_prepare_result_loop_fault pgd cols (pre ++ r :: post) areas =
      udb_result_prepare_result_fault pgd r cols := by
  induction pre generalizing areas with
  | nil =>
    cases areas with
    | nil => simp at hlen
    | cons a areas =>
      have hf := (udb_result_prepare_result_fail pgd r a cols hr).1
      simp only [List.nil_append, udb_query_prepare_result_loop_fault, ne_eq, hf,
        not_false_eq_true, if_true]
      cases udb_result_prepare_result_fault pgd r cols <;> rfl
  | cons r1 pre ih =>
    cases areas with
    | nil => simp at hlen
    | cons a areas =>
      have h1 := udb_result_prepare_result_ok pgd r1 a cols (hpre r1 (List.mem_cons_self _ _))
      have h2 := udb_result_prepare_result_fault_of_resolves pgd r1 cols
        (hpre r1 (List.mem_cons_self _ _))
      have := ih areas (by simpa using hlen) (fun r hr => hpre r (List.mem_cons_of_mem _ hr))
      simp [udb_query_prepare_result_loop_fault, h1, h2, this]

theorem udb_query_prepare_result_fault_first (pgd : Option CStr → Option data_set_t)
    (q : udb_query_t) (a : udb_query_preparation_area_t) (cols : List CStr)
    (pre : List udb_result_t) (r : udb_result_t) (post : List udb_result_t)
    (hq : q.results = pre ++ r :: post)
    (hpif : ∀ pif, q.plugin_instance_from = some pif → column_exists cols pif)
    (hpre : ∀ r1 ∈ pre, result_resolves pgd cols r1)
    (hlen : pre.length < a.result_prep_areas.length)
    (hr : ¬ result_resolves pgd cols r) :
    udb_query_prepare_result_fault pgd q a cols = udb_result_prepare_result_fault pgd r cols := by
  have hl : pre.length < (udb_query_finish_result q a).result_prep_areas.length := by
    simpa [udb_query_finish_result, udb_query_finish_result_loop_length] using hlen
  unfold udb_query_prepare_result_fault
  cases hp : q.plugin_instance_from with
  | none =>
    simp only [hq]
    exact udb_query_prepare_result_loop_fault_first pgd cols pre r post _ hl hpre hr
  | some pif =>
    have hfound := (find_column_lt_iff pif cols).2 (hpif pif hp)
    simp only
    rw [if_neg (by omega)]
    simp only [hq]
    exact udb_query_prepare_result_loop_fault_first pgd cols pre r post _ hl hpre hr

theorem udb_query_prepare_result_no_plugin_instance_column
    (pgd : Option CStr → Option data_set_t) (q : udb_query_t)
    (a : udb_query_preparation_area_t) (host plugin db_name : CStr) (cols : List CStr)
    (interval : Nat) (pif : CStr) (hp : q.plugin_instance_from = some pif)
    (hex : ¬ column_exists cols pif) :
    (udb_query_prepare_result pgd q a host plugin db_name cols interval).1 = -ENOENT ∧
    udb_query_prepare_result_fault pgd q a cols = false := by
  have hfound : ¬ find_column pif cols < cols.length :=
    fun h => hex ((find_column_lt_iff pif cols).1 h)
  unfold udb_query_prepare_result udb_query_prepare_result_fault
  simp only [hp]
  rw [if_pos (by omega), if_pos (by omega)]
  exact ⟨rfl, rfl⟩

/-! ### What makes a result contribute a sample -/

theorem result_sample_ne_none_general (api : plugin_api) (q : udb_query_t)
    (a : udb_query_preparation_area_t) (r : udb_result_t)
    (s : udb_result_preparation_area_t) (row : List CStr) :
    result_sample api q a r s row ≠ none ↔
      parse_all api (columns_at row s.values_pos) ((s.ds.map (fun ds => ds.ds)).getD []) ≠
        none ∧
      sample_type_instance api r (row_strings row s.instances_pos) ≠ none ∧
      (attach_all api (List.zip r.metadata (columns_at row s.metadata_pos)) []).1 = 0 := by
  unfold result_sample
  cases hp : parse_all api (columns_at row s.values_pos) ((s.ds.map (fun ds => ds.ds)).getD []) with
  | none => simp
  | some values =>
    cases hti : sample_type_instance api r (row_strings row s.instances_pos) with
    | none => simp
    | some ti => simp

theorem row_strings_length (row : List CStr) (num : Nat) (pos : Option (List Nat))
    (buffer : Option (List (Option CStr))) (n : Nat)
    (h : positions_prepared num pos buffer n) (h0 : num ≠ 0) (hrow : n ≤ row.length) :
    (row_strings row pos).length = num := by
  obtain ⟨ps, hps, hlen, hlt⟩ := positions_prepared_pos h h0
  have := congrArg List.length
    (columns_at_eq_map_some row ps (fun p hp => lt_of_lt_of_le (hlt p hp) hrow))
  simp only [List.length_map, columns_at, Option.getD_some] at this
  rw [hps, ← this, hlen]

/-- When `strjoin` joins the instance values of the row, a composed string that fits the
identifier length is the type instance. -/
theorem sample_type_instance_fit_at (api : plugin_api) (r : udb_result_t) (fields : List CStr)
    (hfit : r.instances.length ≠ 0 →
      (['-'].intercalate fields).length < api.DATA_MAX_NAME_LEN →
      ¬ (api.strjoin api.DATA_MAX_NAME_LEN fields ['-']).1 < 0 ∧
      (api.strjoin api.DATA_MAX_NAME_LEN fields ['-']).2 = ['-'].intercalate fields)
    (hlen : (composed_instance r (['-'].intercalate fields)).length <
      api.DATA_MAX_NAME_LEN) :
    sample_type_instance api r fields =
      some (composed_instance r (['-'].intercalate fields)) := by
  unfold sample_type_instance
  by_cases h0 : r.instances.length = 0
  · rw [if_pos h0]
    have hc : ∀ j, composed_instance r j = r.instance_prefix.getD [] := by
      intro j; simp [composed_instance, h0]
    rw [hc] at hlen ⊢
    rw [hc, List.take_of_length_le (by omega)]
  · have hj := lt_of_le_of_lt (composed_instance_length_le r _ h0) hlen
    obtain ⟨hst, heq⟩ := hfit h0 hj
    rw [if_neg h0, if_neg hst, heq, List.take_of_length_le (l := ['-'].intercalate fields)
      (by omega), List.take_of_length_le (by omega)]

/-! ### The results of a created query, block by block -/

theorem udb_result_create_child_type_set (r : udb_result_t) (c : oconfig_item_t)
    (h : key_is "Type" c = true) :
    udb_result_create_child r c =
      ((udb_config_set_string r.type c).1,
        { r with type := (udb_config_set_string r.type c).2 }) := by
  simp only [udb_result_create_child, strcasecmp_key, h, if_true]

theorem udb_config_set_string_ok (x : Option CStr) (c : oconfig_item_t)
    (h : (udb_config_set_string x c).1 = 0) :
    (udb_config_set_string x c).2 = (string_values c).head? := by
  unfold udb_config_set_string at h ⊢
  split
  · rename_i s hs
    simp [string_values, hs, oconfig_value_t.string?]
  · rename_i hs
    split at h
    · rename_i s hs2
      exact absurd hs2 (hs s)
    · simp at h

theorem udb_result_create_loop_type_last (children : List oconfig_item_t) (r : udb_result_t)
    (h0 : (udb_result_create_loop children r).1 = 0) :
    (udb_result_create_loop children r).2.type =
      match (children.filter (key_is "Type")).getLast? with
      | none => r.type
      | some c => (string_values c).head? := by
  induction children generalizing r with
  | nil => rfl
  | cons c rest ih =>
    simp only [udb_result_create_loop] at h0 ⊢
    by_cases hc : (udb_result_create_child r c).1 ≠ 0
    · rw [if_pos hc] at h0
      exact absurd h0 hc
    · rw [if_neg hc] at h0 ⊢
      rw [ih _ h0]
      by_cases hk : key_is "Type" c = true
      · simp only [List.filter_cons, hk, if_true]
        rw [udb_result_create_child_type_set r c hk] at hc ⊢
        have := udb_config_set_string_ok r.type c (not_not.1 hc)
        cases hl : (rest.filter (key_is "Type")).getLast? with
        | none =>
          have hnil : rest.filter (key_is "Type") = [] := List.getLast?_eq_none_iff.1 hl
          simp [hnil, this]
        | some d =>
          have : (c :: rest.filter (key_is "Type")).getLast? = some d := by
            rw [List.getLast?_cons, hl]
            rfl
          rw [this]
      · have hk : key_is "Type" c = false := Bool.eq_false_iff.2 hk
        simp only [List.filter_cons, hk, Bool.false_eq_true, if_false]
        rw [udb_result_create_child_type r c hk]

theorem udb_query_create_loop_results_eq (cb : Option udb_query_create_callback_t)
    (children : List oconfig_item_t) (q : udb_query_t)
    (h0 : (udb_query_create_loop cb children q).1 = 0) :
    (udb_query_create_loop cb children q).2.results =
      q.results ++ (children.filter (key_is "Result")).map (fun b =>
        (udb_result_create_loop b.children
          { type := none, instance_prefix := none, instances := [], values := [],
            metadata := [] }).2) ∧
    ∀ b ∈ children.filter (key_is "Result"),
      (udb_result_create_loop b.children
        { type := none, instance_prefix := none, instances := [], values := [],
          metadata := [] }).1 = 0 := by
  induction children generalizing q with
  | nil => simp [udb_query_create_loop]
  | cons c rest ih =>
    simp only [udb_query_create_loop] at h0 ⊢
    by_cases hc : (udb_query_create_child cb q c).1 ≠ 0
    · rw [if_pos hc] at h0
      exact absurd h0 hc
    · rw [if_neg hc] at h0 ⊢
      obtain ⟨i1, i2⟩ := ih _ h0
      by_cases hk : key_is "Result" c = true
      · rw [udb_query_create_child_result cb q c hk] at hc i1 ⊢
        rcases udb_result_create_status q.name q.results c with h1 | ⟨hl, _, _, h1⟩
        · rw [h1] at hc
          simp at hc
        · rw [i1, h1]
          simp only [List.filter_cons, hk, if_true, List.map_cons, List.append_assoc,
            List.singleton_append, List.mem_cons, forall_eq_or_imp, true_and]
          exact ⟨hl, i2⟩
      · have hk0 : key_is "Result" c = false := Bool.eq_false_iff.2 hk
        have hne : ¬ eq_ignoring_case "Result".toList c.key := by
          simpa [key_is] using hk0
        rw [i1, udb_query_create_child_results cb q c hne]
        simp only [List.filter_cons, hk0, Bool.false_eq_true, if_false, true_and]
        exact i2

/-- The results of the query that `udb_query_create` adds are those of the `Result` blocks
of the `Query` block, in order, each with the `Type` and the `ValuesFrom` names of its
block. -/
theorem udb_query_create_results (list : Option (List udb_query_t)) (ci : oconfig_item_t)
    (cb : Option udb_query_create_callback_t) (q : udb_query_t)
    (h : udb_query_create list ci cb = (0, some (list.getD [] ++ [q]))) :
    q.results.map (fun r => (r.type, r.values)) =
      (ci.children.filter (key_is "Result")).map
        (fun b => (result_block_type b, result_block_values b)) := by
  obtain ⟨name, _, h0, hq, _, _⟩ := udb_query_create_added list ci cb q h
  obtain ⟨h1, h2⟩ := udb_query_create_loop_results_eq cb ci.children _ h0
  rw [← hq, h1]
  simp only [new_query, List.nil_append, List.map_map]
  apply List.map_congr_left
  intro b hb
  have hb0 := h2 b hb
  have ht := udb_result_create_loop_type_last b.children _ hb0
  have hv := (udb_result_create_loop_field "ValuesFrom" (fun r => r.values)
    (fun r c => ⟨fun hk => by
        rw [(udb_result_create_child_values_from r c).1 hk]
        exact ⟨rfl, rfl⟩,
      (udb_result_create_child_values_from r c).2⟩) b.children _ hb0).1
  simp only [Function.comp, Prod.mk.injEq, result_block_type, result_block_values]
  refine ⟨?_, by simpa using hv⟩
  rw [ht]
  cases (b.children.filter (key_is "Type")).getLast? <;> rfl

/-! ### The stored version bound is in the range of `unsigned int` -/

theorem double_round_le (x B : ℚ) (m : ℤ) (hx : x ≤ B)
    (hB : B * 2 ^ (53 - binade_above x 53 0) = m) : double_round x ≤ B := by
  unfold double_round
  set n := 53 - binade_above x 53 0 with hn
  have hs : (0 : ℚ) < 2 ^ n := by positivity
  have hfl : ∀ y : ℚ, Rat.floor y = ⌊y⌋ := fun _ => rfl
  simp only [hfl]
  have hS : x * 2 ^ n ≤ (m : ℚ) := by
    rw [← hB]
    exact mul_le_mul_of_nonneg_right hx hs.le
  have hfloor : ⌊x * 2 ^ n⌋ ≤ m := by
    exact (Int.floor_le_floor hS).trans (le_of_eq (Int.floor_intCast m))
  have hB' : B = (m : ℚ) / 2 ^ n := by
    rw [eq_div_iff hs.ne', hB]
  have hup : ¬ x * 2 ^ n - (⌊x * 2 ^ n⌋ : ℚ) < 1 / 2 → ⌊x * 2 ^ n⌋ + 1 ≤ m := by
    intro hfrac
    have hlt : (⌊x * 2 ^ n⌋ : ℚ) < x * 2 ^ n := by linarith
    have : (⌊x * 2 ^ n⌋ : ℚ) < (m : ℚ) := lt_of_lt_of_le hlt hS
    have : ⌊x * 2 ^ n⌋ < m := by exact_mod_cast this
    omega
  rw [hB']
  apply div_le_div_of_nonneg_right _ hs.le
  split_ifs with h1 h2 h3
  · exact_mod_cast hfloor
  · exact_mod_cast hup h1
  · exact_mod_cast hfloor
  · exact_mod_cast hup h1

theorem floor_double_round_le_uint_max (x : ℚ) (h1 : x ≤ (UINT_MAX : ℚ)) :
    (Rat.floor (double_round (x + 1 / 2))).toNat ≤ UINT_MAX := by
  have hfl : ∀ y : ℚ, Rat.floor y = ⌊y⌋ := fun _ => rfl
  have hU : ((UINT_MAX : ℕ) : ℚ) = 4294967295 := by norm_num [UINT_MAX]
  have hl : binade_above (x + 1 / 2) 53 0 ≤ 52 := by
    apply binade_above_le _ 52 _ 53 0 (by omega) (by omega)
    rw [hU] at h1
    have : (4294967296 : ℚ) ≤ 2 ^ 52 := by norm_num
    linarith
  have hle := double_round_le (x + 1 / 2) ((UINT_MAX : ℚ) + 1 / 2)
    (((2 * UINT_MAX + 1) * 2 ^ (52 - binade_above (x + 1 / 2) 53 0) : ℕ) : ℤ)
    (by linarith) (by
      have : 53 - binade_above (x + 1 / 2) 53 0 =
          (52 - binade_above (x + 1 / 2) 53 0) + 1 := by omega
      rw [this, pow_succ]
      push_cast
      ring)
  rw [hfl]
  have : ⌊double_round (x + 1 / 2)⌋ ≤ (UINT_MAX : ℤ) := by
    have h2 : ⌊double_round (x + 1 / 2)⌋ ≤ ⌊(UINT_MAX : ℚ) + 1 / 2⌋ := Int.floor_le_floor hle
    have h3 : ⌊(UINT_MAX : ℚ) + 1 / 2⌋ = (UINT_MAX : ℤ) := by
      rw [Int.floor_eq_iff]
      constructor <;> push_cast <;> linarith
    rw [h3] at h2
    exact h2
  omega

/-! ### The row pointer after a handled row -/

theorem filled_plugin_instance (q : udb_query_t) (a : udb_query_preparation_area_t)
    (row : List CStr) (hpif : q.plugin_instance_from ≠ none) (rs : List udb_result_t)
    (areas : List udb_result_preparation_area_t) :
    ∀ p ∈ (List.zipWith (fun r s => filled_result_area q a r s row) rs areas).map
        (fun s => s.plugin_instance), p = row[a.plugin_instance_pos]? := by
  induction rs generalizing areas with
  | nil => simp
  | cons r rs ih =>
    cases areas with
    | nil => simp
    | cons s areas =>
      intro p hp
      simp only [List.zipWith_cons_cons, List.map_cons, List.mem_cons] at hp
      rcases hp with rfl | hp
      · simp [filled_result_area, hpif]
      · exact ih areas p hp

/-! ## Theorems -/

/-- C1: for every query `q` and version `v`, `udb_query_check_version` returns 1 exactly
when `min_version ≤ v ≤ max_version` and 0 otherwise; the bounds of a non-empty range are
accepted, `min_version - 1` (when `min_version > 0`) and `max_version + 1` are rejected. -/
theorem udb_query_check_version_iff (q : udb_query_t) (v : Nat) :
    (udb_query_check_version q v = 1 ↔ q.min_version ≤ v ∧ v ≤ q.max_version) ∧
    (udb_query_check_version q v = 0 ↔ ¬ (q.min_version ≤ v ∧ v ≤ q.max_version)) ∧
    (q.min_version ≤ q.max_version →
      udb_query_check_version q q.min_version = 1 ∧
      udb_query_check_version q q.max_version = 1) ∧
    (0 < q.min_version → udb_query_check_version q (q.min_version - 1) = 0) ∧
    udb_query_check_version q (q.max_version + 1) = 0 := by
  unfold udb_query_check_version
  refine ⟨?_, ?_, ?_, ?_, ?_⟩
  · split <;> simp <;> omega
  · split <;> simp <;> omega
  · intro h
    constructor <;> (split <;> simp; omega)
  · intro h
    split
    · simp
    · omega
  · split
    · simp
    · omega

/-- C1, at a concrete query: the range 80400..90000 accepts both bounds and rejects 80399
and 90001. -/
theorem udb_query_check_version_iff_witness :
    udb_query_check_version (example_query "q" 80400 90000) 80400 = 1 ∧
    udb_query_check_version (example_query "q" 80400 90000) 90000 = 1 ∧
    udb_query_check_version (example_query "q" 80400 90000) 80399 = 0 ∧
    udb_query_check_version (example_query "q" 80400 90000) 90001 = 0 :=
  have h := udb_query_check_version_iff (example_query "q" 80400 90000) 0
  ⟨(h.2.2.1 (by decide)).1, (h.2.2.1 (by decide)).2, h.2.2.2.1 (by decide), h.2.2.2.2⟩

/-- C2: when at least one query of the source list has the given name ignoring ASCII case,
`udb_query_pick_from_list_by_name` returns 0 and the destination list afterwards is the
old destination list followed by exactly the matching queries, in source-list order. -/
theorem udb_query_pick_from_list_by_name_appends (name : CStr) (src : List udb_query_t)
    (dst : Option (List udb_query_t)) (h : ∃ q ∈ src, eq_ignoring_case name q.name) :
    udb_query_pick_from_list_by_name name (some src) dst =
      (0, some (dst.getD [] ++ src.filter (fun q => decide (eq_ignoring_case name q.name)))) :=
  pick_appends name src dst h

/-- C2, at a concrete input: two queries named `disk_io` up to case, with different version
ranges, are both returned after the old destination list, in source-list order. -/
theorem udb_query_pick_from_list_by_name_appends_witness :
    (∃ q ∈ example_query_list, eq_ignoring_case "disk_io".toList q.name) ∧
    udb_query_pick_from_list_by_name "disk_io".toList (some example_query_list)
        (some [example_query "old" 0 1]) =
      (0, some [example_query "old" 0 1, example_query "disk_io" 0 80399,
        example_query "Disk_IO" 80400 UINT_MAX]) :=
  ⟨by decide,
   (udb_query_pick_from_list_by_name_appends "disk_io".toList example_query_list
      (some [example_query "old" 0 1]) (by decide)).trans (by decide)⟩

/-- C3, as stated, fails for the `NULL` source list (the empty list before any query was
created): no query matches, yet the status is `-EINVAL` and not `-ENOENT`. -/
theorem udb_query_pick_from_list_by_name_null_source :
    (∀ q ∈ ([] : List udb_query_t), ¬ eq_ignoring_case "disk_io".toList q.name) ∧
    (udb_query_pick_from_list_by_name "disk_io".toList none none).1 = -EINVAL ∧
    (udb_query_pick_from_list_by_name "disk_io".toList none none).1 ≠ -ENOENT := by
  refine ⟨by simp, by decide, by decide⟩

/-- C3, amended: for a non-`NULL` source list `udb_query_pick_from_list_by_name` fails with
`-ENOENT` if and only if no query of the list has the given name ignoring ASCII case, and
then the destination list is unchanged; for a `NULL` source list it fails with `-EINVAL`
and the destination list is unchanged as well. -/
theorem udb_query_pick_from_list_by_name_not_found (name : CStr) (src : List udb_query_t)
    (dst : Option (List udb_query_t)) :
    ((udb_query_pick_from_list_by_name name (some src) dst).1 = -ENOENT ↔
      ∀ q ∈ src, ¬ eq_ignoring_case name q.name) ∧
    ((udb_query_pick_from_list_by_name name (some src) dst).1 = -ENOENT →
      (udb_query_pick_from_list_by_name name (some src) dst).2 = dst) ∧
    udb_query_pick_from_list_by_name name none dst = (-EINVAL, dst) := by
  have key : (src.filter (fun q => decide (eq_ignoring_case name q.name)) = []) ↔
      ∀ q ∈ src, ¬ eq_ignoring_case name q.name := by
    simp [List.filter_eq_nil_iff]
  simp only [udb_query_pick_from_list_by_name, pick_loop_eq, filter_strcasecmp_eq,
    Nat.zero_add, and_true]
  by_cases hnil : src.filter (fun q => decide (eq_ignoring_case name q.name)) = []
  · refine ⟨⟨fun _ => key.1 hnil, fun _ => ?_⟩, fun _ => ?_⟩ <;> simp [hnil]
  · have hpos : 0 < (src.filter (fun q => decide (eq_ignoring_case name q.name))).length :=
      List.length_pos.2 hnil
    have hnot : ¬ ∀ q ∈ src, ¬ eq_ignoring_case name q.name := fun h => hnil (key.2 h)
    rw [if_neg (by omega)]
    simp only [hnot, iff_false]
    constructor
    · decide
    · intro h
      exact absurd h (by decide)

/-- C3, amended, at a concrete input: no query of the example list is named `uptime`. -/
theorem udb_query_pick_from_list_by_name_not_found_witness :
    udb_query_pick_from_list_by_name "uptime".toList (some example_query_list) none =
      (-ENOENT, none) :=
  have h := udb_query_pick_from_list_by_name_not_found "uptime".toList example_query_list none
  Prod.ext (h.1.2 (by decide)) (h.2.1 (h.1.2 (by decide)))

/-- C4: for every `Query` block that has no `Statement` child, or that has no `Result`
child, `udb_query_create` returns the non-zero status -1 and the caller's query list (and
so its length) is what it was before the call, whatever the callback. -/
theorem udb_query_create_missing_statement_or_result (ret_query_list : Option (List udb_query_t))
    (ci : oconfig_item_t) (cb : Option udb_query_create_callback_t)
    (h : (∀ c ∈ ci.children, ¬ eq_ignoring_case "Statement".toList c.key) ∨
      (∀ c ∈ ci.children, ¬ eq_ignoring_case "Result".toList c.key)) :
    udb_query_create ret_query_list ci cb = (-1, ret_query_list) ∧
    (udb_query_create ret_query_list ci cb).1 ≠ 0 := by
  have key : udb_query_create ret_query_list ci cb = (-1, ret_query_list) := by
    unfold udb_query_create
    split
    · rename_i name hname
      rcases h with h | h
      · have hs := udb_query_create_loop_statement cb ci.children
          { name := name, statement := none, user_data := 0, plugin_instance_from := none,
            min_version := 0, max_version := UINT_MAX, results := [] } h
        simp only at hs
        simp only [hs]
        split <;> simp
      · have hs := udb_query_create_loop_results cb ci.children
          { name := name, statement := none, user_data := 0, plugin_instance_from := none,
            min_version := 0, max_version := UINT_MAX, results := [] } h
        simp only at hs
        simp only [hs]
        split <;> simp
    · rfl
  exact ⟨key, by rw [key]; simp⟩

/-- C4, at a concrete input: a block with a `Result` and no `Statement` is refused and the
list of three queries is unchanged. -/
theorem udb_query_create_missing_statement_or_result_witness :
    ((∀ c ∈ example_query_block_without_statement.children,
        ¬ eq_ignoring_case "Statement".toList c.key) ∨
      (∀ c ∈ example_query_block_without_statement.children,
        ¬ eq_ignoring_case "Result".toList c.key)) ∧
    udb_query_create (some example_query_list) example_query_block_without_statement none =
      (-1, some example_query_list) :=
  ⟨Or.inl (by decide),
   (udb_query_create_missing_statement_or_result (some example_query_list)
      example_query_block_without_statement none (Or.inl (by decide))).1⟩

/-- C5: for every valid `Query` block (one string argument, only recognized children with
well-typed arguments, a `Statement` and at least one `Result` block that has a `Type` and a
`ValuesFrom`), `udb_query_create` returns 0, the new list is the old list with exactly one
query `q` appended, `q` carries the name of the block, and
`udb_query_pick_from_list_by_name` with that name on the new list returns 0 and appends
the matching queries of the old list followed by `q`. -/
theorem udb_query_create_valid (ret_query_list : Option (List udb_query_t))
    (ci : oconfig_item_t) (cb : Option udb_query_create_callback_t)
    (dst : Option (List udb_query_t)) (h : valid_query_block ci = true) :
    ∃ q, ci.values = [oconfig_value_t.string q.name] ∧
      udb_query_create ret_query_list ci cb = (0, some (ret_query_list.getD [] ++ [q])) ∧
      udb_query_pick_from_list_by_name q.name (udb_query_create ret_query_list ci cb).2 dst =
        (0, some (dst.getD [] ++
          (ret_query_list.getD []).filter (fun p => decide (eq_ignoring_case q.name p.name)) ++
          [q])) := by
  simp only [valid_query_block, Bool.and_eq_true, List.all_eq_true] at h
  obtain ⟨⟨⟨hone, hall⟩, hstatement⟩, hresult⟩ := h
  obtain ⟨name, hname⟩ := one_string_argument_values ci hone
  obtain ⟨h0, hs, hr⟩ := udb_query_create_loop_valid cb ci.children
    { name := name, statement := none, user_data := 0, plugin_instance_from := none,
      min_version := 0, max_version := UINT_MAX, results := [] } hall
  have hs1 := hs (Or.inr hstatement)
  have hr1 := hr (Or.inr hresult)
  have hn := udb_query_create_loop_name cb ci.children
    { name := name, statement := none, user_data := 0, plugin_instance_from := none,
      min_version := 0, max_version := UINT_MAX, results := [] }
  simp only at hn
  have hcreate : udb_query_create ret_query_list ci cb =
      (0, some (ret_query_list.getD [] ++ [(udb_query_create_loop cb ci.children
        { name := name, statement := none, user_data := 0, plugin_instance_from := none,
          min_version := 0, max_version := UINT_MAX, results := [] }).2])) := by
    unfold udb_query_create
    simp only [hname]
    simp [h0, hs1, hr1]
  refine ⟨_, ?_, hcreate, ?_⟩
  · rw [hname, hn]
  · rw [hcreate]
    rw [pick_appends _ _ _ ⟨_, List.mem_append_right _ (List.mem_singleton_self _), rfl⟩]
    simp [List.filter_append, eq_ignoring_case]

/-- C5, at a concrete input: the block `<Query "disk_io">` with a `Statement` and one
`Result` is appended to the empty list and is found again by its name. -/
theorem udb_query_create_valid_witness :
    valid_query_block example_query_block = true ∧
    (∃ q, example_query_block.values = [oconfig_value_t.string q.name] ∧
      udb_query_create none example_query_block none = (0, some ([] ++ [q])) ∧
      udb_query_pick_from_list_by_name q.name
          (udb_query_create none example_query_block none).2 none =
        (0, some ([] ++
          ([] : List udb_query_t).filter (fun p => decide (eq_ignoring_case q.name p.name)) ++
          [q]))) ∧
    udb_query_create none example_query_block none =
      (0, some [example_query "disk_io" 0 UINT_MAX]) :=
  ⟨by decide, udb_query_create_valid none example_query_block none none (by decide),
   by decide⟩

/-- C6: for every query `q`, area whose chain of result preparation areas is at least as
long as the result chain of `q` (every area allocated for `q`) and column-name list,
`udb_query_prepare_result` returns 0 if and only if (a) `PluginInstanceFrom` is unset or
equals some column name ignoring case, and for every result of `q`: (b) the schema lookup
knows its type, (c) the number of `ValuesFrom` names is the field count of the schema, and
(d) every `InstancesFrom`, `ValuesFrom` and `MetadataFrom` name equals some column name
ignoring case. -/
theorem udb_query_prepare_result_ok_iff (plugin_get_ds : Option CStr → Option data_set_t)
    (q : udb_query_t) (prep_area : udb_query_preparation_area_t) (host plugin db_name : CStr)
    (column_names : List CStr) (interval : Nat)
    (harea : q.results.length ≤ prep_area.result_prep_areas.length) :
    (udb_query_prepare_result plugin_get_ds q prep_area host plugin db_name column_names
        interval).1 = 0 ↔
      (∀ pif, q.plugin_instance_from = some pif → column_exists column_names pif) ∧
      ∀ r ∈ q.results,
        plugin_get_ds r.type ≠ none ∧
        (∀ ds, plugin_get_ds r.type = some ds → r.values.length = ds.ds.length) ∧
        (∀ name ∈ r.instances, column_exists column_names name) ∧
        (∀ name ∈ r.values, column_exists column_names name) ∧
        (∀ name ∈ r.metadata, column_exists column_names name) := by
  rw [udb_query_prepare_result_status]
  simp only [harea, true_and, result_resolves_iff]

/-- C6, at a concrete input: the fresh area of the query `disk_io` is prepared with the
columns `host`, `bytes`, and the status is 0. -/
theorem udb_query_prepare_result_ok_iff_witness :
    (udb_query_prepare_result example_plugin_get_ds (example_query "disk_io" 0 UINT_MAX)
        (udb_query_allocate_preparation_area (example_query "disk_io" 0 UINT_MAX))
        "localhost".toList "postgresql".toList "orders".toList example_column_names 10).1 = 0 ∧
    ∀ r ∈ (example_query "disk_io" 0 UINT_MAX).results,
      example_plugin_get_ds r.type ≠ none ∧
      (∀ ds, example_plugin_get_ds r.type = some ds → r.values.length = ds.ds.length) ∧
      (∀ name ∈ r.instances, column_exists example_column_names name) ∧
      (∀ name ∈ r.values, column_exists example_column_names name) ∧
      (∀ name ∈ r.metadata, column_exists example_column_names name) :=
  ⟨by decide,
   ((udb_query_prepare_result_ok_iff example_plugin_get_ds (example_query "disk_io" 0 UINT_MAX)
      (udb_query_allocate_preparation_area (example_query "disk_io" 0 UINT_MAX))
      "localhost".toList "postgresql".toList "orders".toList example_column_names 10
      (by decide)).1 (by decide)).2⟩

/-- C7: after a successful `udb_query_prepare_result` with the column names `c[0..n-1]`,
every position `p` stored for a configured `PluginInstanceFrom`, `InstancesFrom`,
`ValuesFrom` or `MetadataFrom` name `s` satisfies `p < n` and `c[p]` equals `s` ignoring
ASCII case; the positions of a result stand in the order of its names, one for each. -/
theorem udb_query_prepare_result_positions (plugin_get_ds : Option CStr → Option data_set_t)
    (q : udb_query_t) (prep_area : udb_query_preparation_area_t) (host plugin db_name : CStr)
    (column_names : List CStr) (interval : Nat)
    (h : (udb_query_prepare_result plugin_get_ds q prep_area host plugin db_name column_names
      interval).1 = 0) :
    (∀ pif, q.plugin_instance_from = some pif →
      position_resolves column_names pif
        (udb_query_prepare_result plugin_get_ds q prep_area host plugin db_name column_names
          interval).2.plugin_instance_pos) ∧
    ∀ (i : Nat) (r : udb_result_t), q.results[i]? = some r →
      ∃ s : udb_result_preparation_area_t, (udb_query_prepare_result plugin_get_ds q prep_area host plugin db_name
          column_names interval).2.result_prep_areas[i]? = some s ∧
        List.Forall₂ (position_resolves column_names) r.instances (s.instances_pos.getD []) ∧
        List.Forall₂ (position_resolves column_names) r.values (s.values_pos.getD []) ∧
        List.Forall₂ (position_resolves column_names) r.metadata (s.metadata_pos.getD []) := by
  obtain ⟨hpif, hlen, hall⟩ := (udb_query_prepare_result_status _ _ _ _ _ _ _ _).1 h
  rw [udb_query_prepare_result_ok _ _ _ _ _ _ _ _ h]
  refine ⟨?_, ?_⟩
  · intro pif hp
    simp only [hp]
    exact find_column_position pif column_names (hpif pif hp)
  · intro i r hr
    obtain ⟨pi, hpi⟩ := zipWith_prepared_get plugin_get_ds column_names q.results
      (udb_query_finish_result_loop q.results prep_area.result_prep_areas)
      ((udb_query_finish_result_loop q.results prep_area.result_prep_areas).drop
        q.results.length) i r
      (by rw [udb_query_finish_result_loop_length]; exact hlen) hr
    obtain ⟨_, hi, hv, hm⟩ := hall r (List.getElem?_mem hr)
    refine ⟨_, hpi, ?_, ?_, ?_⟩
    · simp only [prepared_result_area]
      by_cases hlen0 : r.instances.length > 0
      · simpa [hlen0] using forall₂_find_column column_names r.instances hi
      · have : r.instances = [] := List.eq_nil_of_length_eq_zero (by omega)
        simp [this]
    · simpa [prepared_result_area] using forall₂_find_column column_names r.values hv
    · simpa [prepared_result_area] using forall₂_find_column column_names r.metadata hm

/-- C7, at a concrete input: the name `Bytes` of `ValuesFrom` resolves to position 1, the
column named `bytes`. -/
theorem udb_query_prepare_result_positions_witness :
    (udb_query_prepare_result example_plugin_get_ds (example_query "disk_io" 0 UINT_MAX)
        (udb_query_allocate_preparation_area (example_query "disk_io" 0 UINT_MAX))
        "localhost".toList "postgresql".toList "orders".toList example_column_names 10).1 = 0 ∧
    ((udb_query_prepare_result example_plugin_get_ds (example_query "disk_io" 0 UINT_MAX)
        (udb_query_allocate_preparation_area (example_query "disk_io" 0 UINT_MAX))
        "localhost".toList "postgresql".toList "orders".toList example_column_names
        10).2.result_prep_areas.map (fun s => s.values_pos)) = [some [1]] ∧
    ∀ (i : Nat) (r : udb_result_t),
      (example_query "disk_io" 0 UINT_MAX).results[i]? = some r →
      ∃ s : udb_result_preparation_area_t, (udb_query_prepare_result example_plugin_get_ds (example_query "disk_io" 0 UINT_MAX)
          (udb_query_allocate_preparation_area (example_query "disk_io" 0 UINT_MAX))
          "localhost".toList "postgresql".toList "orders".toList example_column_names
          10).2.result_prep_areas[i]? = some s ∧
        List.Forall₂ (position_resolves example_column_names) r.instances
          (s.instances_pos.getD []) ∧
        List.Forall₂ (position_resolves example_column_names) r.values
          (s.values_pos.getD []) ∧
        List.Forall₂ (position_resolves example_column_names) r.metadata
          (s.metadata_pos.getD []) :=
  ⟨by decide, by decide,
   (udb_query_prepare_result_positions example_plugin_get_ds
      (example_query "disk_io" 0 UINT_MAX)
      (udb_query_allocate_preparation_area (example_query "disk_io" 0 UINT_MAX))
      "localhost".toList "postgresql".toList "orders".toList example_column_names 10
      (by decide)).2⟩

/-- C8, as stated, fails: the one result of this query gives two `ValuesFrom` names for
the one-field type `gauge`, yet `udb_query_prepare_result` fails with `-ENOENT`, the status
of the missing `PluginInstanceFrom` column, and not with -1, the status of the field-count
check. -/
theorem udb_query_prepare_result_mismatch_other_status :
    (∃ r ∈ example_query_mismatch_no_column.results, ∃ ds,
      example_plugin_get_ds r.type = some ds ∧ ds.ds.length ≠ r.values.length) ∧
    (udb_query_prepare_result example_plugin_get_ds example_query_mismatch_no_column
        (udb_query_allocate_preparation_area example_query_mismatch_no_column)
        "localhost".toList "postgresql".toList "orders".toList example_column_names 10).1 =
      -ENOENT ∧
    (udb_query_prepare_result example_plugin_get_ds example_query_mismatch_no_column
        (udb_query_allocate_preparation_area example_query_mismatch_no_column)
        "localhost".toList "postgresql".toList "orders".toList example_column_names 10).1 ≠
      -1 :=
  ⟨⟨_, List.mem_singleton_self _, { type := "gauge".toList, ds := [1] }, by decide, by decide⟩,
   by decide, by decide⟩

/-- C8, amended: for every query having a result whose number of `ValuesFrom` names differs
from the field count the schema reports for its type, `udb_query_prepare_result` fails (its
status is not 0) and leaves the area unprepared: `udb_query_handle_result` on that area
fails with `-EINVAL` for every row, submits nothing and leaves the area as it is.  The
status is -1, the status of the field-count check, when that result is the first step that
fails: `PluginInstanceFrom` is unset or resolves, the results before it resolve and it has
a result preparation area. -/
theorem udb_query_prepare_result_mismatch (api : plugin_api)
    (plugin_get_ds : Option CStr → Option data_set_t) (q : udb_query_t)
    (prep_area : udb_query_preparation_area_t) (host plugin db_name : CStr)
    (column_names : List CStr) (interval : Nat)
    (h : ∃ r ∈ q.results, ∃ ds,
      plugin_get_ds r.type = some ds ∧ ds.ds.length ≠ r.values.length) :
    (udb_query_prepare_result plugin_get_ds q prep_area host plugin db_name column_names
        interval).1 ≠ 0 ∧
    (∀ column_values : List CStr,
      udb_query_handle_result api q
          (udb_query_prepare_result plugin_get_ds q prep_area host plugin db_name column_names
            interval).2 column_values =
        some (-EINVAL,
          (udb_query_prepare_result plugin_get_ds q prep_area host plugin db_name column_names
            interval).2, [])) ∧
    (∀ (pre post : List udb_result_t) (r : udb_result_t) (ds : data_set_t),
      q.results = pre ++ r :: post →
      (∀ pif, q.plugin_instance_from = some pif → column_exists column_names pif) →
      (∀ r1 ∈ pre, result_resolves plugin_get_ds column_names r1) →
      pre.length < prep_area.result_prep_areas.length →
      plugin_get_ds r.type = some ds → ds.ds.length ≠ r.values.length →
      (udb_query_prepare_result plugin_get_ds q prep_area host plugin db_name column_names
        interval).1 = -1) := by
  have hfail : (udb_query_prepare_result plugin_get_ds q prep_area host plugin db_name
      column_names interval).1 ≠ 0 := by
    intro h0
    obtain ⟨r, hr, ds, hds, hlen⟩ := h
    obtain ⟨_, _, hall⟩ := (udb_query_prepare_result_status _ _ _ _ _ _ _ _).1 h0
    have := (hall r hr).1
    simp only [hds, Option.map_some', Option.some.injEq] at this
    exact hlen this
  refine ⟨hfail, ?_, ?_⟩
  · intro column_values
    obtain ⟨x, hx, _⟩ := udb_query_prepare_result_fail _ _ _ _ _ _ _ _ hfail
    rw [hx]
    exact udb_query_handle_result_finished api q x column_values
  · intro pre post r ds hq hpif hpre hlen hds hne
    have hr : ¬ result_resolves plugin_get_ds column_names r := by
      intro hres
      have := hres.1
      simp only [hds, Option.map_some', Option.some.injEq] at this
      exact hne this
    rw [udb_query_prepare_result_first_failure plugin_get_ds q prep_area host plugin db_name
      column_names interval pre r post
      { ds := none, instances_pos := none, values_pos := none, metadata_pos := none,
        instances_buffer := none, values_buffer := none, metadata_buffer := none,
        plugin_instance := none } hq hpif hpre hlen hr]
    rw [udb_result_prepare_result_mismatch plugin_get_ds r _ column_names ds hds hne]

/-- C8, amended, at a concrete input: two `ValuesFrom` names for the one-field type `gauge`
make the preparation fail with -1, and the next row is refused with `-EINVAL`. -/
theorem udb_query_prepare_result_mismatch_witness :
    (∃ r ∈ example_query_mismatch.results, ∃ ds,
      example_plugin_get_ds r.type = some ds ∧ ds.ds.length ≠ r.values.length) ∧
    (udb_query_prepare_result example_plugin_get_ds example_query_mismatch
        (udb_query_allocate_preparation_area example_query_mismatch)
        "localhost".toList "postgresql".toList "orders".toList example_column_names 10).1 =
      -1 ∧
    udb_query_handle_result example_plugin_api example_query_mismatch
        (udb_query_prepare_result example_plugin_get_ds example_query_mismatch
          (udb_query_allocate_preparation_area example_query_mismatch)
          "localhost".toList "postgresql".toList "orders".toList example_column_names 10).2
        ["db1".toList, "42".toList] =
      some (-EINVAL,
        (udb_query_prepare_result example_plugin_get_ds example_query_mismatch
          (udb_query_allocate_preparation_area example_query_mismatch)
          "localhost".toList "postgresql".toList "orders".toList example_column_names 10).2,
        []) :=
  have hyp : ∃ r ∈ example_query_mismatch.results, ∃ ds,
      example_plugin_get_ds r.type = some ds ∧ ds.ds.length ≠ r.values.length :=
    ⟨_, List.mem_singleton_self _, { type := "gauge".toList, ds := [1] }, by decide, by decide⟩
  have h := udb_query_prepare_result_mismatch example_plugin_api example_plugin_get_ds
    example_query_mismatch (udb_query_allocate_preparation_area example_query_mismatch)
    "localhost".toList "postgresql".toList "orders".toList example_column_names 10 hyp
  ⟨hyp, by decide, h.2.1 _⟩

/-- C9, as stated, fails: the preparation resolves `PluginInstanceFrom` to column 1 and
then fails at the result of unknown type; the area afterwards still holds the position 1,
so it differs from the freshly allocated area it was before the call. -/
theorem udb_query_prepare_result_keeps_plugin_instance_pos :
    (udb_query_prepare_result example_plugin_get_ds example_query_unknown_type
        (udb_query_allocate_preparation_area example_query_unknown_type)
        "localhost".toList "postgresql".toList "orders".toList example_column_names 10).1 ≠ 0 ∧
    (udb_query_prepare_result example_plugin_get_ds example_query_unknown_type
        (udb_query_allocate_preparation_area example_query_unknown_type)
        "localhost".toList "postgresql".toList "orders".toList example_column_names
        10).2.plugin_instance_pos = 1 ∧
    (udb_query_allocate_preparation_area example_query_unknown_type).plugin_instance_pos = 0 ∧
    (udb_query_prepare_result example_plugin_get_ds example_query_unknown_type
        (udb_query_allocate_preparation_area example_query_unknown_type)
        "localhost".toList "postgresql".toList "orders".toList example_column_names 10).2 ≠
      udb_query_allocate_preparation_area example_query_unknown_type := by
  refine ⟨by decide, by decide, by decide, by decide⟩

/-- C9, amended: for every query, every area with one result preparation area for each
result of the query and all inputs for which `udb_query_prepare_result` returns an error,
every field of the area and of every result preparation area other than
`plugin_instance_pos` and the row pointer `plugin_instance` of the result preparation areas
equals its value in a freshly allocated area: column count 0, no host, plugin or database
name, interval 0, no schema reference, no positions and no buffers.  These two are not
reset: `plugin_instance_pos` is the position of the `PluginInstanceFrom` column when the
call found it and otherwise what it was before the call, and the row pointer of every
result preparation area is what it was before the call. -/
theorem udb_query_prepare_result_rollback (plugin_get_ds : Option CStr → Option data_set_t)
    (q : udb_query_t) (prep_area : udb_query_preparation_area_t) (host plugin db_name : CStr)
    (column_names : List CStr) (interval : Nat)
    (harea : prep_area.result_prep_areas.length = q.results.length)
    (hfail : (udb_query_prepare_result plugin_get_ds q prep_area host plugin db_name
      column_names interval).1 ≠ 0) :
    { (udb_query_prepare_result plugin_get_ds q prep_area host plugin db_name column_names
        interval).2 with
      plugin_instance_pos := 0,
      result_prep_areas :=
        (udb_query_prepare_result plugin_get_ds q prep_area host plugin db_name column_names
          interval).2.result_prep_areas.map (fun s => { s with plugin_instance := none }) } =
      udb_query_allocate_preparation_area q ∧
    (udb_query_prepare_result plugin_get_ds q prep_area host plugin db_name column_names
        interval).2.plugin_instance_pos =
      (match q.plugin_instance_from with
      | some pif =>
        if column_exists column_names pif then find_column pif column_names
        else prep_area.plugin_instance_pos
      | none => prep_area.plugin_instance_pos) ∧
    (udb_query_prepare_result plugin_get_ds q prep_area host plugin db_name column_names
        interval).2.result_prep_areas.map (fun s => s.plugin_instance) =
      prep_area.result_prep_areas.map (fun s => s.plugin_instance) := by
  refine ⟨?_, ?_, udb_query_prepare_result_plugin_instance _ _ _ _ _ _ _ _ (by omega)⟩
  · obtain ⟨x, hx, hlen⟩ := udb_query_prepare_result_fail _ _ _ _ _ _ _ _ hfail
    rw [hx]
    have := udb_query_finish_result_loop_fresh q.results x.result_prep_areas (by omega)
    simp only [udb_query_allocate_preparation_area] at this ⊢
    simp [udb_query_finish_result, this]
  · rw [udb_query_prepare_result_pos]
    cases q.plugin_instance_from with
    | none => rfl
    | some pif => simp only [find_column_lt_iff]

/-- C9, amended, at a concrete input: after the failure at the result of unknown type the
area is the fresh area again, up to the position 1 kept in `plugin_instance_pos`; and the
area that has handled the row of the database `orders`, prepared again with columns
without `db`, keeps that row value in both row pointers. -/
theorem udb_query_prepare_result_rollback_witness :
    (udb_query_prepare_result example_plugin_get_ds example_query_unknown_type
        (udb_query_allocate_preparation_area example_query_unknown_type)
        "localhost".toList "postgresql".toList "orders".toList example_column_names 10).2 =
      { udb_query_allocate_preparation_area example_query_unknown_type with
        plugin_instance_pos := 1 } ∧
    example_area_traffic_used.plugin_instance_pos = 0 ∧
    example_area_traffic_used.result_prep_areas.map (fun s => s.plugin_instance) =
      [some "orders".toList, some "orders".toList] ∧
    (udb_query_prepare_result example_plugin_get_ds example_query_traffic
        example_area_traffic_used "localhost".toList "postgresql".toList "shop".toList
        example_column_names 10).1 = -ENOENT ∧
    ({ (udb_query_prepare_result example_plugin_get_ds example_query_unknown_type
        (udb_query_allocate_preparation_area example_query_unknown_type)
        "localhost".toList "postgresql".toList "orders".toList example_column_names 10).2 with
      plugin_instance_pos := 0,
      result_prep_areas :=
        (udb_query_prepare_result example_plugin_get_ds example_query_unknown_type
          (udb_query_allocate_preparation_area example_query_unknown_type)
          "localhost".toList "postgresql".toList "orders".toList example_column_names
          10).2.result_prep_areas.map (fun s => { s with plugin_instance := none }) } =
      udb_query_allocate_preparation_area example_query_unknown_type ∧
    (udb_query_prepare_result example_plugin_get_ds example_query_unknown_type
        (udb_query_allocate_preparation_area example_query_unknown_type)
        "localhost".toList "postgresql".toList "orders".toList example_column_names
        10).2.plugin_instance_pos =
      (match example_query_unknown_type.plugin_instance_from with
      | some pif =>
        if column_exists example_column_names pif then find_column pif example_column_names
        else (udb_query_allocate_preparation_area example_query_unknown_type).plugin_instance_pos
      | none =>
        (udb_query_allocate_preparation_area example_query_unknown_type).plugin_instance_pos) ∧
    (udb_query_prepare_result example_plugin_get_ds example_query_unknown_type
        (udb_query_allocate_preparation_area example_query_unknown_type)
        "localhost".toList "postgresql".toList "orders".toList example_column_names
        10).2.result_prep_areas.map (fun s => s.plugin_instance) =
      (udb_query_allocate_preparation_area example_query_unknown_type).result_prep_areas.map
        (fun s => s.plugin_instance)) ∧
    (udb_query_prepare_result example_plugin_get_ds example_query_traffic
        example_area_traffic_used "localhost".toList "postgresql".toList "shop".toList
        example_column_names 10).2.result_prep_areas.map (fun s => s.plugin_instance) =
      example_area_traffic_used.result_prep_areas.map (fun s => s.plugin_instance) :=
  ⟨by decide, by decide, by decide, by decide,
   udb_query_prepare_result_rollback example_plugin_get_ds example_query_unknown_type
     (udb_query_allocate_preparation_area example_query_unknown_type)
     "localhost".toList "postgresql".toList "orders".toList example_column_names 10
     (by decide) (by decide),
   (udb_query_prepare_result_rollback example_plugin_get_ds example_query_traffic
     example_area_traffic_used "localhost".toList "postgresql".toList "shop".toList
     example_column_names 10 (by decide) (by decide)).2.2⟩

/-- C10, as stated, fails: the preparation that stops at a type the schema lookup does not
know and the preparation that stops at the field-count check return the same value -1. -/
theorem udb_query_prepare_result_same_status :
    (∀ r ∈ example_query_unknown_type.results, example_plugin_get_ds r.type = none) ∧
    (∀ r ∈ example_query_mismatch.results,
      example_plugin_get_ds r.type = some { type := "gauge".toList, ds := [1] } ∧
      r.values.length = 2) ∧
    (udb_query_prepare_result example_plugin_get_ds example_query_unknown_type
        (udb_query_allocate_preparation_area example_query_unknown_type)
        "localhost".toList "postgresql".toList "orders".toList example_column_names 10).1 =
      -1 ∧
    (udb_query_prepare_result example_plugin_get_ds example_query_mismatch
        (udb_query_allocate_preparation_area example_query_mismatch)
        "localhost".toList "postgresql".toList "orders".toList example_column_names 10).1 =
      -1 := by
  refine ⟨by decide, by decide, by decide, by decide⟩

/-- C10, amended: `udb_query_prepare_result` returns the status of the first step that
fails.  It is `-ENOENT` when the `PluginInstanceFrom` column is not found.  When
`PluginInstanceFrom` is unset or resolves, the results before `r` resolve and `r` has a
result preparation area, the status is -1 when the schema lookup does not know the type of
`r`, also -1 when the field count of the schema differs from the number of `ValuesFrom`
names, and `-ENOENT` when a configured column name of `r` is not found, unless the call
reads outside the array `r->values` at line 469: that is so exactly when the
`InstancesFrom` and `ValuesFrom` names are found and the first `MetadataFrom` name that is
not found has an index at or beyond the number of `ValuesFrom` names.  -1 and `-ENOENT`
differ, so a caller can tell an unresolved column name from the other two causes, and
cannot tell these two apart. -/
theorem udb_query_prepare_result_error_values (plugin_get_ds : Option CStr → Option data_set_t)
    (q : udb_query_t) (prep_area : udb_query_preparation_area_t) (host plugin db_name : CStr)
    (column_names : List CStr) (interval : Nat) (pre post : List udb_result_t)
    (r : udb_result_t) (hq : q.results = pre ++ r :: post)
    (hpre : ∀ r1 ∈ pre, result_resolves plugin_get_ds column_names r1)
    (hlen : pre.length < prep_area.result_prep_areas.length) :
    ((∃ pif, q.plugin_instance_from = some pif ∧ ¬ column_exists column_names pif) →
      (udb_query_prepare_result plugin_get_ds q prep_area host plugin db_name column_names
        interval).1 = -ENOENT ∧
      udb_query_prepare_result_fault plugin_get_ds q prep_area column_names = false) ∧
    ((∀ pif, q.plugin_instance_from = some pif → column_exists column_names pif) →
      (plugin_get_ds r.type = none →
        (udb_query_prepare_result plugin_get_ds q prep_area host plugin db_name column_names
          interval).1 = -1 ∧
        udb_query_prepare_result_fault plugin_get_ds q prep_area column_names = false) ∧
      (∀ ds, plugin_get_ds r.type = some ds → ds.ds.length ≠ r.values.length →
        (udb_query_prepare_result plugin_get_ds q prep_area host plugin db_name column_names
          interval).1 = -1 ∧
        udb_query_prepare_result_fault plugin_get_ds q prep_area column_names = false) ∧
      (∀ ds, plugin_get_ds r.type = some ds → ds.ds.length = r.values.length →
        ¬ ((∀ name ∈ r.instances, column_exists column_names name) ∧
          (∀ name ∈ r.values, column_exists column_names name) ∧
          (∀ name ∈ r.metadata, column_exists column_names name)) →
        (udb_query_prepare_result_fault plugin_get_ds q prep_area column_names = true ↔
          (∀ name ∈ r.instances, column_exists column_names name) ∧
          (∀ name ∈ r.values, column_exists column_names name) ∧
          ∃ i, r.values.length ≤ i ∧ i < r.metadata.length ∧
            ¬ column_exists column_names (r.metadata.getD i []) ∧
            ∀ n ∈ r.metadata.take i, column_exists column_names n) ∧
        (udb_query_prepare_result_fault plugin_get_ds q prep_area column_names = false →
          (udb_query_prepare_result plugin_get_ds q prep_area host plugin db_name
            column_names interval).1 = -ENOENT))) ∧
    -ENOENT ≠ (-1 : Int) := by
  refine ⟨?_, fun hpif => ?_, by decide⟩
  · rintro ⟨pif, hp, hex⟩
    exact udb_query_prepare_result_no_plugin_instance_column plugin_get_ds q prep_area host
      plugin db_name column_names interval pif hp hex
  have key : ∀ hr : ¬ result_resolves plugin_get_ds column_names r,
      (udb_query_prepare_result plugin_get_ds q prep_area host plugin db_name column_names
        interval).1 =
      (udb_result_prepare_result plugin_get_ds r
        { ds := none, instances_pos := none, values_pos := none, metadata_pos := none,
          instances_buffer := none, values_buffer := none, metadata_buffer := none,
          plugin_instance := none } column_names).1 := fun hr =>
    udb_query_prepare_result_first_failure plugin_get_ds q prep_area host plugin db_name
      column_names interval pre r post _ hq hpif hpre hlen hr
  have keyf : ∀ hr : ¬ result_resolves plugin_get_ds column_names r,
      udb_query_prepare_result_fault plugin_get_ds q prep_area column_names =
        udb_result_prepare_result_fault plugin_get_ds r column_names := fun hr =>
    udb_query_prepare_result_fault_first plugin_get_ds q prep_area column_names pre r post hq
      hpif hpre hlen hr
  refine ⟨?_, ?_, ?_⟩
  · intro hnone
    have hr : ¬ result_resolves plugin_get_ds column_names r := fun hres => by
      have := hres.1; simp [hnone] at this
    rw [key hr, keyf hr, udb_result_prepare_result_unknown _ _ _ _ hnone]
    exact ⟨rfl, udb_result_prepare_result_fault_of_type _ _ _ (by simp [hnone])⟩
  · intro ds hds hne
    have hr : ¬ result_resolves plugin_get_ds column_names r := fun hres => by
      have := hres.1
      simp only [hds, Option.map_some', Option.some.injEq] at this
      exact hne this
    rw [key hr, keyf hr, udb_result_prepare_result_mismatch _ _ _ _ ds hds hne]
    exact ⟨rfl, udb_result_prepare_result_fault_of_type _ _ _ (by simp [hds, hne])⟩
  · intro ds hds heq hnames
    have hr : ¬ result_resolves plugin_get_ds column_names r := fun hres => hnames hres.2
    rw [key hr, keyf hr, udb_result_prepare_result_not_found _ _ _ _ ds hds heq hnames,
      udb_result_prepare_result_fault_iff]
    refine ⟨?_, fun _ => rfl⟩
    simp [hds, heq]

/-- C10, amended, at a concrete input: the one result names the column `rows`, which the
result set `host`, `bytes` does not have, and the status is `-ENOENT`; so it is when the
first of two `MetadataFrom` names is not found; when the second is not found, its index 1
is not below the number of `ValuesFrom` names, 1, and the call reads outside `r->values`. -/
theorem udb_query_prepare_result_error_values_witness :
    (udb_query_prepare_result example_plugin_get_ds example_query_no_column
        (udb_query_allocate_preparation_area example_query_no_column)
        "localhost".toList "postgresql".toList "orders".toList example_column_names 10).1 =
      -ENOENT ∧
    (udb_query_prepare_result example_plugin_get_ds example_query_no_first_metadata_column
        (udb_query_allocate_preparation_area example_query_no_first_metadata_column)
        "localhost".toList "postgresql".toList "orders".toList example_column_names 10).1 =
      -ENOENT ∧
    udb_query_prepare_result_fault example_plugin_get_ds example_query_no_metadata_column
        (udb_query_allocate_preparation_area example_query_no_metadata_column)
        example_column_names = true ∧
    -ENOENT ≠ (-1 : Int) :=
  have h := udb_query_prepare_result_error_values example_plugin_get_ds
    example_query_no_column
    (udb_query_allocate_preparation_area example_query_no_column)
    "localhost".toList "postgresql".toList "orders".toList example_column_names 10 [] []
    { type := some "gauge".toList, instance_prefix := none, instances := [],
      values := ["rows".toList], metadata := [] }
    rfl (by decide) (by decide)
  have h1 := udb_query_prepare_result_error_values example_plugin_get_ds
    example_query_no_first_metadata_column
    (udb_query_allocate_preparation_area example_query_no_first_metadata_column)
    "localhost".toList "postgresql".toList "orders".toList example_column_names 10 [] []
    { type := some "gauge".toList, instance_prefix := none, instances := [],
      values := ["bytes".toList], metadata := ["rack".toList, "host".toList] }
    rfl (by decide) (by decide)
  have h2 := udb_query_prepare_result_error_values example_plugin_get_ds
    example_query_no_metadata_column
    (udb_query_allocate_preparation_area example_query_no_metadata_column)
    "localhost".toList "postgresql".toList "orders".toList example_column_names 10 [] []
    { type := some "gauge".toList, instance_prefix := none, instances := [],
      values := ["bytes".toList], metadata := ["host".toList, "rack".toList] }
    rfl (by decide) (by decide)
  ⟨((h.2.1 (by decide)).2.2 { type := "gauge".toList, ds := [1] } (by decide) (by decide)
      (by decide)).2 (by decide),
   ((h1.2.1 (by decide)).2.2 { type := "gauge".toList, ds := [1] } (by decide) (by decide)
      (by decide)).2 (by decide),
   ((h2.2.1 (by decide)).2.2 { type := "gauge".toList, ds := [1] } (by decide) (by decide)
      (by decide)).1.2 ⟨by decide, by decide, 1, by decide, by decide, by decide, by decide⟩,
   h.2.2⟩

/-- C11: for every query, area and row, `udb_query_handle_result` fails with `-EINVAL`,
submits nothing and leaves the area as it is whenever the column count of the area is
below 1 or its host, plugin name or database name is unset; this is so for a freshly
allocated area and for an area after `udb_query_finish_result`. -/
theorem udb_query_handle_result_not_prepared (api : plugin_api) (q : udb_query_t)
    (prep_area : udb_query_preparation_area_t) (column_values : List CStr) :
    (prep_area.column_num < 1 ∨ prep_area.host = none ∨ prep_area.plugin = none ∨
        prep_area.db_name = none →
      udb_query_handle_result api q prep_area column_values = some (-EINVAL, prep_area, [])) ∧
    udb_query_handle_result api q (udb_query_allocate_preparation_area q) column_values =
      some (-EINVAL, udb_query_allocate_preparation_area q, []) ∧
    udb_query_handle_result api q (udb_query_finish_result q prep_area) column_values =
      some (-EINVAL, udb_query_finish_result q prep_area, []) := by
  refine ⟨?_, ?_, ?_⟩
  · intro h
    unfold udb_query_handle_result
    rw [if_pos h]
  · simp [udb_query_handle_result, udb_query_allocate_preparation_area]
  · simp [udb_query_handle_result, udb_query_finish_result]

/-- C11, at a concrete input: a row handed to the fresh area of the query `disk_io` is
refused with `-EINVAL` and nothing is submitted. -/
theorem udb_query_handle_result_not_prepared_witness :
    udb_query_handle_result example_plugin_api (example_query "disk_io" 0 UINT_MAX)
        (udb_query_allocate_preparation_area (example_query "disk_io" 0 UINT_MAX))
        ["web1".toList, "42".toList] =
      some (-EINVAL, udb_query_allocate_preparation_area (example_query "disk_io" 0 UINT_MAX),
        []) :=
  (udb_query_handle_result_not_prepared example_plugin_api (example_query "disk_io" 0 UINT_MAX)
    (udb_query_allocate_preparation_area (example_query "disk_io" 0 UINT_MAX))
    ["web1".toList, "42".toList]).1 (Or.inl (by decide))

/-- C19: `udb_query_finish_result` leaves a freshly allocated area unchanged and is
idempotent, `finish (finish a) = finish a` for every area `a`; after it the column count
is 0, host, plugin name and database name are unset and the interval is 0, and, when the
area has no more result preparation areas than the query has results (every area
allocated for the query), every result preparation area has no schema reference, no
positions and no buffers. -/
theorem udb_query_finish_result_idempotent (q : udb_query_t)
    (prep_area : udb_query_preparation_area_t) :
    udb_query_finish_result q (udb_query_allocate_preparation_area q) =
      udb_query_allocate_preparation_area q ∧
    udb_query_finish_result q (udb_query_finish_result q prep_area) =
      udb_query_finish_result q prep_area ∧
    ((udb_query_finish_result q prep_area).column_num = 0 ∧
      (udb_query_finish_result q prep_area).host = none ∧
      (udb_query_finish_result q prep_area).plugin = none ∧
      (udb_query_finish_result q prep_area).db_name = none ∧
      (udb_query_finish_result q prep_area).interval = 0) ∧
    (prep_area.result_prep_areas.length ≤ q.results.length →
      ∀ s ∈ (udb_query_finish_result q prep_area).result_prep_areas,
        s.ds = none ∧ s.instances_pos = none ∧ s.values_pos = none ∧ s.metadata_pos = none ∧
        s.instances_buffer = none ∧ s.values_buffer = none ∧ s.metadata_buffer = none) := by
  refine ⟨?_, ?_, ⟨rfl, rfl, rfl, rfl, rfl⟩, ?_⟩
  · simp only [udb_query_finish_result, udb_query_allocate_preparation_area]
    rw [udb_query_finish_result_loop_const _ _ (fun _ => rfl)]
  · simp only [udb_query_finish_result, udb_query_finish_result_loop_idem]
  · intro h
    exact udb_query_finish_result_loop_cleared q.results prep_area.result_prep_areas h

/-- C19, at a concrete input: finishing the prepared area of the query `disk_io` gives the
freshly allocated area again, and finishing once more changes nothing. -/
theorem udb_query_finish_result_idempotent_witness :
    (udb_query_prepare_result example_plugin_get_ds (example_query "disk_io" 0 UINT_MAX)
        (udb_query_allocate_preparation_area (example_query "disk_io" 0 UINT_MAX))
        "localhost".toList "postgresql".toList "orders".toList example_column_names 10).1 = 0 ∧
    udb_query_finish_result (example_query "disk_io" 0 UINT_MAX)
        (udb_query_prepare_result example_plugin_get_ds (example_query "disk_io" 0 UINT_MAX)
          (udb_query_allocate_preparation_area (example_query "disk_io" 0 UINT_MAX))
          "localhost".toList "postgresql".toList "orders".toList example_column_names 10).2 =
      udb_query_allocate_preparation_area (example_query "disk_io" 0 UINT_MAX) ∧
    udb_query_finish_result (example_query "disk_io" 0 UINT_MAX)
        (udb_query_finish_result (example_query "disk_io" 0 UINT_MAX)
          (udb_query_prepare_result example_plugin_get_ds (example_query "disk_io" 0 UINT_MAX)
            (udb_query_allocate_preparation_area (example_query "disk_io" 0 UINT_MAX))
            "localhost".toList "postgresql".toList "orders".toList example_column_names
            10).2) =
      udb_query_finish_result (example_query "disk_io" 0 UINT_MAX)
        (udb_query_prepare_result example_plugin_get_ds (example_query "disk_io" 0 UINT_MAX)
          (udb_query_allocate_preparation_area (example_query "disk_io" 0 UINT_MAX))
          "localhost".toList "postgresql".toList "orders".toList example_column_names 10).2 :=
  ⟨by decide, by decide,
   (udb_query_finish_result_idempotent (example_query "disk_io" 0 UINT_MAX)
      (udb_query_prepare_result example_plugin_get_ds (example_query "disk_io" 0 UINT_MAX)
        (udb_query_allocate_preparation_area (example_query "disk_io" 0 UINT_MAX))
        "localhost".toList "postgresql".toList "orders".toList example_column_names
        10).2).2.1⟩

/-- C20: for every query `q` the area returned by `udb_query_allocate_preparation_area`
has exactly one result preparation area for each result of `q`, and all fields start
empty: column count 0, interval 0, no host, plugin or database name, position 0 for the
plugin instance, and in every result preparation area no schema reference, no positions,
no buffers and no plugin instance. -/
theorem udb_query_allocate_preparation_area_empty (q : udb_query_t) :
    (udb_query_allocate_preparation_area q).result_prep_areas.length = q.results.length ∧
    (udb_query_allocate_preparation_area q).column_num = 0 ∧
    (udb_query_allocate_preparation_area q).interval = 0 ∧
    (udb_query_allocate_preparation_area q).host = none ∧
    (udb_query_allocate_preparation_area q).plugin = none ∧
    (udb_query_allocate_preparation_area q).db_name = none ∧
    (udb_query_allocate_preparation_area q).plugin_instance_pos = 0 ∧
    ∀ s ∈ (udb_query_allocate_preparation_area q).result_prep_areas,
      s.ds = none ∧ s.instances_pos = none ∧ s.values_pos = none ∧ s.metadata_pos = none ∧
      s.instances_buffer = none ∧ s.values_buffer = none ∧ s.metadata_buffer = none ∧
      s.plugin_instance = none := by
  refine ⟨by simp [udb_query_allocate_preparation_area], rfl, rfl, rfl, rfl, rfl, rfl, ?_⟩
  intro s hs
  simp only [udb_query_allocate_preparation_area, List.mem_map] at hs
  obtain ⟨_, _, rfl⟩ := hs
  simp

/-- C20, at a concrete input: the area allocated for a list of two results has two empty
result preparation areas. -/
theorem udb_query_allocate_preparation_area_empty_witness :
    (udb_query_allocate_preparation_area
      { example_query "disk_io" 0 UINT_MAX with
        results := [example_result, example_result] }).result_prep_areas =
      [{ ds := none, instances_pos := none, values_pos := none, metadata_pos := none,
         instances_buffer := none, values_buffer := none, metadata_buffer := none,
         plugin_instance := none },
       { ds := none, instances_pos := none, values_pos := none, metadata_pos := none,
         instances_buffer := none, values_buffer := none, metadata_buffer := none,
         plugin_instance := none }] ∧
    (udb_query_allocate_preparation_area
      { example_query "disk_io" 0 UINT_MAX with
        results := [example_result, example_result] }).result_prep_areas.length = 2 :=
  ⟨by decide,
   (udb_query_allocate_preparation_area_empty
      { example_query "disk_io" 0 UINT_MAX with
        results := [example_result, example_result] }).1⟩

/-- C12: for every prepared area of a well-formed query and every row with a value for each
column, `udb_query_handle_result` returns; its status is 0 if and only if at least one
value list was dispatched, which is if and only if `udb_result_handle_result` returned 0
for at least one result; otherwise the status is -1 and nothing was dispatched. -/
theorem udb_query_handle_result_status (api : plugin_api) (q : udb_query_t)
    (prep_area : udb_query_preparation_area_t) (column_values : List CStr)
    (hq : results_well_formed q) (ha : area_prepared q prep_area)
    (hrow : prep_area.column_num ≤ column_values.length) :
    ∃ status area vls,
      udb_query_handle_result api q prep_area column_values = some (status, area, vls) ∧
      (status = 0 ↔ vls ≠ []) ∧
      (status = 0 ↔
        ∃ x ∈ List.zip q.results prep_area.result_prep_areas, ∃ r_area vl,
          udb_result_handle_result api x.1 prep_area x.2 q column_values =
            some (0, r_area, vl)) ∧
      (status ≠ 0 → status = -1 ∧ vls = []) := by
  refine ⟨_, _, _, udb_query_handle_result_prepared api q prep_area column_values hq ha hrow,
    ?_, ?_, ?_⟩
  · by_cases h : row_samples api q prep_area column_values = [] <;> simp [h]
  · have hiff : (if row_samples api q prep_area column_values = [] then (-1 : Int) else 0) = 0 ↔
        row_samples api q prep_area column_values ≠ [] := by
      by_cases h : row_samples api q prep_area column_values = [] <;> simp [h]
    rw [hiff, row_samples_ne_nil_iff]
    constructor
    · rintro ⟨x, hx, hs⟩
      obtain ⟨_, ht, hv, hp⟩ := area_prepared_mem q prep_area hq ha x.1 x.2 hx
      obtain ⟨st, hres, hst⟩ := udb_result_handle_result_prepared api q prep_area x.1 x.2
        column_values ht hv hp ha.2.1 ha.2.2.1 ha.2.2.2.1 ha.2.2.2.2.1 hrow
      exact ⟨x, hx, _, _, by rw [hres, hst.2 hs]⟩
    · rintro ⟨x, hx, s1, vl, hres⟩
      obtain ⟨_, ht, hv, hp⟩ := area_prepared_mem q prep_area hq ha x.1 x.2 hx
      obtain ⟨st, hres', hst⟩ := udb_result_handle_result_prepared api q prep_area x.1 x.2
        column_values ht hv hp ha.2.1 ha.2.2.1 ha.2.2.2.1 ha.2.2.2.2.1 hrow
      rw [hres'] at hres
      simp only [Option.some.injEq, Prod.mk.injEq] at hres
      exact ⟨x, hx, hst.1 hres.1⟩
  · by_cases h : row_samples api q prep_area column_values = [] <;> simp [h]

/-- C12, at a concrete input: a row in which no value parses gives the status -1 and no
value list, a row in which one of two values parses gives the status 0 and one value
list. -/
theorem udb_query_handle_result_status_witness :
    (udb_query_handle_result example_plugin_api_digits example_query_traffic
        example_area_traffic example_row_bad).map (fun x => (x.1, x.2.2.length)) =
      some (-1, 0) ∧
    (udb_query_handle_result example_plugin_api_digits example_query_traffic
        example_area_traffic example_row_bad_bytes).map (fun x => (x.1, x.2.2.length)) =
      some (0, 1) ∧
    ∃ status area vls,
      udb_query_handle_result example_plugin_api_digits example_query_traffic
          example_area_traffic example_row_bad = some (status, area, vls) ∧
      (status = 0 ↔ vls ≠ []) ∧
      (status = 0 ↔
        ∃ x ∈ List.zip example_query_traffic.results example_area_traffic.result_prep_areas,
          ∃ r_area vl,
            udb_result_handle_result example_plugin_api_digits x.1 example_area_traffic x.2
              example_query_traffic example_row_bad = some (0, r_area, vl)) ∧
      (status ≠ 0 → status = -1 ∧ vls = []) :=
  ⟨by decide, by decide,
   udb_query_handle_result_status example_plugin_api_digits example_query_traffic
     example_area_traffic example_row_bad (by decide) (by decide) (by decide)⟩

/-- C17: after a successful `udb_query_prepare_result` with the interval `interval`, however
many rows are handled, every value list dispatched has the interval `interval` when it
is non-zero and the interval of `VALUE_LIST_INIT` when it is zero; the area keeps the
interval. -/
theorem udb_result_submit_interval (api : plugin_api)
    (plugin_get_ds : Option CStr → Option data_set_t) (q : udb_query_t)
    (prep_area : udb_query_preparation_area_t) (host plugin db_name : CStr)
    (column_names : List CStr) (interval : Nat) (rows : List (List CStr))
    (hq : results_well_formed q)
    (hlen : prep_area.result_prep_areas.length = q.results.length)
    (hprep : (udb_query_prepare_result plugin_get_ds q prep_area host plugin db_name
      column_names interval).1 = 0)
    (hrows : ∀ row ∈ rows, column_names.length ≤ row.length) :
    ∃ area vls,
      handle_rows api q
        (udb_query_prepare_result plugin_get_ds q prep_area host plugin db_name column_names
          interval).2 rows = some (area, vls) ∧
      area.interval = interval ∧
      ∀ vl ∈ vls, vl.interval =
        if interval ≠ 0 then interval else api.VALUE_LIST_INIT.interval := by
  obtain ⟨ha, hcol, hint⟩ := udb_query_prepare_result_prepared plugin_get_ds q prep_area host
    plugin db_name column_names interval hq hlen hprep
  obtain ⟨area, vls, h, hi, hall⟩ := handle_rows_interval api q hq rows _ ha
    (fun row hr => by rw [hcol]; exact hrows row hr)
  refine ⟨area, vls, h, hi.trans hint, fun vl hvl => ?_⟩
  rw [hall vl hvl, hint]
  by_cases h0 : interval = 0
  · simp [h0]
  · simp [h0, Nat.pos_of_ne_zero h0]

/-- C17, at a concrete input: prepared with the interval 10, two rows give three value
lists, each with the interval 10. -/
theorem udb_result_submit_interval_witness :
    (handle_rows example_plugin_api_digits example_query_traffic example_area_traffic
        [example_row_traffic, example_row_bad_bytes]).map
      (fun x => x.2.map (fun vl => vl.interval)) = some [10, 10, 10] ∧
    ∃ area vls,
      handle_rows example_plugin_api_digits example_query_traffic
        (udb_query_prepare_result example_plugin_get_ds example_query_traffic
          (udb_query_allocate_preparation_area example_query_traffic)
          "localhost".toList "postgresql".toList "shop".toList example_columns_traffic 10).2
        [example_row_traffic, example_row_bad_bytes] = some (area, vls) ∧
      area.interval = 10 ∧
      ∀ vl ∈ vls, vl.interval =
        if 10 ≠ 0 then 10 else example_plugin_api_digits.VALUE_LIST_INIT.interval :=
  ⟨by decide,
   udb_result_submit_interval example_plugin_api_digits example_plugin_get_ds
    example_query_traffic (udb_query_allocate_preparation_area example_query_traffic)
    "localhost".toList "postgresql".toList "shop".toList example_columns_traffic 10
    [example_row_traffic, example_row_bad_bytes] (by decide) (by decide) (by decide)
    (by decide)⟩

/-- C15, as stated, fails: with `PluginInstanceFrom "db"` and a row whose column `db` holds
130 characters, the value lists are dispatched (status 0) with a plugin instance of 127
characters, which is not the value of the row. -/
theorem udb_result_submit_plugin_instance_cut :
    example_query_traffic.plugin_instance_from = some "db".toList ∧
    example_row_long[example_area_traffic.plugin_instance_pos]? =
      some (List.replicate 130 'o') ∧
    example_plugin_api_digits.DATA_MAX_NAME_LEN = 128 ∧
    (udb_query_handle_result example_plugin_api_digits example_query_traffic
        example_area_traffic example_row_long).map
      (fun x => (x.1, x.2.2.map (fun vl => vl.plugin_instance))) =
      some (0, [List.replicate 127 'o', List.replicate 127 'o']) := by
  set_option maxRecDepth 100000 in
  decide

/-- C15, amended: for every prepared area of a well-formed query and every row with a value
for each column, every value list that `udb_query_handle_result` dispatches has as host,
plugin and type the first `DATA_MAX_NAME_LEN - 1` characters of the host of the area, the
plugin of the area and the type of the result it comes from, and as plugin instance the
first `DATA_MAX_NAME_LEN - 1` characters of the row value at the position stored for
`PluginInstanceFrom` when the query has one, of the database name of the area otherwise;
a string shorter than `DATA_MAX_NAME_LEN` is copied whole. -/
theorem udb_result_submit_identity (api : plugin_api) (q : udb_query_t)
    (prep_area : udb_query_preparation_area_t) (column_values : List CStr)
    (hq : results_well_formed q) (ha : area_prepared q prep_area)
    (hrow : prep_area.column_num ≤ column_values.length) :
    ∃ status area vls,
      udb_query_handle_result api q prep_area column_values = some (status, area, vls) ∧
      ∀ vl ∈ vls,
        (∃ host, prep_area.host = some host ∧
          copied_identifier api.DATA_MAX_NAME_LEN host vl.host) ∧
        (∃ plugin, prep_area.plugin = some plugin ∧
          copied_identifier api.DATA_MAX_NAME_LEN plugin vl.plugin) ∧
        (∃ x ∈ List.zip q.results prep_area.result_prep_areas,
          result_sample api q prep_area x.1 x.2 column_values = some vl ∧
          ∃ ty, x.1.type = some ty ∧ copied_identifier api.DATA_MAX_NAME_LEN ty vl.type) ∧
        (q.plugin_instance_from ≠ none →
          ∃ value, column_values[prep_area.plugin_instance_pos]? = some value ∧
            copied_identifier api.DATA_MAX_NAME_LEN value vl.plugin_instance) ∧
        (q.plugin_instance_from = none →
          ∃ db_name, prep_area.db_name = some db_name ∧
            copied_identifier api.DATA_MAX_NAME_LEN db_name vl.plugin_instance) := by
  refine ⟨_, _, _, udb_query_handle_result_prepared api q prep_area column_values hq ha hrow,
    fun vl hvl => ?_⟩
  obtain ⟨r, s, hx, hs⟩ := row_samples_mem api q prep_area column_values vl hvl
  obtain ⟨hr, ht, _, _⟩ := area_prepared_mem q prep_area hq ha r s hx
  obtain ⟨_, _, _, _, hhost, hplugin, hpi, hty, _⟩ :=
    result_sample_fields api q prep_area r s column_values vl hs
  obtain ⟨_, hh, hp, hd, hpif, _, _⟩ := ha
  obtain ⟨host, hh⟩ := Option.ne_none_iff_exists'.1 hh
  obtain ⟨plugin, hp⟩ := Option.ne_none_iff_exists'.1 hp
  obtain ⟨db_name, hd⟩ := Option.ne_none_iff_exists'.1 hd
  obtain ⟨ty, ht⟩ := Option.ne_none_iff_exists'.1 ht
  refine ⟨⟨host, hh, ?_⟩, ⟨plugin, hp, ?_⟩, ⟨(r, s), hx, hs, ty, ht, ?_⟩, fun hq => ?_,
    fun hq => ?_⟩
  · rw [hhost, hh]; exact copied_identifier_take _ _
  · rw [hplugin, hp]; exact copied_identifier_take _ _
  · rw [hty, ht]; exact copied_identifier_take _ _
  · have hlt := lt_of_lt_of_le (hpif hq) hrow
    refine ⟨column_values[prep_area.plugin_instance_pos], List.getElem?_eq_getElem hlt, ?_⟩
    rw [hpi, if_pos hq, List.getElem?_eq_getElem hlt]
    exact copied_identifier_take _ _
  · refine ⟨db_name, hd, ?_⟩
    rw [hpi, if_neg (by simp [hq]), hd]
    exact copied_identifier_take _ _

/-- C15 amended, at a concrete input: with `PluginInstanceFrom "db"` and the row value
`orders` both value lists have the host `localhost`, the plugin `postgresql`, the plugin
instance `orders` and the type `gauge`. -/
theorem udb_result_submit_identity_witness :
    (udb_query_handle_result example_plugin_api_digits example_query_traffic
        example_area_traffic example_row_traffic).map
      (fun x => x.2.2.map (fun vl => (vl.host, vl.plugin, vl.plugin_instance, vl.type))) =
      some [("localhost".toList, "postgresql".toList, "orders".toList, "gauge".toList),
        ("localhost".toList, "postgresql".toList, "orders".toList, "gauge".toList)] ∧
    ∃ status area vls,
      udb_query_handle_result example_plugin_api_digits example_query_traffic
        example_area_traffic example_row_traffic = some (status, area, vls) ∧
      ∀ vl ∈ vls,
        (∃ host, example_area_traffic.host = some host ∧
          copied_identifier example_plugin_api_digits.DATA_MAX_NAME_LEN host vl.host) ∧
        (∃ plugin, example_area_traffic.plugin = some plugin ∧
          copied_identifier example_plugin_api_digits.DATA_MAX_NAME_LEN plugin vl.plugin) ∧
        (∃ x ∈ List.zip example_query_traffic.results
            example_area_traffic.result_prep_areas,
          result_sample example_plugin_api_digits example_query_traffic example_area_traffic
            x.1 x.2 example_row_traffic = some vl ∧
          ∃ ty, x.1.type = some ty ∧
            copied_identifier example_plugin_api_digits.DATA_MAX_NAME_LEN ty vl.type) ∧
        (example_query_traffic.plugin_instance_from ≠ none →
          ∃ value, example_row_traffic[example_area_traffic.plugin_instance_pos]? =
              some value ∧
            copied_identifier example_plugin_api_digits.DATA_MAX_NAME_LEN value
              vl.plugin_instance) ∧
        (example_query_traffic.plugin_instance_from = none →
          ∃ db_name, example_area_traffic.db_name = some db_name ∧
            copied_identifier example_plugin_api_digits.DATA_MAX_NAME_LEN db_name
              vl.plugin_instance) :=
  ⟨by decide,
   udb_result_submit_identity example_plugin_api_digits example_query_traffic
     example_area_traffic example_row_traffic (by decide) (by decide) (by decide)⟩

/-- C16: for every prepared area of a well-formed query and every row with a value for each
column, when `meta_data_add_string` appends the pair it is given, every value list that
`udb_query_handle_result` dispatches is the sample of a result of the query and carries,
for a result with `MetadataFrom` names, the pairs of each name as configured and the row value
at the position stored for it, in the configured order, and for a result without
`MetadataFrom` names the metadata of `VALUE_LIST_INIT`. -/
theorem udb_result_submit_metadata (api : plugin_api) (q : udb_query_t)
    (prep_area : udb_query_preparation_area_t) (column_values : List CStr)
    (hq : results_well_formed q) (ha : area_prepared q prep_area)
    (hrow : prep_area.column_num ≤ column_values.length)
    (hmeta : ∀ md key value,
      api.meta_data_add_string md key (some value) = (0, md ++ [(key, value)])) :
    ∃ status area vls,
      udb_query_handle_result api q prep_area column_values = some (status, area, vls) ∧
      ∀ vl ∈ vls, ∃ x ∈ List.zip q.results prep_area.result_prep_areas,
        result_sample api q prep_area x.1 x.2 column_values = some vl ∧
        (x.1.metadata ≠ [] →
          (row_strings column_values x.2.metadata_pos).length = x.1.metadata.length ∧
          vl.meta =
            some (List.zip x.1.metadata (row_strings column_values x.2.metadata_pos))) ∧
        (x.1.metadata = [] → vl.meta = api.VALUE_LIST_INIT.meta) := by
  refine ⟨_, _, _, udb_query_handle_result_prepared api q prep_area column_values hq ha hrow,
    fun vl hvl => ?_⟩
  obtain ⟨r, s, hx, hs⟩ := row_samples_mem api q prep_area column_values vl hvl
  exact ⟨(r, s), hx, hs, result_sample_meta api q prep_area r s column_values vl
    (area_prepared_mem q prep_area hq ha r s hx).2.2.2 hrow hmeta hs⟩

/-- C16, at a concrete input: the result with `MetadataFrom "Host"`, resolved to the column
`host`, attaches the pair of `Host` and the row value `web1`; the result without
`MetadataFrom` attaches nothing. -/
theorem udb_result_submit_metadata_witness :
    (udb_query_handle_result example_plugin_api_digits example_query_traffic
        example_area_traffic example_row_traffic).map
      (fun x => x.2.2.map (fun vl => vl.meta)) =
      some [some [("Host".toList, "web1".toList)], none] ∧
    ∃ status area vls,
      udb_query_handle_result example_plugin_api_digits example_query_traffic
        example_area_traffic example_row_traffic = some (status, area, vls) ∧
      ∀ vl ∈ vls,
        ∃ x ∈ List.zip example_query_traffic.results example_area_traffic.result_prep_areas,
          result_sample example_plugin_api_digits example_query_traffic example_area_traffic
            x.1 x.2 example_row_traffic = some vl ∧
          (x.1.metadata ≠ [] →
            (row_strings example_row_traffic x.2.metadata_pos).length =
              x.1.metadata.length ∧
            vl.meta =
              some (List.zip x.1.metadata
                (row_strings example_row_traffic x.2.metadata_pos))) ∧
          (x.1.metadata = [] → vl.meta = example_plugin_api_digits.VALUE_LIST_INIT.meta) :=
  ⟨by decide,
   udb_result_submit_metadata example_plugin_api_digits example_query_traffic
     example_area_traffic example_row_traffic (by decide) (by decide) (by decide)
     (fun _ _ _ => rfl)⟩

/-- C14: for a result of a well-formed query with its result preparation area in a prepared
area and a row with a value for each column, when `strjoin` joins every non-empty list of
strings whose joined string fits the buffer, and the composed instance string is shorter
than `DATA_MAX_NAME_LEN`, `udb_result_handle_result` returns; it returns 0 and dispatches
a value list if and only if the values parse and the metadata is attached, and that value
list has the composed string as type instance: the instance prefix (or the empty string)
without `InstancesFrom`, else the row values at the stored instance positions joined with
`-`, after the instance prefix and a `-` when one is set. -/
theorem udb_result_submit_type_instance (api : plugin_api) (q : udb_query_t)
    (q_area : udb_query_preparation_area_t) (r : udb_result_t)
    (r_area : udb_result_preparation_area_t) (column_values : List CStr)
    (hq : results_well_formed q) (ha : area_prepared q q_area)
    (hrow : q_area.column_num ≤ column_values.length)
    (hx : (r, r_area) ∈ List.zip q.results q_area.result_prep_areas)
    (hfit : ∀ fields : List CStr, fields ≠ [] →
      (['-'].intercalate fields).length < api.DATA_MAX_NAME_LEN →
      ¬ (api.strjoin api.DATA_MAX_NAME_LEN fields ['-']).1 < 0 ∧
      (api.strjoin api.DATA_MAX_NAME_LEN fields ['-']).2 = ['-'].intercalate fields)
    (hlen : (composed_instance r
      (['-'].intercalate (row_strings column_values r_area.instances_pos))).length <
        api.DATA_MAX_NAME_LEN) :
    ∃ status area sample,
      udb_result_handle_result api r q_area r_area q column_values =
        some (status, area, sample) ∧
      (status = 0 ↔ sample ≠ none) ∧
      (sample ≠ none ↔
        parse_all api (columns_at column_values r_area.values_pos)
          ((r_area.ds.map (fun ds => ds.ds)).getD []) ≠ none ∧
        (attach_all api
          (List.zip r.metadata (columns_at column_values r_area.metadata_pos)) []).1 = 0) ∧
      (∀ vl, sample = some vl →
        vl.type_instance =
          if r.instances.length = 0 then r.instance_prefix.getD []
          else
            match r.instance_prefix with
            | none => ['-'].intercalate (row_strings column_values r_area.instances_pos)
            | some p =>
              p ++ '-' :: ['-'].intercalate (row_strings column_values r_area.instances_pos)) ∧
      (r.instances.length ≠ 0 →
        (row_strings column_values r_area.instances_pos).length = r.instances.length) := by
  obtain ⟨_, ht, hv, hp⟩ := area_prepared_mem q q_area hq ha r r_area hx
  obtain ⟨status, hres, hst⟩ := udb_result_handle_result_prepared api q q_area r r_area
    column_values ht hv hp ha.2.1 ha.2.2.1 ha.2.2.2.1 ha.2.2.2.2.1 hrow
  have hrl : r.instances.length ≠ 0 →
      (row_strings column_values r_area.instances_pos).length = r.instances.length :=
    fun h0 => row_strings_length column_values _ _ _ _ hp.2.1 h0 hrow
  have hti := sample_type_instance_fit_at api r
    (row_strings column_values r_area.instances_pos)
    (fun h0 hj => hfit _ (fun hnil => h0 (by rw [← hrl h0, hnil]; rfl)) hj) hlen
  refine ⟨_, _, _, hres, hst, ?_, fun vl hvl => ?_, hrl⟩
  · rw [result_sample_ne_none_general, hti]
    simp
  · have h1 := (result_sample_fields api q q_area r r_area column_values vl hvl).2.1
    rw [hti] at h1
    exact (Option.some.inj h1).symm

/-- C14, at a concrete input: `InstancesFrom` `a`, `b` with the row values `x`, `y` and the
instance prefix `pre` give a value list with the type instance `pre-x-y`. -/
theorem udb_result_submit_type_instance_witness :
    (udb_result_handle_result example_plugin_api_digits example_result_instances
        example_area_traffic example_result_area_instances example_query_traffic
        example_row_traffic).map
      (fun x => (x.1, x.2.2.map (fun vl => vl.type_instance))) =
      some (0, some "pre-x-y".toList) ∧
    ∃ status area sample,
      udb_result_handle_result example_plugin_api_digits example_result_instances
          example_area_traffic example_result_area_instances example_query_traffic
          example_row_traffic = some (status, area, sample) ∧
      (status = 0 ↔ sample ≠ none) ∧
      (sample ≠ none ↔
        parse_all example_plugin_api_digits
          (columns_at example_row_traffic example_result_area_instances.values_pos)
          ((example_result_area_instances.ds.map (fun ds => ds.ds)).getD []) ≠ none ∧
        (attach_all example_plugin_api_digits
          (List.zip example_result_instances.metadata
            (columns_at example_row_traffic example_result_area_instances.metadata_pos))
          []).1 = 0) ∧
      (∀ vl, sample = some vl →
        vl.type_instance =
          if example_result_instances.instances.length = 0 then
            example_result_instances.instance_prefix.getD []
          else
            match example_result_instances.instance_prefix with
            | none =>
              ['-'].intercalate
                (row_strings example_row_traffic example_result_area_instances.instances_pos)
            | some p =>
              p ++ '-' :: ['-'].intercalate
                (row_strings example_row_traffic
                  example_result_area_instances.instances_pos)) ∧
      (example_result_instances.instances.length ≠ 0 →
        (row_strings example_row_traffic example_result_area_instances.instances_pos).length =
          example_result_instances.instances.length) :=
  ⟨by decide,
   udb_result_submit_type_instance example_plugin_api_digits example_query_traffic
     example_area_traffic example_result_instances example_result_area_instances
     example_row_traffic (by decide) (by decide) (by decide) (by decide)
     (fun _ _ _ => ⟨Int.lt_irrefl 0, rfl⟩) (by decide)⟩

/-- C18: for a result of a well-formed query with its result preparation area in a prepared
area, a row with a value for each column and `DATA_MAX_NAME_LEN` at least 1,
`udb_result_handle_result` returns and the type instance of the value list it dispatches,
if any, is shorter than `DATA_MAX_NAME_LEN`; when `strjoin` cuts the joined string to the
buffer and does not fail, a value list is dispatched if and only if the values parse and
the metadata is attached, whatever the length of the composed instance string, and its
type instance is the first `DATA_MAX_NAME_LEN - 1` characters of the composed string. -/
theorem udb_result_submit_type_instance_truncated (api : plugin_api) (q : udb_query_t)
    (q_area : udb_query_preparation_area_t) (r : udb_result_t)
    (r_area : udb_result_preparation_area_t) (column_values : List CStr)
    (hq : results_well_formed q) (ha : area_prepared q q_area)
    (hrow : q_area.column_num ≤ column_values.length)
    (hx : (r, r_area) ∈ List.zip q.results q_area.result_prep_areas)
    (hN : 0 < api.DATA_MAX_NAME_LEN) :
    ∃ status area sample,
      udb_result_handle_result api r q_area r_area q column_values =
        some (status, area, sample) ∧
      (∀ vl, sample = some vl → vl.type_instance.length < api.DATA_MAX_NAME_LEN) ∧
      ((∀ fields : List CStr,
          ¬ (api.strjoin api.DATA_MAX_NAME_LEN fields ['-']).1 < 0 ∧
          (api.strjoin api.DATA_MAX_NAME_LEN fields ['-']).2 =
            (['-'].intercalate fields).take (api.DATA_MAX_NAME_LEN - 1)) →
        (sample ≠ none ↔
          parse_all api (columns_at column_values r_area.values_pos)
            ((r_area.ds.map (fun ds => ds.ds)).getD []) ≠ none ∧
          (attach_all api
            (List.zip r.metadata (columns_at column_values r_area.metadata_pos)) []).1 = 0) ∧
        ∀ vl, sample = some vl →
          vl.type_instance =
            (composed_instance r
              (['-'].intercalate (row_strings column_values r_area.instances_pos))).take
              (api.DATA_MAX_NAME_LEN - 1)) := by
  obtain ⟨_, ht, hv, hp⟩ := area_prepared_mem q q_area hq ha r r_area hx
  obtain ⟨status, hres, _⟩ := udb_result_handle_result_prepared api q q_area r r_area
    column_values ht hv hp ha.2.1 ha.2.2.1 ha.2.2.2.1 ha.2.2.2.2.1 hrow
  refine ⟨_, _, _, hres, fun vl hvl => ?_, fun hcut => ⟨?_, fun vl hvl => ?_⟩⟩
  · exact sample_type_instance_length api r _ _ hN
      (result_sample_fields api q q_area r r_area column_values vl hvl).2.1
  · exact result_sample_ne_none_of_join api q q_area r r_area column_values (hcut _).1
  · have h1 := (result_sample_fields api q q_area r r_area column_values vl hvl).2.1
    rw [sample_type_instance_cut api r _ hcut] at h1
    exact (Option.some.inj h1).symm

/-- C18, at a concrete input: with identifiers of 128 bytes, the instance prefix `pre` and
instance values of 130 characters and of one character, the value list is dispatched with
the type instance `pre-` and 123 times `x`, the first 127 characters of the composed
string. -/
theorem udb_result_submit_type_instance_truncated_witness :
    (udb_result_handle_result example_plugin_api_cutting example_result_instances
        example_area_traffic example_result_area_instances example_query_traffic
        example_row_long).map
      (fun x => (x.1, x.2.2.map (fun vl => vl.type_instance))) =
      some (0, some ("pre-".toList ++ List.replicate 123 'x')) ∧
    ∃ status area sample,
      udb_result_handle_result example_plugin_api_cutting example_result_instances
          example_area_traffic example_result_area_instances example_query_traffic
          example_row_long = some (status, area, sample) ∧
      (∀ vl, sample = some vl →
        vl.type_instance.length < example_plugin_api_cutting.DATA_MAX_NAME_LEN) ∧
      (sample ≠ none ↔
        parse_all example_plugin_api_cutting
          (columns_at example_row_long example_result_area_instances.values_pos)
          ((example_result_area_instances.ds.map (fun ds => ds.ds)).getD []) ≠ none ∧
        (attach_all example_plugin_api_cutting
          (List.zip example_result_instances.metadata
            (columns_at example_row_long example_result_area_instances.metadata_pos))
          []).1 = 0) ∧
      ∀ vl, sample = some vl →
        vl.type_instance =
          (composed_instance example_result_instances
            (['-'].intercalate
              (row_strings example_row_long
                example_result_area_instances.instances_pos))).take
            (example_plugin_api_cutting.DATA_MAX_NAME_LEN - 1) :=
  ⟨by set_option maxRecDepth 100000 in decide,
   (udb_result_submit_type_instance_truncated example_plugin_api_cutting
     example_query_traffic example_area_traffic example_result_instances
     example_result_area_instances example_row_long (by decide) (by decide) (by decide)
     (by decide) (by decide)).imp fun _ h => h.imp fun _ h => h.imp fun _ h =>
       ⟨h.1, h.2.1, h.2.2 (fun _ => ⟨Int.not_lt.2 (Int.ofNat_nonneg _), rfl⟩)⟩⟩

/-- C21: for every `Query` block with a child whose key is none of `Statement`, `Result`,
`MinVersion`, `MaxVersion`, `PluginInstanceFrom` (ignoring case): without a callback
`udb_query_create` returns -1 and leaves the list unchanged; with a callback, when the
children before that child succeed, the child step calls the callback with the query
built so far and takes its status, `udb_query_create` returns -1 with the list unchanged
when that status is not zero, and otherwise succeeds exactly when the remaining children
succeed and a statement and a result are there. -/
theorem udb_query_create_unknown_option (ret_query_list : Option (List udb_query_t))
    (ci child : oconfig_item_t) (hc : child ∈ ci.children)
    (hkey : unknown_query_option child = true) :
    udb_query_create ret_query_list ci none = (-1, ret_query_list) ∧
    ∀ (cb : udb_query_create_callback_t) (name : CStr) (pre post : List oconfig_item_t),
      ci.values = [oconfig_value_t.string name] → ci.children = pre ++ child :: post →
      ((udb_query_create_loop (some cb) pre (new_query name)).1 ≠ 0 →
        udb_query_create ret_query_list ci (some cb) = (-1, ret_query_list)) ∧
      ∀ q, udb_query_create_loop (some cb) pre (new_query name) = (0, q) →
        udb_query_create_child (some cb) q child =
          ((cb q child).1, { q with user_data := (cb q child).2 }) ∧
        ((cb q child).1 ≠ 0 →
          udb_query_create ret_query_list ci (some cb) = (-1, ret_query_list)) ∧
        ((cb q child).1 = 0 →
          udb_query_create ret_query_list ci (some cb) =
            if (udb_query_create_loop (some cb) post
                  { q with user_data := (cb q child).2 }).1 = 0 ∧
                (udb_query_create_loop (some cb) post
                  { q with user_data := (cb q child).2 }).2.statement ≠ none ∧
                (udb_query_create_loop (some cb) post
                  { q with user_data := (cb q child).2 }).2.results ≠ [] then
              (0, some (ret_query_list.getD [] ++
                [(udb_query_create_loop (some cb) post
                  { q with user_data := (cb q child).2 }).2]))
            else (-1, ret_query_list)) := by
  refine ⟨?_, fun cb name pre post hname hch => ⟨fun hpre => ?_, fun q hq => ⟨?_, ?_, ?_⟩⟩⟩
  · exact udb_query_create_of_child_fails ret_query_list ci none child hc (fun q => by
      rw [udb_query_create_child_unknown none q child hkey]; simp)
  · rw [udb_query_create_eq ret_query_list ci (some cb) name hname, hch,
      udb_query_create_loop_append, if_pos hpre, if_neg (fun h => hpre h.1)]
  · exact udb_query_create_child_unknown (some cb) q child hkey
  · intro hst
    rw [udb_query_create_eq ret_query_list ci (some cb) name hname, hch,
      udb_query_create_loop_append, hq]
    simp only [ne_eq, not_true_eq_false, if_false, udb_query_create_loop,
      udb_query_create_child_unknown (some cb) q child hkey, hst, not_false_eq_true, if_true]
    exact if_neg (fun h => h.1)
  · intro hst
    rw [udb_query_create_eq ret_query_list ci (some cb) name hname, hch,
      udb_query_create_loop_append, hq]
    simp only [ne_eq, not_true_eq_false, if_false, udb_query_create_loop,
      udb_query_create_child_unknown (some cb) q child hkey, hst]

/-- C21, at a concrete input: the block with the option `Param` is refused without a
callback and with a callback that refuses it, and is added, with the callback counted
once, with a callback that accepts it. -/
theorem udb_query_create_unknown_option_witness :
    udb_query_create (some example_query_list) example_query_block_param
        (some example_callback_refusing) = (-1, some example_query_list) ∧
    udb_query_create (some example_query_list) example_query_block_param
        (some example_callback) =
      (0, some (example_query_list ++
        [{ example_query "disk_io" 0 UINT_MAX with user_data := 1 }])) ∧
    udb_query_create (some example_query_list) example_query_block_param none =
      (-1, some example_query_list) :=
  ⟨by decide, by decide,
   (udb_query_create_unknown_option (some example_query_list) example_query_block_param
     (.mk "Param".toList [.string "x".toList] []) (by simp [example_query_block_param,
       oconfig_item_t.children]) (by decide)).1⟩

/-- C22: a query added by `udb_query_create` from a block without a `MinVersion` child has
the minimum version 0, from a block without a `MaxVersion` child the maximum version
`UINT_MAX`, and from a block with neither `udb_query_check_version` returns 1 for every
version up to `UINT_MAX`; a child `MinVersion n` (or `MaxVersion n`) with a natural number
`n`, the last of its key, makes `n` that bound. -/
theorem udb_query_create_version_range (ret_query_list : Option (List udb_query_t))
    (ci : oconfig_item_t) (cb : Option udb_query_create_callback_t) (q : udb_query_t)
    (hcreate : udb_query_create ret_query_list ci cb =
      (0, some (ret_query_list.getD [] ++ [q]))) :
    ((∀ c ∈ ci.children, key_is "MinVersion" c = false) → q.min_version = 0) ∧
    ((∀ c ∈ ci.children, key_is "MaxVersion" c = false) → q.max_version = UINT_MAX) ∧
    ((∀ c ∈ ci.children, key_is "MinVersion" c = false ∧ key_is "MaxVersion" c = false) →
      ∀ version, version ≤ UINT_MAX → udb_query_check_version q version = 1) ∧
    (∀ (pre post : List oconfig_item_t) (c : oconfig_item_t) (n : Nat),
      ci.children = pre ++ c :: post → key_is "MinVersion" c = true →
      c.values = [oconfig_value_t.number n] →
      (∀ d ∈ post, key_is "MinVersion" d = false) → q.min_version = n) ∧
    (∀ (pre post : List oconfig_item_t) (c : oconfig_item_t) (n : Nat),
      ci.children = pre ++ c :: post → key_is "MaxVersion" c = true →
      c.values = [oconfig_value_t.number n] →
      (∀ d ∈ post, key_is "MaxVersion" d = false) → q.max_version = n) := by
  obtain ⟨name, _, h0, hq, _, _⟩ := udb_query_create_added ret_query_list ci cb q hcreate
  have hmin : (∀ c ∈ ci.children, key_is "MinVersion" c = false) → q.min_version = 0 := by
    intro h
    rw [← hq, udb_query_create_loop_min_version cb ci.children _ h]
    rfl
  have hmax : (∀ c ∈ ci.children, key_is "MaxVersion" c = false) →
      q.max_version = UINT_MAX := by
    intro h
    rw [← hq, udb_query_create_loop_max_version cb ci.children _ h]
    rfl
  refine ⟨hmin, hmax, fun h version hv => ?_, ?_, ?_⟩
  · unfold udb_query_check_version
    rw [hmin (fun c hc => (h c hc).1), hmax (fun c hc => (h c hc).2), if_neg (by omega)]
  · intro pre post c n hch hkey hval hpost
    rw [hch] at h0 hq
    obtain ⟨hm, hs⟩ := udb_query_create_loop_min_last cb pre post c _ hkey hpost h0
    rw [← hq, hm, (udb_config_set_uint_ok _ c n hval hs).2,
      floor_nat_add_half n (by exact_mod_cast (udb_config_set_uint_ok _ c n hval hs).1.2)]
  · intro pre post c n hch hkey hval hpost
    rw [hch] at h0 hq
    obtain ⟨hm, hs⟩ := udb_query_create_loop_max_last cb pre post c _ hkey hpost h0
    rw [← hq, hm, (udb_config_set_uint_ok _ c n hval hs).2,
      floor_nat_add_half n (by exact_mod_cast (udb_config_set_uint_ok _ c n hval hs).1.2)]

/-- C22, at a concrete input: the block without version options gives the range from 0 to
`UINT_MAX`, the block with `MinVersion 80400` the range from 80400 to `UINT_MAX`. -/
theorem udb_query_create_version_range_witness :
    udb_query_create none example_query_block none =
      (0, some ([] ++ [example_query "disk_io" 0 UINT_MAX])) ∧
    (∀ version, version ≤ UINT_MAX →
      udb_query_check_version (example_query "disk_io" 0 UINT_MAX) version = 1) ∧
    udb_query_create none example_query_block_min_version none =
      (0, some ([] ++ [example_query "disk_io" 80400 UINT_MAX])) ∧
    (example_query "disk_io" 80400 UINT_MAX).min_version = 80400 ∧
    (example_query "disk_io" 80400 UINT_MAX).max_version = UINT_MAX :=
  ⟨by decide,
   (udb_query_create_version_range none example_query_block none
     (example_query "disk_io" 0 UINT_MAX) (by decide)).2.2.1 (by decide),
   by decide!,
   (udb_query_create_version_range none example_query_block_min_version none
     (example_query "disk_io" 80400 UINT_MAX) (by decide!)).2.2.2.1
     [.mk "Statement".toList [.string "SELECT 1".toList] []] [example_result_block]
     (.mk "MinVersion".toList [.number 80400] []) 80400 rfl (by decide)
     (by simp [oconfig_item_t.values]) (by decide),
   (udb_query_create_version_range none example_query_block_min_version none
     (example_query "disk_io" 80400 UINT_MAX) (by decide!)).2.1 (by decide)⟩

/-- C25, as stated, fails: 0.49999999999999994, the largest `double` below 1/2, lies
between 0 and `UINT_MAX`; the integer part of the exact sum with 1/2 is 0, but the `double`
sum is 1, so `udb_config_set_uint` stores 1, and the query created from a block with
`MinVersion 0.49999999999999994` has the minimum version 1. -/
theorem udb_config_set_uint_rounds_up :
    example_below_half = (2 ^ 53 - 1) / 2 ^ 54 ∧
    0 ≤ example_below_half ∧ example_below_half ≤ (UINT_MAX : ℚ) ∧
    (Rat.floor (example_below_half + 1 / 2)).toNat = 0 ∧
    double_round (example_below_half + 1 / 2) = 1 ∧
    udb_config_set_uint 0 (.mk "MinVersion".toList [.number example_below_half] []) = (0, 1) ∧
    udb_query_create none example_query_block_below_half none =
      (0, some [example_query "disk_io" 1 UINT_MAX]) := by
  refine ⟨by decide!, by decide!, by decide!, by decide!, by decide!, by decide!, by decide!⟩

/-- C25, amended: a `MinVersion` or `MaxVersion` child that does not have exactly one numeric
argument between 0 and `UINT_MAX` makes `udb_query_create` return -1 and leave the list
unchanged; for one numeric argument `x` between 0 and `UINT_MAX`, `udb_config_set_uint`
returns 0 and stores the integer part of the `double` sum `x + .5`, which is the integer
part of the exact sum, or one more when the `double` sum is rounded up to that integer, and
is at most `UINT_MAX`; for a natural number `n` it stores `n`; and the query that `udb_query_create` adds has the
stored bound when the child is the last of its key. -/
theorem udb_config_set_uint_range (ret_query_list : Option (List udb_query_t))
    (ci : oconfig_item_t) (cb : Option udb_query_create_callback_t) (c : oconfig_item_t)
    (hc : c ∈ ci.children)
    (hkey : key_is "MinVersion" c = true ∨ key_is "MaxVersion" c = true) :
    ((∀ x, c.values = [oconfig_value_t.number x] → x < 0 ∨ (UINT_MAX : ℚ) < x) →
      udb_query_create ret_query_list ci cb = (-1, ret_query_list)) ∧
    (∀ (x : ℚ) (ret_value : Nat), c.values = [oconfig_value_t.number x] →
      0 ≤ x → x ≤ (UINT_MAX : ℚ) →
      udb_config_set_uint ret_value c =
        (0, (Rat.floor (double_round (x + 1 / 2))).toNat) ∧
      ((Rat.floor (double_round (x + 1 / 2))).toNat = (Rat.floor (x + 1 / 2)).toNat ∨
        ((Rat.floor (double_round (x + 1 / 2))).toNat = (Rat.floor (x + 1 / 2)).toNat + 1 ∧
          double_round (x + 1 / 2) = ((Rat.floor (x + 1 / 2)).toNat + 1 : ℕ))) ∧
      (Rat.floor (double_round (x + 1 / 2))).toNat ≤ UINT_MAX) ∧
    (∀ (n ret_value : Nat), c.values = [oconfig_value_t.number n] → n ≤ UINT_MAX →
      udb_config_set_uint ret_value c = (0, n)) ∧
    (∀ (x : ℚ) (q : udb_query_t) (pre post : List oconfig_item_t),
      c.values = [oconfig_value_t.number x] →
      udb_query_create ret_query_list ci cb = (0, some (ret_query_list.getD [] ++ [q])) →
      ci.children = pre ++ c :: post →
      (key_is "MinVersion" c = true → (∀ d ∈ post, key_is "MinVersion" d = false) →
        q.min_version = (Rat.floor (double_round (x + 1 / 2))).toNat) ∧
      (key_is "MaxVersion" c = true → (∀ d ∈ post, key_is "MaxVersion" d = false) →
        q.max_version = (Rat.floor (double_round (x + 1 / 2))).toNat)) := by
  refine ⟨fun hbad => ?_,
    fun x ret_value hval h0 h1 => ⟨?_, ?_, floor_double_round_le_uint_max x h1⟩,
    fun n ret_value hval hn => ?_,
    fun x q pre post hval hcreate hch => ⟨fun hk hpost => ?_, fun hk hpost => ?_⟩⟩
  · refine udb_query_create_of_child_fails ret_query_list ci cb c hc (fun q => ?_)
    rcases hkey with hk | hk
    · rw [udb_query_create_child_min_set cb q c hk]
      exact udb_config_set_uint_bad _ c hbad
    · rw [udb_query_create_child_max_set cb q c hk]
      exact udb_config_set_uint_bad _ c hbad
  · rw [udb_config_set_uint_eq ret_value c x hval, if_neg (by
      simp only [not_or, not_lt]; exact ⟨h0, h1⟩)]
  · exact floor_double_round (x + 1 / 2) (by linarith)
  · rw [udb_config_set_uint_eq ret_value c n hval, if_neg (by
      simp only [not_or, not_lt]
      exact ⟨Nat.cast_nonneg n, by exact_mod_cast hn⟩), floor_nat_add_half n hn]
  · obtain ⟨name, _, h0, hq, _, _⟩ := udb_query_create_added ret_query_list ci cb q hcreate
    rw [hch] at h0 hq
    obtain ⟨hm, hs⟩ := udb_query_create_loop_min_last cb pre post c _ hk hpost h0
    rw [← hq, hm, (udb_config_set_uint_ok _ c x hval hs).2]
  · obtain ⟨name, _, h0, hq, _, _⟩ := udb_query_create_added ret_query_list ci cb q hcreate
    rw [hch] at h0 hq
    obtain ⟨hm, hs⟩ := udb_query_create_loop_max_last cb pre post c _ hk hpost h0
    rw [← hq, hm, (udb_config_set_uint_ok _ c x hval hs).2]

/-- C25, amended, at a concrete input: the block with `MaxVersion -1` is refused and the
list is unchanged; `MinVersion 80400` stores 80400, `MinVersion 2.5` stores 3, and
`MinVersion 0.49999999999999994` stores 1, one more than the integer part of the exact
sum, the `double` sum being 1. -/
theorem udb_config_set_uint_range_witness :
    udb_query_create (some example_query_list) example_query_block_negative none =
      (-1, some example_query_list) ∧
    udb_config_set_uint 0 (.mk "MinVersion".toList [.number (80400 : ℕ)] []) = (0, 80400) ∧
    udb_config_set_uint 0 (.mk "MinVersion".toList [.number (5 / 2)] []) = (0, 3) ∧
    udb_config_set_uint 0 (.mk "MinVersion".toList [.number example_below_half] []) =
      (0, (Rat.floor (double_round (example_below_half + 1 / 2))).toNat) ∧
    (Rat.floor (double_round (example_below_half + 1 / 2))).toNat = 1 :=
  ⟨(udb_config_set_uint_range (some example_query_list) example_query_block_negative none
     (.mk "MaxVersion".toList [.number (-1)] [])
     (by simp [example_query_block_negative, oconfig_item_t.children])
     (Or.inr (by decide))).1 (fun x hx => by
       simp only [oconfig_item_t.values, List.cons.injEq, oconfig_value_t.number.injEq,
         and_true] at hx
       left; rw [← hx]; norm_num),
   (udb_config_set_uint_range (some example_query_list) example_query_block_min_version none
     (.mk "MinVersion".toList [.number (80400 : ℕ)] [])
     (by simp [example_query_block_min_version, oconfig_item_t.children])
     (Or.inl (by decide))).2.2.1 80400 0 rfl (by decide),
   by decide!,
   ((udb_config_set_uint_range none example_query_block_below_half none
     (.mk "MinVersion".toList [.number example_below_half] [])
     (by simp [example_query_block_below_half, oconfig_item_t.children])
     (Or.inl (by decide))).2.1 example_below_half 0 rfl (by decide!) (by decide!)).1,
   by decide!⟩

/-- C23: in the query list built from the empty list by any sequence of
`udb_query_create` calls, successful or failed, every query (it has a name, the string of
its block) has a statement and at least one result, and every result has a type and at
least one `ValuesFrom` name. -/
theorem udb_query_create_registry_invariant
    (calls : List (oconfig_item_t × Option udb_query_create_callback_t)) :
    ∀ q ∈ (registry calls).getD [],
      q.statement ≠ none ∧ q.results ≠ [] ∧
      ∀ r ∈ q.results, r.type ≠ none ∧ r.values ≠ [] := by
  intro q hq
  obtain ⟨hs, hr, hall⟩ := registry_well_formed calls q hq
  exact ⟨hs, hr, hall⟩

/-- C23, at a concrete input: after a refused block, an accepted block and another refused
block the list holds the one query `disk_io`, with a statement, one result, a type and a
`ValuesFrom` name. -/
theorem udb_query_create_registry_invariant_witness :
    registry [(example_query_block_without_statement, none), (example_query_block, none),
        (example_query_block_param, none)] =
      some [example_query "disk_io" 0 UINT_MAX] ∧
    ∀ q ∈ (registry [(example_query_block_without_statement, none),
        (example_query_block, none), (example_query_block_param, none)]).getD [],
      q.statement ≠ none ∧ q.results ≠ [] ∧
      ∀ r ∈ q.results, r.type ≠ none ∧ r.values ≠ [] :=
  ⟨by decide,
   udb_query_create_registry_invariant [(example_query_block_without_statement, none),
     (example_query_block, none), (example_query_block_param, none)]⟩

/-- C24: `udb_query_create` has no access to the schema lookup; for every valid `Query`
block it returns 0 and adds a query `q` whose results have, in order, the `Type` and the
`ValuesFrom` names of the `Result` blocks of the block; and for every schema lookup that
does not know the `Type` of one of these `Result` blocks, or knows it with a field count
other than the number of its `ValuesFrom` names, every `udb_query_prepare_result` on `q`
returns an error. -/
theorem udb_query_create_deferred_validation (ret_query_list : Option (List udb_query_t))
    (ci : oconfig_item_t) (cb : Option udb_query_create_callback_t)
    (h : valid_query_block ci = true) :
    ∃ q, udb_query_create ret_query_list ci cb =
        (0, some (ret_query_list.getD [] ++ [q])) ∧
      q.results.map (fun r => (r.type, r.values)) =
        (ci.children.filter (key_is "Result")).map
          (fun b => (result_block_type b, result_block_values b)) ∧
      ∀ (plugin_get_ds : Option CStr → Option data_set_t)
        (prep_area : udb_query_preparation_area_t) (host plugin db_name : CStr)
        (column_names : List CStr) (interval : Nat),
        (∃ b ∈ ci.children, key_is "Result" b = true ∧
          (plugin_get_ds (result_block_type b) = none ∨
            ∃ ds, plugin_get_ds (result_block_type b) = some ds ∧
              ds.ds.length ≠ (result_block_values b).length)) →
        (udb_query_prepare_result plugin_get_ds q prep_area host plugin db_name column_names
          interval).1 ≠ 0 := by
  obtain ⟨q, hq⟩ := udb_query_create_of_valid ret_query_list ci cb h
  have hres := udb_query_create_results ret_query_list ci cb q hq
  refine ⟨q, hq, hres, fun pgd a host plugin db_name cols interval hbad => ?_⟩
  obtain ⟨b, hb, hk, hbad⟩ := hbad
  have hmem : (result_block_type b, result_block_values b) ∈
      q.results.map (fun r => (r.type, r.values)) := by
    rw [hres]
    exact List.mem_map.2 ⟨b, List.mem_filter.2 ⟨hb, hk⟩, rfl⟩
  obtain ⟨r, hr, heq⟩ := List.mem_map.1 hmem
  simp only [Prod.mk.injEq] at heq
  refine udb_query_prepare_result_unresolved pgd q a host plugin db_name cols interval r hr ?_
  rw [heq.1, heq.2]
  rcases hbad with hnone | ⟨ds, hds, hne⟩
  · simp [hnone]
  · simp [hds, hne]

/-- C24, at a concrete input: the block whose second `Result` has the type `no_such_type`
is added, and so is the block whose `Result` gives two `ValuesFrom` names for the type
`gauge` of one field; the preparation of the queries they add returns -1. -/
theorem udb_query_create_deferred_validation_witness :
    (udb_query_create none example_query_block_unknown_type none).1 = 0 ∧
    (((udb_query_create none example_query_block_unknown_type none).2.getD []).map
      (fun q =>
        (udb_query_prepare_result example_plugin_get_ds q
          (udb_query_allocate_preparation_area q) "localhost".toList "postgresql".toList
          "orders".toList example_column_names 10).1)) = [-1] ∧
    (udb_query_create none example_query_block_two_values none).1 = 0 ∧
    (((udb_query_create none example_query_block_two_values none).2.getD []).map
      (fun q =>
        (udb_query_prepare_result example_plugin_get_ds q
          (udb_query_allocate_preparation_area q) "localhost".toList "postgresql".toList
          "orders".toList example_column_names 10).1)) = [-1] ∧
    (∃ b ∈ example_query_block_unknown_type.children, key_is "Result" b = true ∧
      (example_plugin_get_ds (result_block_type b) = none ∨
        ∃ ds, example_plugin_get_ds (result_block_type b) = some ds ∧
          ds.ds.length ≠ (result_block_values b).length)) ∧
    ∃ q, udb_query_create none example_query_block_unknown_type none =
        (0, some ([] ++ [q])) ∧
      q.results.map (fun r => (r.type, r.values)) =
        (example_query_block_unknown_type.children.filter (key_is "Result")).map
          (fun b => (result_block_type b, result_block_values b)) ∧
      ∀ (plugin_get_ds : Option CStr → Option data_set_t)
        (prep_area : udb_query_preparation_area_t) (host plugin db_name : CStr)
        (column_names : List CStr) (interval : Nat),
        (∃ b ∈ example_query_block_unknown_type.children, key_is "Result" b = true ∧
          (plugin_get_ds (result_block_type b) = none ∨
            ∃ ds, plugin_get_ds (result_block_type b) = some ds ∧
              ds.ds.length ≠ (result_block_values b).length)) →
        (udb_query_prepare_result plugin_get_ds q prep_area host plugin db_name column_names
          interval).1 ≠ 0 :=
  ⟨by decide, by decide, by decide, by decide,
   ⟨.mk "Result".toList []
       [.mk "Type".toList [.string "no_such_type".toList] [],
        .mk "ValuesFrom".toList [.string "Bytes".toList] []],
     by simp [example_query_block_unknown_type, oconfig_item_t.children], by decide,
     Or.inl (by decide)⟩,
   udb_query_create_deferred_validation none example_query_block_unknown_type none
     (by decide)⟩

/-- C27, as stated, fails: a `Result` block with a `Type`, a `ValuesFrom` with one string
and an `InstancesFrom` without an argument is refused by `udb_result_create`, and the
`Query` block that holds it by `udb_query_create`. -/
theorem udb_result_create_no_argument_refused :
    udb_result_create "disk_io".toList [] example_result_block_no_instances = (-1, []) ∧
    udb_query_create none example_query_block_no_instances none = (-1, none) := by
  decide

/-- C27, amended: a `Result` block with an `InstancesFrom` or `MetadataFrom` child that has
no argument is refused by `udb_result_create`, and every `Query` block that holds it by
`udb_query_create`, the lists staying as they are; the `InstancesFrom` (or
`MetadataFrom`) list of a result that `udb_result_create` adds is empty exactly when the
block has no `InstancesFrom` (or `MetadataFrom`) child. -/
theorem udb_result_create_instances_from (query_name : CStr) (r_head : List udb_result_t)
    (b : oconfig_item_t) :
    (∀ c ∈ b.children, key_is "InstancesFrom" c = true ∨ key_is "MetadataFrom" c = true →
      c.values = [] →
      udb_result_create query_name r_head b = (-1, r_head) ∧
      ∀ (ret_query_list : Option (List udb_query_t)) (ci : oconfig_item_t)
        (cb : Option udb_query_create_callback_t), b ∈ ci.children →
        key_is "Result" b = true →
        udb_query_create ret_query_list ci cb = (-1, ret_query_list)) ∧
    (∀ r, udb_result_create query_name r_head b = (0, r_head ++ [r]) →
      (r.instances = [] ↔ ∀ c ∈ b.children, key_is "InstancesFrom" c = false) ∧
      (r.metadata = [] ↔ ∀ c ∈ b.children, key_is "MetadataFrom" c = false)) := by
  refine ⟨fun c hc hkey hval => ?_, fun r hr => ?_⟩
  · have hfail : ∀ r, (udb_result_create_child r c).1 ≠ 0 := by
      intro r
      rcases hkey with hk | hk
      · exact (udb_result_create_child_instances r c).2.2.2 hk hval
      · exact (udb_result_create_child_metadata r c).2.2.2 hk hval
    refine ⟨udb_result_create_of_child_fails query_name r_head b c hc hfail,
      fun list ci cb hb hk => ?_⟩
    refine udb_query_create_of_child_fails list ci cb b hb (fun q => ?_)
    rw [udb_query_create_child_result cb q b hk,
      udb_result_create_of_child_fails q.name q.results b c hc hfail]
    simp
  · rcases udb_result_create_status query_name r_head b with h1 | ⟨h0, _, _, h1⟩
    · rw [h1] at hr
      cases hr
    · rw [h1] at hr
      simp only [Prod.mk.injEq, true_and] at hr
      have hq := List.append_cancel_left hr
      simp only [List.cons.injEq, and_true] at hq
      rw [← hq, udb_result_create_loop_instances b.children _ h0,
        udb_result_create_loop_metadata b.children _ h0]
      simp

/-- C27 amended, at a concrete input: the block without `InstancesFrom` gives a result with
no instance name, the block with `InstancesFrom "a" "b"` a result with these two, and the
block with `InstancesFrom` without an argument is refused. -/
theorem udb_result_create_instances_from_witness :
    udb_result_create "disk_io".toList [] example_result_block = (0, [example_result]) ∧
    udb_result_create "disk_io".toList [] example_result_block_instances =
      (0, [{ example_result with instances := ["a".toList, "b".toList] }]) ∧
    udb_result_create "disk_io".toList [] example_result_block_no_instances = (-1, []) ∧
    (example_result.instances = [] ↔
      ∀ c ∈ example_result_block.children, key_is "InstancesFrom" c = false) :=
  ⟨by decide, by decide,
   ((udb_result_create_instances_from "disk_io".toList [] example_result_block_no_instances).1
     (.mk "InstancesFrom".toList [] [])
     (by simp [example_result_block_no_instances, oconfig_item_t.children])
     (Or.inl (by decide)) rfl).1,
   ((udb_result_create_instances_from "disk_io".toList [] example_result_block).2
     example_result (by decide)).1⟩

/-- C30: for every prepared area of a well-formed query, after any sequence of rows handled
with `udb_query_handle_result` (the query is only read) the column count, the position of
the `PluginInstanceFrom` column, host, plugin, database name, interval, schema references
and resolved positions of the area are what they were, and a row handled then gives the
same status and the same value lists as the row handled first. -/
theorem udb_query_handle_result_frame (api : plugin_api) (q : udb_query_t)
    (prep_area : udb_query_preparation_area_t) (rows : List (List CStr))
    (column_values : List CStr) (hq : results_well_formed q)
    (ha : area_prepared q prep_area)
    (hrows : ∀ row ∈ rows, prep_area.column_num ≤ row.length)
    (hrow : prep_area.column_num ≤ column_values.length) :
    ∃ area vls, handle_rows api q prep_area rows = some (area, vls) ∧
      resolved_state area = resolved_state prep_area ∧
      ∃ status first later samples,
        udb_query_handle_result api q prep_area column_values =
          some (status, first, samples) ∧
        udb_query_handle_result api q area column_values = some (status, later, samples) ∧
        resolved_state first = resolved_state prep_area := by
  obtain ⟨area, hrows1, hprep, hstate⟩ := handle_rows_prepared api q hq rows prep_area ha hrows
  have hcol : area.column_num = prep_area.column_num := congrArg Prod.fst hstate
  have h1 := udb_query_handle_result_prepared api q prep_area column_values hq ha hrow
  have h2 := udb_query_handle_result_prepared api q area column_values hq hprep
    (by rw [hcol]; exact hrow)
  rw [row_samples_congr api q area prep_area column_values hstate] at h2
  exact ⟨area, _, hrows1, hstate, _, _, _, _, h1, h2,
    resolved_state_filled q prep_area column_values ha.2.2.2.2.2.1⟩

/-- C30, at a concrete input: the row `example_row_traffic` gives the same two value lists
when it is handled first and when it is handled after two other rows. -/
theorem udb_query_handle_result_frame_witness :
    ((handle_rows example_plugin_api_digits example_query_traffic example_area_traffic
        [example_row_bad, example_row_bad_bytes]).bind
      (fun x => udb_query_handle_result example_plugin_api_digits example_query_traffic x.1
        example_row_traffic)).map (fun x => (x.1, x.2.2)) =
      (udb_query_handle_result example_plugin_api_digits example_query_traffic
        example_area_traffic example_row_traffic).map (fun x => (x.1, x.2.2)) ∧
    ∃ area vls,
      handle_rows example_plugin_api_digits example_query_traffic example_area_traffic
        [example_row_bad, example_row_bad_bytes] = some (area, vls) ∧
      resolved_state area = resolved_state example_area_traffic ∧
      ∃ status first later samples,
        udb_query_handle_result example_plugin_api_digits example_query_traffic
          example_area_traffic example_row_traffic = some (status, first, samples) ∧
        udb_query_handle_result example_plugin_api_digits example_query_traffic area
          example_row_traffic = some (status, later, samples) ∧
        resolved_state first = resolved_state example_area_traffic :=
  ⟨by decide,
   udb_query_handle_result_frame example_plugin_api_digits example_query_traffic
     example_area_traffic [example_row_bad, example_row_bad_bytes] example_row_traffic
     (by decide) (by decide) (by decide) (by decide)⟩

/-- C28: for every query of a list built by `udb_query_create`, after a successful
`udb_query_prepare_result` with `n` column names on the area allocated for the query, the
area has one result preparation area for every result, each with a schema whose field
count is the number of `ValuesFrom` names and with all positions below `n`, and
`udb_query_handle_result` on any sequence of rows of `n` values returns every time: no
assertion of `udb_result_submit` fails and no index leaves its array. -/
theorem udb_query_handle_result_index_safe (api : plugin_api)
    (plugin_get_ds : Option CStr → Option data_set_t)
    (calls : List (oconfig_item_t × Option udb_query_create_callback_t)) (q : udb_query_t)
    (host plugin db_name : CStr) (column_names : List CStr) (interval : Nat)
    (rows : List (List CStr)) (hq : q ∈ (registry calls).getD [])
    (hprep : (udb_query_prepare_result plugin_get_ds q (udb_query_allocate_preparation_area q)
      host plugin db_name column_names interval).1 = 0)
    (hrows : ∀ row ∈ rows, row.length = column_names.length) :
    area_prepared q (udb_query_prepare_result plugin_get_ds q
      (udb_query_allocate_preparation_area q) host plugin db_name column_names interval).2 ∧
    (udb_query_prepare_result plugin_get_ds q (udb_query_allocate_preparation_area q)
      host plugin db_name column_names interval).2.column_num = column_names.length ∧
    ∃ area vls,
      handle_rows api q (udb_query_prepare_result plugin_get_ds q
        (udb_query_allocate_preparation_area q) host plugin db_name column_names
        interval).2 rows = some (area, vls) ∧
      area_prepared q area := by
  have hwf := (registry_well_formed calls q hq).2
  obtain ⟨ha, hcol, _⟩ := udb_query_prepare_result_prepared plugin_get_ds q
    (udb_query_allocate_preparation_area q) host plugin db_name column_names interval hwf
    (udb_query_allocate_preparation_area_length q) hprep
  obtain ⟨area, h, hp, _⟩ := handle_rows_prepared api q hwf rows _ ha
    (fun row hr => by rw [hcol, hrows row hr])
  exact ⟨ha, hcol, area, _, h, hp⟩

/-- C28, at a concrete input: the query `traffic` is built from its block, prepared with
six column names, and three rows of six values are handled without a fault. -/
theorem udb_query_handle_result_index_safe_witness :
    registry [(example_query_block_traffic, none)] = some [example_query_traffic] ∧
    (handle_rows example_plugin_api_digits example_query_traffic example_area_traffic
      [example_row_traffic, example_row_bad, example_row_long]).isSome = true ∧
    ∃ area vls,
      handle_rows example_plugin_api_digits example_query_traffic
        (udb_query_prepare_result example_plugin_get_ds example_query_traffic
          (udb_query_allocate_preparation_area example_query_traffic)
          "localhost".toList "postgresql".toList "shop".toList example_columns_traffic
          10).2 [example_row_traffic, example_row_bad, example_row_long] =
        some (area, vls) ∧
      area_prepared example_query_traffic area :=
  ⟨by decide, by set_option maxRecDepth 100000 in decide,
   (udb_query_handle_result_index_safe example_plugin_api_digits example_plugin_get_ds
     [(example_query_block_traffic, none)] example_query_traffic
     "localhost".toList "postgresql".toList "shop".toList example_columns_traffic 10
     [example_row_traffic, example_row_bad, example_row_long]
     (by decide) (by decide) (by decide)).2.2⟩

/-- C29: for every query of a list built by `udb_query_create`, every area and all inputs
for which `udb_query_prepare_result` returns 0, there is at least one column, the area has
that column count and the host, plugin and database name given, `udb_query_handle_result`
on it never returns `-EINVAL`, and on an area with one result preparation area for each
result it returns 0 or -1 for every row with a value for each column. -/
theorem udb_query_prepare_result_prepares
    (plugin_get_ds : Option CStr → Option data_set_t)
    (calls : List (oconfig_item_t × Option udb_query_create_callback_t)) (q : udb_query_t)
    (prep_area : udb_query_preparation_area_t) (host plugin db_name : CStr)
    (column_names : List CStr) (interval : Nat) (hq : q ∈ (registry calls).getD [])
    (hprep : (udb_query_prepare_result plugin_get_ds q prep_area host plugin db_name
      column_names interval).1 = 0) :
    1 ≤ column_names.length ∧
    (udb_query_prepare_result plugin_get_ds q prep_area host plugin db_name column_names
      interval).2.column_num = column_names.length ∧
    (udb_query_prepare_result plugin_get_ds q prep_area host plugin db_name column_names
      interval).2.host = some host ∧
    (udb_query_prepare_result plugin_get_ds q prep_area host plugin db_name column_names
      interval).2.plugin = some plugin ∧
    (udb_query_prepare_result plugin_get_ds q prep_area host plugin db_name column_names
      interval).2.db_name = some db_name ∧
    (∀ (api : plugin_api) (column_values : List CStr)
      (out : Int × udb_query_preparation_area_t × List value_list_t),
      udb_query_handle_result api q
        (udb_query_prepare_result plugin_get_ds q prep_area host plugin db_name column_names
          interval).2 column_values = some out → out.1 ≠ -EINVAL) ∧
    (prep_area.result_prep_areas.length = q.results.length →
      ∀ (api : plugin_api) (column_values : List CStr),
        column_names.length ≤ column_values.length →
        ∃ status area vls,
          udb_query_handle_result api q
            (udb_query_prepare_result plugin_get_ds q prep_area host plugin db_name
              column_names interval).2 column_values = some (status, area, vls) ∧
          (status = 0 ∨ status = -1)) := by
  have hwf := (registry_well_formed calls q hq).2
  have hcols := udb_query_prepare_result_columns plugin_get_ds q prep_area host plugin db_name
    column_names interval hwf hprep
  have hok := udb_query_prepare_result_ok plugin_get_ds q prep_area host plugin db_name
    column_names interval hprep
  have e1 : (udb_query_prepare_result plugin_get_ds q prep_area host plugin db_name
      column_names interval).2.column_num = column_names.length := by rw [hok]
  have e2 : (udb_query_prepare_result plugin_get_ds q prep_area host plugin db_name
      column_names interval).2.host = some host := by rw [hok]
  have e3 : (udb_query_prepare_result plugin_get_ds q prep_area host plugin db_name
      column_names interval).2.plugin = some plugin := by rw [hok]
  have e4 : (udb_query_prepare_result plugin_get_ds q prep_area host plugin db_name
      column_names interval).2.db_name = some db_name := by rw [hok]
  refine ⟨hcols, e1, e2, e3, e4, fun api row out hout => ?_, fun hlen api row hrow => ?_⟩
  · have := udb_query_handle_result_after_guard api q _ row (by rw [e1]; exact hcols)
      (by rw [e2]; simp) (by rw [e3]; simp) (by rw [e4]; simp) out hout
    rcases this with h | h <;> rw [h] <;> decide
  · obtain ⟨ha, hcol, _⟩ := udb_query_prepare_result_prepared plugin_get_ds q prep_area host
      plugin db_name column_names interval hwf hlen hprep
    have h1 := udb_query_handle_result_prepared api q _ row hwf ha (by rw [hcol]; exact hrow)
    refine ⟨_, _, _, h1, ?_⟩
    by_cases hs : row_samples api q (udb_query_prepare_result plugin_get_ds q prep_area host
        plugin db_name column_names interval).2 row = []
    · simp [hs]
    · simp [hs]

/-- C29, at a concrete input: the query `traffic`, built from its block, is prepared with
six columns; the area has the column count 6 and a row is handled with the status 0. -/
theorem udb_query_prepare_result_prepares_witness :
    (udb_query_handle_result example_plugin_api_digits example_query_traffic
      example_area_traffic example_row_traffic).map (fun x => x.1) = some 0 ∧
    1 ≤ example_columns_traffic.length ∧
    (udb_query_prepare_result example_plugin_get_ds example_query_traffic
      (udb_query_allocate_preparation_area example_query_traffic)
      "localhost".toList "postgresql".toList "shop".toList example_columns_traffic
      10).2.column_num = example_columns_traffic.length :=
  ⟨by decide,
   (udb_query_prepare_result_prepares example_plugin_get_ds
     [(example_query_block_traffic, none)] example_query_traffic
     (udb_query_allocate_preparation_area example_query_traffic)
     "localhost".toList "postgresql".toList "shop".toList example_columns_traffic 10
     (by decide) (by decide)).1,
   (udb_query_prepare_result_prepares example_plugin_get_ds
     [(example_query_block_traffic, none)] example_query_traffic
     (udb_query_allocate_preparation_area example_query_traffic)
     "localhost".toList "postgresql".toList "shop".toList example_columns_traffic 10
     (by decide) (by decide)).2.1⟩

/-- C26, as stated, fails: the area was prepared with `PluginInstanceFrom "db"` resolved
to column 1; prepared again with columns that have no `db` it is left with the position
1, the freshly allocated area with the position 0, both calls returning `-ENOENT`. -/
theorem udb_query_prepare_result_keeps_prior_position :
    (udb_query_prepare_result example_plugin_get_ds example_query_traffic
        (udb_query_allocate_preparation_area example_query_traffic)
        "localhost".toList "postgresql".toList "shop".toList example_columns_shifted 10).1 = 0 ∧
    example_area_shifted.plugin_instance_pos = 1 ∧
    udb_query_prepare_result example_plugin_get_ds example_query_traffic example_area_shifted
        "localhost".toList "postgresql".toList "shop".toList example_column_names 10 =
      (-ENOENT, { udb_query_allocate_preparation_area example_query_traffic with
        plugin_instance_pos := 1 }) ∧
    udb_query_prepare_result example_plugin_get_ds example_query_traffic
        (udb_query_allocate_preparation_area example_query_traffic)
        "localhost".toList "postgresql".toList "shop".toList example_column_names 10 =
      (-ENOENT, udb_query_allocate_preparation_area example_query_traffic) ∧
    (resolved_state
        (udb_query_prepare_result example_plugin_get_ds example_query_traffic
          example_area_shifted "localhost".toList "postgresql".toList "shop".toList
          example_column_names 10).2).2.1 = 1 ∧
    (resolved_state
        (udb_query_prepare_result example_plugin_get_ds example_query_traffic
          (udb_query_allocate_preparation_area example_query_traffic)
          "localhost".toList "postgresql".toList "shop".toList example_column_names
          10).2).2.1 = 0 := by
  refine ⟨by decide, by decide, by decide, by decide, by decide, by decide⟩

/-- C26, amended: for every query, every area with one result preparation area for each
result of the query and all inputs, `udb_query_prepare_result` returns the same status as
on the freshly allocated area and leaves the same area up to `plugin_instance_pos` and
the row pointers `plugin_instance` of the result preparation areas; when the
`PluginInstanceFrom` column is found, or the area had the position 0, the position and so
the whole resolved state are the same too.  `plugin_instance_pos` is the position of the
`PluginInstanceFrom` column when the call found it and otherwise what the earlier calls
left, and the row pointer of every result preparation area is what the earlier calls left:
with `PluginInstanceFrom` set and the area being the one a handled row left, the value of
that row at the position the area held. -/
theorem udb_query_prepare_result_discards (plugin_get_ds : Option CStr → Option data_set_t)
    (q : udb_query_t) (prep_area : udb_query_preparation_area_t) (host plugin db_name : CStr)
    (column_names : List CStr) (interval : Nat)
    (harea : prep_area.result_prep_areas.length = q.results.length) :
    (udb_query_prepare_result plugin_get_ds q prep_area host plugin db_name column_names
        interval).1 =
      (udb_query_prepare_result plugin_get_ds q (udb_query_allocate_preparation_area q) host
        plugin db_name column_names interval).1 ∧
    without_plugin_instance
        (udb_query_prepare_result plugin_get_ds q prep_area host plugin db_name column_names
          interval).2 =
      without_plugin_instance
        (udb_query_prepare_result plugin_get_ds q (udb_query_allocate_preparation_area q)
          host plugin db_name column_names interval).2 ∧
    ((∃ pif, q.plugin_instance_from = some pif ∧ column_exists column_names pif) ∨
        prep_area.plugin_instance_pos = 0 →
      resolved_state
          (udb_query_prepare_result plugin_get_ds q prep_area host plugin db_name
            column_names interval).2 =
        resolved_state
          (udb_query_prepare_result plugin_get_ds q (udb_query_allocate_preparation_area q)
            host plugin db_name column_names interval).2) ∧
    (udb_query_prepare_result plugin_get_ds q prep_area host plugin db_name column_names
        interval).2.plugin_instance_pos =
      (match q.plugin_instance_from with
      | some pif =>
        if column_exists column_names pif then find_column pif column_names
        else prep_area.plugin_instance_pos
      | none => prep_area.plugin_instance_pos) ∧
    (udb_query_prepare_result plugin_get_ds q prep_area host plugin db_name column_names
        interval).2.result_prep_areas.map (fun s => s.plugin_instance) =
      prep_area.result_prep_areas.map (fun s => s.plugin_instance) ∧
    (∀ (api : plugin_api) (used : udb_query_preparation_area_t) (row : List CStr)
        (status : Int) (vls : List value_list_t),
      results_well_formed q → area_prepared q used → used.column_num ≤ row.length →
      udb_query_handle_result api q used row = some (status, prep_area, vls) →
      q.plugin_instance_from ≠ none →
      ∀ s ∈ (udb_query_prepare_result plugin_get_ds q prep_area host plugin db_name
          column_names interval).2.result_prep_areas,
        s.plugin_instance = row[used.plugin_instance_pos]?) := by
  obtain ⟨h1, h2⟩ := udb_query_prepare_result_indep plugin_get_ds q prep_area
    (udb_query_allocate_preparation_area q) host plugin db_name column_names interval harea
    (udb_query_allocate_preparation_area_length q)
  have hkeep := udb_query_prepare_result_plugin_instance plugin_get_ds q prep_area host
    plugin db_name column_names interval (by omega)
  refine ⟨h1, h2, fun h => resolved_state_of_without _ _ h2 ?_, ?_, hkeep,
    fun api used row status vls hq ha hrow hh hpif s hs => ?_⟩
  rotate_left 2
  · rw [udb_query_handle_result_prepared api q used row hq ha hrow] at hh
    simp only [Option.some.injEq, Prod.mk.injEq] at hh
    obtain ⟨_, harea_eq, _⟩ := hh
    have hmem : s.plugin_instance ∈
        (udb_query_prepare_result plugin_get_ds q prep_area host plugin db_name column_names
          interval).2.result_prep_areas.map (fun s => s.plugin_instance) :=
      List.mem_map_of_mem _ hs
    rw [hkeep, ← harea_eq] at hmem
    exact filled_plugin_instance q used row hpif _ _ _ hmem
  · rw [udb_query_prepare_result_pos, udb_query_prepare_result_pos]
    rcases h with ⟨pif, hpif, hex⟩ | h0
    · simp only [hpif]
      rw [if_pos ((find_column_lt_iff pif column_names).2 hex),
        if_pos ((find_column_lt_iff pif column_names).2 hex)]
    · rw [h0]
      rfl
  · rw [udb_query_prepare_result_pos]
    cases q.plugin_instance_from with
    | none => rfl
    | some pif => simp only [find_column_lt_iff]

/-- C26 amended, at a concrete input: prepared again with the columns
`example_columns_traffic`, the area that was prepared with other columns becomes the area
`example_area_traffic`, and the area that has handled a row becomes that area up to the
row pointers, which keep the value `orders` of that row; prepared again with columns
without `db`, the area that held the position 1 keeps it. -/
theorem udb_query_prepare_result_discards_witness :
    udb_query_prepare_result example_plugin_get_ds example_query_traffic example_area_shifted
        "localhost".toList "postgresql".toList "shop".toList example_columns_traffic 10 =
      (0, example_area_traffic) ∧
    (udb_query_prepare_result example_plugin_get_ds example_query_traffic
        example_area_traffic_used "localhost".toList "postgresql".toList "shop".toList
        example_columns_traffic 10).2 ≠ example_area_traffic ∧
    without_plugin_instance
        (udb_query_prepare_result example_plugin_get_ds example_query_traffic
          example_area_traffic_used "localhost".toList "postgresql".toList "shop".toList
          example_columns_traffic 10).2 =
      without_plugin_instance
        (udb_query_prepare_result example_plugin_get_ds example_query_traffic
          (udb_query_allocate_preparation_area example_query_traffic)
          "localhost".toList "postgresql".toList "shop".toList example_columns_traffic
          10).2 ∧
    (udb_query_prepare_result example_plugin_get_ds example_query_traffic
        example_area_traffic_used "localhost".toList "postgresql".toList "shop".toList
        example_columns_traffic 10).2.result_prep_areas.map (fun s => s.plugin_instance) =
      example_area_traffic_used.result_prep_areas.map (fun s => s.plugin_instance) ∧
    example_area_traffic_used.result_prep_areas.map (fun s => s.plugin_instance) =
      [some "orders".toList, some "orders".toList] ∧
    (∀ s ∈ (udb_query_prepare_result example_plugin_get_ds example_query_traffic
        example_area_traffic_used "localhost".toList "postgresql".toList "shop".toList
        example_columns_traffic 10).2.result_prep_areas,
      s.plugin_instance = example_row_traffic[example_area_traffic.plugin_instance_pos]?) ∧
    (udb_query_prepare_result example_plugin_get_ds example_query_traffic example_area_shifted
        "localhost".toList "postgresql".toList "shop".toList example_column_names
        10).2.plugin_instance_pos =
      (match example_query_traffic.plugin_instance_from with
      | some pif =>
        if column_exists example_column_names pif then find_column pif example_column_names
        else example_area_shifted.plugin_instance_pos
      | none => example_area_shifted.plugin_instance_pos) ∧
    example_area_shifted.plugin_instance_pos = 1 :=
  ⟨by decide, by decide,
   (udb_query_prepare_result_discards example_plugin_get_ds example_query_traffic
     example_area_traffic_used "localhost".toList "postgresql".toList "shop".toList
     example_columns_traffic 10 (by decide)).2.1,
   (udb_query_prepare_result_discards example_plugin_get_ds example_query_traffic
     example_area_traffic_used "localhost".toList "postgresql".toList "shop".toList
     example_columns_traffic 10 (by decide)).2.2.2.2.1,
   by decide,
   (udb_query_prepare_result_discards example_plugin_get_ds example_query_traffic
     example_area_traffic_used "localhost".toList "postgresql".toList "shop".toList
     example_columns_traffic 10 (by decide)).2.2.2.2.2 example_plugin_api_digits
     example_area_traffic example_row_traffic 0
     (((udb_query_handle_result example_plugin_api_digits example_query_traffic
       example_area_traffic example_row_traffic).map (fun x => x.2.2)).getD [])
     (by decide) (by decide) (by decide) (by decide) (by decide),
   (udb_query_prepare_result_discards example_plugin_get_ds example_query_traffic
     example_area_shifted "localhost".toList "postgresql".toList "shop".toList
     example_column_names 10 (by decide)).2.2.2.1,
   by decide⟩

/-- C33: the result that `udb_result_create` adds for a `Result` block has as `ValuesFrom`
list the string arguments of all `ValuesFrom` children of the block, in the order of the
configuration, so as many names as these children have arguments; likewise for
`InstancesFrom` and `MetadataFrom`. -/
theorem udb_result_create_accumulates (query_name : CStr) (r_head : List udb_result_t)
    (b : oconfig_item_t) (r : udb_result_t)
    (h : udb_result_create query_name r_head b = (0, r_head ++ [r])) :
    (r.values = ((b.children.filter (key_is "ValuesFrom")).map string_values).flatten ∧
      r.values.length =
        ((b.children.filter (key_is "ValuesFrom")).map (fun c => c.values.length)).sum) ∧
    (r.instances = ((b.children.filter (key_is "InstancesFrom")).map string_values).flatten ∧
      r.instances.length =
        ((b.children.filter (key_is "InstancesFrom")).map (fun c => c.values.length)).sum) ∧
    (r.metadata = ((b.children.filter (key_is "MetadataFrom")).map string_values).flatten ∧
      r.metadata.length =
        ((b.children.filter (key_is "MetadataFrom")).map (fun c => c.values.length)).sum) := by
  obtain ⟨h0, hr⟩ := udb_result_create_added query_name r_head b r h
  have len : ∀ cs : List oconfig_item_t,
      (∀ c ∈ cs, (string_values c).length = c.values.length) →
      ((cs.map string_values).flatten).length = (cs.map (fun c => c.values.length)).sum := by
    intro cs
    induction cs with
    | nil => intro _; rfl
    | cons c cs ih =>
      intro hall
      simp only [List.map_cons, List.flatten_cons, List.length_append, List.sum_cons]
      rw [hall c (List.mem_cons_self _ _), ih (fun d hd => hall d (List.mem_cons_of_mem _ hd))]
  have hv := udb_result_create_loop_field "ValuesFrom" (fun r => r.values)
    (fun r c => ⟨fun hk => by rw [(udb_result_create_child_values_from r c).1 hk]; exact ⟨rfl, rfl⟩,
      (udb_result_create_child_values_from r c).2⟩) b.children _ h0
  have hi := udb_result_create_loop_field "InstancesFrom" (fun r => r.instances)
    (fun r c => ⟨fun hk => by
        rw [(udb_result_create_child_instances_from r c).1 hk]; exact ⟨rfl, rfl⟩,
      (udb_result_create_child_instances_from r c).2⟩) b.children _ h0
  have hm := udb_result_create_loop_field "MetadataFrom" (fun r => r.metadata)
    (fun r c => ⟨fun hk => by
        rw [(udb_result_create_child_metadata_from r c).1 hk]; exact ⟨rfl, rfl⟩,
      (udb_result_create_child_metadata_from r c).2⟩) b.children _ h0
  rw [hr] at hv hi hm
  simp only [List.nil_append] at hv hi hm
  exact ⟨⟨hv.1, by rw [hv.1]; exact len _ hv.2⟩, ⟨hi.1, by rw [hi.1]; exact len _ hi.2⟩,
    ⟨hm.1, by rw [hm.1]; exact len _ hm.2⟩⟩

/-- C33, at a concrete input: the block with `ValuesFrom "rx"`, `InstancesFrom "a"`,
`valuesfrom "tx"` and `InstancesFrom "b" "c"` gives the values `rx`, `tx` and the instances
`a`, `b`, `c`. -/
theorem udb_result_create_accumulates_witness :
    udb_result_create "disk_io".toList [] example_result_block_repeated =
      (0, [] ++ [example_result_repeated]) ∧
    (example_result_repeated.values =
        ((example_result_block_repeated.children.filter (key_is "ValuesFrom")).map
          string_values).flatten ∧
      example_result_repeated.values.length =
        ((example_result_block_repeated.children.filter (key_is "ValuesFrom")).map
          (fun c => c.values.length)).sum) ∧
    example_result_repeated.values.length = 2 :=
  ⟨by decide,
   (udb_result_create_accumulates "disk_io".toList [] example_result_block_repeated
     example_result_repeated (by decide)).1, by decide⟩

/-- C31: a `Query` block with a `Result` child that has no `Type`, or no `ValuesFrom`, or an
option `udb_result_create` does not know, or an option with an argument that is not a
string, makes `udb_query_create` return -1 and leave the list unchanged, whatever the
other children of the block and whatever the callback. -/
theorem udb_query_create_invalid_result (ret_query_list : Option (List udb_query_t))
    (ci : oconfig_item_t) (cb : Option udb_query_create_callback_t) (b : oconfig_item_t)
    (hb : b ∈ ci.children) (hkey : key_is "Result" b = true)
    (hbad : (∀ c ∈ b.children, key_is "Type" c = false) ∨
      (∀ c ∈ b.children, key_is "ValuesFrom" c = false) ∨
      (∃ c ∈ b.children, unknown_result_option c = true) ∨
      (∃ c ∈ b.children, ∃ v ∈ c.values, oconfig_value_t.string? v = none)) :
    udb_query_create ret_query_list ci cb = (-1, ret_query_list) ∧
    ∀ (query_name : CStr) (r_head : List udb_result_t),
      udb_result_create query_name r_head b = (-1, r_head) := by
  refine ⟨udb_query_create_of_child_fails ret_query_list ci cb b hb (fun q => ?_),
    fun n r_head => udb_result_create_invalid n r_head b hbad⟩
  rw [udb_query_create_child_result cb q b hkey, udb_result_create_invalid q.name q.results b hbad]
  simp

/-- C31, at a concrete input: the block with a `Statement`, a valid `Result`, a `Result`
without `ValuesFrom` and another valid `Result` is refused and the list of three queries
is unchanged. -/
theorem udb_query_create_invalid_result_witness :
    udb_query_create (some example_query_list) example_query_block_bad_result none =
      (-1, some example_query_list) ∧
    ∀ (query_name : CStr) (r_head : List udb_result_t),
      udb_result_create query_name r_head example_result_block_no_values = (-1, r_head) :=
  udb_query_create_invalid_result (some example_query_list) example_query_block_bad_result
    none example_result_block_no_values
    (by simp [example_query_block_bad_result, oconfig_item_t.children]) (by decide)
    (Or.inr (Or.inl (by decide)))

/-- C32: after a successful `udb_query_prepare_result`, every position stored for a
configured `PluginInstanceFrom`, `InstancesFrom`, `ValuesFrom` or `MetadataFrom` name is
the smallest index of a column whose name equals that name ignoring ASCII case: the column
at the position matches and no column before it does. -/
theorem udb_query_prepare_result_first_match
    (plugin_get_ds : Option CStr → Option data_set_t) (q : udb_query_t)
    (prep_area : udb_query_preparation_area_t) (host plugin db_name : CStr)
    (column_names : List CStr) (interval : Nat)
    (h : (udb_query_prepare_result plugin_get_ds q prep_area host plugin db_name column_names
      interval).1 = 0) :
    (∀ pif, q.plugin_instance_from = some pif →
      first_position column_names pif
        (udb_query_prepare_result plugin_get_ds q prep_area host plugin db_name column_names
          interval).2.plugin_instance_pos) ∧
    ∀ (i : Nat) (r : udb_result_t), q.results[i]? = some r →
      ∃ s : udb_result_preparation_area_t,
        (udb_query_prepare_result plugin_get_ds q prep_area host plugin db_name column_names
          interval).2.result_prep_areas[i]? = some s ∧
        List.Forall₂ (first_position column_names) r.instances (s.instances_pos.getD []) ∧
        List.Forall₂ (first_position column_names) r.values (s.values_pos.getD []) ∧
        List.Forall₂ (first_position column_names) r.metadata (s.metadata_pos.getD []) := by
  obtain ⟨hpif, hlen, hall⟩ := (udb_query_prepare_result_status _ _ _ _ _ _ _ _).1 h
  rw [udb_query_prepare_result_ok _ _ _ _ _ _ _ _ h]
  refine ⟨?_, ?_⟩
  · intro pif hp
    simp only [hp]
    exact find_column_first_position pif column_names (hpif pif hp)
  · intro i r hr
    obtain ⟨pi, hpi⟩ := zipWith_prepared_get plugin_get_ds column_names q.results
      (udb_query_finish_result_loop q.results prep_area.result_prep_areas)
      ((udb_query_finish_result_loop q.results prep_area.result_prep_areas).drop
        q.results.length) i r
      (by rw [udb_query_finish_result_loop_length]; exact hlen) hr
    obtain ⟨_, hi, hv, hm⟩ := hall r (List.getElem?_mem hr)
    refine ⟨_, hpi, ?_, ?_, ?_⟩
    · simp only [prepared_result_area]
      by_cases hlen0 : r.instances.length > 0
      · simpa [hlen0] using forall₂_find_column_first column_names r.instances hi
      · have : r.instances = [] := List.eq_nil_of_length_eq_zero (by omega)
        simp [this]
    · simpa [prepared_result_area] using forall₂_find_column_first column_names r.values hv
    · simpa [prepared_result_area] using forall₂_find_column_first column_names r.metadata hm

/-- C32, at a concrete input: with the columns `host`, `bytes`, `BYTES`, `Bytes` the name
`Bytes` of `ValuesFrom` resolves to position 1, the first of the three columns that match. -/
theorem udb_query_prepare_result_first_match_witness :
    ((udb_query_prepare_result example_plugin_get_ds (example_query "disk_io" 0 UINT_MAX)
        (udb_query_allocate_preparation_area (example_query "disk_io" 0 UINT_MAX))
        "localhost".toList "postgresql".toList "orders".toList example_columns_repeated
        10).2.result_prep_areas.map (fun s => s.values_pos)) = [some [1]] ∧
    ∀ (i : Nat) (r : udb_result_t),
      (example_query "disk_io" 0 UINT_MAX).results[i]? = some r →
      ∃ s : udb_result_preparation_area_t,
        (udb_query_prepare_result example_plugin_get_ds (example_query "disk_io" 0 UINT_MAX)
          (udb_query_allocate_preparation_area (example_query "disk_io" 0 UINT_MAX))
          "localhost".toList "postgresql".toList "orders".toList example_columns_repeated
          10).2.result_prep_areas[i]? = some s ∧
        List.Forall₂ (first_position example_columns_repeated) r.instances
          (s.instances_pos.getD []) ∧
        List.Forall₂ (first_position example_columns_repeated) r.values
          (s.values_pos.getD []) ∧
        List.Forall₂ (first_position example_columns_repeated) r.metadata
          (s.metadata_pos.getD []) :=
  ⟨by decide,
   (udb_query_prepare_result_first_match example_plugin_get_ds
      (example_query "disk_io" 0 UINT_MAX)
      (udb_query_allocate_preparation_area (example_query "disk_io" 0 UINT_MAX))
      "localhost".toList "postgresql".toList "orders".toList example_columns_repeated 10
      (by decide)).2⟩

/-- C34: with non-zero data source type flags, `ctail_config_add_match_dstype` returns 0 for
a string argument if and only if the string equals, ignoring ASCII case, one of
`GaugeAverage`, `GaugeMin`, `GaugeMax`, `GaugeLast`, `GaugeInc`, `GaugeAdd`,
`GaugePersist`, `CounterSet`, `CounterAdd`, `CounterInc`, `DeriveSet`, `DeriveAdd`,
`DeriveInc`, `AbsoluteSet`, or equals `Distribution` and `latency_config` returns 0; an
accepted name of the table sets its flags, and every string that equals none of the
fifteen names gets the status -1 and the flags 0. -/
theorem ctail_config_add_match_dstype_accepts {latency_config_t : Type}
    (k : utils_match_flags)
    (latency_config : latency_config_t → oconfig_item_t → CStr → Int × latency_config_t)
    (cm : ctail_config_match_t latency_config_t) (ci : oconfig_item_t) (ds_type : CStr)
    (hval : ci.values = [oconfig_value_t.string ds_type])
    (hk : k.UTILS_MATCH_DS_TYPE_GAUGE ≠ 0 ∧ k.UTILS_MATCH_DS_TYPE_COUNTER ≠ 0 ∧
      k.UTILS_MATCH_DS_TYPE_DERIVE ≠ 0 ∧ k.UTILS_MATCH_DS_TYPE_ABSOLUTE ≠ 0) :
    ((ctail_config_add_match_dstype k latency_config cm ci).1 = 0 ↔
      (∃ n ∈ dstype_names, eq_ignoring_case n.toList ds_type) ∨
      (eq_ignoring_case "Distribution".toList ds_type ∧
        (latency_config cm.latency ci "tail".toList).1 = 0)) ∧
    (∀ e ∈ dstype_table k, eq_ignoring_case e.1.toList ds_type →
      ctail_config_add_match_dstype k latency_config cm ci = (0, { cm with flags := e.2 })) ∧
    ((∀ n ∈ dstype_names, ¬ eq_ignoring_case n.toList ds_type) →
      ¬ eq_ignoring_case "Distribution".toList ds_type →
      ctail_config_add_match_dstype k latency_config cm ci = (-1, { cm with flags := 0 })) := by
  have hacc : ∀ e ∈ dstype_table k, eq_ignoring_case e.1.toList ds_type →
      ctail_config_add_match_dstype k latency_config cm ci =
        (0, { cm with flags := e.2 }) := by
    intro e he hname
    rw [ctail_config_add_match_dstype_known k latency_config cm ci ds_type hval e he hname]
    unfold ctail_config_add_match_dstype_check
    rw [if_neg (dstype_table_ne_zero k hk e he)]
  refine ⟨⟨fun h0 => ?_, fun h => ?_⟩, hacc,
    ctail_config_add_match_dstype_unknown k latency_config cm ci ds_type hval⟩
  · by_cases hn : ∃ n ∈ dstype_names, eq_ignoring_case n.toList ds_type
    · exact Or.inl hn
    · by_cases hd : eq_ignoring_case "Distribution".toList ds_type
      · refine Or.inr ⟨hd, ?_⟩
        rw [ctail_config_add_match_dstype_distribution k latency_config cm ci ds_type hval
          hd] at h0
        by_cases hs : (latency_config cm.latency ci "tail".toList).1 ≠ 0
        · rw [if_pos hs] at h0
          exact absurd h0 hs
        · exact not_not.1 hs
      · rw [ctail_config_add_match_dstype_unknown k latency_config cm ci ds_type hval
          (fun n hmem hname => hn ⟨n, hmem, hname⟩) hd] at h0
        simp at h0
  · rcases h with ⟨n, hmem, hname⟩ | ⟨hd, hs⟩
    · rw [← dstype_table_names k, List.mem_map] at hmem
      obtain ⟨e, he, hen⟩ := hmem
      rw [hacc e he (by rw [hen]; exact hname)]
    · rw [ctail_config_add_match_dstype_distribution k latency_config cm ci ds_type hval hd,
        if_neg (not_not.2 hs)]
      unfold ctail_config_add_match_dstype_check
      rw [if_neg (lor_ne_zero _ _ hk.1)]

/-- C34, at a concrete input: `counteradd` is accepted with the flags of `CounterAdd`,
`Distribution` is accepted when the latency configuration succeeds and refused with its
status when it fails, and `Gauge` and `CounterFoo` are refused with -1 and the flags 0. -/
theorem ctail_config_add_match_dstype_accepts_witness :
    ctail_config_add_match_dstype example_utils_match_flags example_latency_config
        example_match (example_dstype "counteradd") =
      (0, { example_match with flags := 0x2002 }) ∧
    ctail_config_add_match_dstype example_utils_match_flags example_latency_config
        example_match (example_dstype "Distribution") =
      (0, { example_match with flags := 0x1080, latency := 1 }) ∧
    ctail_config_add_match_dstype example_utils_match_flags example_latency_config_failing
        example_match (example_dstype "Distribution") =
      (-1, { example_match with flags := 0x1080 }) ∧
    ctail_config_add_match_dstype example_utils_match_flags example_latency_config
        { example_match with flags := 0x2002 } (example_dstype "Gauge") =
      (-1, example_match) ∧
    ctail_config_add_match_dstype example_utils_match_flags example_latency_config
        { example_match with flags := 0x2002 } (example_dstype "CounterFoo") =
      (-1, example_match) ∧
    ((ctail_config_add_match_dstype example_utils_match_flags example_latency_config
        example_match (example_dstype "counteradd")).1 = 0 ↔
      (∃ n ∈ dstype_names, eq_ignoring_case n.toList "counteradd".toList) ∨
      (eq_ignoring_case "Distribution".toList "counteradd".toList ∧
        (example_latency_config example_match.latency (example_dstype "counteradd")
          "tail".toList).1 = 0)) :=
  ⟨by decide, by decide, by decide, by decide, by decide,
   (ctail_config_add_match_dstype_accepts example_utils_match_flags example_latency_config
     example_match (example_dstype "counteradd") "counteradd".toList rfl
     (by decide)).1⟩

end Collectd
